import Mathlib

/-!
AR600x SDIO card model (hw/ar6000.c)

A shallow embedding of the SDIO protocol controller of `hw/ar6000.c`
(command decode, response construction, block transfer engine) and of the
AR6000 function-1 register window layered on top of it.

Conventions of the embedding:

* C integers are `Nat` (or `Int` where the code stores a negative value);
  every place where a fixed-width store can wrap carries an explicit `%`.
* `x & ~m` on a 32-bit word is `bic x m`, on a byte `bic8 x m`.
* Values of byte type (`value`, the cells of the byte arrays) are taken to be
  below 256 where they enter; the model truncates only where a computation
  itself can leave the range of its C type.
* Byte arrays (`transfer.data`, `hif.mbox`, ...) are functions from the index
  to the byte; a store is `upd`.
* The function-pointer members of `struct sdio_s` (`write[8]`, `read[8]`,
  `reset`) are not state: they are fixed once at attach, so they are passed
  as an `sdio_ops` table.  Every call site in the source passes
  `sd->transfer.data` (plus an offset that is 0) as the data pointer, so a
  handler takes the state, the address and the length, and finds its bytes in
  `transfer.data`.
* `struct ar6k_s` starts with a `struct sdio_s` and the handlers cast one to
  the other; here the chip part is the `ext` field of the controller state.
-/

namespace Ar6000

/-! ## Constants and enumerations -/

/-- Modelled from the spec: the card status flag masks and the status classes
`CARD_STATUS_B` / `CARD_STATUS_C` come from `sd.h`, which is not among the
sources.  The spec names the flags (CardStatusFlags) without giving their bit
positions, so they are parameters of the model. -/
structure sd_h where
  OUT_OF_RANGE : Nat
  ADDRESS_ERROR : Nat
  COM_CRC_ERROR : Nat
  ILLEGAL_COMMAND : Nat
  SD_ERROR : Nat
  CARD_STATUS_B : Nat
  CARD_STATUS_C : Nat

/-- One instance of the parameters: the card status register layout of the SD
physical layer (bit 31 out of range, bit 30 address error, bit 23 CRC error,
bit 22 illegal command, bit 19 general error), with the status classes B
(cleared by the next command) and C (cleared by read). -/
def sd_h.std : sd_h where
  OUT_OF_RANGE := 0x80000000
  ADDRESS_ERROR := 0x40000000
  COM_CRC_ERROR := 0x00800000
  ILLEGAL_COMMAND := 0x00400000
  SD_ERROR := 0x00080000
  CARD_STATUS_B := 0x00c01e00
  CARD_STATUS_C := 0xfd39a028

/-- Response kinds, `sd_rsp_type_t`. -/
inductive sd_rsp_type_t where
  | sd_r0 | sd_r1 | sd_r2_i | sd_r2_s | sd_r3 | sd_r4 | sd_r5 | sd_r6 | sd_r7 | sd_r1b
  deriving DecidableEq, Repr

/-- Modelled from the spec: `enum sd_state_e` is declared in `sd.h`, which is
not among the sources; CardState is the enumeration {Initialization, Standby,
Command, Transfer, Inactive}, under the names the source uses. -/
inductive sd_state_e where
  | sd_initialization_state | sd_standby_state | sd_command_state
  | sd_transfer_state | sd_inactive_state
  deriving DecidableEq, Repr

/-- Modelled from the spec: `sd_cmd_type_t` is declared in `sd.h`, which is not
among the sources; its enumerators are the names the table `sd_cmd_type`
uses. -/
inductive sd_cmd_type_t where
  | sd_none | sd_bc | sd_bcr | sd_ac | sd_adtc
  deriving DecidableEq, Repr

open sd_rsp_type_t sd_state_e sd_cmd_type_t

def SDIO_SIZE : Nat := 0x20000
def SDIO_ADDR_MASK : Nat := SDIO_SIZE - 1
def SDIO_CIS_START : Nat := 0x1000

def sd_cmd_type : List sd_cmd_type_t := [
  sd_bc,   sd_none, sd_bcr,  sd_bcr,  sd_none, sd_none, sd_none, sd_ac,
  sd_bcr,  sd_ac,   sd_ac,   sd_adtc, sd_ac,   sd_ac,   sd_none, sd_ac,
  sd_ac,   sd_adtc, sd_adtc, sd_none, sd_none, sd_none, sd_none, sd_none,
  sd_adtc, sd_adtc, sd_adtc, sd_adtc, sd_ac,   sd_ac,   sd_adtc, sd_none,
  sd_ac,   sd_ac,   sd_none, sd_none, sd_none, sd_none, sd_ac,   sd_none,
  sd_none, sd_none, sd_bc,   sd_none, sd_none, sd_none, sd_none, sd_none,
  sd_none, sd_none, sd_none, sd_none, sd_none, sd_none, sd_none, sd_ac,
  sd_adtc, sd_none, sd_none, sd_none, sd_none, sd_none, sd_none, sd_none]

/-- The value of `x & ~m` for a 32-bit `x`. -/
def bic (x m : Nat) : Nat := x &&& (0xffffffff ^^^ m)

/-- The value of `x & ~m` for an 8-bit `x`. -/
def bic8 (x m : Nat) : Nat := x &&& (0xff ^^^ m)

/-- A store `a[i] = v` into an array. -/
def upd {ι α : Type} [DecidableEq ι] (a : ι → α) (i : ι) (v : α) : ι → α :=
  fun j => if j = i then v else a j

/-! ## Controller state -/

structure cccr_s where
  revision : Nat
  io_enable : Nat
  intr_enable : Nat
  intr : Nat
  bus : Nat
  e4mi : Nat
  power : Nat
  speed : Nat

/-- One entry of `fbr[7]`.  The members `csa_wr` / `csa_rd` are function
pointers that nothing in the file ever sets (the structure is zero filled), so
they are always null and have no field here. -/
structure fbr_s where
  stdfn : Nat
  ext_stdfn : Nat
  power : Nat
  cis_offset : Nat
  csa_addr : Nat

structure transfer_s where
  func : Nat
  dir : Nat
  blk_len : Nat
  blk_num : Int
  step : Nat
  data_start : Nat
  data_offset : Nat
  data : Nat → Nat

/-- The controller, `struct sdio_s`.  `irq` is the level last driven on
`card.irq`; `ext` is the chip part that follows the controller inside
`struct ar6k_s`. -/
structure sdio_s (χ : Type) where
  state : sd_state_e
  ioocr : Nat
  rca : Nat
  card_status : Nat
  cccr : cccr_s
  fbr : Nat → fbr_s
  cis : Nat → Nat
  cislen : Nat
  irq : Nat
  spi : Nat
  sdio_ok : Nat
  current_cmd : Nat
  next_cmd : Nat
  blk_len : Nat → Nat
  transfer : transfer_s
  ext : χ

/-- The function-pointer members `write[8]`, `read[8]` and `reset` of
`struct sdio_s`. -/
structure sdio_ops (χ : Type) where
  write : Nat → sdio_s χ → Nat → Nat → sdio_s χ
  read : Nat → sdio_s χ → Nat → Nat → sdio_s χ
  reset : Option (sdio_s χ → sdio_s χ)

structure sd_request_s where
  cmd : Nat
  arg : Nat
  crc : Nat

/-! ## SDIO controller core -/

section core
variable {χ : Type}

def sd_set_ioocr (sd : sdio_s χ) : sdio_s χ :=
  { sd with ioocr := 0x00ffff00 }

def sd_set_rca (sd : sdio_s χ) : sdio_s χ :=
  { sd with rca := (sd.rca + 0x4567) % 0x10000 }

def sd_set_cardstatus (sd : sdio_s χ) : sdio_s χ :=
  { sd with card_status := 0x00001e00 }

/-- The check is stubbed in the source: `return 0;` precedes the comparison. -/
def sd_req_crc_validate (_req : sd_request_s) : Nat := 0

def sd_response_r1_make (k : sd_h) (sd : sdio_s χ) (last_status : Nat) :
    sdio_s χ × List Nat :=
  let mask := k.CARD_STATUS_B ^^^ k.ILLEGAL_COMMAND
  let status := (bic sd.card_status mask) ||| (last_status &&& mask)
  let sd := { sd with card_status := bic sd.card_status k.CARD_STATUS_C }
  (sd, [(status >>> 24) &&& 0xff, (status >>> 16) &&& 0xff,
        (status >>> 8) &&& 0xff, (status >>> 0) &&& 0xff])

def sd_response_r4_make (sd : sdio_s χ) : List Nat :=
  let r0 := (sd.ioocr >>> 24) &&& 0xff
  [if sd.sdio_ok ≠ 0 then r0 ||| (1 <<< 7) else r0,
   (sd.ioocr >>> 16) &&& 0xff, (sd.ioocr >>> 8) &&& 0xff, (sd.ioocr >>> 0) &&& 0xff]

/-- The `state` nibble computed at the head of `sd_response_r5_make`. -/
def r5_state (st : sd_state_e) : Nat :=
  match st with
  | sd_command_state => 0x01
  | sd_transfer_state => 0x02
  | _ => 0x00

def sd_response_r5_make (k : sd_h) (sd : sdio_s χ) : sdio_s χ × List Nat :=
  let state := r5_state sd.state
  let cs := sd.card_status
  let status :=
    if sd.spi ≠ 0 then
      (if cs &&& 0xb7380003 ≠ 0 then 1 <<< 6 else 0) |||
      (if cs &&& k.ADDRESS_ERROR ≠ 0 then 1 <<< 4 else 0) |||
      (if cs &&& k.COM_CRC_ERROR ≠ 0 then 1 <<< 3 else 0) |||
      (if cs &&& k.ILLEGAL_COMMAND ≠ 0 then 1 <<< 2 else 0) |||
      (if state = 0x00 then 1 <<< 0 else 0)
    else
      (if cs &&& k.COM_CRC_ERROR ≠ 0 then 1 <<< 7 else 0) |||
      (if cs &&& k.ILLEGAL_COMMAND ≠ 0 then 1 <<< 6 else 0) |||
      (state <<< 4) |||
      (if cs &&& 0x37380003 ≠ 0 then 1 <<< 3 else 0) |||
      (if cs &&& k.ADDRESS_ERROR ≠ 0 then 1 <<< 1 else 0) |||
      (if cs &&& k.OUT_OF_RANGE ≠ 0 then 1 <<< 0 else 0)
  let head := if sd.spi ≠ 0 then [] else [0, 0]
  let sd := { sd with card_status := bic sd.card_status 0xf7f80003 }
  (sd, head ++ [status, sd.transfer.data sd.transfer.data_offset])

def sd_response_r6_make (k : sd_h) (sd : sdio_s χ) : List Nat :=
  let arg := sd.rca
  let status :=
    (if sd.card_status &&& k.SD_ERROR ≠ 0 then 1 <<< 13 else 0) |||
    (if sd.card_status &&& k.ILLEGAL_COMMAND ≠ 0 then 1 <<< 14 else 0) |||
    (if sd.card_status &&& k.COM_CRC_ERROR ≠ 0 then 1 <<< 15 else 0)
  [(arg >>> 8) &&& 0xff, arg &&& 0xff, (status >>> 8) &&& 0xff, 0]

def sdio_intr_update (sd : sdio_s χ) : sdio_s χ :=
  let level :=
    if sd.cccr.intr_enable &&& 1 = 0 ∨
        ((sd.cccr.bus &&& 3 = 2) ∧ sd.cccr.e4mi = 0 ∧ sd.state = sd_transfer_state) ∨
        (sd.spi ≠ 0 ∧ ¬ (sd.cccr.bus &&& (1 <<< 6) ≠ 0 ∧ sd.cccr.bus &&& (1 <<< 5) ≠ 0))
    then 0
    else if (sd.cccr.intr <<< 1) &&& sd.cccr.intr_enable ≠ 0 then 1 else 0
  { sd with irq := level }

def sdio_reset (hook : Option (sdio_s χ → sdio_s χ)) (sd : sdio_s χ) : sdio_s χ :=
  let sd := { sd with state := sd_initialization_state, rca := 0x0000, sdio_ok := 0 }
  let sd := sd_set_ioocr sd
  let sd := sd_set_cardstatus sd
  let sd := { sd with
    cccr := ⟨0, 0, 0, 0, 0, 0, 0, 0⟩
    fbr := fun _ => ⟨0, 0, 0, 0, 0⟩ }
  let sd := { sd with blk_len := fun _ => 0 }
  let sd := { sd with
    fbr := fun i => { sd.fbr i with stdfn := (sd.fbr i).stdfn &&& 0x4f, power := 0 } }
  match hook with
  | some f => f sd
  | none => sd

def sdio_transfer_done (sd : sdio_s χ) : sdio_s χ :=
  let sd := { sd with state := sd_command_state }
  if sd.cccr.bus &&& 3 = 2 then sdio_intr_update sd else sd

/-- The common tail of `sdio_normal_command`: the `bad_cmd` label and the
statements after the switch (a command in a wrong state) do the same. -/
def bad_cmd (k : sd_h) (sd : sdio_s χ) : sd_rsp_type_t × sdio_s χ :=
  let sd := { sd with card_status := sd.card_status ||| k.ILLEGAL_COMMAND }
  (if sd.spi ≠ 0 then sd_r1 else sd_r0, sd)

def sdio_normal_command (k : sd_h) (ops : sdio_ops χ) (sd : sdio_s χ)
    (req : sd_request_s) : sd_rsp_type_t × sdio_s χ :=
  let ty := sd_cmd_type.getD req.cmd sd_none
  let rca := if ty = sd_ac ∨ ty = sd_adtc then req.arg >>> 16 else 0x0000
  if req.cmd = 0 then
    -- CMD0: GO_IDLE_STATE, `break`
    bad_cmd k sd
  else if req.cmd = 3 then
    -- CMD3: SEND_RELATIVE_ADDR
    if sd.spi ≠ 0 ∨ sd.sdio_ok = 0 then bad_cmd k sd
    else match sd.state with
      | sd_initialization_state | sd_standby_state =>
        let sd := { sd with state := sd_standby_state }
        let sd := sd_set_rca sd
        (sd_r6, sd)
      | _ => bad_cmd k sd
  else if req.cmd = 5 then
    -- CMD5: IO_SEND_OP_COND
    match sd.state with
    | sd_initialization_state =>
      let sd := if req.arg ≠ 0 then
          { sd with state := sd_initialization_state, sdio_ok := 1 } else sd
      (sd_r4, sd)
    | _ => bad_cmd k sd
  else if req.cmd = 7 then
    -- CMD7: SELECT/DESELECT_CARD
    if sd.spi ≠ 0 then bad_cmd k sd
    else match sd.state with
      | sd_standby_state =>
        if sd.rca ≠ rca then (sd_r0, sd)
        else (sd_r1b, { sd with state := sd_command_state })
      | sd_command_state =>
        let sd := if sd.rca ≠ rca then { sd with state := sd_standby_state } else sd
        (sd_r1b, sd)
      | _ => bad_cmd k sd
  else if req.cmd = 15 then
    -- CMD15: GO_INACTIVE_STATE
    if sd.spi ≠ 0 then bad_cmd k sd
    else match sd.state with
      | sd_initialization_state | sd_standby_state | sd_command_state =>
        if sd.rca ≠ 0 ∧ sd.rca ≠ rca then (sd_r0, sd)
        else (sd_r0, { sd with state := sd_inactive_state })
      | _ => bad_cmd k sd
  else if req.cmd = 52 then
    -- CMD52: IO_RW_DIRECT
    match sd.state with
    | sd_transfer_state | sd_command_state =>
      let sd := if sd.state = sd_transfer_state then
          { sd with next_cmd := sd.current_cmd } else sd
      let fn := (req.arg >>> 28) &&& 7
      let addr := (req.arg >>> 9) &&& SDIO_ADDR_MASK
      let sd := { sd with transfer := { sd.transfer with data_offset := 0, step := 1 } }
      if fn > ((sd.ioocr >>> 28) &&& 7) then
        let sd := { sd with card_status := sd.card_status ||| k.ADDRESS_ERROR }
        let sd := { sd with transfer := { sd.transfer with
          data := upd sd.transfer.data sd.transfer.data_offset (req.arg &&& 0xff) } }
        (sd_r5, sd)
      else
        let sd := if (req.arg >>> 31) &&& 1 ≠ 0 then
            let sd := { sd with transfer := { sd.transfer with
              data := upd sd.transfer.data sd.transfer.data_offset (req.arg &&& 0xff) } }
            ops.write fn sd addr 1
          else sd
        let sd := if (req.arg >>> 31) &&& 1 = 0 ∨ (req.arg >>> 27) &&& 1 ≠ 0 then
            ops.read fn sd addr 1
          else sd
        (sd_r5, sd)
    | _ => bad_cmd k sd
  else if req.cmd = 53 then
    -- CMD53: IO_RW_EXTENDED
    match sd.state with
    | sd_command_state =>
      let fn := (req.arg >>> 28) &&& 7
      let addr := (req.arg >>> 9) &&& SDIO_ADDR_MASK
      if fn > ((sd.ioocr >>> 28) &&& 7) then
        (sd_r5, { sd with card_status := sd.card_status ||| k.ADDRESS_ERROR })
      else
        let sd := { sd with transfer := { sd.transfer with
          dir := (req.arg >>> 31) &&& 1
          step := (req.arg >>> 26) &&& 1
          func := fn
          data_start := addr
          data_offset := 0 } }
        if (req.arg >>> 27) &&& 1 ≠ 0 ∧ (sd.blk_len fn < 1 ∨ sd.blk_len fn > 2048) then
          (sd_r1, sd)
        else
          let sd := { sd with transfer := { sd.transfer with
            blk_len := if (req.arg >>> 27) &&& 1 ≠ 0 then sd.blk_len fn else 1 } }
          let sd := { sd with transfer := { sd.transfer with
            blk_num :=
              if (req.arg >>> 0) &&& 0x1ff ≠ 0 then (((req.arg >>> 0) &&& 0x1ff : Nat) : Int)
              else if (req.arg >>> 27) &&& 1 ≠ 0 then -1 else 0x200 } }
          let sd := { sd with state := sd_transfer_state }
          let sd := { sd with transfer := { sd.transfer with
            data := upd sd.transfer.data 0 0x00 } }
          (sd_r5, sd)
    | _ => bad_cmd k sd
  else if req.cmd = 59 then
    -- CMD59: CRC_ON_OFF
    if sd.spi = 0 then bad_cmd k sd
    else (sd_r1, sd)
  else
    bad_cmd k sd

/-- The result is the state, the returned response length and the bytes
stored into `response` (none when no response is built). -/
def sdio_do_command (k : sd_h) (ops : sdio_ops χ) (sd : sdio_s χ)
    (req : sd_request_s) : sdio_s χ × Nat × List Nat :=
  let last_status := sd.card_status
  if sd_req_crc_validate req ≠ 0 then
    ({ sd with card_status := bic sd.card_status k.COM_CRC_ERROR }, 0, [])
  else
    let sd := { sd with
      card_status := bic sd.card_status (k.COM_CRC_ERROR ||| k.ILLEGAL_COMMAND) }
    let sd := { sd with next_cmd := req.cmd }
    let r := sdio_normal_command k ops sd req
    let rtype := r.1
    let sd := r.2
    let sd := { sd with current_cmd := sd.next_cmd }
    let out : sdio_s χ × Nat × List Nat :=
      match rtype with
      | sd_r1 | sd_r1b =>
        let m := sd_response_r1_make k sd last_status
        (m.1, 4, m.2)
      | sd_r4 => (sd, 4, sd_response_r4_make sd)
      | sd_r5 =>
        let m := sd_response_r5_make k sd
        (m.1, if m.1.spi ≠ 0 then 2 else 4, m.2)
      | sd_r6 => (sd, 4, sd_response_r6_make k sd)
      | _ => (sd, 0, [])
    let sd := out.1
    let rsplen := if sd.card_status &&& k.ILLEGAL_COMMAND ≠ 0 then 0 else out.2.1
    (sd, rsplen, out.2.2)

def sdio_write_data (ops : sdio_ops χ) (k : sd_h) (sd : sdio_s χ) (value : Nat) : sdio_s χ :=
  if sd.state ≠ sd_transfer_state then sd
  else if sd.card_status &&& (k.ADDRESS_ERROR ||| k.OUT_OF_RANGE ||| k.SD_ERROR) ≠ 0 then sd
  else if sd.current_cmd = 53 then
    if sd.transfer.dir = 0 then sd
    else
      let sd := { sd with transfer := { sd.transfer with
        data := upd sd.transfer.data sd.transfer.data_offset value
        data_offset := (sd.transfer.data_offset + 1) % 2 ^ 32 } }
      if sd.transfer.data_offset ≥ sd.transfer.blk_len then
        let sd := ops.write sd.transfer.func sd sd.transfer.data_start sd.transfer.blk_len
        if sd.transfer.blk_num ≥ 0 ∧ sd.transfer.blk_num - 1 = 0 then
          sdio_transfer_done { sd with transfer := { sd.transfer with
            blk_num := sd.transfer.blk_num - 1 } }
        else
          let sd := if sd.transfer.blk_num ≥ 0 then
              { sd with transfer := { sd.transfer with blk_num := sd.transfer.blk_num - 1 } }
            else sd
          let sd := { sd with transfer := { sd.transfer with
            data_start :=
              (sd.transfer.data_start + sd.transfer.blk_len * sd.transfer.step) % 2 ^ 32 } }
          { sd with transfer := { sd.transfer with data_offset := 0 } }
      else sd
  else sd

/-- The result is the state and the byte returned. -/
def sdio_read_data (ops : sdio_ops χ) (k : sd_h) (sd : sdio_s χ) : sdio_s χ × Nat :=
  if sd.state ≠ sd_transfer_state then (sd, 0x00)
  else if sd.card_status &&& (k.ADDRESS_ERROR ||| k.OUT_OF_RANGE ||| k.SD_ERROR) ≠ 0 then
    (sd, 0x00)
  else if sd.current_cmd = 53 then
    if sd.transfer.dir ≠ 0 then (sd, 0x00)
    else
      let sd := if sd.transfer.data_offset = 0 then
          ops.read sd.transfer.func sd sd.transfer.data_start sd.transfer.blk_len
        else sd
      let ret := sd.transfer.data sd.transfer.data_offset
      let sd := { sd with transfer := { sd.transfer with
        data_offset := (sd.transfer.data_offset + 1) % 2 ^ 32 } }
      if sd.transfer.data_offset ≥ sd.transfer.blk_len then
        if sd.transfer.blk_num ≥ 0 ∧ sd.transfer.blk_num - 1 = 0 then
          (sdio_transfer_done { sd with transfer := { sd.transfer with
            blk_num := sd.transfer.blk_num - 1 } }, ret)
        else
          let sd := if sd.transfer.blk_num ≥ 0 then
              { sd with transfer := { sd.transfer with blk_num := sd.transfer.blk_num - 1 } }
            else sd
          let sd := { sd with transfer := { sd.transfer with
            data_start :=
              (sd.transfer.data_start + sd.transfer.blk_len * sd.transfer.step) % 2 ^ 32 } }
          ({ sd with transfer := { sd.transfer with data_offset := 0 } }, ret)
      else (sd, ret)
  else (sd, 0x00)

def sdio_data_ready (sd : sdio_s χ) : Bool :=
  sd.state = sd_transfer_state

/-! ## Function 0: CCCR, FBR and CIS -/

def sdio_cccr_write (hook : Option (sdio_s χ → sdio_s χ)) (sd : sdio_s χ)
    (offset value : Nat) : sdio_s χ :=
  if offset = 0x02 then
    { sd with cccr := { sd.cccr with
      io_enable := value &&& (((1 <<< ((sd.ioocr >>> 28) &&& 7)) - 1) <<< 1) } }
  else if offset = 0x04 then
    sdio_intr_update { sd with cccr := { sd.cccr with intr_enable := value } }
  else if offset = 0x06 then
    if (value >>> 3) &&& 1 ≠ 0 then sdio_reset hook sd
    else if (value >>> 0) &&& 7 ≠ 0 then
      if sd.state = sd_transfer_state ∧ sd.transfer.func = value &&& 7 ∧ sd.spi = 0 then
        sdio_transfer_done sd
      else sd
    else sd
  else if offset = 0x07 then
    let sd := { sd with cccr := { sd.cccr with bus := (value &&& 0xe3) ||| 0x40 } }
    if sd.spi ≠ 0 then sdio_intr_update sd else sd
  else if offset = 0x08 then
    { sd with cccr := { sd.cccr with e4mi := value &&& 0x20 } }
  else if offset = 0x0f then sd
  else if offset = 0x10 then
    { sd with blk_len := upd sd.blk_len 0 (((sd.blk_len 0) &&& (0xff <<< 8)) ||| value) }
  else if offset = 0x11 then
    let v := (((sd.blk_len 0) &&& 0xff) ||| (value <<< 8)) % 0x10000
    { sd with blk_len := upd sd.blk_len 0 v }
  else if offset = 0x12 then
    { sd with cccr := { sd.cccr with power := sd.cccr.power ||| (value &&& 0x02) } }
  else if offset = 0x13 then
    { sd with cccr := { sd.cccr with speed := sd.cccr.speed ||| (value &&& 0x02) } }
  else sd

def sdio_cccr_read (sd : sdio_s χ) (offset : Nat) : Nat :=
  if offset = 0x00 then sd.cccr.revision
  else if offset = 0x01 then 0x02
  else if offset = 0x02 then sd.cccr.io_enable
  else if offset = 0x03 then sd.cccr.io_enable
  else if offset = 0x04 then sd.cccr.intr_enable
  else if offset = 0x05 then (sd.cccr.intr <<< 1) % 0x100
  else if offset = 0x07 then sd.cccr.bus
  else if offset = 0x08 then 0x13 ||| sd.cccr.e4mi
  else if offset = 0x09 then (SDIO_CIS_START >>> 0) &&& 0xff
  else if offset = 0x0a then (SDIO_CIS_START >>> 8) &&& 0xff
  else if offset = 0x0b then (SDIO_CIS_START >>> 16) &&& 0xff
  else if offset = 0x1c then 0x00
  else if offset = 0x1d then sd.transfer.func
  else if offset = 0x0e then 0x00
  else if offset = 0x0f then 0x00
  else if offset = 0x10 then ((sd.blk_len 0) >>> 0) &&& 0xff
  else if offset = 0x11 then ((sd.blk_len 0) >>> 8) &&& 0xff
  else if offset = 0x12 then sd.cccr.power ||| 0x01
  else if offset = 0x13 then sd.cccr.speed ||| 0x01
  else 0

def sdio_fbr_write (sd : sdio_s χ) (fn offset value : Nat) : sdio_s χ :=
  let func := sd.fbr (fn - 1)
  let setf := fun (f : fbr_s) => { sd with fbr := upd sd.fbr (fn - 1) f }
  if offset = 0x00 then
    if func.stdfn &&& (1 <<< 6) ≠ 0 ∧ value &&& (1 <<< 7) ≠ 0 then
      setf { func with stdfn := func.stdfn ||| (1 <<< 7) }
    else
      setf { func with stdfn := bic8 func.stdfn (1 <<< 7) }
  else if offset = 0x02 then
    { sd with cccr := { sd.cccr with power := sd.cccr.power ||| (value &&& 0x02) } }
  else if offset = 0x0c then
    setf { func with csa_addr := (func.csa_addr &&& 0xffff00) ||| (value <<< 0) }
  else if offset = 0x0d then
    setf { func with csa_addr := (func.csa_addr &&& 0xff00ff) ||| (value <<< 8) }
  else if offset = 0x0e then
    setf { func with csa_addr := (func.csa_addr &&& 0x00ffff) ||| (value <<< 16) }
  else if offset = 0x0f then
    if func.stdfn &&& (1 <<< 7) ≠ 0 then
      setf { func with csa_addr := (func.csa_addr + 1) % 2 ^ 32 }
    else sd
  else if offset = 0x10 then
    { sd with blk_len := upd sd.blk_len fn (((sd.blk_len fn) &&& (0xff <<< 8)) ||| value) }
  else if offset = 0x11 then
    let v := (((sd.blk_len fn) &&& 0xff) ||| (value <<< 8)) % 0x10000
    { sd with blk_len := upd sd.blk_len fn v }
  else sd

/-- The result is the state and the byte returned. -/
def sdio_fbr_read (sd : sdio_s χ) (fn offset : Nat) : sdio_s χ × Nat :=
  let func := sd.fbr (fn - 1)
  if offset = 0x00 then (sd, func.stdfn)
  else if offset = 0x01 then (sd, func.ext_stdfn)
  else if offset = 0x02 then (sd, func.power ||| 0x01)
  else if offset = 0x09 then (sd, ((SDIO_CIS_START + func.cis_offset) >>> 0) &&& 0xff)
  else if offset = 0x0a then (sd, ((SDIO_CIS_START + func.cis_offset) >>> 8) &&& 0xff)
  else if offset = 0x0b then (sd, ((SDIO_CIS_START + func.cis_offset) >>> 16) &&& 0xff)
  else if offset = 0x0c then (sd, (func.csa_addr >>> 0) &&& 0xff)
  else if offset = 0x0d then (sd, (func.csa_addr >>> 8) &&& 0xff)
  else if offset = 0x0e then (sd, (func.csa_addr >>> 16) &&& 0xff)
  else if offset = 0x0f then
    if func.stdfn &&& (1 <<< 7) ≠ 0 then
      let f1 : fbr_s := { func with csa_addr := (func.csa_addr + 1) % 2 ^ 32 }
      ({ sd with fbr := upd sd.fbr (fn - 1) f1 }, 0x00)
    else (sd, 0x00)
  else if offset = 0x10 then (sd, ((sd.blk_len fn) >>> 0) &&& 0xff)
  else if offset = 0x11 then (sd, ((sd.blk_len fn) >>> 8) &&& 0xff)
  else (sd, 0)

/-- The loop state of the handlers below: the controller, the running address,
the position of the `data` pointer inside `transfer.data`, and the bytes
left. -/
structure cia_cursor (χ : Type) where
  sd : sdio_s χ
  addr : Nat
  pos : Nat
  len : Nat

/-- The first loop of `sdio_cia_write` (CCCR). -/
def cia_write_cccr (hook : Option (sdio_s χ → sdio_s χ)) :
    Nat → sdio_s χ → Nat → Nat → cia_cursor χ
  | 0, sd, addr, pos => ⟨sd, addr, pos, 0⟩
  | len + 1, sd, addr, pos =>
    if addr < 0x100 then
      let sd1 := sdio_cccr_write hook sd addr (sd.transfer.data pos)
      cia_write_cccr hook len sd1 ((addr + sd1.transfer.step) % 2 ^ 32) (pos + 1)
    else ⟨sd, addr, pos, len + 1⟩

/-- The second loop of `sdio_cia_write` (FBR). -/
def cia_write_fbr : Nat → sdio_s χ → Nat → Nat → cia_cursor χ
  | 0, sd, addr, pos => ⟨sd, addr, pos, 0⟩
  | len + 1, sd, addr, pos =>
    if addr < 0x800 then
      let sd1 := sdio_fbr_write sd (addr >>> 8) (addr &&& 0xff) (sd.transfer.data pos)
      cia_write_fbr len sd1 ((addr + sd1.transfer.step) % 2 ^ 32) (pos + 1)
    else ⟨sd, addr, pos, len + 1⟩

def sdio_cia_write (hook : Option (sdio_s χ → sdio_s χ)) (sd : sdio_s χ)
    (addr len : Nat) : sdio_s χ :=
  let c := cia_write_cccr hook len sd addr 0
  let c := cia_write_fbr c.len c.sd c.addr c.pos
  c.sd

/-- A store `*data ++ = v` of the read handlers. -/
def put_data (sd : sdio_s χ) (pos v : Nat) : sdio_s χ :=
  { sd with transfer := { sd.transfer with data := upd sd.transfer.data pos v } }

/-- The first loop of `sdio_cia_read` (CCCR). -/
def cia_read_cccr : Nat → sdio_s χ → Nat → Nat → cia_cursor χ
  | 0, sd, addr, pos => ⟨sd, addr, pos, 0⟩
  | len + 1, sd, addr, pos =>
    if addr < 0x100 then
      let sd1 := put_data sd pos (sdio_cccr_read sd addr)
      cia_read_cccr len sd1 ((addr + sd1.transfer.step) % 2 ^ 32) (pos + 1)
    else ⟨sd, addr, pos, len + 1⟩

/-- The second loop of `sdio_cia_read` (FBR). -/
def cia_read_fbr : Nat → sdio_s χ → Nat → Nat → cia_cursor χ
  | 0, sd, addr, pos => ⟨sd, addr, pos, 0⟩
  | len + 1, sd, addr, pos =>
    if addr < 0x800 then
      let r := sdio_fbr_read sd (addr >>> 8) (addr &&& 0xff)
      let sd1 := put_data r.1 pos r.2
      cia_read_fbr len sd1 ((addr + sd1.transfer.step) % 2 ^ 32) (pos + 1)
    else ⟨sd, addr, pos, len + 1⟩

/-- The value of `memset(data, 0, n)` with `data` at position `pos`. -/
def data_zero (sd : sdio_s χ) (pos n : Nat) : sdio_s χ :=
  { sd with transfer := { sd.transfer with
    data := fun j => if pos ≤ j ∧ j < pos + n then 0 else sd.transfer.data j } }

/-- The value of `memcpy(data, src + from, n)` with `data` at position `pos`. -/
def data_copy (sd : sdio_s χ) (pos : Nat) (src : Nat → Nat) (off n : Nat) : sdio_s χ :=
  { sd with transfer := { sd.transfer with
    data := fun j => if pos ≤ j ∧ j < pos + n then src (off + (j - pos))
      else sd.transfer.data j } }

def sdio_cia_read (sd : sdio_s χ) (addr len : Nat) : sdio_s χ :=
  let c := cia_read_cccr len sd addr 0
  let c := cia_read_fbr c.len c.sd c.addr c.pos
  -- RFU
  let c : cia_cursor χ :=
    if c.len ≠ 0 ∧ c.addr < SDIO_CIS_START then
      let llen := if c.sd.transfer.step ≠ 0 then min c.len (SDIO_CIS_START - c.addr) else c.len
      ⟨data_zero c.sd c.pos llen, SDIO_CIS_START, c.pos + llen, c.len - llen⟩
    else c
  -- CIS
  let c : cia_cursor χ := { c with addr := (c.addr + 2 ^ 32 - SDIO_CIS_START) % 2 ^ 32 }
  let c : cia_cursor χ :=
    if c.len ≠ 0 ∧ c.addr < c.sd.cislen then
      let llen := min c.len (c.sd.cislen - c.addr)
      ⟨data_copy c.sd c.pos c.sd.cis c.addr llen, c.addr, c.pos + llen, c.len - llen⟩
    else c
  -- RFU
  if c.len ≠ 0 then data_zero c.sd c.pos c.len else c.sd

def sdio_dummy_write (sd : sdio_s χ) (_addr _len : Nat) : sdio_s χ := sd

def sdio_dummy_read (sd : sdio_s χ) (_addr len : Nat) : sdio_s χ :=
  data_zero sd 0 (if sd.transfer.step ≠ 0 then len else 1)

/-- The handler of the function interrupt lines (`func_irq`), called by
`qemu_set_irq` with the line and the level. -/
def sdio_set_irq (sd : sdio_s χ) (line level : Nat) : sdio_s χ :=
  let sd :=
    if level ≠ 0 then
      { sd with cccr := { sd.cccr with intr := (sd.cccr.intr ||| (1 <<< line)) % 0x100 } }
    else
      { sd with cccr := { sd.cccr with intr := bic8 sd.cccr.intr (1 <<< line) } }
  sdio_intr_update sd

end core

/-! ## Atheros AR600x: chip state -/

/-- The `hif` member of `struct ar6k_s`.  `mbox` is indexed by a signed offset:
`ar6k_bmi_write` computes `data + 0x800 - len`, which lies before the array
when more than 0x800 bytes were counted. -/
structure hif_s where
  host_int_stat : Nat
  cpu_int_stat : Nat
  error_int_stat : Nat
  counter_int_stat : Nat
  mbox_frame : Nat
  rx_la_valid : Nat
  rx_la : Nat → Nat
  int_stat_ena : Nat
  cpu_int_stat_ena : Nat
  err_int_stat_ena : Nat
  cnt_int_stat_ena : Nat
  cnt : Nat → Nat
  cnt_tx : Nat → Nat
  scratch : Nat → Nat
  wlan_int : Nat
  mbox : Int → Nat
  mbox_count : Nat → Int

/-- The WMI transport, `struct wmi_s`: `alive` tells whether the one-shot
timer is armed (the other members are fixed at creation). -/
structure wmi_s where
  alive : Bool

/-- The part of `struct ar6k_s` that follows the controller: `macaddr` is
`nd->macaddr`, `cnt_irq_update` tells whether that timer is armed. -/
structure ar6k_x where
  macaddr : Nat → Nat
  hif : hif_s
  bmi_done : Nat
  wmi : Option wmi_s
  cnt_irq_update : Bool

abbrev ar6k_s := sdio_s ar6k_x

/-- Modelled from the spec: the tuple codes `CISTPL_*` (pcmcia.h) and the
function interface codes `sdio_fn_none` / `sdio_ext_fn_none` (sd.h) are not
among the sources; the spec calls the CIS tables fixed constants without
listing the codes, so they are parameters of the attach state. -/
structure cis_h where
  CISTPL_DEVICE : Nat
  CISTPL_MANFID : Nat
  CISTPL_FUNCID : Nat
  CISTPL_FUNCE : Nat
  CISTPL_END : Nat
  sdio_fn_none : Nat
  sdio_ext_fn_none : Nat

/-- One instance of the parameters: the tuple codes of the PC Card standard
and interface code 0 (no standard interface). -/
def cis_h.std : cis_h where
  CISTPL_DEVICE := 0x01
  CISTPL_MANFID := 0x20
  CISTPL_FUNCID := 0x21
  CISTPL_FUNCE := 0x22
  CISTPL_END := 0xff
  sdio_fn_none := 0
  sdio_ext_fn_none := 0

/-! ## AR6000 HIF / interrupt engine -/

section hif
open sd_state_e

/-- Applies `f` to the `hif` member. -/
def on_hif (s : ar6k_s) (f : hif_s → hif_s) : ar6k_s :=
  { s with ext := { s.ext with hif := f s.ext.hif } }

/-- `qemu_set_irq(s->sd.func_irq[0], ...)` calls `sdio_set_irq` with line 0. -/
def ar6k_hif_intr_update (s : ar6k_s) : ar6k_s :=
  sdio_set_irq s 0 (if s.ext.hif.host_int_stat &&& s.ext.hif.int_stat_ena ≠ 0 then 1 else 0)

def ar6k_hif_error_intr_update (s : ar6k_s) : ar6k_s :=
  let orig := s.ext.hif.host_int_stat
  let s :=
    if s.ext.hif.error_int_stat &&& s.ext.hif.err_int_stat_ena ≠ 0 then
      on_hif s fun h => { h with host_int_stat := h.host_int_stat ||| (1 <<< 7) }
    else
      on_hif s fun h => { h with host_int_stat := bic8 h.host_int_stat (1 <<< 7) }
  if orig ≠ s.ext.hif.host_int_stat then ar6k_hif_intr_update s else s

def ar6k_hif_cpu_intr_update (s : ar6k_s) : ar6k_s :=
  let orig := s.ext.hif.host_int_stat
  let s :=
    if s.ext.hif.cpu_int_stat &&& s.ext.hif.cpu_int_stat_ena ≠ 0 then
      on_hif s fun h => { h with host_int_stat := h.host_int_stat ||| (1 <<< 6) }
    else
      on_hif s fun h => { h with host_int_stat := bic8 h.host_int_stat (1 <<< 6) }
  if orig ≠ s.ext.hif.host_int_stat then ar6k_hif_intr_update s else s

def ar6k_hif_counter_intr_update (s : ar6k_s) : ar6k_s :=
  let orig := s.ext.hif.host_int_stat
  let s :=
    if s.ext.hif.counter_int_stat &&& s.ext.hif.cnt_int_stat_ena ≠ 0 then
      on_hif s fun h => { h with host_int_stat := h.host_int_stat ||| (1 <<< 4) }
    else
      on_hif s fun h => { h with host_int_stat := bic8 h.host_int_stat (1 <<< 4) }
  if orig ≠ s.ext.hif.host_int_stat then ar6k_hif_intr_update s else s

/-- Arms the timer `cnt_irq_update`. -/
def ar6k_hif_counter_intr_sched (s : ar6k_s) : ar6k_s :=
  { s with ext := { s.ext with cnt_irq_update := true } }

/-- The timer callback; the timer is one-shot, so it is no longer armed. -/
def ar6k_hif_cnt_irq_tick (s : ar6k_s) : ar6k_s :=
  ar6k_hif_counter_intr_update { s with ext := { s.ext with cnt_irq_update := false } }

def ar6k_bmi_reset (s : ar6k_s) : ar6k_s :=
  let s : ar6k_s := { s with ext := { s.ext with wmi := none } }
  let s := on_hif s fun h => { h with
    cnt := fun i => if i < 4 then 0x00 else h.cnt i
    cnt_tx := fun i => if i < 4 then 0xff else h.cnt_tx i
    mbox_count := fun i => if i < 4 then 0 else h.mbox_count i }
  let s : ar6k_s := { s with ext := { s.ext with bmi_done := 0 } }
  let s := on_hif s fun h => { h with
    host_int_stat := 0x00
    cpu_int_stat := 0x00
    error_int_stat := 0x00
    counter_int_stat := 0xf0
    int_stat_ena := 0x00
    cpu_int_stat_ena := 0x00
    err_int_stat_ena := 0x00
    cnt_int_stat_ena := 0x00 }
  let s := ar6k_hif_cpu_intr_update s
  let s := ar6k_hif_error_intr_update s
  ar6k_hif_counter_intr_update s

def bmi_no_command : Nat := 0
def bmi_done : Nat := 1
def bmi_get_target_id : Nat := 8
def BMI_TARGET_VERSION_ID : Nat := 0x11000044

/-- The little-endian 32-bit word at offset `i` of the mailbox array. -/
def le32_at (m : Int → Nat) (i : Int) : Nat :=
  m i ||| (m (i + 1) <<< 8) ||| (m (i + 2) <<< 16) ||| (m (i + 3) <<< 24)

/-- Stores the 32-bit word `v` little-endian at offset `i`. -/
def put_le32 (m : Int → Nat) (i : Int) (v : Nat) : Int → Nat :=
  upd (upd (upd (upd m i (v &&& 0xff)) (i + 1) ((v >>> 8) &&& 0xff))
    (i + 2) ((v >>> 16) &&& 0xff)) (i + 3) ((v >>> 24) &&& 0xff)

/-- The only caller passes `data = s->hif.mbox` (mailbox 0), so `base` is the
offset of `data` in `hif.mbox`.  `NEW_FIRMWARE` is not defined.  For `len`
above 0x800 the source reads in front of the array; the cells of `hif.mbox` at
negative offsets stand for that memory, and the model does not track what the
source keeps there (other members of `hif`). -/
def ar6k_bmi_write (s : ar6k_s) (base : Int) (len : Int) : ar6k_s :=
  if len < 4 then s
  else
    let cmd := le32_at s.ext.hif.mbox (base + 0x800 - len)
    if cmd = bmi_no_command then
      on_hif s fun h => { h with cnt := upd h.cnt 0 0 }
    else if cmd = bmi_done then
      let s : ar6k_s := { s with ext := { s.ext with bmi_done := 1 } }
      on_hif s fun h => { h with cnt := upd h.cnt 0 0 }
    else if cmd = bmi_get_target_id then
      let rlen : Nat := 4
      let s := on_hif s fun h => { h with
        mbox := put_le32 h.mbox (base + 0x800 - rlen) BMI_TARGET_VERSION_ID }
      on_hif s fun h => { h with cnt := upd h.cnt 0 rlen }
    else s

def ar6k_hif_txcredit_reset (s : ar6k_s) (mbox : Nat) : ar6k_s :=
  let s := on_hif s fun h => { h with cnt_tx := upd h.cnt_tx mbox 0 }
  if s.ext.hif.counter_int_stat &&& (1 <<< mbox) = 0 then
    let s := on_hif s fun h => { h with
      counter_int_stat := h.counter_int_stat ||| (1 <<< mbox) }
    ar6k_hif_counter_intr_sched s
  else s

def ar6k_hif_txcredit_grant (s : ar6k_s) (mbox : Nat) : ar6k_s :=
  let s := on_hif s fun h => { h with cnt_tx := upd h.cnt_tx mbox 0xff }
  if s.ext.hif.counter_int_stat &&& (1 <<< (mbox + 4)) = 0 then
    let s := on_hif s fun h => { h with
      counter_int_stat := h.counter_int_stat ||| (1 <<< (mbox + 4)) }
    ar6k_hif_counter_intr_sched s
  else s

/-- Allocates the transport and arms its `alive` timer. -/
def wmi_init : wmi_s := ⟨true⟩

def AR6K_HOST_INT_STAT : Nat := 0x400
def AR6K_CPU_INT_STAT : Nat := 0x401
def AR6K_ERROR_INT_STAT : Nat := 0x402
def AR6K_COUNTER_INT_STAT : Nat := 0x403
def AR6K_MBOX_FRAME : Nat := 0x404
def AR6K_RX_LOOKAHEAD_VALID : Nat := 0x405
def AR6K_RX_LOOKAHEAD0 : Nat := 0x408
def AR6K_RX_LOOKAHEAD3 : Nat := 0x414
def AR6K_INT_STAT_ENABLE : Nat := 0x418
def AR6K_CPU_INT_STAT_ENABLE : Nat := 0x419
def AR6K_ERROR_STAT_ENABLE : Nat := 0x41a
def AR6K_COUNTER_INT_STAT_ENABLE : Nat := 0x41b
def AR6K_COUNT : Nat := 0x420
def AR6K_COUNT_RESET : Nat := 0x440
def AR6K_COUNT_DEC : Nat := 0x450
def AR6K_SCRATCH : Nat := 0x460
def AR6K_INT_WLAN : Nat := 0x472
def AR6K_CIS_WINDOW : Nat := 0x600
def AR6K_HIF_MBOX_BASE : Nat := 0x800
def AR6K_HIF_MBOX_END : Nat := 0x27ff

def ar6k_hif_write (s : ar6k_s) (addr value : Nat) : ar6k_s :=
  if addr = AR6K_HOST_INT_STAT then
    if s.ext.hif.host_int_stat &&& value ≠ 0 then
      ar6k_hif_intr_update
        (on_hif s fun h => { h with host_int_stat := bic8 h.host_int_stat value })
    else s
  else if addr = AR6K_CPU_INT_STAT then
    if s.ext.hif.cpu_int_stat &&& value ≠ 0 then
      ar6k_hif_cpu_intr_update
        (on_hif s fun h => { h with cpu_int_stat := bic8 h.cpu_int_stat value })
    else s
  else if addr = AR6K_ERROR_INT_STAT then
    if s.ext.hif.error_int_stat &&& value ≠ 0 then
      ar6k_hif_error_intr_update
        (on_hif s fun h => { h with error_int_stat := bic8 h.error_int_stat value })
    else s
  else if addr = AR6K_COUNTER_INT_STAT then
    if s.ext.hif.counter_int_stat &&& value ≠ 0 then
      ar6k_hif_counter_intr_update
        (on_hif s fun h => { h with counter_int_stat := bic8 h.counter_int_stat value })
    else s
  else if addr = AR6K_MBOX_FRAME then
    on_hif s fun h => { h with mbox_frame := value }
  else if addr = AR6K_INT_STAT_ENABLE then
    if s.ext.hif.int_stat_ena ^^^ value ≠ 0 then
      ar6k_hif_intr_update (on_hif s fun h => { h with int_stat_ena := value })
    else s
  else if addr = AR6K_CPU_INT_STAT_ENABLE then
    if s.ext.hif.cpu_int_stat_ena ^^^ value ≠ 0 then
      ar6k_hif_cpu_intr_update (on_hif s fun h => { h with cpu_int_stat_ena := value })
    else s
  else if addr = AR6K_ERROR_STAT_ENABLE then
    if s.ext.hif.err_int_stat_ena ^^^ value ≠ 0 then
      ar6k_hif_error_intr_update (on_hif s fun h => { h with err_int_stat_ena := value })
    else s
  else if addr = AR6K_COUNTER_INT_STAT_ENABLE then
    if s.ext.hif.cnt_int_stat_ena ^^^ value ≠ 0 then
      ar6k_hif_counter_intr_sched (on_hif s fun h => { h with cnt_int_stat_ena := value })
    else s
  else if AR6K_SCRATCH ≤ addr ∧ addr ≤ AR6K_SCRATCH + 7 then
    on_hif s fun h => { h with scratch := upd h.scratch (addr - AR6K_SCRATCH) value }
  else if addr = AR6K_INT_WLAN then
    let s := on_hif s fun h => { h with wlan_int := value }
    if value ≠ 0 ∧ s.ext.wmi.isNone then
      { s with ext := { s.ext with wmi := some wmi_init } }
    else s
  else if AR6K_HIF_MBOX_BASE ≤ addr ∧ addr ≤ AR6K_HIF_MBOX_END then
    let mbox := (addr - AR6K_HIF_MBOX_BASE) >>> 11
    let s := on_hif s fun h => { h with
      mbox := upd h.mbox (((addr - AR6K_HIF_MBOX_BASE : Nat) : Int)) value }
    let s := on_hif s fun h => { h with
      mbox_count := upd h.mbox_count mbox (h.mbox_count mbox + 1) }
    if addr &&& 0x7ff = 0x7ff then
      let s := ar6k_hif_txcredit_reset s mbox
      let s :=
        if mbox = 0 ∧ s.ext.bmi_done = 0 then
          ar6k_bmi_write s (((mbox <<< 11 : Nat) : Int)) (s.ext.hif.mbox_count mbox)
        else s
      let s := on_hif s fun h => { h with mbox_count := upd h.mbox_count mbox 0 }
      ar6k_hif_txcredit_grant s mbox
    else s
  else s

/-- The result is the state and the byte returned. -/
def ar6k_hif_read (s : ar6k_s) (addr : Nat) : ar6k_s × Nat :=
  if addr = AR6K_HOST_INT_STAT then (s, s.ext.hif.host_int_stat)
  else if addr = AR6K_CPU_INT_STAT then (s, s.ext.hif.cpu_int_stat)
  else if addr = AR6K_ERROR_INT_STAT then (s, s.ext.hif.error_int_stat)
  else if addr = AR6K_COUNTER_INT_STAT then (s, s.ext.hif.counter_int_stat)
  else if addr = AR6K_MBOX_FRAME then (s, s.ext.hif.mbox_frame)
  else if addr = AR6K_RX_LOOKAHEAD_VALID then (s, s.ext.hif.rx_la_valid)
  else if AR6K_RX_LOOKAHEAD0 ≤ addr ∧ addr ≤ AR6K_RX_LOOKAHEAD3 + 3 then
    let mbox := (addr - AR6K_RX_LOOKAHEAD0) >>> 2
    let s := on_hif s fun h => { h with rx_la_valid := bic8 h.rx_la_valid (1 <<< mbox) }
    let s := on_hif s fun h => { h with host_int_stat := bic8 h.host_int_stat (1 <<< mbox) }
    let s := ar6k_hif_intr_update s
    (s, (s.ext.hif.rx_la mbox >>> ((addr &&& 3) <<< 3)) &&& 0xff)
  else if addr = AR6K_INT_STAT_ENABLE then (s, s.ext.hif.int_stat_ena)
  else if addr = AR6K_CPU_INT_STAT_ENABLE then (s, s.ext.hif.cpu_int_stat_ena)
  else if addr = AR6K_ERROR_STAT_ENABLE then (s, s.ext.hif.err_int_stat_ena)
  else if addr = AR6K_COUNTER_INT_STAT_ENABLE then (s, s.ext.hif.cnt_int_stat_ena)
  else if AR6K_COUNT + 0x4 ≤ addr ∧ addr ≤ AR6K_COUNT + 0x7 then
    (s, s.ext.hif.cnt (addr - AR6K_COUNT - 4))
  else if addr = AR6K_COUNT_RESET + 0x0 ∨ addr = AR6K_COUNT_RESET + 0x4 ∨
      addr = AR6K_COUNT_RESET + 0x8 ∨ addr = AR6K_COUNT_RESET + 0xc then
    let mbox := (addr - AR6K_COUNT_RESET) >>> 2
    let s :=
      if s.ext.hif.counter_int_stat &&& (1 <<< mbox) ≠ 0 then
        ar6k_hif_counter_intr_update
          (on_hif s fun h => { h with
            counter_int_stat := bic8 h.counter_int_stat (1 <<< mbox) })
      else s
    (s, s.ext.hif.cnt_tx mbox % 0x100)
  else if addr = AR6K_COUNT_DEC + 0x0 ∨ addr = AR6K_COUNT_DEC + 0x4 ∨
      addr = AR6K_COUNT_DEC + 0x8 ∨ addr = AR6K_COUNT_DEC + 0xc then
    let mbox := (addr - AR6K_COUNT_DEC) >>> 2
    let old := s.ext.hif.cnt_tx mbox
    (on_hif s fun h => { h with cnt_tx := upd h.cnt_tx mbox ((old + 2 ^ 32 - 1) % 2 ^ 32) },
      old % 0x100)
  else if AR6K_SCRATCH ≤ addr ∧ addr ≤ AR6K_SCRATCH + 7 then
    (s, s.ext.hif.scratch (addr - AR6K_SCRATCH))
  else if addr = AR6K_INT_WLAN then (s, s.ext.hif.wlan_int)
  else if AR6K_CIS_WINDOW ≤ addr ∧ addr ≤ AR6K_CIS_WINDOW + 0x1ff then
    if addr ≥ AR6K_CIS_WINDOW + s.cislen then (s, 0)
    else (s, s.cis (addr - AR6K_CIS_WINDOW))
  else if AR6K_HIF_MBOX_BASE ≤ addr ∧ addr ≤ AR6K_HIF_MBOX_END then
    (s, s.ext.hif.mbox (((addr - AR6K_HIF_MBOX_BASE : Nat) : Int)))
  else (s, 0)

/-- The loop of `ar6k_fn1_write`, with `data` at position `pos` of
`transfer.data`. -/
def fn1_write_loop : Nat → ar6k_s → Nat → Nat → ar6k_s
  | 0, s, _, _ => s
  | len + 1, s, addr, pos =>
    let s1 := ar6k_hif_write s addr (s.transfer.data pos)
    fn1_write_loop len s1 ((addr + s1.transfer.step) % 2 ^ 32) (pos + 1)

def ar6k_fn1_write (s : ar6k_s) (addr len : Nat) : ar6k_s :=
  fn1_write_loop len s addr 0

/-- The loop of `ar6k_fn1_read`, with `data` at position `pos` of
`transfer.data`. -/
def fn1_read_loop : Nat → ar6k_s → Nat → Nat → ar6k_s
  | 0, s, _, _ => s
  | len + 1, s, addr, pos =>
    let r := ar6k_hif_read s addr
    let s1 := put_data r.1 pos r.2
    fn1_read_loop len s1 ((addr + s1.transfer.step) % 2 ^ 32) (pos + 1)

def ar6k_fn1_read (s : ar6k_s) (addr len : Nat) : ar6k_s :=
  fn1_read_loop len s addr 0

def ar6k_set_ioocr (s : ar6k_s) : ar6k_s :=
  { s with ioocr := 0x10fe0000 }

def ar6k_reset (s : ar6k_s) : ar6k_s :=
  ar6k_bmi_reset (ar6k_set_ioocr s)

/-- The handler table of the AR6000 after `ar6k_init`: function 0 is the
CCCR/FBR/CIS handler, function 1 the HIF window, the others the stubs. -/
def ar6k_ops : sdio_ops ar6k_x where
  write := fun fn s addr len =>
    if fn = 0 then sdio_cia_write (some ar6k_reset) s addr len
    else if fn = 1 then ar6k_fn1_write s addr len
    else sdio_dummy_write s addr len
  read := fun fn s addr len =>
    if fn = 0 then sdio_cia_read s addr len
    else if fn = 1 then ar6k_fn1_read s addr len
    else sdio_dummy_read s addr len
  reset := some ar6k_reset

def ar6k_cis (t : cis_h) : List Nat := [
  t.CISTPL_DEVICE, 3,
  0x00, 0x00, 0x00,
  t.CISTPL_MANFID, 4,
  0x71, 0x02,
  0x0a, 0x01,
  t.CISTPL_FUNCID, 2,
  0x0c,
  0x00,
  t.CISTPL_FUNCE, 4,
  0x00,
  0x00, 0x08,
  0x32,
  t.CISTPL_END, 0xff]

def ar6k_fn1_cis (t : cis_h) : List Nat := [
  t.CISTPL_MANFID, 4,
  0x71, 0x02,
  0x0a, 0x01,
  t.CISTPL_FUNCID, 2,
  0x0c,
  0x00,
  t.CISTPL_FUNCE, 42,
  0x01,
  0x01,
  0x11,
  0x00, 0x00, 0x00, 0x00,
  0x00, 0x00, 0x00, 0x00,
  0x00,
  0x00, 0x08,
  0x00, 0x00, 0xff, 0x00,
  0x00,
  0x00,
  0x00,
  0x00,
  0x01,
  0x0a,
  0x00, 0x00,
  0x00, 0x00,
  0x00, 0x00,
  0x00, 0x00,
  0x00, 0x00,
  0x01, 0x01,
  0x00, 0x01,
  0x00, 0x01,
  0x00, 0x01,
  t.CISTPL_END, 0xff]

/-- The zero-filled object that `qemu_mallocz` returns. -/
def ar6k_zero (macaddr : Nat → Nat) : ar6k_s where
  state := sd_initialization_state
  ioocr := 0
  rca := 0
  card_status := 0
  cccr := ⟨0, 0, 0, 0, 0, 0, 0, 0⟩
  fbr := fun _ => ⟨0, 0, 0, 0, 0⟩
  cis := fun _ => 0
  cislen := 0
  irq := 0
  spi := 0
  sdio_ok := 0
  current_cmd := 0
  next_cmd := 0
  blk_len := fun _ => 0
  transfer := ⟨0, 0, 0, 0, 0, 0, 0, fun _ => 0⟩
  ext := {
    macaddr := macaddr
    hif := ⟨0, 0, 0, 0, 0, 0, fun _ => 0, 0, 0, 0, 0, fun _ => 0, fun _ => 0,
      fun _ => 0, 0, fun _ => 0, fun _ => 0⟩
    bmi_done := 0
    wmi := none
    cnt_irq_update := false }

/-- The state part of `sdio_init`; the `reset` member is still null when it
runs. -/
def sdio_init {χ : Type} (s : sdio_s χ) : sdio_s χ :=
  let s := { s with cccr := { s.cccr with revision := 0x32 } }
  sdio_reset none s

def ar6k_init (t : cis_h) (macaddr : Nat → Nat) : ar6k_s :=
  let s := sdio_init (ar6k_zero macaddr)
  let f0 : fbr_s := { s.fbr 0 with
    stdfn := 0 ||| t.sdio_fn_none, ext_stdfn := t.sdio_ext_fn_none }
  let s := { s with fbr := upd s.fbr 0 f0 }
  let s := { s with cccr := { s.cccr with revision := 0x11 } }
  let s := { s with cislen := (ar6k_cis t).length + (ar6k_fn1_cis t).length }
  let f0 : fbr_s := { s.fbr 0 with cis_offset := (ar6k_cis t).length }
  let s := { s with fbr := upd s.fbr 0 f0 }
  let s := { s with cis := fun i => ((ar6k_cis t) ++ (ar6k_fn1_cis t)).getD i 0 }
  ar6k_reset s

end hif

/-! ## Test harness -/

section harness
variable {χ : Type}

/-- Feeds the bytes to `sdio_write_data`, one call per byte. -/
def write_bytes (ops : sdio_ops χ) (k : sd_h) (sd : sdio_s χ) (bytes : List Nat) : sdio_s χ :=
  bytes.foldl (fun s v => sdio_write_data ops k s v) sd

/-- Calls `sdio_read_data` `n` times; the result is the final state and the
bytes returned, in order. -/
def read_bytes (ops : sdio_ops χ) (k : sd_h) : Nat → sdio_s χ → sdio_s χ × List Nat
  | 0, sd => (sd, [])
  | n + 1, sd =>
    let r := sdio_read_data ops k sd
    let t := read_bytes ops k n r.1
    (t.1, r.2 :: t.2)

end harness

/-! ## Concrete states of the AR6000 -/

/-- The AR6000 right after `ar6k_init` (standard tuple codes, a zero hardware
address). -/
def st_attach : ar6k_s := ar6k_init cis_h.std (fun _ => 0)

/-- After CMD5 with the voltage window 0x00ff0000: marked SDIO-capable. -/
def st_capable : ar6k_s := (sdio_do_command sd_h.std ar6k_ops st_attach ⟨5, 0x00ff0000, 0⟩).1

/-- After a first CMD3: Standby, RCA 0x4567. -/
def st_standby : ar6k_s := (sdio_do_command sd_h.std ar6k_ops st_capable ⟨3, 0, 0⟩).1

/-- After CMD7 with the card's RCA: Command state. -/
def st_command : ar6k_s := (sdio_do_command sd_h.std ar6k_ops st_standby ⟨7, 0x45670000, 0⟩).1

/-- The Command state with the block size of function 1 set to 64 through a
CMD52 write of 0x40 to the FBR register 0x110. -/
def st_blk64 : ar6k_s := (sdio_do_command sd_h.std ar6k_ops st_command ⟨52, 0x80022040, 0⟩).1

section engine
variable {χ : Type}

/-! ## The block transfer engine in steps

`sdio_write_data` and `sdio_read_data` share the statements that follow a
completed block; the next definitions name the pieces, and the theorems
`sdio_write_data_eq` / `sdio_read_data_eq` show that the functions above are
built from them. -/

/-- The store `sd->transfer.data[sd->transfer.data_offset ++] = value`. -/
def stage_byte (sd : sdio_s χ) (value : Nat) : sdio_s χ :=
  { sd with transfer := { sd.transfer with
    data := upd sd.transfer.data sd.transfer.data_offset value
    data_offset := (sd.transfer.data_offset + 1) % 2 ^ 32 } }

/-- The statements after a completed block: count the block down, then either
finish the transfer or move to the next block. -/
def next_block (sd : sdio_s χ) : sdio_s χ :=
  if sd.transfer.blk_num ≥ 0 ∧ sd.transfer.blk_num - 1 = 0 then
    sdio_transfer_done { sd with transfer := { sd.transfer with
      blk_num := sd.transfer.blk_num - 1 } }
  else
    let sd := if sd.transfer.blk_num ≥ 0 then
        { sd with transfer := { sd.transfer with blk_num := sd.transfer.blk_num - 1 } }
      else sd
    let sd := { sd with transfer := { sd.transfer with
      data_start :=
        (sd.transfer.data_start + sd.transfer.blk_len * sd.transfer.step) % 2 ^ 32 } }
    { sd with transfer := { sd.transfer with data_offset := 0 } }

/-- The guards at the head of `sdio_write_data` / `sdio_read_data` let the
byte through: Transfer state, no error flag, CMD53 current. -/
def transfer_open (k : sd_h) (sd : sdio_s χ) : Prop :=
  sd.state = sd_transfer_state ∧
  sd.card_status &&& (k.ADDRESS_ERROR ||| k.OUT_OF_RANGE ||| k.SD_ERROR) = 0 ∧
  sd.current_cmd = 53

/-- The handler calls of a write transfer of `n` blocks of `len` bytes,
starting at `addr` and advancing by `stride`: `w` is applied to the successive
blocks of `bytes` at the successive addresses. -/
def run_blocks (w : χ → Nat → List Nat → χ) (len stride : Nat) :
    Nat → Nat → List Nat → χ → χ
  | 0, _, _, e => e
  | n + 1, addr, bytes, e =>
    run_blocks w len stride n (addr + stride) (bytes.drop len) (w e addr (bytes.take len))

end engine

section engine_spec
variable {χ : Type}

/-- The bytes `bs` stored from position `off` on, one `stage_byte` each. -/
def stage_data (d : Nat → Nat) : Nat → List Nat → Nat → Nat
  | _, [] => d
  | off, b :: bs => stage_data (upd d off b) (off + 1) bs

/-- A state that differs from `s` in the running part of the transfer context
(buffer, offset, address, count) and in the chip part only. -/
def xfer (s : sdio_s χ) (d : Nat → Nat) (off start : Nat) (num : Int) (e : χ) : sdio_s χ :=
  { s with
    transfer := { s.transfer with
      data := d, data_offset := off, data_start := start, blk_num := num }
    ext := e }

/-- The state `t` with the chip part replaced: what a handler that leaves the
controller alone returns. -/
def with_ext (t : sdio_s χ) (e : χ) : sdio_s χ := { t with ext := e }

end engine_spec

section engine_spec2
variable {χ : Type}

/-- A write transfer of function `f` at the start of a block: `n + 1` blocks
of `len` bytes are left, the next one goes to address `addr`. -/
def write_ready (k : sd_h) (s : sdio_s χ) (f len step addr n : Nat) : Prop :=
  transfer_open k s ∧ s.transfer.dir ≠ 0 ∧ s.transfer.func = f ∧
  s.transfer.blk_len = len ∧ s.transfer.step = step ∧ s.transfer.data_offset = 0 ∧
  s.transfer.data_start = addr ∧ s.transfer.blk_num = (n : Int) + 1

end engine_spec2

/-! ## A recording handler -/

section engine_spec3
variable {χ : Type}

/-- A byte-mode auto-increment read transfer of function `f` with `n + 1`
bytes left, the next one at address `addr`. -/
def read_ready (k : sd_h) (s : sdio_s χ) (f addr n : Nat) : Prop :=
  transfer_open k s ∧ s.transfer.dir = 0 ∧ s.transfer.func = f ∧
  s.transfer.blk_len = 1 ∧ s.transfer.step = 1 ∧ s.transfer.data_offset = 0 ∧
  s.transfer.data_start = addr ∧ s.transfer.blk_num = (n : Int) + 1

/-- The scratch register behind HIF address `x`, as a byte memory. -/
def scratch_get (e : ar6k_x) (x : Nat) : Nat := e.hif.scratch (x - AR6K_SCRATCH)

/-- A store into the scratch register behind HIF address `x`. -/
def scratch_put (e : ar6k_x) (x v : Nat) : ar6k_x :=
  { e with hif := { e.hif with scratch := upd e.hif.scratch (x - AR6K_SCRATCH) v } }

end engine_spec3

section cmd52_spec

/-- The state `sdio_do_command` hands to `sdio_normal_command`: the type-B flags
are cleared and the command index is noted as the next command. -/
def decode_entry (k : sd_h) (sd : sdio_s χ) (cmd : Nat) : sdio_s χ :=
  { sd with
    card_status := bic sd.card_status (k.COM_CRC_ERROR ||| k.ILLEGAL_COMMAND)
    next_cmd := cmd }

/-- The state of `sdio_normal_command` once the CMD52 case has run its first
statements: in Transfer the current command is noted as the next one, then the
running offset and the step of the transfer context are set to 0 and 1. -/
def cmd52_prologue (sd : sdio_s χ) : sdio_s χ :=
  let sd := if sd.state = sd_transfer_state then
      { sd with next_cmd := sd.current_cmd } else sd
  { sd with transfer := { sd.transfer with data_offset := 0, step := 1 } }

/-- The handler calls of the CMD52 case for a valid function: the write (when
R/W is set) of the byte staged at position 0, then the read (when R/W is clear
or RAW is set). -/
def cmd52_access (ops : sdio_ops χ) (sd : sdio_s χ) (arg : Nat) : sdio_s χ :=
  let fn := (arg >>> 28) &&& 7
  let addr := (arg >>> 9) &&& SDIO_ADDR_MASK
  let sd := if (arg >>> 31) &&& 1 ≠ 0 then
      ops.write fn (put_data sd 0 (arg &&& 0xff)) addr 1
    else sd
  if (arg >>> 31) &&& 1 = 0 ∨ (arg >>> 27) &&& 1 ≠ 0 then ops.read fn sd addr 1 else sd

/-- The flags byte `status` computed by `sd_response_r5_make`. -/
def r5_status (k : sd_h) (sd : sdio_s χ) : Nat :=
  let state := r5_state sd.state
  let cs := sd.card_status
  if sd.spi ≠ 0 then
    (if cs &&& 0xb7380003 ≠ 0 then 1 <<< 6 else 0) |||
    (if cs &&& k.ADDRESS_ERROR ≠ 0 then 1 <<< 4 else 0) |||
    (if cs &&& k.COM_CRC_ERROR ≠ 0 then 1 <<< 3 else 0) |||
    (if cs &&& k.ILLEGAL_COMMAND ≠ 0 then 1 <<< 2 else 0) |||
    (if state = 0x00 then 1 <<< 0 else 0)
  else
    (if cs &&& k.COM_CRC_ERROR ≠ 0 then 1 <<< 7 else 0) |||
    (if cs &&& k.ILLEGAL_COMMAND ≠ 0 then 1 <<< 6 else 0) |||
    (state <<< 4) |||
    (if cs &&& 0x37380003 ≠ 0 then 1 <<< 3 else 0) |||
    (if cs &&& k.ADDRESS_ERROR ≠ 0 then 1 <<< 1 else 0) |||
    (if cs &&& k.OUT_OF_RANGE ≠ 0 then 1 <<< 0 else 0)

end cmd52_spec

/-- The AR6000 in a byte-mode, fixed-address CMD53 write of three bytes to HIF
address 0x460 of function 1, after the first byte. -/
def st_fixed3 : ar6k_s :=
  sdio_write_data ar6k_ops sd_h.std
    (sdio_do_command sd_h.std ar6k_ops st_command ⟨53, 0x9008c003, 0⟩).1 0x11

/-- The AR6000 in a block-mode CMD53 write of one 64-byte block to function 1,
after the first byte. -/
def st_block1 : ar6k_s :=
  sdio_write_data ar6k_ops sd_h.std
    (sdio_do_command sd_h.std ar6k_ops st_blk64 ⟨53, 0x9c08c001, 0⟩).1 0x11

section hif_spec

/-- The `hif` registers after `ar6k_hif_error_intr_update`. -/
def error_bit (h : hif_s) : hif_s :=
  { h with host_int_stat :=
      if h.error_int_stat &&& h.err_int_stat_ena ≠ 0 then h.host_int_stat ||| (1 <<< 7)
      else bic8 h.host_int_stat (1 <<< 7) }

/-- The `hif` registers after `ar6k_hif_cpu_intr_update`. -/
def cpu_bit (h : hif_s) : hif_s :=
  { h with host_int_stat :=
      if h.cpu_int_stat &&& h.cpu_int_stat_ena ≠ 0 then h.host_int_stat ||| (1 <<< 6)
      else bic8 h.host_int_stat (1 <<< 6) }

/-- The `hif` registers after `ar6k_hif_counter_intr_update`. -/
def counter_bit (h : hif_s) : hif_s :=
  { h with host_int_stat :=
      if h.counter_int_stat &&& h.cnt_int_stat_ena ≠ 0 then h.host_int_stat ||| (1 <<< 4)
      else bic8 h.host_int_stat (1 <<< 4) }

/-- The level of function interrupt line 0 (`func_irq[0]`) as `sdio_set_irq`
latched it: bit 0 of `cccr.intr`. -/
def fn1_irq (s : ar6k_s) : Bool := s.cccr.intr.testBit 0

/-- The AR6000 after attach and one host write to the last byte of mailbox 0
(HIF address 0xfff): a credit of mailbox 0 was taken and granted again. -/
def st_credit : ar6k_s := ar6k_hif_write st_attach 0xfff 0

/-- The AR6000 after attach with the lookahead registers loaded and all four
channels pending. -/
def st_lookahead : ar6k_s :=
  on_hif st_attach fun h => { h with
    rx_la := fun _ => 0x11223344, rx_la_valid := 0x0f, host_int_stat := 0x0f }

end hif_spec

section hif_spec2

/-- The three registers that the error and cpu sources of the host interrupt
status depend on, with the host interrupt status itself. -/
def irq3 (s : ar6k_s) : Nat × Nat × Nat :=
  (s.ext.hif.host_int_stat, s.ext.hif.cpu_int_stat, s.ext.hif.error_int_stat)

/-- No error and no cpu interrupt is pending and bits 7 and 6 of the host
interrupt status are clear. -/
def hif_quiet (s : ar6k_s) : Prop :=
  s.ext.hif.error_int_stat = 0 ∧ s.ext.hif.cpu_int_stat = 0 ∧
  s.ext.hif.host_int_stat &&& 0xc0 = 0

/-- The states the host can bring the chip into: from `ar6k_reset`, by
writes and reads of HIF registers, by the callback of the counter timer, and
by anything that changes the controller part only. -/
inductive hif_reachable : ar6k_s → Prop
  | reset (s : ar6k_s) : hif_reachable (ar6k_reset s)
  | write (s : ar6k_s) (addr value : Nat) :
      hif_reachable s → hif_reachable (ar6k_hif_write s addr value)
  | read (s : ar6k_s) (addr : Nat) : hif_reachable s → hif_reachable (ar6k_hif_read s addr).1
  | tick (s : ar6k_s) : hif_reachable s → hif_reachable (ar6k_hif_cnt_irq_tick s)
  | core (s t : ar6k_s) : hif_reachable s → t.ext = s.ext → hif_reachable t

end hif_spec2

section hif_spec3

/-- How the function-1 interrupt line stands in `t`, a state that an update of
`s` produced: when the host interrupt status has changed, the line is high
exactly if the host status and the host enable have a common bit; otherwise the
line is as it was in `s`. -/
def irq_follows (s t : ar6k_s) : Prop :=
  (t.ext.hif.host_int_stat ≠ s.ext.hif.host_int_stat →
    fn1_irq t = decide (t.ext.hif.host_int_stat &&& t.ext.hif.int_stat_ena ≠ 0)) ∧
  (t.ext.hif.host_int_stat = s.ext.hif.host_int_stat → fn1_irq t = fn1_irq s)

/-- The AR6000 after attach with an error interrupt pending and the error
bit enabled in the host enable register. -/
def st_error : ar6k_s :=
  on_hif st_attach fun h => { h with error_int_stat := 0x01, int_stat_ena := 0x80 }

end hif_spec3

section mbox_spec

/-- The host writes the bytes `bs` to consecutive HIF addresses from `addr`
on, one `ar6k_hif_write` each. -/
def hif_write_bytes : ar6k_s → Nat → List Nat → ar6k_s
  | s, _, [] => s
  | s, addr, b :: bs => hif_write_bytes (ar6k_hif_write s addr b) (addr + 1) bs

/-- The bytes `bs` stored into a byte array from offset `off` on. -/
def mbox_put (m : Int → Nat) : Int → List Nat → Int → Nat
  | _, [] => m
  | off, b :: bs => mbox_put (upd m off b) (off + 1) bs

/-- The statement of the mailbox case of `ar6k_hif_write` that hands a
completed message of mailbox 0 to the BMI interpreter. -/
def bmi_step (s : ar6k_s) (mbox : Nat) : ar6k_s :=
  if mbox = 0 ∧ s.ext.bmi_done = 0 then
    ar6k_bmi_write s (((mbox <<< 11 : Nat) : Int)) (s.ext.hif.mbox_count mbox)
  else s

/-- The first two statements of the mailbox case of `ar6k_hif_write`: the
byte is stored and the count of the mailbox goes up by one. -/
def mbox_store (s : ar6k_s) (addr value : Nat) : ar6k_s :=
  let s := on_hif s fun h => { h with
    mbox := upd h.mbox (((addr - AR6K_HIF_MBOX_BASE : Nat) : Int)) value }
  on_hif s fun h => { h with
    mbox_count := upd h.mbox_count ((addr - AR6K_HIF_MBOX_BASE) >>> 11)
      (h.mbox_count ((addr - AR6K_HIF_MBOX_BASE) >>> 11) + 1) }

end mbox_spec

section mbox_spec2

/-- The chip part after `ar6k_hif_txcredit_reset`. -/
def credit_reset_x (e : ar6k_x) (mbox : Nat) : ar6k_x :=
  if e.hif.counter_int_stat &&& (1 <<< mbox) = 0 then
    { e with
      hif := { e.hif with
        cnt_tx := upd e.hif.cnt_tx mbox 0
        counter_int_stat := e.hif.counter_int_stat ||| (1 <<< mbox) }
      cnt_irq_update := true }
  else { e with hif := { e.hif with cnt_tx := upd e.hif.cnt_tx mbox 0 } }

/-- The chip part after `ar6k_hif_txcredit_grant`. -/
def credit_grant_x (e : ar6k_x) (mbox : Nat) : ar6k_x :=
  if e.hif.counter_int_stat &&& (1 <<< (mbox + 4)) = 0 then
    { e with
      hif := { e.hif with
        cnt_tx := upd e.hif.cnt_tx mbox 0xff
        counter_int_stat := e.hif.counter_int_stat ||| (1 <<< (mbox + 4)) }
      cnt_irq_update := true }
  else { e with hif := { e.hif with cnt_tx := upd e.hif.cnt_tx mbox 0xff } }

/-- The chip part after `ar6k_bmi_write`. -/
def bmi_write_x (e : ar6k_x) (base len : Int) : ar6k_x :=
  if len < 4 then e
  else if le32_at e.hif.mbox (base + 0x800 - len) = bmi_no_command then
    { e with hif := { e.hif with cnt := upd e.hif.cnt 0 0 } }
  else if le32_at e.hif.mbox (base + 0x800 - len) = bmi_done then
    { e with hif := { e.hif with cnt := upd e.hif.cnt 0 0 }, bmi_done := 1 }
  else if le32_at e.hif.mbox (base + 0x800 - len) = bmi_get_target_id then
    { e with hif := { e.hif with
        mbox := put_le32 e.hif.mbox (base + 0x800 - 4) BMI_TARGET_VERSION_ID
        cnt := upd e.hif.cnt 0 4 } }
  else e

/-- The chip part after `mbox_store`. -/
def mbox_store_x (e : ar6k_x) (addr value : Nat) : ar6k_x :=
  { e with hif := { e.hif with
      mbox := upd e.hif.mbox (((addr - 0x800 : Nat) : Int)) value
      mbox_count := upd e.hif.mbox_count ((addr - 0x800) >>> 11)
        (e.hif.mbox_count ((addr - 0x800) >>> 11) + 1) } }

/-- The chip part after a host write that completes a message of mailbox
`mbox`, from the chip part `e` that holds the byte and the count already. -/
def mbox_complete_x (e : ar6k_x) (mbox : Nat) : ar6k_x :=
  let e1 := credit_reset_x e mbox
  let e2 := if mbox = 0 ∧ e1.bmi_done = 0 then
      bmi_write_x e1 (((mbox <<< 11 : Nat) : Int)) (e1.hif.mbox_count mbox)
    else e1
  credit_grant_x
    { e2 with hif := { e2.hif with mbox_count := upd e2.hif.mbox_count mbox 0 } } mbox

end mbox_spec2

section mbox_spec3

/-- The BMI session flag, the mailbox contents and the counts `cnt` are the
same in two chip parts. -/
def bmi_frame (e e2 : ar6k_x) : Prop :=
  e2.bmi_done = e.bmi_done ∧ e2.hif.mbox = e.hif.mbox ∧ e2.hif.cnt = e.hif.cnt

end mbox_spec3

/-! ## WMI event transport -/

section wmi

def AR6K_HTC_HEADER_LEN : Nat := 2
def WMI_CONTROL_MBOX : Nat := 0
def WMI_READY_EVENTID : Nat := 0x1001
def WMI_11AG_CAPABILITY : Nat := 3

/-- The value of `memcpy(dst, buffer, len)` with `dst` at offset `off` of the
mailbox array. -/
def mbox_copy (m : Int → Nat) (off : Int) (buffer : Nat → Nat) (len : Nat) : Int → Nat :=
  fun j => if off ≤ j ∧ j < off + (len : Int) then buffer (j - off).toNat else m j

/-- The `send` callback of the transport: `wmi_init` is only called with
`ar6k_hif_wmi_event`.  `datap` is the byte offset of the pointer in
`hif.mbox`; `cpu_to_le16wu` stores the low 16 bits little-endian. -/
def ar6k_hif_wmi_event (s : ar6k_s) (buffer : Nat → Nat) (len : Nat) : ar6k_s :=
  let mbox := WMI_CONTROL_MBOX
  let s := on_hif s fun h => { h with rx_la := upd h.rx_la mbox len }
  let s := on_hif s fun h => { h with rx_la_valid := h.rx_la_valid ||| (1 <<< mbox) }
  let datap : Int := (((mbox + 1) <<< 11 : Nat) : Int) - ((len + AR6K_HTC_HEADER_LEN : Nat) : Int)
  let s := on_hif s fun h => { h with
    mbox := upd (upd h.mbox datap (len &&& 0xff)) (datap + 1) ((len >>> 8) &&& 0xff) }
  let s := on_hif s fun h => { h with mbox := mbox_copy h.mbox (datap + 2) buffer len }
  if s.ext.hif.host_int_stat &&& (1 <<< mbox) = 0 then
    ar6k_hif_intr_update
      (on_hif s fun h => { h with host_int_stat := h.host_int_stat ||| (1 <<< mbox) })
  else s

/-- The message `struct wmi_msg_s` is packed: the 16-bit `id` in the byte
order of the host (`be` tells whether the host is big-endian), then `len`
bytes of `data`; `sizeof(msg.id) + len` bytes are sent. -/
def wmi_make_event ( be : Bool) (s : ar6k_s) (id : Nat) (data : Nat → Nat) (len : Nat) :
    ar6k_s :=
  let msg : Nat → Nat := fun i =>
    if i = 0 then (if be then (id >>> 8) &&& 0xff else id &&& 0xff)
    else if i = 1 then (if be then id &&& 0xff else (id >>> 8) &&& 0xff)
    else if i < 2 + len then data (i - 2) else 0
  ar6k_hif_wmi_event s msg (2 + len)

/-- The event `struct wmi_ready_event_s` is packed: six bytes of
`nd->macaddr` and the capability byte. -/
def wmi_ready_event ( be : Bool) (s : ar6k_s) : ar6k_s :=
  let ev : Nat → Nat := fun i => if i < 6 then s.ext.macaddr i else WMI_11AG_CAPABILITY
  wmi_make_event be s WMI_READY_EVENTID ev 7

/-- The callback of the `alive` timer of the transport.  There is no result
when the transport is gone: `ar6k_bmi_reset` frees it and leaves the timer
armed, the callback then reads freed memory. -/
def wmi_alive_tick ( be : Bool) (s : ar6k_s) : Option ar6k_s :=
  match s.ext.wmi with
  | none => none
  | some w =>
    let s : ar6k_s := { s with ext := { s.ext with wmi := some { w with alive := false } } }
    some (wmi_ready_event be s)

end wmi

section mbox_spec4

/-- The little-endian 32-bit word that starts a list of bytes. -/
def le32_of (bs : List Nat) : Nat :=
  bs.getD 0 0 ||| (bs.getD 1 0 <<< 8) ||| (bs.getD 2 0 <<< 16) ||| (bs.getD 3 0 <<< 24)

/-- The AR6000 after attach with the unsupported command 2 (read memory) in the
last four bytes of mailbox 0. -/
def st_badcmd : ar6k_s :=
  on_hif st_attach fun h => { h with mbox := upd h.mbox 0x7fc 2 }

end mbox_spec4

/-- The AR6000 after attach and the four-byte BMI message "done" written to
the end of mailbox 0. -/
def st_done : ar6k_s := hif_write_bytes st_attach 0xffc [1, 0, 0, 0]

/-- The members of the controller that an interrupt update and the reset
hook of the AR6000 leave alone: `b` agrees with `a` on the card state, the
RCA, the SDIO flag, the card status, the block lengths, the transfer context,
the SPI flag, the command registers, the revision, the FBR and the CIS. -/
def core_frame (a b : sdio_s χ) : Prop :=
  b.state = a.state ∧ b.rca = a.rca ∧ b.sdio_ok = a.sdio_ok ∧
  b.card_status = a.card_status ∧ b.blk_len = a.blk_len ∧ b.transfer = a.transfer ∧
  b.spi = a.spi ∧ b.current_cmd = a.current_cmd ∧ b.next_cmd = a.next_cmd ∧
  b.cccr.revision = a.cccr.revision ∧ b.fbr = a.fbr ∧ b.cis = a.cis ∧ b.cislen = a.cislen

/-- The AR6000 in Command state after the host has written 0x08 (RES) to the
abort register with CMD52. -/
def st_res : ar6k_s := (sdio_do_command sd_h.std ar6k_ops st_command ⟨52, 0x80000c08, 0⟩).1

/-- The card `st_res` initialised and selected again (CMD5, CMD3, CMD7). -/
def st_res_command : ar6k_s :=
  (sdio_do_command sd_h.std ar6k_ops
    (sdio_do_command sd_h.std ar6k_ops
      (sdio_do_command sd_h.std ar6k_ops st_res ⟨5, 0x00ff0000, 0⟩).1 ⟨3, 0, 0⟩).1
    ⟨7, 0x45670000, 0⟩).1

/-- The AR6000 in Command state with a CMD53 write of function 1 open. -/
def st_xfer : ar6k_s := (sdio_do_command sd_h.std ar6k_ops st_command ⟨53, 0x9008c003, 0⟩).1

/-- The byte of the function-0 address space at address `x`, region by
region: the CCCR register below 0x100, the FBR register `x & 0xff` of function
`x >> 8` below 0x800, 0 in the gap below the CIS, the byte `x - 0x1000` of the
CIS table while inside it, and 0 beyond. -/
def cia_byte (sd : sdio_s χ) (x : Nat) : Nat :=
  if x < 0x100 then sdio_cccr_read sd x
  else if x < 0x800 then (sdio_fbr_read sd (x >>> 8) (x &&& 0xff)).2
  else if x < SDIO_CIS_START then 0
  else if x - SDIO_CIS_START < sd.cislen then sd.cis (x - SDIO_CIS_START)
  else 0

/-- The controller `t` has the registers of `sd` that a function-0 read at an
address from `x` on can deliver: only the buffer of the transfer and the CSA
pointers of the functions whose window register 0x0f lies below `x` may
differ. -/
def fbr_above (sd t : sdio_s χ) (x : Nat) : Prop :=
  t.cccr = sd.cccr ∧ t.blk_len = sd.blk_len ∧ t.cis = sd.cis ∧ t.cislen = sd.cislen ∧
  t.transfer.step = sd.transfer.step ∧ t.transfer.func = sd.transfer.func ∧
  ∀ n, (t.fbr n).stdfn = (sd.fbr n).stdfn ∧ (t.fbr n).ext_stdfn = (sd.fbr n).ext_stdfn ∧
    (t.fbr n).power = (sd.fbr n).power ∧ (t.fbr n).cis_offset = (sd.fbr n).cis_offset ∧
    (x ≤ 0x100 * (n + 1) + 0x0f → (t.fbr n).csa_addr = (sd.fbr n).csa_addr)

/-- The statement of `sdio_cia_read` for the gap between the FBR area and the
CIS. -/
def cia_rfu (c : cia_cursor χ) : cia_cursor χ :=
  if c.len ≠ 0 ∧ c.addr < SDIO_CIS_START then
    let llen := if c.sd.transfer.step ≠ 0 then min c.len (SDIO_CIS_START - c.addr) else c.len
    ⟨data_zero c.sd c.pos llen, SDIO_CIS_START, c.pos + llen, c.len - llen⟩
  else c

/-- The statements of `sdio_cia_read` for the CIS: `addr -= SDIO_CIS_START` and
the copy from the table. -/
def cia_cis (c : cia_cursor χ) : cia_cursor χ :=
  let c : cia_cursor χ := { c with addr := (c.addr + 2 ^ 32 - SDIO_CIS_START) % 2 ^ 32 }
  if c.len ≠ 0 ∧ c.addr < c.sd.cislen then
    let llen := min c.len (c.sd.cislen - c.addr)
    ⟨data_copy c.sd c.pos c.sd.cis c.addr llen, c.addr, c.pos + llen, c.len - llen⟩
  else c

/-- The last statement of `sdio_cia_read`: what is left of the buffer is
cleared. -/
def cia_fill (c : cia_cursor χ) : sdio_s χ :=
  if c.len ≠ 0 then data_zero c.sd c.pos c.len else c.sd

/-- The statements of `sdio_cia_read` after its two loops. -/
def cia_read_tail (c : cia_cursor χ) : sdio_s χ :=
  cia_fill (cia_cis (cia_rfu c))

/-- The AR6000 in Transfer state after CMD53 for an incrementing read of 0x20
bytes of function 0 from address 0xf0. -/
def st_cia : ar6k_s := (sdio_do_command sd_h.std ar6k_ops st_command ⟨53, 0x0401e020, 0⟩).1

/-! ## Decoded register addresses -/

/-- The HIF addresses with a case in `ar6k_hif_write` that stores or acts
(the cases that only jump to `bad_reg` are left out). -/
def hif_write_decodes (addr : Nat) : Prop :=
  addr = AR6K_HOST_INT_STAT ∨ addr = AR6K_CPU_INT_STAT ∨ addr = AR6K_ERROR_INT_STAT ∨
  addr = AR6K_COUNTER_INT_STAT ∨ addr = AR6K_MBOX_FRAME ∨ addr = AR6K_INT_STAT_ENABLE ∨
  addr = AR6K_CPU_INT_STAT_ENABLE ∨ addr = AR6K_ERROR_STAT_ENABLE ∨
  addr = AR6K_COUNTER_INT_STAT_ENABLE ∨ (AR6K_SCRATCH ≤ addr ∧ addr ≤ AR6K_SCRATCH + 7) ∨
  addr = AR6K_INT_WLAN ∨ (AR6K_HIF_MBOX_BASE ≤ addr ∧ addr ≤ AR6K_HIF_MBOX_END)

instance (addr : Nat) : Decidable (hif_write_decodes addr) := by
  unfold hif_write_decodes
  infer_instance

/-- The HIF addresses with a case in `ar6k_hif_read` that returns a register
(the cases that only jump to `bad_reg` are left out, and so is the part of the
CIS window beyond the CIS). -/
def hif_read_decodes (s : ar6k_s) (addr : Nat) : Prop :=
  addr = AR6K_HOST_INT_STAT ∨ addr = AR6K_CPU_INT_STAT ∨ addr = AR6K_ERROR_INT_STAT ∨
  addr = AR6K_COUNTER_INT_STAT ∨ addr = AR6K_MBOX_FRAME ∨ addr = AR6K_RX_LOOKAHEAD_VALID ∨
  (AR6K_RX_LOOKAHEAD0 ≤ addr ∧ addr ≤ AR6K_RX_LOOKAHEAD3 + 3) ∨
  addr = AR6K_INT_STAT_ENABLE ∨ addr = AR6K_CPU_INT_STAT_ENABLE ∨
  addr = AR6K_ERROR_STAT_ENABLE ∨ addr = AR6K_COUNTER_INT_STAT_ENABLE ∨
  (AR6K_COUNT + 0x4 ≤ addr ∧ addr ≤ AR6K_COUNT + 0x7) ∨
  (addr = AR6K_COUNT_RESET + 0x0 ∨ addr = AR6K_COUNT_RESET + 0x4 ∨
    addr = AR6K_COUNT_RESET + 0x8 ∨ addr = AR6K_COUNT_RESET + 0xc) ∨
  (addr = AR6K_COUNT_DEC + 0x0 ∨ addr = AR6K_COUNT_DEC + 0x4 ∨
    addr = AR6K_COUNT_DEC + 0x8 ∨ addr = AR6K_COUNT_DEC + 0xc) ∨
  (AR6K_SCRATCH ≤ addr ∧ addr ≤ AR6K_SCRATCH + 7) ∨ addr = AR6K_INT_WLAN ∨
  ((AR6K_CIS_WINDOW ≤ addr ∧ addr ≤ AR6K_CIS_WINDOW + 0x1ff) ∧
    ¬ addr ≥ AR6K_CIS_WINDOW + s.cislen) ∨
  (AR6K_HIF_MBOX_BASE ≤ addr ∧ addr ≤ AR6K_HIF_MBOX_END)

instance (s : ar6k_s) (addr : Nat) : Decidable (hif_read_decodes s addr) := by
  unfold hif_read_decodes
  infer_instance

/-- The offsets with a case in `sdio_cccr_write`. -/
def cccr_write_offsets : List Nat := [0x02, 0x04, 0x06, 0x07, 0x08, 0x0f, 0x10, 0x11, 0x12, 0x13]

/-- The offsets with a case in `sdio_cccr_read`. -/
def cccr_read_offsets : List Nat :=
  [0x00, 0x01, 0x02, 0x03, 0x04, 0x05, 0x07, 0x08, 0x09, 0x0a, 0x0b, 0x1c, 0x1d, 0x0e, 0x0f,
   0x10, 0x11, 0x12, 0x13]

/-- The offsets with a case in `sdio_fbr_write`. -/
def fbr_write_offsets : List Nat := [0x00, 0x02, 0x0c, 0x0d, 0x0e, 0x0f, 0x10, 0x11]

/-- The offsets with a case in `sdio_fbr_read`. -/
def fbr_read_offsets : List Nat :=
  [0x00, 0x01, 0x02, 0x09, 0x0a, 0x0b, 0x0c, 0x0d, 0x0e, 0x0f, 0x10, 0x11]

/-- The AR6000 sent to Inactive by CMD15 from the Command state. -/
def st_inactive : ar6k_s := (sdio_do_command sd_h.std ar6k_ops st_command ⟨15, 0x45670000, 0⟩).1

/-- An AR6000 controller in SPI mode and Inactive. -/
def st_spi_inactive : ar6k_s := { st_attach with state := sd_inactive_state, spi := 1 }

/-- The AR6000 in a byte-mode CMD53 write of one byte to the abort register
(function 0, address 0x06), before the byte. -/
def st_abort1 : ar6k_s := (sdio_do_command sd_h.std ar6k_ops st_command ⟨53, 0x80000c01, 0⟩).1

/-- The AR6000 in a byte-mode CMD53 write of two bytes to the abort register
(function 0, fixed address 0x06), before the first byte. -/
def st_abort2 : ar6k_s := (sdio_do_command sd_h.std ar6k_ops st_command ⟨53, 0x80000c02, 0⟩).1

/-- The transfer of `st_fixed3` after CMD7 was issued and rejected. -/
def st_fixed3_cmd7 : ar6k_s :=
  (sdio_do_command sd_h.std ar6k_ops st_fixed3 ⟨7, 0x45670000, 0⟩).1

/-- The transfer of `st_fixed3` after a CMD53 was issued and rejected. -/
def st_fixed3_cmd53 : ar6k_s :=
  (sdio_do_command sd_h.std ar6k_ops st_fixed3 ⟨53, 0x9008c003, 0⟩).1

/-- The AR6000 in Command state after the host has written 0x02 to the power
selection register of the FBR of function 1 (function 0, address 0x102) with
CMD52. -/
def st_fbr_power : ar6k_s := (sdio_do_command sd_h.std ar6k_ops st_command ⟨52, 0x80020402, 0⟩).1

/-- The one-byte write of function 0 as the CMD52 case issues it: the byte is
stored at the head of the buffer and the handler is called with length 1. -/
def cia_write_one (hook : Option (sdio_s χ → sdio_s χ)) (sd : sdio_s χ) (addr v : Nat) :
    sdio_s χ :=
  sdio_cia_write hook (put_data sd 0 v) addr 1

/-- A store `sd->blk_len[f] = x`. -/
def set_blk (sd : sdio_s χ) (f x : Nat) : sdio_s χ :=
  { sd with blk_len := upd sd.blk_len f x }

/-- The AR6000 in Command state with the block size of function 1 set to 2048
through CMD52 writes of 0x00 to 0x110 and 0x08 to 0x111. -/
def st_blk2048 : ar6k_s :=
  (sdio_do_command sd_h.std ar6k_ops
    (sdio_do_command sd_h.std ar6k_ops st_command ⟨52, 0x80022000, 0⟩).1
    ⟨52, 0x80022208, 0⟩).1

/-! ## Invariants of the bus operations -/

/-- In every FBR the CSA-enable bit (bit 7 of the interface code) is set only
if the CSA-support bit (bit 6) is set. -/
def csa_ok (sd : sdio_s χ) : Prop :=
  ∀ n, (sd.fbr n).stdfn &&& (1 <<< 7) ≠ 0 → (sd.fbr n).stdfn &&& (1 <<< 6) ≠ 0

/-- The transfer context of a card in Transfer state is inside the buffer:
the block length is in 1..2048, the running offset is below it, and the block
count is the sentinel -1 or in 1..512. -/
def xfer_ok (sd : sdio_s χ) : Prop :=
  sd.state = sd_transfer_state →
    1 ≤ sd.transfer.blk_len ∧ sd.transfer.blk_len ≤ 2048 ∧
    sd.transfer.data_offset < sd.transfer.blk_len ∧
    (sd.transfer.blk_num = -1 ∨ (1 ≤ sd.transfer.blk_num ∧ sd.transfer.blk_num ≤ 512))

/-- What a function handler of the AR6000 leaves of the controller `s` in
`t`: the numbers of the transfer context and the SPI flag are kept, the card
does not enter Transfer state, the CSA bits stay consistent, and the I/O OCR is
kept or is the word of the AR6000 (after a reset). -/
def bus_frame (s t : sdio_s χ) : Prop :=
  t.transfer.blk_len = s.transfer.blk_len ∧ t.transfer.blk_num = s.transfer.blk_num ∧
  t.transfer.data_offset = s.transfer.data_offset ∧ t.spi = s.spi ∧
  (t.state = sd_transfer_state → s.state = sd_transfer_state) ∧
  (csa_ok s → csa_ok t) ∧
  (t.ioocr = s.ioocr ∨ t.ioocr = 0x10fe0000)

/-- The invariant of the AR6000 controller along the bus operations: the CSA
bits are consistent (under the condition `c`, which stands for the same fact
about the interface code put in at attach), the transfer context of a card in
Transfer state is inside the buffer, the I/O OCR is the word of the AR6000
and the bus is in native mode. -/
def bus_inv (c : Prop) (s : sdio_s χ) : Prop :=
  (c → csa_ok s) ∧ xfer_ok s ∧ s.ioocr = 0x10fe0000 ∧ s.spi = 0

/-- The controller states of the AR6000 reached from attach through
`sdio_do_command`, `sdio_write_data`, `sdio_read_data`, the callback of the
counter timer and injected events. -/
inductive bus_reachable (k : sd_h) (t : cis_h) : ar6k_s → Prop where
  | attach (macaddr : Nat → Nat) : bus_reachable k t (ar6k_init t macaddr)
  | command (s : ar6k_s) (req : sd_request_s) :
      bus_reachable k t s → bus_reachable k t (sdio_do_command k ar6k_ops s req).1
  | write (s : ar6k_s) (v : Nat) :
      bus_reachable k t s → bus_reachable k t (sdio_write_data ar6k_ops k s v)
  | read (s : ar6k_s) :
      bus_reachable k t s → bus_reachable k t (sdio_read_data ar6k_ops k s).1
  | tick (s : ar6k_s) : bus_reachable k t s → bus_reachable k t (ar6k_hif_cnt_irq_tick s)
  | event (s : ar6k_s) (buffer : Nat → Nat) (len : Nat) :
      bus_reachable k t s → bus_reachable k t (ar6k_hif_wmi_event s buffer len)

/-- The statements of `ar6k_init` before the call of `ar6k_reset`. -/
def ar6k_init_regs (t : cis_h) (macaddr : Nat → Nat) : ar6k_s :=
  let s := sdio_init (ar6k_zero macaddr)
  let f0 : fbr_s := { s.fbr 0 with
    stdfn := 0 ||| t.sdio_fn_none, ext_stdfn := t.sdio_ext_fn_none }
  let s := { s with fbr := upd s.fbr 0 f0 }
  let s := { s with cccr := { s.cccr with revision := 0x11 } }
  let s := { s with cislen := (ar6k_cis t).length + (ar6k_fn1_cis t).length }
  let f0 : fbr_s := { s.fbr 0 with cis_offset := (ar6k_cis t).length }
  let s := { s with fbr := upd s.fbr 0 f0 }
  { s with cis := fun i => ((ar6k_cis t) ++ (ar6k_fn1_cis t)).getD i 0 }

/-- The tuple codes of `cis_h.std` with an interface code that advertises CSA
support (bit 6). -/
def cis_csa : cis_h := { cis_h.std with sdio_fn_none := 0x40 }

/-- The AR6000 attached with the codes `cis_csa`, taken to Command state. -/
def st_csa : ar6k_s :=
  (sdio_do_command sd_h.std ar6k_ops
    (sdio_do_command sd_h.std ar6k_ops
      (sdio_do_command sd_h.std ar6k_ops (ar6k_init cis_csa (fun _ => 0)) ⟨5, 0x00ff0000, 0⟩).1
      ⟨3, 0, 0⟩).1
    ⟨7, 0x45670000, 0⟩).1

/-- The AR6000 with block size 2048 for function 1 and a CMD53 write of one
block to address 0x800 open. -/
def st_w2048 : ar6k_s := (sdio_do_command sd_h.std ar6k_ops st_blk2048 ⟨53, 0x9c100001, 0⟩).1

/-- The card `st_w2048` after the host has sent the 2048 bytes of the block. -/
def st_w2048_done : ar6k_s := write_bytes ar6k_ops sd_h.std st_w2048 (List.replicate 2048 0)

/-- The AR6000 after attach and one host write to the first byte of the
window of mailbox 0. -/
def st_mb1 : ar6k_s := ar6k_hif_write st_attach 0x800 0

/-- The chip `st_mb1` after host writes to the bytes 0x800..0xffe of the
window of mailbox 0: 2048 writes since attach, none to the last byte. -/
def st_mb2048 : ar6k_s := hif_write_bytes st_mb1 0x800 (List.replicate 2047 0)

/-! ## Bit-level lemmas -/

theorem testBit_bic (x m i : Nat) :
    (bic x m).testBit i = (x.testBit i && (decide (i < 32) != m.testBit i)) := by
  unfold bic
  rw [Nat.testBit_and, Nat.testBit_xor]
  have h : (0xffffffff : Nat) = 2 ^ 32 - 1 := by norm_num
  rw [h, Nat.testBit_two_pow_sub_one]

theorem or_and_self (x m : Nat) : (x ||| m) &&& m = m := by
  apply Nat.eq_of_testBit_eq
  intro i
  rw [Nat.testBit_and, Nat.testBit_or]
  cases x.testBit i <;> cases m.testBit i <;> rfl

theorem testBit_false_of_and_eq_zero {m c : Nat} (h : m &&& c = 0) (i : Nat)
    (hm : m.testBit i = true) : c.testBit i = false := by
  have h1 := congrArg (fun n => Nat.testBit n i) h
  simp only [Nat.testBit_and, Nat.zero_testBit, hm, Bool.true_and] at h1
  exact h1

theorem testBit_lt_32 {m : Nat} (h32 : m < 2 ^ 32) (i : Nat) (hm : m.testBit i = true) :
    i < 32 := by
  by_contra hge
  have h : m.testBit i = false :=
    Nat.testBit_eq_false_of_lt
      (lt_of_lt_of_le h32 (Nat.pow_le_pow_right (by norm_num) (not_lt.mp hge)))
  simp [h] at hm

/-- A flag outside the mask `c` survives `& ~c`. -/
theorem bic_or_and_self (x m c : Nat) (h32 : m < 2 ^ 32) (hc : m &&& c = 0) :
    bic (x ||| m) c &&& m = m := by
  apply Nat.eq_of_testBit_eq
  intro i
  rw [Nat.testBit_and, testBit_bic, Nat.testBit_or]
  cases hm : m.testBit i
  · simp
  · have hi := testBit_lt_32 h32 i hm
    have := testBit_false_of_and_eq_zero hc i hm
    simp [this, hi]

/-- A flag `m` is clear after `& ~(a | m)`. -/
theorem bic_or_and_right (x a m : Nat) (h32 : m < 2 ^ 32) :
    bic x (a ||| m) &&& m = 0 := by
  apply Nat.eq_of_testBit_eq
  intro i
  rw [Nat.testBit_and, testBit_bic, Nat.testBit_or, Nat.zero_testBit]
  cases hm : m.testBit i
  · simp
  · have hi := testBit_lt_32 h32 i hm
    simp [hi]

/-- Clearing bits never sets a flag. -/
theorem bic_and_eq_zero (x c m : Nat) (h : x &&& m = 0) : bic x c &&& m = 0 := by
  apply Nat.eq_of_testBit_eq
  intro i
  rw [Nat.testBit_and, testBit_bic, Nat.zero_testBit]
  cases hm : m.testBit i
  · simp
  · have h1 := congrArg (fun n => Nat.testBit n i) h
    simp only [Nat.testBit_and, Nat.zero_testBit, hm, Bool.and_true] at h1
    simp [h1]

/-! ## Command decode: rejected commands -/

section commands
open sd_state_e sd_rsp_type_t
variable {χ : Type}

/-- A command without a case in the switch, or in a state its case does not
list, takes the common tail of `sdio_normal_command`. -/
theorem sdio_normal_command_bad (k : sd_h) (ops : sdio_ops χ) (sd : sdio_s χ)
    (cmd arg crc : Nat)
    (hbad :
      (cmd = 3 ∧ sd.state ≠ sd_initialization_state ∧ sd.state ≠ sd_standby_state) ∨
      (cmd = 5 ∧ sd.state ≠ sd_initialization_state) ∨
      (cmd = 7 ∧ sd.state ≠ sd_standby_state ∧ sd.state ≠ sd_command_state) ∨
      (cmd = 15 ∧ sd.state ≠ sd_initialization_state ∧ sd.state ≠ sd_standby_state ∧
        sd.state ≠ sd_command_state) ∨
      (cmd = 52 ∧ sd.state ≠ sd_command_state ∧ sd.state ≠ sd_transfer_state) ∨
      (cmd = 53 ∧ sd.state ≠ sd_command_state) ∨
      cmd ∉ [0, 3, 5, 7, 15, 52, 53, 59]) :
    sdio_normal_command k ops sd ⟨cmd, arg, crc⟩ = bad_cmd k sd := by
  unfold sdio_normal_command
  rcases hbad with h | h | h | h | h | h | h
  · obtain ⟨rfl, h1, h2⟩ := h
    cases hs : sd.state <;> simp_all
  · obtain ⟨rfl, h1⟩ := h
    cases hs : sd.state <;> simp_all
  · obtain ⟨rfl, h1, h2⟩ := h
    cases hs : sd.state <;> simp_all
  · obtain ⟨rfl, h1, h2, h3⟩ := h
    cases hs : sd.state <;> simp_all
  · obtain ⟨rfl, h1, h2⟩ := h
    cases hs : sd.state <;> simp_all
  · obtain ⟨rfl, h1⟩ := h
    cases hs : sd.state <;> simp_all
  · simp only [List.mem_cons, List.mem_singleton, not_or, List.not_mem_nil, or_false] at h
    obtain ⟨h0, h3, h5, h7, h15, h52, h53, h59⟩ := h
    simp [h0, h3, h5, h7, h15, h52, h53, h59]

/-- What `sdio_do_command` returns once the decode has taken the common tail:
the CardState is kept, ILLEGAL_COMMAND is set and the length is 0. -/
theorem sdio_do_command_of_bad (k : sd_h) (ops : sdio_ops χ) (sd : sdio_s χ)
    (req : sd_request_s)
    (hne : k.ILLEGAL_COMMAND ≠ 0) (h32 : k.ILLEGAL_COMMAND < 2 ^ 32)
    (hC : k.ILLEGAL_COMMAND &&& k.CARD_STATUS_C = 0)
    (hn : ∀ s : sdio_s χ, s.state = sd.state → s.spi = sd.spi → s.sdio_ok = sd.sdio_ok →
      sdio_normal_command k ops s req = bad_cmd k s) :
    (sdio_do_command k ops sd req).1.state = sd.state ∧
    (sdio_do_command k ops sd req).1.rca = sd.rca ∧
    (sdio_do_command k ops sd req).1.card_status &&& k.ILLEGAL_COMMAND ≠ 0 ∧
    (sdio_do_command k ops sd req).2.1 = 0 := by
  have hn1 := hn { sd with
    card_status := bic sd.card_status (k.COM_CRC_ERROR ||| k.ILLEGAL_COMMAND)
    next_cmd := req.cmd } rfl rfl rfl
  unfold sdio_do_command
  simp only [sd_req_crc_validate, ne_eq, not_true_eq_false, if_false]
  rw [hn1]
  unfold bad_cmd
  by_cases hspi : sd.spi = 0
  · simp [hspi, or_and_self, hne]
  · simp [hspi, sd_response_r1_make, bic_or_and_self _ _ _ h32 hC, hne]

/-- C1: a command that is not valid for the current CardState (CMD3 outside
Initialization/Standby, CMD5 outside Initialization, CMD7 outside
Standby/Command, CMD15 outside Initialization/Standby/Command, CMD52 outside
Command/Transfer, CMD53 outside Command), or that has no case in the decode
switch, leaves the CardState unchanged, sets ILLEGAL_COMMAND in the card status
and makes `sdio_do_command` return length 0.  The flag constants are
parameters: ILLEGAL_COMMAND is a non-zero 32-bit mask outside the class
`CARD_STATUS_C`. -/
theorem sdio_do_command_illegal (k : sd_h) (ops : sdio_ops χ) (sd : sdio_s χ)
    (cmd arg crc : Nat)
    (hne : k.ILLEGAL_COMMAND ≠ 0) (h32 : k.ILLEGAL_COMMAND < 2 ^ 32)
    (hC : k.ILLEGAL_COMMAND &&& k.CARD_STATUS_C = 0)
    (_hcmd : cmd < 64)
    (hbad :
      (cmd = 3 ∧ sd.state ≠ sd_initialization_state ∧ sd.state ≠ sd_standby_state) ∨
      (cmd = 5 ∧ sd.state ≠ sd_initialization_state) ∨
      (cmd = 7 ∧ sd.state ≠ sd_standby_state ∧ sd.state ≠ sd_command_state) ∨
      (cmd = 15 ∧ sd.state ≠ sd_initialization_state ∧ sd.state ≠ sd_standby_state ∧
        sd.state ≠ sd_command_state) ∨
      (cmd = 52 ∧ sd.state ≠ sd_command_state ∧ sd.state ≠ sd_transfer_state) ∨
      (cmd = 53 ∧ sd.state ≠ sd_command_state) ∨
      cmd ∉ [0, 3, 5, 7, 15, 52, 53, 59]) :
    (sdio_do_command k ops sd ⟨cmd, arg, crc⟩).1.state = sd.state ∧
    (sdio_do_command k ops sd ⟨cmd, arg, crc⟩).1.card_status &&& k.ILLEGAL_COMMAND ≠ 0 ∧
    (sdio_do_command k ops sd ⟨cmd, arg, crc⟩).2.1 = 0 := by
  have h := sdio_do_command_of_bad k ops sd ⟨cmd, arg, crc⟩ hne h32 hC
    (fun s hs _ _ => sdio_normal_command_bad k ops s cmd arg crc (by rw [hs]; exact hbad))
  exact ⟨h.1, h.2.2.1, h.2.2.2⟩

/-- Witness of C1: CMD7 on the AR6000 right after attach (Initialization). -/
theorem sdio_do_command_illegal_witness :
    (sdio_do_command sd_h.std ar6k_ops (ar6k_init cis_h.std (fun _ => 0)) ⟨7, 0, 0⟩).1.state
      = (ar6k_init cis_h.std (fun _ => 0)).state ∧
    (sdio_do_command sd_h.std ar6k_ops (ar6k_init cis_h.std (fun _ => 0))
      ⟨7, 0, 0⟩).1.card_status &&& sd_h.std.ILLEGAL_COMMAND ≠ 0 ∧
    (sdio_do_command sd_h.std ar6k_ops (ar6k_init cis_h.std (fun _ => 0)) ⟨7, 0, 0⟩).2.1 = 0 :=
  sdio_do_command_illegal sd_h.std ar6k_ops (ar6k_init cis_h.std (fun _ => 0)) 7 0 0
    (by decide) (by decide) (by decide) (by decide)
    (Or.inr (Or.inr (Or.inl ⟨rfl, by decide, by decide⟩)))

/-! ## CMD3 and CMD5 -/

theorem be16_bytes (x : Nat) (h : x < 0x10000) :
    (x >>> 8) &&& 0xff = x / 256 ∧ x &&& 0xff = x % 256 := by
  have e1 : (0xff : Nat) = 2 ^ 8 - 1 := by norm_num
  rw [e1, Nat.and_pow_two_sub_one_eq_mod, Nat.and_pow_two_sub_one_eq_mod, Nat.shiftRight_eq_div_pow]
  constructor <;> omega

/-- An accepted CMD3, at the level of `sdio_do_command`. -/
theorem sdio_do_command_cmd3 (k : sd_h) (ops : sdio_ops χ) (sd : sdio_s χ) (arg crc : Nat)
    (h32 : k.ILLEGAL_COMMAND < 2 ^ 32)
    (hspi : sd.spi = 0) (hok : sd.sdio_ok ≠ 0)
    (hst : sd.state = sd_initialization_state ∨ sd.state = sd_standby_state) :
    (sdio_do_command k ops sd ⟨3, arg, crc⟩).1.rca = (sd.rca + 0x4567) % 2 ^ 16 ∧
    (sdio_do_command k ops sd ⟨3, arg, crc⟩).1.state = sd_standby_state ∧
    (sdio_do_command k ops sd ⟨3, arg, crc⟩).1.spi = 0 ∧
    (sdio_do_command k ops sd ⟨3, arg, crc⟩).1.sdio_ok = sd.sdio_ok ∧
    (sdio_do_command k ops sd ⟨3, arg, crc⟩).1.card_status &&& k.ILLEGAL_COMMAND = 0 ∧
    (sdio_do_command k ops sd ⟨3, arg, crc⟩).2.1 = 4 ∧
    (sdio_do_command k ops sd ⟨3, arg, crc⟩).2.2 =
      sd_response_r6_make k (sdio_do_command k ops sd ⟨3, arg, crc⟩).1 := by
  have hb := bic_or_and_right sd.card_status k.COM_CRC_ERROR k.ILLEGAL_COMMAND h32
  unfold sdio_do_command sdio_normal_command
  rcases hst with hs | hs <;>
    simp [sd_req_crc_validate, hspi, hok, hs, sd_set_rca, hb]

/-- An accepted CMD5 with a non-zero argument, at the level of
`sdio_do_command`. -/
theorem sdio_do_command_cmd5 (k : sd_h) (ops : sdio_ops χ) (sd : sdio_s χ) (arg crc : Nat)
    (h32 : k.ILLEGAL_COMMAND < 2 ^ 32)
    (hst : sd.state = sd_initialization_state) (harg : arg ≠ 0) :
    (sdio_do_command k ops sd ⟨5, arg, crc⟩).1.state = sd_initialization_state ∧
    (sdio_do_command k ops sd ⟨5, arg, crc⟩).1.sdio_ok = 1 ∧
    (sdio_do_command k ops sd ⟨5, arg, crc⟩).1.rca = sd.rca ∧
    (sdio_do_command k ops sd ⟨5, arg, crc⟩).1.spi = sd.spi ∧
    (sdio_do_command k ops sd ⟨5, arg, crc⟩).1.ioocr = sd.ioocr ∧
    (sdio_do_command k ops sd ⟨5, arg, crc⟩).2.1 = 4 ∧
    (sdio_do_command k ops sd ⟨5, arg, crc⟩).2.2 =
      [((sd.ioocr >>> 24) &&& 0xff) ||| (1 <<< 7), (sd.ioocr >>> 16) &&& 0xff,
       (sd.ioocr >>> 8) &&& 0xff, (sd.ioocr >>> 0) &&& 0xff] := by
  have hb := bic_or_and_right sd.card_status k.COM_CRC_ERROR k.ILLEGAL_COMMAND h32
  unfold sdio_do_command sdio_normal_command
  simp [sd_req_crc_validate, hst, harg, hb, sd_response_r4_make]

/-- C2 (as amended): every accepted CMD3 (native mode, device marked
SDIO-capable, CardState Initialization or Standby) sets the RCA to
(previous RCA + 0x4567) mod 2^16, moves the card to Standby and returns a 4-byte
R6 whose first two bytes are the new RCA big-endian; in particular, from a
reset state (Initialization, RCA 0) on which a CMD5 with a non-zero argument has
been accepted, two sequential CMD3 calls report RCA 0x4567 and then 0x8ACE. -/
theorem cmd3_advances_rca (k : sd_h) (ops : sdio_ops χ) (h32 : k.ILLEGAL_COMMAND < 2 ^ 32) :
    (∀ (sd : sdio_s χ) (arg crc : Nat), sd.spi = 0 → sd.sdio_ok ≠ 0 →
      (sd.state = sd_initialization_state ∨ sd.state = sd_standby_state) →
      (sdio_do_command k ops sd ⟨3, arg, crc⟩).1.rca = (sd.rca + 0x4567) % 2 ^ 16 ∧
      (sdio_do_command k ops sd ⟨3, arg, crc⟩).1.state = sd_standby_state ∧
      (sdio_do_command k ops sd ⟨3, arg, crc⟩).2.1 = 4 ∧
      ∃ b2 b3, (sdio_do_command k ops sd ⟨3, arg, crc⟩).2.2 =
        [(sdio_do_command k ops sd ⟨3, arg, crc⟩).1.rca / 256,
         (sdio_do_command k ops sd ⟨3, arg, crc⟩).1.rca % 256, b2, b3]) ∧
    (∀ (sd : sdio_s χ) (a5 c5 a3 c3 b3 d3 : Nat), sd.spi = 0 →
      sd.state = sd_initialization_state → sd.rca = 0 → a5 ≠ 0 →
      (sdio_do_command k ops (sdio_do_command k ops sd ⟨5, a5, c5⟩).1 ⟨3, a3, c3⟩).2.1 = 4 ∧
      (sdio_do_command k ops (sdio_do_command k ops sd ⟨5, a5, c5⟩).1
        ⟨3, a3, c3⟩).2.2.take 2 = [0x45, 0x67] ∧
      (sdio_do_command k ops (sdio_do_command k ops (sdio_do_command k ops sd ⟨5, a5, c5⟩).1
        ⟨3, a3, c3⟩).1 ⟨3, b3, d3⟩).2.1 = 4 ∧
      (sdio_do_command k ops (sdio_do_command k ops (sdio_do_command k ops sd ⟨5, a5, c5⟩).1
        ⟨3, a3, c3⟩).1 ⟨3, b3, d3⟩).2.2.take 2 = [0x8a, 0xce]) := by
  have hA : ∀ (sd : sdio_s χ) (arg crc : Nat), sd.spi = 0 → sd.sdio_ok ≠ 0 →
      (sd.state = sd_initialization_state ∨ sd.state = sd_standby_state) →
      (sdio_do_command k ops sd ⟨3, arg, crc⟩).1.rca = (sd.rca + 0x4567) % 2 ^ 16 ∧
      (sdio_do_command k ops sd ⟨3, arg, crc⟩).1.state = sd_standby_state ∧
      (sdio_do_command k ops sd ⟨3, arg, crc⟩).2.1 = 4 ∧
      ∃ b2 b3, (sdio_do_command k ops sd ⟨3, arg, crc⟩).2.2 =
        [(sdio_do_command k ops sd ⟨3, arg, crc⟩).1.rca / 256,
         (sdio_do_command k ops sd ⟨3, arg, crc⟩).1.rca % 256, b2, b3] := by
    intro sd arg crc hspi hok hst
    obtain ⟨h1, h2, _, _, _, h6, h7⟩ := sdio_do_command_cmd3 k ops sd arg crc h32 hspi hok hst
    refine ⟨h1, h2, h6, ?_⟩
    have hlt : (sdio_do_command k ops sd ⟨3, arg, crc⟩).1.rca < 0x10000 := by
      rw [h1]; exact Nat.mod_lt _ (by norm_num)
    obtain ⟨e1, e2⟩ := be16_bytes _ hlt
    rw [h7]
    unfold sd_response_r6_make
    simp only [e1, e2]
    exact ⟨_, _, rfl⟩
  refine ⟨hA, ?_⟩
  intro sd a5 c5 a3 c3 b3 d3 hspi hst hrca harg
  obtain ⟨g1, g2, g3, g4, _, _, _⟩ := sdio_do_command_cmd5 k ops sd a5 c5 h32 hst harg
  have hok1 : (sdio_do_command k ops sd ⟨5, a5, c5⟩).1.sdio_ok ≠ 0 := by rw [g2]; decide
  have hspi1 : (sdio_do_command k ops sd ⟨5, a5, c5⟩).1.spi = 0 := by rw [g4]; exact hspi
  obtain ⟨p1, p2, p3, p4, _, p6, p7⟩ :=
    sdio_do_command_cmd3 k ops _ a3 c3 h32 hspi1 hok1 (Or.inl g1)
  have hok2 : (sdio_do_command k ops (sdio_do_command k ops sd ⟨5, a5, c5⟩).1
      ⟨3, a3, c3⟩).1.sdio_ok ≠ 0 := by rw [p4]; exact hok1
  obtain ⟨q1, _, _, _, _, q6, q7⟩ :=
    sdio_do_command_cmd3 k ops _ b3 d3 h32 p3 hok2 (Or.inr p2)
  rw [g3, hrca] at p1
  rw [p1] at q1
  refine ⟨p6, ?_, q6, ?_⟩
  · rw [p7]; unfold sd_response_r6_make; rw [p1]; rfl
  · rw [q7]; unfold sd_response_r6_make; rw [q1]; rfl

/-- Witness of C2: the AR6000 after attach and a CMD5 handshake. -/
theorem cmd3_advances_rca_witness :
    (sdio_do_command sd_h.std ar6k_ops st_capable ⟨3, 0, 0⟩).1.rca
      = (st_capable.rca + 0x4567) % 2 ^ 16 ∧
    (sdio_do_command sd_h.std ar6k_ops st_capable ⟨3, 0, 0⟩).1.state = sd_standby_state ∧
    (sdio_do_command sd_h.std ar6k_ops st_capable ⟨3, 0, 0⟩).2.1 = 4 ∧
    (sdio_do_command sd_h.std ar6k_ops
      (sdio_do_command sd_h.std ar6k_ops st_attach ⟨5, 0x00ff0000, 0⟩).1
        ⟨3, 0, 0⟩).2.2.take 2 = [0x45, 0x67] ∧
    (sdio_do_command sd_h.std ar6k_ops (sdio_do_command sd_h.std ar6k_ops
      (sdio_do_command sd_h.std ar6k_ops st_attach ⟨5, 0x00ff0000, 0⟩).1
        ⟨3, 0, 0⟩).1 ⟨3, 0, 0⟩).2.2.take 2 = [0x8a, 0xce] :=
  have h := cmd3_advances_rca sd_h.std ar6k_ops (by decide)
  have hA := h.1 st_capable 0 0 (by decide) (by decide) (Or.inl (by decide))
  have hB := h.2 st_attach 0x00ff0000 0 0 0 0 0 (by decide) (by decide) (by decide) (by decide)
  ⟨hA.1, hA.2.1, hA.2.2.1, hB.2.1, hB.2.2.2⟩

/-- Counterexample to C2 as stated: in the reset state the device is not yet
marked SDIO-capable, so two sequential CMD3 calls are both rejected: no
response is returned and the RCA stays 0x0000. -/
theorem cmd3_from_reset_rejected :
    (sdio_do_command sd_h.std ar6k_ops (sdio_reset ar6k_ops.reset st_attach) ⟨3, 0, 0⟩).2.1 = 0 ∧
    (sdio_do_command sd_h.std ar6k_ops (sdio_reset ar6k_ops.reset st_attach) ⟨3, 0, 0⟩).2.2 = [] ∧
    (sdio_do_command sd_h.std ar6k_ops (sdio_reset ar6k_ops.reset st_attach) ⟨3, 0, 0⟩).1.rca = 0 ∧
    (sdio_do_command sd_h.std ar6k_ops
      (sdio_do_command sd_h.std ar6k_ops (sdio_reset ar6k_ops.reset st_attach) ⟨3, 0, 0⟩).1
      ⟨3, 0, 0⟩).2.1 = 0 ∧
    (sdio_do_command sd_h.std ar6k_ops
      (sdio_do_command sd_h.std ar6k_ops (sdio_reset ar6k_ops.reset st_attach) ⟨3, 0, 0⟩).1
      ⟨3, 0, 0⟩).1.rca = 0 := by
  decide

/-- C3 (as amended): in native bus mode CMD3 is accepted (advances the RCA,
moves to Standby, returns R6 without setting ILLEGAL_COMMAND) exactly when the
device has been marked SDIO-capable and the CardState is Initialization or
Standby; in every other case it is rejected as illegal (CardState and RCA
unchanged, ILLEGAL_COMMAND set, no response). -/
theorem cmd3_accepted_iff (k : sd_h) (ops : sdio_ops χ) (sd : sdio_s χ) (arg crc : Nat)
    (hne : k.ILLEGAL_COMMAND ≠ 0) (h32 : k.ILLEGAL_COMMAND < 2 ^ 32) (hspi : sd.spi = 0) :
    ((sd.sdio_ok ≠ 0 ∧
        (sd.state = sd_initialization_state ∨ sd.state = sd_standby_state)) →
      (sdio_do_command k ops sd ⟨3, arg, crc⟩).1.rca = (sd.rca + 0x4567) % 2 ^ 16 ∧
      (sdio_do_command k ops sd ⟨3, arg, crc⟩).1.state = sd_standby_state ∧
      (sdio_do_command k ops sd ⟨3, arg, crc⟩).1.card_status &&& k.ILLEGAL_COMMAND = 0 ∧
      (sdio_do_command k ops sd ⟨3, arg, crc⟩).2.1 = 4 ∧
      (sdio_do_command k ops sd ⟨3, arg, crc⟩).2.2 =
        sd_response_r6_make k (sdio_do_command k ops sd ⟨3, arg, crc⟩).1) ∧
    (¬ (sd.sdio_ok ≠ 0 ∧
        (sd.state = sd_initialization_state ∨ sd.state = sd_standby_state)) →
      (sdio_do_command k ops sd ⟨3, arg, crc⟩).1.rca = sd.rca ∧
      (sdio_do_command k ops sd ⟨3, arg, crc⟩).1.state = sd.state ∧
      (sdio_do_command k ops sd ⟨3, arg, crc⟩).1.card_status &&& k.ILLEGAL_COMMAND ≠ 0 ∧
      (sdio_do_command k ops sd ⟨3, arg, crc⟩).2.1 = 0 ∧
      (sdio_do_command k ops sd ⟨3, arg, crc⟩).2.2 = []) := by
  constructor
  · rintro ⟨hok, hst⟩
    obtain ⟨h1, h2, _, _, h5, h6, h7⟩ := sdio_do_command_cmd3 k ops sd arg crc h32 hspi hok hst
    exact ⟨h1, h2, h5, h6, h7⟩
  · intro hno
    have hn : sdio_normal_command k ops
        { sd with
          card_status := bic sd.card_status (k.COM_CRC_ERROR ||| k.ILLEGAL_COMMAND)
          next_cmd := 3 } ⟨3, arg, crc⟩ = bad_cmd k { sd with
          card_status := bic sd.card_status (k.COM_CRC_ERROR ||| k.ILLEGAL_COMMAND)
          next_cmd := 3 } := by
      unfold sdio_normal_command
      by_cases hok : sd.sdio_ok = 0
      · simp [hok]
      · have hst : ¬ (sd.state = sd_initialization_state ∨ sd.state = sd_standby_state) :=
          fun h => hno ⟨hok, h⟩
        cases hs : sd.state <;> simp_all
    unfold sdio_do_command
    simp only [sd_req_crc_validate, ne_eq, not_true_eq_false, if_false]
    rw [hn]
    unfold bad_cmd
    simp [hspi, or_and_self, hne]

/-- Witness of C3: the AR6000 once CMD5 has marked it SDIO-capable. -/
theorem cmd3_accepted_iff_witness :
    (sdio_do_command sd_h.std ar6k_ops st_capable ⟨3, 0, 0⟩).1.state = sd_standby_state ∧
    (sdio_do_command sd_h.std ar6k_ops st_capable ⟨3, 0, 0⟩).1.card_status
      &&& sd_h.std.ILLEGAL_COMMAND = 0 ∧
    (sdio_do_command sd_h.std ar6k_ops st_capable ⟨3, 0, 0⟩).2.1 = 4 :=
  have h := (cmd3_accepted_iff sd_h.std ar6k_ops st_capable 0 0
    (by decide) (by decide) (by decide)).1 ⟨by decide, Or.inl (by decide)⟩
  ⟨h.2.1, h.2.2.1, h.2.2.2.1⟩

/-- Counterexample to C3 as stated: right after attach the AR6000 is in native
mode with CardState Initialization, yet CMD3 is rejected: the CardState stays
Initialization (not Standby), ILLEGAL_COMMAND is set and nothing is returned. -/
theorem cmd3_rejected_in_initialization :
    st_attach.spi = 0 ∧ st_attach.state = sd_initialization_state ∧
    (sdio_do_command sd_h.std ar6k_ops st_attach ⟨3, 0, 0⟩).1.state
      = sd_initialization_state ∧
    (sdio_do_command sd_h.std ar6k_ops st_attach ⟨3, 0, 0⟩).1.card_status
      &&& sd_h.std.ILLEGAL_COMMAND ≠ 0 ∧
    (sdio_do_command sd_h.std ar6k_ops st_attach ⟨3, 0, 0⟩).2.1 = 0 := by
  decide

/-! ## CMD53: block length and block count -/

/-- C4: a CMD53 issued in Command state with a valid function index and the
block-mode bit set is rejected with R1 (length 4), stays in Command and leaves
`sdio_data_ready` false when the block length configured for the function is 0
or above 2048; with a block length in 1..2048 the card enters Transfer with
that block length. -/
theorem cmd53_block_length (k : sd_h) (ops : sdio_ops χ) (sd : sdio_s χ) (arg crc : Nat)
    (h32 : k.ILLEGAL_COMMAND < 2 ^ 32)
    (hst : sd.state = sd_command_state)
    (hfn : (arg >>> 28) &&& 7 ≤ (sd.ioocr >>> 28) &&& 7)
    (hbm : (arg >>> 27) &&& 1 ≠ 0) :
    ((sd.blk_len ((arg >>> 28) &&& 7) = 0 ∨ sd.blk_len ((arg >>> 28) &&& 7) > 2048) →
      (sdio_normal_command k ops sd ⟨53, arg, crc⟩).1 = sd_r1 ∧
      (sdio_do_command k ops sd ⟨53, arg, crc⟩).2.1 = 4 ∧
      (sdio_do_command k ops sd ⟨53, arg, crc⟩).2.2.length = 4 ∧
      (sdio_do_command k ops sd ⟨53, arg, crc⟩).1.state = sd_command_state ∧
      sdio_data_ready (sdio_do_command k ops sd ⟨53, arg, crc⟩).1 = false) ∧
    ((1 ≤ sd.blk_len ((arg >>> 28) &&& 7) ∧ sd.blk_len ((arg >>> 28) &&& 7) ≤ 2048) →
      (sdio_do_command k ops sd ⟨53, arg, crc⟩).1.state = sd_transfer_state ∧
      (sdio_do_command k ops sd ⟨53, arg, crc⟩).1.transfer.blk_len
        = sd.blk_len ((arg >>> 28) &&& 7) ∧
      sdio_data_ready (sdio_do_command k ops sd ⟨53, arg, crc⟩).1 = true) := by
  have hb := bic_or_and_right sd.card_status k.COM_CRC_ERROR k.ILLEGAL_COMMAND h32
  have hb2 := bic_and_eq_zero _ k.CARD_STATUS_C _ hb
  have hb3 := bic_and_eq_zero _ 0xf7f80003 _ hb
  have hfn' : ¬ ((sd.ioocr >>> 28) &&& 7 < (arg >>> 28) &&& 7) := not_lt.mpr hfn
  have hbm2 : arg >>> 27 % 2 = 1 := by simpa using hbm
  constructor
  · intro hbad
    have hbad' : sd.blk_len ((arg >>> 28) &&& 7) = 0 ∨ 2048 < sd.blk_len ((arg >>> 28) &&& 7) := by
      omega
    unfold sdio_do_command sdio_normal_command
    simp [sd_req_crc_validate, hst, hfn', hbm2, hbad', sd_response_r1_make, hb2, sdio_data_ready]
  · intro hok
    have hok' : ¬ (sd.blk_len ((arg >>> 28) &&& 7) = 0 ∨
        2048 < sd.blk_len ((arg >>> 28) &&& 7)) := by omega
    unfold sdio_do_command sdio_normal_command
    simp [sd_req_crc_validate, hst, hfn', hbm2, hok', sd_response_r5_make, hb3, sdio_data_ready]

/-- Witness of C4: block-mode CMD53 to function 1 of the AR6000, first with no
block size configured, then with block size 64. -/
theorem cmd53_block_length_witness :
    ((sdio_do_command sd_h.std ar6k_ops st_command ⟨53, 0x9c08c001, 0⟩).2.1 = 4 ∧
      (sdio_do_command sd_h.std ar6k_ops st_command ⟨53, 0x9c08c001, 0⟩).1.state
        = sd_command_state) ∧
    ((sdio_do_command sd_h.std ar6k_ops st_blk64 ⟨53, 0x9c08c001, 0⟩).1.state
        = sd_transfer_state ∧
      (sdio_do_command sd_h.std ar6k_ops st_blk64 ⟨53, 0x9c08c001, 0⟩).1.transfer.blk_len
        = 64) :=
  have h1 := (cmd53_block_length sd_h.std ar6k_ops st_command 0x9c08c001 0
    (by decide) (by decide) (by decide) (by decide)).1 (Or.inl (by decide))
  have h2 := (cmd53_block_length sd_h.std ar6k_ops st_blk64 0x9c08c001 0
    (by decide) (by decide) (by decide) (by decide)).2 ⟨by decide, by decide⟩
  ⟨⟨h1.2.1, h1.2.2.2.1⟩, ⟨h2.1, h2.2.1.trans (by decide)⟩⟩

/-! ## The block transfer engine -/

theorem sdio_write_data_eq (ops : sdio_ops χ) (k : sd_h) (sd : sdio_s χ) (value : Nat) :
    sdio_write_data ops k sd value =
      if sd.state ≠ sd_transfer_state then sd
      else if sd.card_status &&& (k.ADDRESS_ERROR ||| k.OUT_OF_RANGE ||| k.SD_ERROR) ≠ 0 then sd
      else if sd.current_cmd = 53 then
        if sd.transfer.dir = 0 then sd
        else if (stage_byte sd value).transfer.data_offset ≥ sd.transfer.blk_len then
          next_block (ops.write sd.transfer.func (stage_byte sd value)
            sd.transfer.data_start sd.transfer.blk_len)
        else stage_byte sd value
      else sd := by
  rfl

/-- The state `sdio_read_data` is in once the handler has filled the buffer
(at offset 0) and the offset has been advanced. -/
theorem sdio_read_data_eq (ops : sdio_ops χ) (k : sd_h) (sd sd1 sd2 : sdio_s χ)
    (h1 : sd1 = if sd.transfer.data_offset = 0 then
        ops.read sd.transfer.func sd sd.transfer.data_start sd.transfer.blk_len else sd)
    (h2 : sd2 = { sd1 with transfer := { sd1.transfer with
        data_offset := (sd1.transfer.data_offset + 1) % 2 ^ 32 } }) :
    sdio_read_data ops k sd =
      if sd.state ≠ sd_transfer_state then (sd, 0x00)
      else if sd.card_status &&& (k.ADDRESS_ERROR ||| k.OUT_OF_RANGE ||| k.SD_ERROR) ≠ 0 then
        (sd, 0x00)
      else if sd.current_cmd = 53 then
        if sd.transfer.dir ≠ 0 then (sd, 0x00)
        else if sd2.transfer.data_offset ≥ sd2.transfer.blk_len then
          (next_block sd2, sd1.transfer.data sd1.transfer.data_offset)
        else (sd2, sd1.transfer.data sd1.transfer.data_offset)
      else (sd, 0x00) := by
  subst h2
  subst h1
  unfold sdio_read_data
  by_cases c1 : sd.state = sd_transfer_state
  swap
  · simp only [ne_eq, c1, not_false_eq_true, if_true]
  by_cases c2 : sd.card_status &&& (k.ADDRESS_ERROR ||| k.OUT_OF_RANGE ||| k.SD_ERROR) = 0
  swap
  · simp only [ne_eq, c1, c2, not_true_eq_false, not_false_eq_true, if_true, if_false]
  by_cases c3 : sd.current_cmd = 53
  swap
  · simp only [ne_eq, c1, c2, c3, not_true_eq_false, not_false_eq_true, if_true, if_false]
  by_cases c4 : sd.transfer.dir = 0
  swap
  · simp only [ne_eq, c1, c2, c3, c4, not_true_eq_false, not_false_eq_true, if_true, if_false]
  simp only [ne_eq, c1, c2, c3, c4, not_true_eq_false, not_false_eq_true, if_true, if_false]
  unfold next_block
  split_ifs <;> rfl

theorem sdio_transfer_done_fields (sd : sdio_s χ) :
    (sdio_transfer_done sd).state = sd_command_state ∧
    (sdio_transfer_done sd).ext = sd.ext ∧
    (sdio_transfer_done sd).ioocr = sd.ioocr ∧
    (sdio_transfer_done sd).transfer = sd.transfer ∧
    (sdio_transfer_done sd).spi = sd.spi ∧
    (sdio_transfer_done sd).card_status = sd.card_status ∧
    (sdio_transfer_done sd).blk_len = sd.blk_len := by
  by_cases h : sd.cccr.bus &&& 3 = 2 <;> simp [sdio_transfer_done, h, sdio_intr_update]

/-- With a negative count the statements after a block only move on. -/
theorem next_block_neg (t : sdio_s χ) (hneg : t.transfer.blk_num < 0) :
    (next_block t).state = t.state ∧ (next_block t).transfer.blk_num = t.transfer.blk_num := by
  have hn : ¬ (0 ≤ t.transfer.blk_num) := not_le.mpr hneg
  unfold next_block
  simp [hn]

/-- With a negative block count neither `sdio_write_data` nor `sdio_read_data`
finishes the transfer: the CardState and the count are kept, as long as the
function handlers keep them. -/
theorem infinite_transfer_never_done (k : sd_h) (ops : sdio_ops χ) (s : sdio_s χ) (v : Nat)
    (hneg : s.transfer.blk_num < 0)
    (hw : ∀ (f : Nat) (t : sdio_s χ) (a l : Nat),
      (ops.write f t a l).state = t.state ∧
      (ops.write f t a l).transfer.blk_num = t.transfer.blk_num)
    (hr : ∀ (f : Nat) (t : sdio_s χ) (a l : Nat),
      (ops.read f t a l).state = t.state ∧
      (ops.read f t a l).transfer.blk_num = t.transfer.blk_num) :
    ((sdio_write_data ops k s v).state = s.state ∧
      (sdio_write_data ops k s v).transfer.blk_num = s.transfer.blk_num) ∧
    ((sdio_read_data ops k s).1.state = s.state ∧
      (sdio_read_data ops k s).1.transfer.blk_num = s.transfer.blk_num) := by
  constructor
  · rw [sdio_write_data_eq]
    have h1 := hw s.transfer.func (stage_byte s v) s.transfer.data_start s.transfer.blk_len
    have h2 := next_block_neg (ops.write s.transfer.func (stage_byte s v)
      s.transfer.data_start s.transfer.blk_len) (by rw [h1.2]; exact hneg)
    split_ifs
    · exact ⟨rfl, rfl⟩
    · exact ⟨rfl, rfl⟩
    · exact ⟨rfl, rfl⟩
    · exact ⟨h2.1.trans h1.1, h2.2.trans h1.2⟩
    · exact ⟨rfl, rfl⟩
    · exact ⟨rfl, rfl⟩
  · have e1 : ∀ t : sdio_s χ, t = (if s.transfer.data_offset = 0 then
        ops.read s.transfer.func s s.transfer.data_start s.transfer.blk_len else s) →
        t.state = s.state ∧ t.transfer.blk_num = s.transfer.blk_num := by
      intro t ht
      subst ht
      split_ifs
      · exact hr _ _ _ _
      · exact ⟨rfl, rfl⟩
    generalize hs1 : (if s.transfer.data_offset = 0 then
        ops.read s.transfer.func s s.transfer.data_start s.transfer.blk_len else s) = s1
    have f1 := e1 s1 hs1.symm
    rw [sdio_read_data_eq ops k s s1 _ hs1.symm rfl]
    have h2 := next_block_neg
      ({ s1 with transfer := { s1.transfer with
          data_offset := (s1.transfer.data_offset + 1) % 2 ^ 32 } } : sdio_s χ)
      (by show s1.transfer.blk_num < 0; rw [f1.2]; exact hneg)
    split_ifs
    · exact ⟨rfl, rfl⟩
    · exact ⟨rfl, rfl⟩
    · exact ⟨rfl, rfl⟩
    · exact ⟨h2.1.trans f1.1, h2.2.trans f1.2⟩
    · exact ⟨f1.1, f1.2⟩
    · exact ⟨rfl, rfl⟩

/-- The state after an accepted CMD53 (Command state, valid function, and a
block length in 1..2048 when the block-mode bit is set). -/
theorem sdio_do_command_cmd53 (k : sd_h) (ops : sdio_ops χ) (sd : sdio_s χ) (arg crc : Nat)
    (h32 : k.ILLEGAL_COMMAND < 2 ^ 32)
    (hst : sd.state = sd_command_state)
    (hfn : (arg >>> 28) &&& 7 ≤ (sd.ioocr >>> 28) &&& 7)
    (hlen : (arg >>> 27) &&& 1 ≠ 0 →
      1 ≤ sd.blk_len ((arg >>> 28) &&& 7) ∧ sd.blk_len ((arg >>> 28) &&& 7) ≤ 2048) :
    (sdio_do_command k ops sd ⟨53, arg, crc⟩).1 =
      { sd with
        state := sd_transfer_state
        card_status :=
          bic (bic sd.card_status (k.COM_CRC_ERROR ||| k.ILLEGAL_COMMAND)) 0xf7f80003
        current_cmd := 53
        next_cmd := 53
        transfer := {
          func := (arg >>> 28) &&& 7
          dir := (arg >>> 31) &&& 1
          blk_len := if (arg >>> 27) &&& 1 ≠ 0 then sd.blk_len ((arg >>> 28) &&& 7) else 1
          blk_num :=
            if arg &&& 0x1ff ≠ 0 then ((arg &&& 0x1ff : Nat) : Int)
            else if (arg >>> 27) &&& 1 ≠ 0 then -1 else 0x200
          step := (arg >>> 26) &&& 1
          data_start := (arg >>> 9) &&& SDIO_ADDR_MASK
          data_offset := 0
          data := upd sd.transfer.data 0 0x00 } } := by
  have hb := bic_or_and_right sd.card_status k.COM_CRC_ERROR k.ILLEGAL_COMMAND h32
  have hb3 := bic_and_eq_zero _ 0xf7f80003 _ hb
  have hfn' : ¬ ((sd.ioocr >>> 28) &&& 7 < (arg >>> 28) &&& 7) := not_lt.mpr hfn
  by_cases hbm : (arg >>> 27) &&& 1 = 0
  · have hbm2 : ¬ (arg >>> 27 % 2 = 1) := by simpa using hbm
    unfold sdio_do_command sdio_normal_command
    simp [sd_req_crc_validate, hst, hfn', sd_response_r5_make, hb3, hbm2]
  · have hbm2 : arg >>> 27 % 2 = 1 := by simpa using hbm
    have hok : ¬ (sd.blk_len ((arg >>> 28) &&& 7) = 0 ∨
        2048 < sd.blk_len ((arg >>> 28) &&& 7)) := by
      have := hlen hbm
      omega
    unfold sdio_do_command sdio_normal_command
    simp [sd_req_crc_validate, hst, hfn', sd_response_r5_make, hb3, hbm2, hok]

/-- C5 (as amended): for every accepted CMD53 (Command state, valid function,
and a block length in 1..2048 when the block-mode bit is set) whose 9-bit count
field is 0, the block count is the "infinite" sentinel -1 in block mode and 512
in byte mode; for a non-zero count field N it is N in both modes.  The sentinel
never completes by counting: with the count at -1, `sdio_write_data` and
`sdio_read_data` keep the CardState and the count, as long as the function
handlers do. -/
theorem cmd53_block_count (k : sd_h) (ops : sdio_ops χ) (sd : sdio_s χ) (arg crc : Nat)
    (h32 : k.ILLEGAL_COMMAND < 2 ^ 32)
    (hst : sd.state = sd_command_state)
    (hfn : (arg >>> 28) &&& 7 ≤ (sd.ioocr >>> 28) &&& 7)
    (hlen : (arg >>> 27) &&& 1 ≠ 0 →
      1 ≤ sd.blk_len ((arg >>> 28) &&& 7) ∧ sd.blk_len ((arg >>> 28) &&& 7) ≤ 2048) :
    (sdio_do_command k ops sd ⟨53, arg, crc⟩).1.state = sd_transfer_state ∧
    (arg &&& 0x1ff = 0 → (arg >>> 27) &&& 1 ≠ 0 →
      (sdio_do_command k ops sd ⟨53, arg, crc⟩).1.transfer.blk_num = -1) ∧
    (arg &&& 0x1ff = 0 → (arg >>> 27) &&& 1 = 0 →
      (sdio_do_command k ops sd ⟨53, arg, crc⟩).1.transfer.blk_num = 512) ∧
    (arg &&& 0x1ff ≠ 0 →
      (sdio_do_command k ops sd ⟨53, arg, crc⟩).1.transfer.blk_num
        = ((arg &&& 0x1ff : Nat) : Int)) ∧
    (∀ (s : sdio_s χ) (v : Nat), s.transfer.blk_num = -1 →
      (∀ (f : Nat) (t : sdio_s χ) (a l : Nat),
        (ops.write f t a l).state = t.state ∧
        (ops.write f t a l).transfer.blk_num = t.transfer.blk_num) →
      (∀ (f : Nat) (t : sdio_s χ) (a l : Nat),
        (ops.read f t a l).state = t.state ∧
        (ops.read f t a l).transfer.blk_num = t.transfer.blk_num) →
      ((sdio_write_data ops k s v).state = s.state ∧
        (sdio_write_data ops k s v).transfer.blk_num = -1) ∧
      ((sdio_read_data ops k s).1.state = s.state ∧
        (sdio_read_data ops k s).1.transfer.blk_num = -1)) := by
  have he := sdio_do_command_cmd53 k ops sd arg crc h32 hst hfn hlen
  refine ⟨?_, ?_, ?_, ?_, ?_⟩
  · rw [he]
  · intro hz hbm
    rw [he]
    simp only [hz, hbm, ne_eq, not_true_eq_false, not_false_eq_true, if_true, if_false]
  · intro hz hbm
    rw [he]
    simp only [hz, hbm, ne_eq, not_true_eq_false, not_false_eq_true, if_true, if_false]
  · intro hnz
    rw [he]
    simp only [hnz, ne_eq, not_false_eq_true, if_true]
  · intro s v hs hw hr
    have h := infinite_transfer_never_done k ops s v (by rw [hs]; decide) hw hr
    rw [hs] at h
    exact h

/-- Witness of C5: CMD53 with count field 0 on function 1 of the AR6000, in
byte mode and (with block size 64) in block mode. -/
theorem cmd53_block_count_witness :
    (sdio_do_command sd_h.std ar6k_ops st_command ⟨53, 0x9408c000, 0⟩).1.transfer.blk_num
      = 512 ∧
    (sdio_do_command sd_h.std ar6k_ops st_blk64 ⟨53, 0x9c08c000, 0⟩).1.transfer.blk_num
      = -1 ∧
    (sdio_do_command sd_h.std ar6k_ops st_blk64 ⟨53, 0x9c08c002, 0⟩).1.transfer.blk_num
      = 2 :=
  have h1 := (cmd53_block_count sd_h.std ar6k_ops st_command 0x9408c000 0
    (by decide) (by decide) (by decide) (by decide)).2.2.1 (by decide) (by decide)
  have h2 := (cmd53_block_count sd_h.std ar6k_ops st_blk64 0x9c08c000 0
    (by decide) (by decide) (by decide) (by decide)).2.1 (by decide) (by decide)
  have h3 := (cmd53_block_count sd_h.std ar6k_ops st_blk64 0x9c08c002 0
    (by decide) (by decide) (by decide) (by decide)).2.2.2.1 (by decide)
  ⟨h1, h2, h3.trans (by decide)⟩

/-- Counterexample to C5 as stated: on the AR6000 an accepted block-mode CMD53
with count field 0 gets the count -1, not 512, and an accepted byte-mode CMD53
with count field 0 gets the finite count 512, not the sentinel. -/
theorem cmd53_zero_count_by_mode :
    (sdio_do_command sd_h.std ar6k_ops st_blk64 ⟨53, 0x9c08c000, 0⟩).1.state
      = sd_transfer_state ∧
    (sdio_do_command sd_h.std ar6k_ops st_blk64 ⟨53, 0x9c08c000, 0⟩).1.transfer.blk_num
      ≠ 512 ∧
    (sdio_do_command sd_h.std ar6k_ops st_command ⟨53, 0x9408c000, 0⟩).1.state
      = sd_transfer_state ∧
    (sdio_do_command sd_h.std ar6k_ops st_command ⟨53, 0x9408c000, 0⟩).1.transfer.blk_num
      = 512 := by
  decide

/-! ## The attach state -/

theorem sdio_set_irq_core {χ : Type} (s : sdio_s χ) (line level : Nat) :
    (sdio_set_irq s line level).state = s.state ∧
    (sdio_set_irq s line level).ioocr = s.ioocr := by
  unfold sdio_set_irq
  split_ifs <;> exact ⟨rfl, rfl⟩

theorem ar6k_hif_intr_update_core (s : ar6k_s) :
    (ar6k_hif_intr_update s).state = s.state ∧ (ar6k_hif_intr_update s).ioocr = s.ioocr :=
  sdio_set_irq_core s 0 _

theorem ar6k_hif_cpu_intr_update_core (s : ar6k_s) :
    (ar6k_hif_cpu_intr_update s).state = s.state ∧
    (ar6k_hif_cpu_intr_update s).ioocr = s.ioocr := by
  unfold ar6k_hif_cpu_intr_update
  dsimp only
  split_ifs
  · exact ar6k_hif_intr_update_core _
  · exact ⟨rfl, rfl⟩
  · exact ar6k_hif_intr_update_core _
  · exact ⟨rfl, rfl⟩

theorem ar6k_hif_error_intr_update_core (s : ar6k_s) :
    (ar6k_hif_error_intr_update s).state = s.state ∧
    (ar6k_hif_error_intr_update s).ioocr = s.ioocr := by
  unfold ar6k_hif_error_intr_update
  dsimp only
  split_ifs
  · exact ar6k_hif_intr_update_core _
  · exact ⟨rfl, rfl⟩
  · exact ar6k_hif_intr_update_core _
  · exact ⟨rfl, rfl⟩

theorem ar6k_hif_counter_intr_update_core (s : ar6k_s) :
    (ar6k_hif_counter_intr_update s).state = s.state ∧
    (ar6k_hif_counter_intr_update s).ioocr = s.ioocr := by
  unfold ar6k_hif_counter_intr_update
  dsimp only
  split_ifs
  · exact ar6k_hif_intr_update_core _
  · exact ⟨rfl, rfl⟩
  · exact ar6k_hif_intr_update_core _
  · exact ⟨rfl, rfl⟩

theorem ar6k_bmi_reset_core (s : ar6k_s) :
    (ar6k_bmi_reset s).state = s.state ∧ (ar6k_bmi_reset s).ioocr = s.ioocr := by
  unfold ar6k_bmi_reset
  dsimp only
  have h3 := ar6k_hif_counter_intr_update_core
  have h2 := ar6k_hif_error_intr_update_core
  have h1 := ar6k_hif_cpu_intr_update_core
  constructor
  · rw [(h3 _).1, (h2 _).1, (h1 _).1]; rfl
  · rw [(h3 _).2, (h2 _).2, (h1 _).2]; rfl

/-- After `ar6k_init` the card is in Initialization and the I/O OCR is the
AR6000 word. -/
theorem ar6k_init_core (t : cis_h) (macaddr : Nat → Nat) :
    (ar6k_init t macaddr).state = sd_initialization_state ∧
    (ar6k_init t macaddr).ioocr = 0x10fe0000 := by
  unfold ar6k_init ar6k_reset
  exact ⟨(ar6k_bmi_reset_core _).1, (ar6k_bmi_reset_core _).2⟩

/-! ## CMD7, CMD15 and CMD5 -/

theorem sd_cmd_type_ac :
    sd_cmd_type[7]?.getD sd_cmd_type_t.sd_none = sd_cmd_type_t.sd_ac ∧
    sd_cmd_type[15]?.getD sd_cmd_type_t.sd_none = sd_cmd_type_t.sd_ac :=
  ⟨rfl, rfl⟩

/-- C8: CMD7 in native mode, with `arg >>> 16` the RCA field of the argument.
In Standby with the card's RCA the card moves to Command and a 4-byte R1b is
returned; in Standby with another RCA the CardState is unchanged, nothing is
returned and ILLEGAL_COMMAND is not set; in Command with the card's RCA the
card stays in Command and R1b is returned; in Command with another RCA the card
goes back to Standby and R1b is still returned. -/
theorem cmd7_select (k : sd_h) (ops : sdio_ops χ) (sd : sdio_s χ) (arg crc : Nat)
    (h32 : k.ILLEGAL_COMMAND < 2 ^ 32) (hspi : sd.spi = 0) :
    (sd.state = sd_standby_state → sd.rca = arg >>> 16 →
      (sdio_normal_command k ops sd ⟨7, arg, crc⟩).1 = sd_r1b ∧
      (sdio_do_command k ops sd ⟨7, arg, crc⟩).1.state = sd_command_state ∧
      (sdio_do_command k ops sd ⟨7, arg, crc⟩).2.1 = 4 ∧
      (sdio_do_command k ops sd ⟨7, arg, crc⟩).2.2.length = 4) ∧
    (sd.state = sd_standby_state → sd.rca ≠ arg >>> 16 →
      (sdio_normal_command k ops sd ⟨7, arg, crc⟩).1 = sd_r0 ∧
      (sdio_do_command k ops sd ⟨7, arg, crc⟩).1.state = sd_standby_state ∧
      (sdio_do_command k ops sd ⟨7, arg, crc⟩).2.1 = 0 ∧
      (sdio_do_command k ops sd ⟨7, arg, crc⟩).2.2 = [] ∧
      (sdio_do_command k ops sd ⟨7, arg, crc⟩).1.card_status &&& k.ILLEGAL_COMMAND = 0) ∧
    (sd.state = sd_command_state → sd.rca = arg >>> 16 →
      (sdio_normal_command k ops sd ⟨7, arg, crc⟩).1 = sd_r1b ∧
      (sdio_do_command k ops sd ⟨7, arg, crc⟩).1.state = sd_command_state ∧
      (sdio_do_command k ops sd ⟨7, arg, crc⟩).2.1 = 4 ∧
      (sdio_do_command k ops sd ⟨7, arg, crc⟩).2.2.length = 4) ∧
    (sd.state = sd_command_state → sd.rca ≠ arg >>> 16 →
      (sdio_normal_command k ops sd ⟨7, arg, crc⟩).1 = sd_r1b ∧
      (sdio_do_command k ops sd ⟨7, arg, crc⟩).1.state = sd_standby_state ∧
      (sdio_do_command k ops sd ⟨7, arg, crc⟩).2.1 = 4 ∧
      (sdio_do_command k ops sd ⟨7, arg, crc⟩).2.2.length = 4) := by
  have hb := bic_or_and_right sd.card_status k.COM_CRC_ERROR k.ILLEGAL_COMMAND h32
  have hb2 := bic_and_eq_zero _ k.CARD_STATUS_C _ hb
  refine ⟨?_, ?_, ?_, ?_⟩ <;> intro hst hrca <;>
    unfold sdio_do_command sdio_normal_command <;>
    simp [sd_req_crc_validate, hspi, hst, hrca, sd_cmd_type_ac, sd_response_r1_make, hb, hb2]

/-- Witness of C8: CMD7 with the card's RCA 0x4567 on the AR6000 in Standby. -/
theorem cmd7_select_witness :
    (sdio_do_command sd_h.std ar6k_ops st_standby ⟨7, 0x45670000, 0⟩).1.state
      = sd_command_state ∧
    (sdio_do_command sd_h.std ar6k_ops st_standby ⟨7, 0x45670000, 0⟩).2.1 = 4 :=
  have h := (cmd7_select sd_h.std ar6k_ops st_standby 0x45670000 0 (by decide) (by decide)).1
    (by decide) (by decide)
  ⟨h.2.1, h.2.2.1⟩

/-- C9: CMD15 in native mode from Initialization, Standby or Command moves the
card to Inactive when the card's RCA is 0 or equals the RCA field
`arg >>> 16` of the argument, and leaves the CardState unchanged otherwise; in
both cases nothing is returned and ILLEGAL_COMMAND is not set. -/
theorem cmd15_inactive (k : sd_h) (ops : sdio_ops χ) (sd : sdio_s χ) (arg crc : Nat)
    (h32 : k.ILLEGAL_COMMAND < 2 ^ 32) (hspi : sd.spi = 0)
    (hst : sd.state = sd_initialization_state ∨ sd.state = sd_standby_state ∨
      sd.state = sd_command_state) :
    ((sd.rca = 0 ∨ sd.rca = arg >>> 16) →
      (sdio_do_command k ops sd ⟨15, arg, crc⟩).1.state = sd_inactive_state) ∧
    (¬ (sd.rca = 0 ∨ sd.rca = arg >>> 16) →
      (sdio_do_command k ops sd ⟨15, arg, crc⟩).1.state = sd.state) ∧
    (sdio_do_command k ops sd ⟨15, arg, crc⟩).2.1 = 0 ∧
    (sdio_do_command k ops sd ⟨15, arg, crc⟩).2.2 = [] ∧
    (sdio_do_command k ops sd ⟨15, arg, crc⟩).1.card_status &&& k.ILLEGAL_COMMAND = 0 := by
  have hb := bic_or_and_right sd.card_status k.COM_CRC_ERROR k.ILLEGAL_COMMAND h32
  by_cases hr : sd.rca = 0 ∨ sd.rca = arg >>> 16
  · have hr' : ¬ (¬ sd.rca = 0 ∧ ¬ sd.rca = arg >>> 16) := by tauto
    unfold sdio_do_command sdio_normal_command
    rcases hst with hs | hs | hs <;>
      simp [sd_req_crc_validate, hspi, hs, hr, hr', sd_cmd_type_ac, hb]
  · have hr' : ¬ sd.rca = 0 ∧ ¬ sd.rca = arg >>> 16 := by tauto
    unfold sdio_do_command sdio_normal_command
    rcases hst with hs | hs | hs <;>
      simp [sd_req_crc_validate, hspi, hs, hr, hr', sd_cmd_type_ac, hb]

/-- Witness of C9: CMD15 on the AR6000 in Standby (RCA 0x4567), addressed to
it. -/
theorem cmd15_inactive_witness :
    (sdio_do_command sd_h.std ar6k_ops st_standby ⟨15, 0x45670000, 0⟩).1.state
      = sd_inactive_state ∧
    (sdio_do_command sd_h.std ar6k_ops st_standby ⟨15, 0x45670000, 0⟩).2.1 = 0 :=
  have h := cmd15_inactive sd_h.std ar6k_ops st_standby 0x45670000 0 (by decide) (by decide)
    (Or.inr (Or.inl (by decide)))
  ⟨h.1 (Or.inr (by decide)), h.2.2.1⟩

theorem be32_bytes (x : Nat) :
    (x >>> 24) &&& 0xff = x / 2 ^ 24 % 256 ∧ (x >>> 16) &&& 0xff = x / 2 ^ 16 % 256 ∧
    (x >>> 8) &&& 0xff = x / 2 ^ 8 % 256 ∧ (x >>> 0) &&& 0xff = x % 256 := by
  have e1 : (0xff : Nat) = 2 ^ 8 - 1 := by norm_num
  simp only [e1, Nat.and_pow_two_sub_one_eq_mod, Nat.shiftRight_eq_div_pow]
  norm_num

/-- C10: CMD5 in Initialization with a non-zero argument marks the device
SDIO-capable, leaves the CardState at Initialization and returns the 4-byte R4:
the I/O OCR word big-endian with bit 7 of its first byte set; on the AR6000
after attach the bytes are 0x90 0xFE 0x00 0x00.  CMD5 in any other CardState is
rejected as illegal (CardState unchanged, ILLEGAL_COMMAND set, length 0). -/
theorem cmd5_handshake (k : sd_h) (ops : sdio_ops χ) (sd : sdio_s χ) (arg crc : Nat)
    (hne : k.ILLEGAL_COMMAND ≠ 0) (h32 : k.ILLEGAL_COMMAND < 2 ^ 32)
    (hC : k.ILLEGAL_COMMAND &&& k.CARD_STATUS_C = 0) :
    (sd.state = sd_initialization_state → arg ≠ 0 →
      (sdio_do_command k ops sd ⟨5, arg, crc⟩).1.sdio_ok ≠ 0 ∧
      (sdio_do_command k ops sd ⟨5, arg, crc⟩).1.state = sd_initialization_state ∧
      (sdio_do_command k ops sd ⟨5, arg, crc⟩).2.1 = 4 ∧
      (sdio_do_command k ops sd ⟨5, arg, crc⟩).2.2 =
        [(sd.ioocr / 2 ^ 24 % 256) ||| 0x80, sd.ioocr / 2 ^ 16 % 256,
         sd.ioocr / 2 ^ 8 % 256, sd.ioocr % 256]) ∧
    (sd.state ≠ sd_initialization_state →
      (sdio_do_command k ops sd ⟨5, arg, crc⟩).1.state = sd.state ∧
      (sdio_do_command k ops sd ⟨5, arg, crc⟩).1.card_status &&& k.ILLEGAL_COMMAND ≠ 0 ∧
      (sdio_do_command k ops sd ⟨5, arg, crc⟩).2.1 = 0) ∧
    (∀ (t : cis_h) (macaddr : Nat → Nat), arg ≠ 0 →
      (sdio_do_command k ar6k_ops (ar6k_init t macaddr) ⟨5, arg, crc⟩).2.1 = 4 ∧
      (sdio_do_command k ar6k_ops (ar6k_init t macaddr) ⟨5, arg, crc⟩).2.2
        = [0x90, 0xfe, 0x00, 0x00]) := by
  refine ⟨?_, ?_, ?_⟩
  · intro hst harg
    obtain ⟨g1, g2, _, _, _, g6, g7⟩ := sdio_do_command_cmd5 k ops sd arg crc h32 hst harg
    refine ⟨by rw [g2]; decide, g1, g6, ?_⟩
    obtain ⟨b1, b2, b3, b4⟩ := be32_bytes sd.ioocr
    rw [g7, b1, b2, b3, b4]
    rfl
  · intro hst
    have h := sdio_do_command_of_bad k ops sd ⟨5, arg, crc⟩ hne h32 hC
      (fun s hs _ _ => sdio_normal_command_bad k ops s 5 arg crc
        (Or.inr (Or.inl ⟨rfl, by rw [hs]; exact hst⟩)))
    exact ⟨h.1, h.2.2.1, h.2.2.2⟩
  · intro t macaddr harg
    obtain ⟨_, _, _, _, _, g6, g7⟩ :=
      sdio_do_command_cmd5 k ar6k_ops (ar6k_init t macaddr) arg crc h32
        (ar6k_init_core t macaddr).1 harg
    refine ⟨g6, ?_⟩
    rw [g7, (ar6k_init_core t macaddr).2]
    rfl

/-- Witness of C10: the voltage window 0x00ff0000 offered to the AR6000 after
attach. -/
theorem cmd5_handshake_witness :
    (sdio_do_command sd_h.std ar6k_ops st_attach ⟨5, 0x00ff0000, 0⟩).1.sdio_ok ≠ 0 ∧
    (sdio_do_command sd_h.std ar6k_ops st_attach ⟨5, 0x00ff0000, 0⟩).1.state
      = sd_initialization_state ∧
    (sdio_do_command sd_h.std ar6k_ops st_attach ⟨5, 0x00ff0000, 0⟩).2.1 = 4 ∧
    (sdio_do_command sd_h.std ar6k_ops st_attach ⟨5, 0x00ff0000, 0⟩).2.2
      = [0x90, 0xfe, 0x00, 0x00] ∧
    (sdio_do_command sd_h.std ar6k_ops st_standby ⟨5, 0x00ff0000, 0⟩).2.1 = 0 :=
  have h := cmd5_handshake sd_h.std ar6k_ops st_attach 0x00ff0000 0
    (by decide) (by decide) (by decide)
  have h1 := h.1 (by decide) (by decide)
  have h3 := h.2.2 cis_h.std (fun _ => 0) (by decide)
  have h2 := (cmd5_handshake sd_h.std ar6k_ops st_standby 0x00ff0000 0
    (by decide) (by decide) (by decide)).2.1 (by decide)
  ⟨h1.1, h1.2.1, h1.2.2.1, h3.2, h2.2.2⟩

/-! ## Write transfers -/

theorem xfer_self (s : sdio_s χ) :
    xfer s s.transfer.data s.transfer.data_offset s.transfer.data_start s.transfer.blk_num
      s.ext = s := rfl

theorem xfer_xfer (s : sdio_s χ) (d d1 : Nat → Nat) (o o1 a a1 : Nat) (n n1 : Int) (e e1 : χ) :
    xfer (xfer s d o a n e) d1 o1 a1 n1 e1 = xfer s d1 o1 a1 n1 e1 := rfl

theorem stage_byte_xfer (s : sdio_s χ) (d : Nat → Nat) (o a : Nat) (n : Int) (e : χ) (v : Nat) :
    stage_byte (xfer s d o a n e) v = xfer s (upd d o v) ((o + 1) % 2 ^ 32) a n e := rfl

/-- A byte that does not complete the block is only staged. -/
theorem sdio_write_data_stage (ops : sdio_ops χ) (k : sd_h) (s : sdio_s χ) (v : Nat)
    (ho : transfer_open k s) (hdir : s.transfer.dir ≠ 0)
    (hlt : s.transfer.data_offset + 1 < s.transfer.blk_len)
    (h32 : s.transfer.blk_len ≤ 2 ^ 32) :
    sdio_write_data ops k s v = stage_byte s v := by
  obtain ⟨h1, h2, h3⟩ := ho
  have hm : (s.transfer.data_offset + 1) % 2 ^ 32 = s.transfer.data_offset + 1 :=
    Nat.mod_eq_of_lt (by omega)
  have hn : ¬ ((stage_byte s v).transfer.data_offset ≥ s.transfer.blk_len) := by
    show ¬ ((s.transfer.data_offset + 1) % 2 ^ 32 ≥ s.transfer.blk_len)
    rw [hm]; omega
  rw [sdio_write_data_eq]
  simp only [ne_eq, h1, h2, h3, hdir, hn, not_true_eq_false, not_false_eq_true, if_true,
    if_false]

/-- The byte that completes the block hands the buffer to the handler. -/
theorem sdio_write_data_block (ops : sdio_ops χ) (k : sd_h) (s : sdio_s χ) (v : Nat)
    (ho : transfer_open k s) (hdir : s.transfer.dir ≠ 0)
    (hge : s.transfer.blk_len ≤ s.transfer.data_offset + 1)
    (h32 : s.transfer.data_offset + 1 < 2 ^ 32) :
    sdio_write_data ops k s v =
      next_block (ops.write s.transfer.func (stage_byte s v)
        s.transfer.data_start s.transfer.blk_len) := by
  obtain ⟨h1, h2, h3⟩ := ho
  have hm : (s.transfer.data_offset + 1) % 2 ^ 32 = s.transfer.data_offset + 1 :=
    Nat.mod_eq_of_lt h32
  have hn : (stage_byte s v).transfer.data_offset ≥ s.transfer.blk_len := by
    show (s.transfer.data_offset + 1) % 2 ^ 32 ≥ s.transfer.blk_len
    rw [hm]; exact hge
  rw [sdio_write_data_eq]
  simp only [ne_eq, h1, h2, h3, hdir, hn, not_true_eq_false, not_false_eq_true, if_true,
    if_false]

theorem stage_data_apply (bs : List Nat) : ∀ (d : Nat → Nat) (off j : Nat),
    stage_data d off bs j =
      if off ≤ j ∧ j < off + bs.length then bs.getD (j - off) 0 else d j := by
  induction bs with
  | nil =>
    intro d off j
    have h : ¬ (off ≤ j ∧ j < off + ([] : List Nat).length) := by
      simp only [List.length_nil]; omega
    rw [if_neg h, stage_data]
  | cons b bs ih =>
    intro d off j
    rw [stage_data, ih]
    by_cases h1 : j = off
    · subst h1
      simp [upd]
    · by_cases h2 : off + 1 ≤ j ∧ j < off + 1 + bs.length
      · have h3 : off ≤ j ∧ j < off + (b :: bs).length := by
          simp only [List.length_cons]; omega
        have h4 : j - off = (j - (off + 1)) + 1 := by omega
        rw [if_pos h2, if_pos h3, h4, List.getD_cons_succ]
      · have h3 : ¬ (off ≤ j ∧ j < off + (b :: bs).length) := by
          simp only [List.length_cons]; omega
        rw [if_neg h2, if_neg h3]
        simp [upd, h1]

theorem map_stage_data (bs : List Nat) (d : Nat → Nat) :
    (List.range bs.length).map (stage_data d 0 bs) = bs := by
  apply List.ext_getElem
  · simp
  · intro i h1 h2
    simp only [List.length_map, List.length_range] at h1
    simp [stage_data_apply, h1, List.getD_eq_getElem?_getD, List.getElem?_eq_getElem h1]

/-- Bytes that do not complete the block are staged one after the other. -/
theorem write_bytes_stage (ops : sdio_ops χ) (k : sd_h) (pre : List Nat) :
    ∀ (s : sdio_s χ), transfer_open k s → s.transfer.dir ≠ 0 →
      s.transfer.data_offset + pre.length < s.transfer.blk_len →
      s.transfer.blk_len ≤ 2 ^ 32 →
      write_bytes ops k s pre =
        xfer s (stage_data s.transfer.data s.transfer.data_offset pre)
          (s.transfer.data_offset + pre.length) s.transfer.data_start s.transfer.blk_num
          s.ext := by
  induction pre with
  | nil => intro s _ _ _ _; rfl
  | cons b pre ih =>
    intro s ho hdir hlt h32
    simp only [List.length_cons] at hlt
    have h1 : sdio_write_data ops k s b = stage_byte s b :=
      sdio_write_data_stage ops k s b ho hdir (by omega) h32
    have hm : (s.transfer.data_offset + 1) % 2 ^ 32 = s.transfer.data_offset + 1 :=
      Nat.mod_eq_of_lt (by omega)
    have e1 : stage_byte s b = xfer s (upd s.transfer.data s.transfer.data_offset b)
        (s.transfer.data_offset + 1) s.transfer.data_start s.transfer.blk_num s.ext := by
      show xfer s _ ((s.transfer.data_offset + 1) % 2 ^ 32) _ _ _ = _
      rw [hm]
    have hih : write_bytes ops k (xfer s (upd s.transfer.data s.transfer.data_offset b)
        (s.transfer.data_offset + 1) s.transfer.data_start s.transfer.blk_num s.ext) pre =
        xfer s (stage_data (upd s.transfer.data s.transfer.data_offset b)
          (s.transfer.data_offset + 1) pre) (s.transfer.data_offset + 1 + pre.length)
          s.transfer.data_start s.transfer.blk_num s.ext :=
      ih (xfer s (upd s.transfer.data s.transfer.data_offset b)
        (s.transfer.data_offset + 1) s.transfer.data_start s.transfer.blk_num s.ext)
        ho hdir (by show s.transfer.data_offset + 1 + pre.length < s.transfer.blk_len; omega)
        h32
    show write_bytes ops k (sdio_write_data ops k s b) pre = _
    rw [h1, e1, hih]
    simp only [stage_data, List.length_cons]
    congr 1
    omega

theorem stage_data_append (pre : List Nat) (b : Nat) : ∀ (d : Nat → Nat) (off : Nat),
    stage_data d off (pre ++ [b]) = upd (stage_data d off pre) (off + pre.length) b := by
  induction pre with
  | nil => intro d off; rfl
  | cons p pre ih =>
    intro d off
    show stage_data (upd d off p) (off + 1) (pre ++ [b]) = _
    rw [ih]
    have h : off + 1 + pre.length = off + (p :: pre).length := by
      simp only [List.length_cons]; omega
    rw [h]
    rfl

/-- The statements after a block, on a state in normal form with a positive
count. -/
theorem next_block_xfer (s : sdio_s χ) (d : Nat → Nat) (o a : Nat) (n : Nat) (e : χ) :
    next_block (xfer s d o a ((n : Int) + 1) e) =
      if n = 0 then sdio_transfer_done (xfer s d o a 0 e)
      else xfer s d 0 ((a + s.transfer.blk_len * s.transfer.step) % 2 ^ 32) n e := by
  unfold next_block
  have h0 : (xfer s d o a ((n : Int) + 1) e).transfer.blk_num = (n : Int) + 1 := rfl
  have hge : (xfer s d o a ((n : Int) + 1) e).transfer.blk_num ≥ 0 := by rw [h0]; omega
  by_cases hn : n = 0
  · subst hn
    have h1 : (xfer s d o a ((0 : Nat) + 1 : Int) e).transfer.blk_num - 1 = 0 := by
      rw [h0]; omega
    rw [if_pos ⟨hge, h1⟩, if_pos rfl]
    rfl
  · have h1 : ¬ ((xfer s d o a ((n : Int) + 1) e).transfer.blk_num ≥ 0 ∧
        (xfer s d o a ((n : Int) + 1) e).transfer.blk_num - 1 = 0) := by
      rw [h0]; omega
    rw [if_neg h1, if_neg hn]
    simp only [hge, if_true]
    show xfer s d 0 ((a + s.transfer.blk_len * s.transfer.step) % 2 ^ 32)
      (((n : Int) + 1) - 1) e = _
    congr 1
    omega

/-- One whole block: the handler gets the block at the current address, then
the transfer ends (last block) or moves to the next address. -/
theorem write_bytes_block (ops : sdio_ops χ) (k : sd_h) (w : χ → Nat → List Nat → χ)
    (s : sdio_s χ) (blk : List Nat) (L a n : Nat)
    (ho : transfer_open k s) (hdir : s.transfer.dir ≠ 0)
    (hoff : s.transfer.data_offset = 0) (hL : s.transfer.blk_len = L)
    (hlen : blk.length = L) (hL1 : 1 ≤ L) (hL32 : L < 2 ^ 32)
    (ha : s.transfer.data_start = a) (hn : s.transfer.blk_num = (n : Int) + 1)
    (hwrap : a + L * s.transfer.step < 2 ^ 32)
    (hW : ∀ t : sdio_s χ, ops.write s.transfer.func t a L =
      with_ext t (w t.ext a ((List.range L).map t.transfer.data))) :
    write_bytes ops k s blk =
      if n = 0 then
        sdio_transfer_done (xfer s (stage_data s.transfer.data 0 blk) L a 0 (w s.ext a blk))
      else
        xfer s (stage_data s.transfer.data 0 blk) 0 (a + L * s.transfer.step) n
          (w s.ext a blk) := by
  have hne : blk ≠ [] := by
    intro h; rw [h] at hlen; simp at hlen; omega
  obtain ⟨pre, b, rfl⟩ : ∃ pre b, blk = pre ++ [b] :=
    ⟨blk.dropLast, blk.getLast hne, (List.dropLast_append_getLast hne).symm⟩
  have hpl : pre.length + 1 = L := by simpa using hlen
  have e0 : write_bytes ops k s (pre ++ [b]) =
      sdio_write_data ops k (write_bytes ops k s pre) b := by
    unfold write_bytes
    rw [List.foldl_append]
    rfl
  have e1 : write_bytes ops k s pre =
      xfer s (stage_data s.transfer.data 0 pre) pre.length a ((n : Int) + 1) s.ext := by
    rw [write_bytes_stage ops k pre s ho hdir (by rw [hoff, hL]; omega) (by rw [hL]; omega),
      hoff, ha, hn, Nat.zero_add]
  have e2 : sdio_write_data ops k
      (xfer s (stage_data s.transfer.data 0 pre) pre.length a ((n : Int) + 1) s.ext) b =
      next_block (ops.write s.transfer.func
        (xfer s (stage_data s.transfer.data 0 (pre ++ [b])) L a ((n : Int) + 1) s.ext) a L) := by
    have h := sdio_write_data_block ops k
      (xfer s (stage_data s.transfer.data 0 pre) pre.length a ((n : Int) + 1) s.ext) b
      ho hdir (by show s.transfer.blk_len ≤ pre.length + 1; omega)
      (by show pre.length + 1 < 2 ^ 32; omega)
    rw [h, stage_byte_xfer, stage_data_append, Nat.zero_add,
      Nat.mod_eq_of_lt (by omega : pre.length + 1 < 2 ^ 32), hpl]
    show next_block (ops.write s.transfer.func _ a s.transfer.blk_len) = _
    rw [hL]
  have e3 : ops.write s.transfer.func
      (xfer s (stage_data s.transfer.data 0 (pre ++ [b])) L a ((n : Int) + 1) s.ext) a L =
      xfer s (stage_data s.transfer.data 0 (pre ++ [b])) L a ((n : Int) + 1)
        (w s.ext a (pre ++ [b])) := by
    rw [hW]
    show xfer s _ L a _ (w s.ext a ((List.range L).map
      (stage_data s.transfer.data 0 (pre ++ [b])))) = _
    rw [← hlen, map_stage_data]
  rw [e0, e1, e2, e3, next_block_xfer, hL, Nat.mod_eq_of_lt hwrap]

theorem write_bytes_append (ops : sdio_ops χ) (k : sd_h) (s : sdio_s χ) (p q : List Nat) :
    write_bytes ops k s (p ++ q) = write_bytes ops k (write_bytes ops k s p) q := by
  unfold write_bytes
  rw [List.foldl_append]

/-- A whole write transfer: the handler is applied to the successive blocks
at the successive addresses and the last byte ends the transfer; before that
the card stays in Transfer. -/
theorem write_bytes_blocks (ops : sdio_ops χ) (k : sd_h) (w : χ → Nat → List Nat → χ)
    (f L step : Nat) (hL1 : 1 ≤ L) (hL32 : L < 2 ^ 32) (n : Nat) :
    ∀ (s : sdio_s χ) (a : Nat) (bytes : List Nat),
      write_ready k s f L step a n → bytes.length = (n + 1) * L →
      a + (n + 1) * (L * step) < 2 ^ 32 →
      (∀ (t : sdio_s χ) (j : Nat), j ≤ n → ops.write f t (a + j * (L * step)) L =
        with_ext t (w t.ext (a + j * (L * step)) ((List.range L).map t.transfer.data))) →
      (∃ d st, write_bytes ops k s bytes =
        sdio_transfer_done (xfer s d L st 0 (run_blocks w L (L * step) (n + 1) a bytes s.ext))) ∧
      (∀ m, m < (n + 1) * L →
        (write_bytes ops k s (bytes.take m)).state = sd_transfer_state) := by
  induction n with
  | zero =>
    intro s a bytes hr hlen hwrap hW
    obtain ⟨ho, hdir, hf, hbl, hstep, hoff, ha, hnum⟩ := hr
    simp only [Nat.zero_add, Nat.one_mul] at hlen hwrap
    have hW0 : ∀ t : sdio_s χ, ops.write s.transfer.func t a L =
        with_ext t (w t.ext a ((List.range L).map t.transfer.data)) := by
      intro t
      have h := hW t 0 (Nat.le_refl 0)
      simp only [Nat.zero_mul, Nat.add_zero] at h
      rw [hf]; exact h
    constructor
    · have h := write_bytes_block ops k w s bytes L a 0 ho hdir hoff hbl hlen hL1 hL32 ha
        hnum (by rw [hstep]; exact hwrap) hW0
      rw [if_pos rfl] at h
      refine ⟨stage_data s.transfer.data 0 bytes, a, ?_⟩
      rw [h]
      have ht : bytes.take L = bytes := List.take_of_length_le (by omega)
      simp only [run_blocks, ht]
    · intro m hm
      simp only [Nat.zero_add, Nat.one_mul] at hm
      have hl : (bytes.take m).length = m := by
        rw [List.length_take]; omega
      rw [write_bytes_stage ops k (bytes.take m) s ho hdir (by rw [hoff, hbl, hl]; omega)
        (by rw [hbl]; omega)]
      exact ho.1
  | succ n ih =>
    intro s a bytes hr hlen hwrap hW
    obtain ⟨ho, hdir, hf, hbl, hstep, hoff, ha, hnum⟩ := hr
    have hmul : (n + 1 + 1) * L = (n + 1) * L + L := Nat.succ_mul (n + 1) L
    have hmul2 : (n + 1 + 1) * (L * step) = (n + 1) * (L * step) + L * step :=
      Nat.succ_mul (n + 1) (L * step)
    have hW0 : ∀ t : sdio_s χ, ops.write s.transfer.func t a L =
        with_ext t (w t.ext a ((List.range L).map t.transfer.data)) := by
      intro t
      have h := hW t 0 (Nat.zero_le _)
      simp only [Nat.zero_mul, Nat.add_zero] at h
      rw [hf]; exact h
    have htl : (bytes.take L).length = L := by
      rw [List.length_take]; omega
    have hdl : (bytes.drop L).length = (n + 1) * L := by
      rw [List.length_drop]; omega
    have h1 := write_bytes_block ops k w s (bytes.take L) L a (n + 1) ho hdir hoff hbl htl
      hL1 hL32 ha hnum (by rw [hstep]; omega) hW0
    rw [if_neg (Nat.succ_ne_zero n), hstep] at h1
    have hr1 : write_ready k
        (xfer s (stage_data s.transfer.data 0 (bytes.take L)) 0 (a + L * step) ((n + 1 : Nat) : Int)
          (w s.ext a (bytes.take L))) f L step (a + L * step) n :=
      ⟨ho, hdir, hf, hbl, hstep, rfl, rfl, by show ((n + 1 : Nat) : Int) = _; push_cast; ring⟩
    have hW1 : ∀ (t : sdio_s χ) (j : Nat), j ≤ n →
        ops.write f t (a + L * step + j * (L * step)) L =
        with_ext t (w t.ext (a + L * step + j * (L * step))
          ((List.range L).map t.transfer.data)) := by
      intro t j hj
      have h := hW t (j + 1) (by omega)
      have e : a + (j + 1) * (L * step) = a + L * step + j * (L * step) := by
        rw [Nat.succ_mul]; omega
      rw [e] at h
      exact h
    obtain ⟨⟨d, st, hfin⟩, hpre⟩ := ih _ (a + L * step) (bytes.drop L) hr1 hdl (by omega) hW1
    constructor
    · refine ⟨d, st, ?_⟩
      have hb : bytes = bytes.take L ++ bytes.drop L := (List.take_append_drop L bytes).symm
      conv_lhs => rw [hb]
      rw [write_bytes_append, h1, hfin]
      rfl
    · intro m hm
      by_cases hmL : m < L
      · have hl : (bytes.take m).length = m := by
          rw [List.length_take]; omega
        rw [write_bytes_stage ops k (bytes.take m) s ho hdir (by rw [hoff, hbl, hl]; omega)
          (by rw [hbl]; omega)]
        exact ho.1
      · have hm2 : m = L + (m - L) := by omega
        have ht : bytes.take m = bytes.take L ++ (bytes.drop L).take (m - L) := by
          conv_lhs => rw [hm2]
          exact List.take_add bytes L (m - L)
        rw [ht, write_bytes_append, h1]
        exact hpre (m - L) (by omega)

/-- Flags among the bits of a 32-bit mask are clear after `& ~mask`. -/
theorem bic_and_subset (x m e : Nat) (hm : m < 2 ^ 32) (he : e &&& m = e) :
    bic x m &&& e = 0 := by
  apply Nat.eq_of_testBit_eq
  intro i
  rw [Nat.testBit_and, testBit_bic, Nat.zero_testBit]
  cases hei : e.testBit i
  · simp
  · have h1 := congrArg (fun n => Nat.testBit n i) he
    simp only [Nat.testBit_and, hei, Bool.true_and] at h1
    have hi := testBit_lt_32 hm i h1
    simp [h1, hi]

/-- The transfer context an accepted CMD53 leaves behind, field by field. -/
theorem sdio_do_command_cmd53_fields (k : sd_h) (ops : sdio_ops χ) (sd : sdio_s χ)
    (arg crc : Nat)
    (h32 : k.ILLEGAL_COMMAND < 2 ^ 32)
    (hE : (k.ADDRESS_ERROR ||| k.OUT_OF_RANGE ||| k.SD_ERROR) &&& 0xf7f80003
      = k.ADDRESS_ERROR ||| k.OUT_OF_RANGE ||| k.SD_ERROR)
    (hst : sd.state = sd_command_state)
    (hfn : (arg >>> 28) &&& 7 ≤ (sd.ioocr >>> 28) &&& 7)
    (hlen : (arg >>> 27) &&& 1 ≠ 0 →
      1 ≤ sd.blk_len ((arg >>> 28) &&& 7) ∧ sd.blk_len ((arg >>> 28) &&& 7) ≤ 2048) :
    transfer_open k (sdio_do_command k ops sd ⟨53, arg, crc⟩).1 ∧
    (sdio_do_command k ops sd ⟨53, arg, crc⟩).1.transfer.dir = (arg >>> 31) &&& 1 ∧
    (sdio_do_command k ops sd ⟨53, arg, crc⟩).1.transfer.func = (arg >>> 28) &&& 7 ∧
    (sdio_do_command k ops sd ⟨53, arg, crc⟩).1.transfer.step = (arg >>> 26) &&& 1 ∧
    (sdio_do_command k ops sd ⟨53, arg, crc⟩).1.transfer.data_offset = 0 ∧
    (sdio_do_command k ops sd ⟨53, arg, crc⟩).1.transfer.data_start
      = (arg >>> 9) &&& SDIO_ADDR_MASK ∧
    (sdio_do_command k ops sd ⟨53, arg, crc⟩).1.transfer.blk_len
      = (if (arg >>> 27) &&& 1 ≠ 0 then sd.blk_len ((arg >>> 28) &&& 7) else 1) ∧
    (sdio_do_command k ops sd ⟨53, arg, crc⟩).1.transfer.blk_num
      = (if arg &&& 0x1ff ≠ 0 then ((arg &&& 0x1ff : Nat) : Int)
          else if (arg >>> 27) &&& 1 ≠ 0 then -1 else 0x200) ∧
    (sdio_do_command k ops sd ⟨53, arg, crc⟩).1.ext = sd.ext ∧
    (sdio_do_command k ops sd ⟨53, arg, crc⟩).1.ioocr = sd.ioocr := by
  have he := sdio_do_command_cmd53 k ops sd arg crc h32 hst hfn hlen
  rw [he]
  refine ⟨⟨rfl, ?_, rfl⟩, rfl, rfl, rfl, rfl, rfl, rfl, rfl, rfl, rfl⟩
  exact bic_and_subset _ _ _ (by norm_num) hE

/-- One byte of a byte-mode read: the handler puts the byte at the current
address into the buffer, the byte is returned, and the transfer ends (last
byte) or moves to the next address. -/
theorem sdio_read_data_byte (ops : sdio_ops χ) (k : sd_h) (g : χ → Nat → Nat)
    (s : sdio_s χ) (f a n : Nat) (hr : read_ready k s f a n) (ha : a + 1 < 2 ^ 32)
    (hR : ∀ t : sdio_s χ, ops.read f t a 1 = put_data t 0 (g t.ext a)) :
    sdio_read_data ops k s =
      (if n = 0 then
          sdio_transfer_done (xfer s (upd s.transfer.data 0 (g s.ext a)) 1 a 0 s.ext)
        else xfer s (upd s.transfer.data 0 (g s.ext a)) 0 (a + 1) n s.ext,
       g s.ext a) := by
  obtain ⟨⟨h1, h2, h3⟩, hdir, hf, hbl, hstep, hoff, hstart, hnum⟩ := hr
  have e1 : put_data s 0 (g s.ext a) = (if s.transfer.data_offset = 0 then
      ops.read s.transfer.func s s.transfer.data_start s.transfer.blk_len else s) := by
    rw [if_pos hoff, hf, hstart, hbl, hR]
  have e2 : xfer s (upd s.transfer.data 0 (g s.ext a)) 1 a ((n : Int) + 1) s.ext =
      { put_data s 0 (g s.ext a) with transfer := { (put_data s 0 (g s.ext a)).transfer with
        data_offset := ((put_data s 0 (g s.ext a)).transfer.data_offset + 1) % 2 ^ 32 } } := by
    show _ = xfer s (upd s.transfer.data 0 (g s.ext a)) ((s.transfer.data_offset + 1) % 2 ^ 32)
      s.transfer.data_start s.transfer.blk_num s.ext
    rw [hoff, hstart, hnum]
    rfl
  rw [sdio_read_data_eq ops k s _ _ e1 e2]
  have c4 : (xfer s (upd s.transfer.data 0 (g s.ext a)) 1 a ((n : Int) + 1)
      s.ext).transfer.data_offset ≥ (xfer s (upd s.transfer.data 0 (g s.ext a)) 1 a
        ((n : Int) + 1) s.ext).transfer.blk_len := by
    show 1 ≥ s.transfer.blk_len
    rw [hbl]
  simp only [ne_eq, h1, h2, h3, hdir, c4, not_true_eq_false, not_false_eq_true, if_true,
    if_false]
  rw [next_block_xfer, hbl, hstep, Nat.mod_eq_of_lt (by omega : a + 1 * 1 < 2 ^ 32)]
  have e3 : (put_data s 0 (g s.ext a)).transfer.data
      (put_data s 0 (g s.ext a)).transfer.data_offset = g s.ext a := by
    show upd s.transfer.data 0 (g s.ext a) s.transfer.data_offset = _
    rw [hoff]
    simp [upd]
  rw [e3]

/-- A whole byte-mode read returns the bytes the handler finds at the
successive addresses. -/
theorem read_bytes_bytes (ops : sdio_ops χ) (k : sd_h) (g : χ → Nat → Nat) (f : Nat)
    (n : Nat) : ∀ (s : sdio_s χ) (a : Nat), read_ready k s f a n → a + (n + 1) < 2 ^ 32 →
      (∀ (t : sdio_s χ) (j : Nat), j ≤ n →
        ops.read f t (a + j) 1 = put_data t 0 (g t.ext (a + j))) →
      (read_bytes ops k (n + 1) s).2 = (List.range (n + 1)).map (fun j => g s.ext (a + j)) := by
  induction n with
  | zero =>
    intro s a hr ha hR
    have h := sdio_read_data_byte ops k g s f a 0 hr (by omega) (fun t => hR t 0 (Nat.le_refl 0))
    show (sdio_read_data ops k s).2 :: (read_bytes ops k 0 (sdio_read_data ops k s).1).2 = _
    rw [h]
    rfl
  | succ n ih =>
    intro s a hr ha hR
    have h := sdio_read_data_byte ops k g s f a (n + 1) hr (by omega)
      (fun t => hR t 0 (Nat.zero_le _))
    rw [if_neg (Nat.succ_ne_zero n)] at h
    obtain ⟨ho, hdir, hf, hbl, hstep, hoff, hstart, hnum⟩ := hr
    have hr1 : read_ready k
        (xfer s (upd s.transfer.data 0 (g s.ext a)) 0 (a + 1) ((n + 1 : Nat) : Int) s.ext)
        f (a + 1) n :=
      ⟨ho, hdir, hf, hbl, hstep, rfl, rfl, by show ((n + 1 : Nat) : Int) = _; push_cast; ring⟩
    have hR1 : ∀ (t : sdio_s χ) (j : Nat), j ≤ n →
        ops.read f t (a + 1 + j) 1 = put_data t 0 (g t.ext (a + 1 + j)) := by
      intro t j hj
      have h := hR t (j + 1) (by omega)
      have e : a + (j + 1) = a + 1 + j := by omega
      rw [e] at h
      exact h
    have hih := ih _ (a + 1) hr1 (by omega) hR1
    show (sdio_read_data ops k s).2 :: (read_bytes ops k (n + 1) (sdio_read_data ops k s).1).2
      = _
    rw [h]
    show g s.ext a :: (read_bytes ops k (n + 1)
      (xfer s (upd s.transfer.data 0 (g s.ext a)) 0 (a + 1) ((n + 1 : Nat) : Int) s.ext)).2 = _
    rw [hih, List.range_succ_eq_map (n + 1), List.map_cons, List.map_map]
    congr 1
    apply List.map_congr_left
    intro j _
    show g s.ext (a + 1 + j) = g s.ext (a + (j + 1))
    congr 1
    omega

/-- Single-byte stores at `a, a+1, ...` into a byte memory: every cell of the
range holds its byte, the cells below `a` are untouched. -/
theorem run_blocks_memory (get : χ → Nat → Nat) (put : χ → Nat → Nat → χ) (lo hi : Nat)
    (hgp : ∀ (e : χ) (x v y : Nat), lo ≤ x → x < hi → lo ≤ y → y < hi →
      get (put e x v) y = if y = x then v else get e y)
    (n : Nat) : ∀ (a : Nat) (bytes : List Nat) (e : χ), bytes.length = n → lo ≤ a →
      a + n ≤ hi →
      (∀ y, lo ≤ y → y < a →
        get (run_blocks (fun e x l => put e x (l.headD 0)) 1 1 n a bytes e) y = get e y) ∧
      (∀ i, i < n →
        get (run_blocks (fun e x l => put e x (l.headD 0)) 1 1 n a bytes e) (a + i)
          = bytes.getD i 0) := by
  induction n with
  | zero =>
    intro a bytes e _ _ _
    exact ⟨fun y _ _ => rfl, fun i hi => absurd hi (Nat.not_lt_zero i)⟩
  | succ n ih =>
    intro a bytes e hlen hlo hhi
    obtain ⟨b, rest, rfl⟩ : ∃ b rest, bytes = b :: rest := by
      cases bytes with
      | nil => simp at hlen
      | cons b rest => exact ⟨b, rest, rfl⟩
    have hrl : rest.length = n := by simpa using hlen
    have hstep : run_blocks (fun e x l => put e x (l.headD 0)) 1 1 (n + 1) a (b :: rest) e =
        run_blocks (fun e x l => put e x (l.headD 0)) 1 1 n (a + 1) rest (put e a b) := rfl
    obtain ⟨ih1, ih2⟩ := ih (a + 1) rest (put e a b) hrl (by omega) (by omega)
    rw [hstep]
    constructor
    · intro y hy1 hy2
      rw [ih1 y hy1 (by omega), hgp e a b y hlo (by omega) hy1 (by omega),
        if_neg (by omega)]
    · intro i hi
      cases i with
      | zero =>
        show get (run_blocks (fun e x l => put e x (l.headD 0)) 1 1 n (a + 1) rest
          (put e a b)) a = _
        rw [ih1 a hlo (by omega), hgp e a b a hlo (by omega) hlo (by omega), if_pos rfl]
        rfl
      | succ i =>
        have e1 : a + (i + 1) = a + 1 + i := by omega
        rw [e1, ih2 i (by omega)]
        rfl

/-- C6: round trip.  For a function `f` whose handlers behave on the window
`a .. a+N-1` as a byte-addressable memory (`get` / `put`), a byte-mode
auto-increment CMD53 write of `N` bytes (1 <= N <= 511, one `sdio_write_data`
call per byte) followed by a byte-mode auto-increment CMD53 read with the same
function, address and count (`N` calls of `sdio_read_data`) returns the same
`N` bytes in order. -/
theorem cmd53_roundtrip (k : sd_h) (ops : sdio_ops χ) (sd : sdio_s χ)
    (get : χ → Nat → Nat) (put : χ → Nat → Nat → χ) (f a : Nat) (bytes : List Nat)
    (argw crcw argr crcr : Nat)
    (h32 : k.ILLEGAL_COMMAND < 2 ^ 32)
    (hE : (k.ADDRESS_ERROR ||| k.OUT_OF_RANGE ||| k.SD_ERROR) &&& 0xf7f80003
      = k.ADDRESS_ERROR ||| k.OUT_OF_RANGE ||| k.SD_ERROR)
    (hst : sd.state = sd_command_state) (hf : f ≤ (sd.ioocr >>> 28) &&& 7)
    (hN1 : 1 ≤ bytes.length) (hN2 : bytes.length ≤ 511)
    (hw : (argw >>> 31) &&& 1 = 1 ∧ (argw >>> 28) &&& 7 = f ∧ (argw >>> 27) &&& 1 = 0 ∧
      (argw >>> 26) &&& 1 = 1 ∧ (argw >>> 9) &&& SDIO_ADDR_MASK = a ∧
      argw &&& 0x1ff = bytes.length)
    (hr : (argr >>> 31) &&& 1 = 0 ∧ (argr >>> 28) &&& 7 = f ∧ (argr >>> 27) &&& 1 = 0 ∧
      (argr >>> 26) &&& 1 = 1 ∧ (argr >>> 9) &&& SDIO_ADDR_MASK = a ∧
      argr &&& 0x1ff = bytes.length)
    (hgp : ∀ (e : χ) (x v y : Nat), a ≤ x → x < a + bytes.length → a ≤ y →
      y < a + bytes.length → get (put e x v) y = if y = x then v else get e y)
    (hW : ∀ (t : sdio_s χ) (x : Nat), a ≤ x → x < a + bytes.length →
      ops.write f t x 1 = with_ext t (put t.ext x (t.transfer.data 0)))
    (hR : ∀ (t : sdio_s χ) (x : Nat), a ≤ x → x < a + bytes.length →
      ops.read f t x 1 = put_data t 0 (get t.ext x)) :
    (read_bytes ops k bytes.length
      (sdio_do_command k ops
        (write_bytes ops k (sdio_do_command k ops sd ⟨53, argw, crcw⟩).1 bytes)
        ⟨53, argr, crcr⟩).1).2 = bytes := by
  obtain ⟨w31, w28, w27, w26, w9, w0⟩ := hw
  obtain ⟨r31, r28, r27, r26, r9, r0⟩ := hr
  have ha : a ≤ 0x1ffff := by rw [← w9]; exact Nat.and_le_right
  obtain ⟨n, hn⟩ : ∃ n, bytes.length = n + 1 := ⟨bytes.length - 1, by omega⟩
  -- the write command
  obtain ⟨ho, f1, f2, f3, f4, f5, f6, f7, f8, f9⟩ :=
    sdio_do_command_cmd53_fields k ops sd argw crcw h32 hE hst (by rw [w28]; exact hf)
      (by rw [w27]; intro h; exact absurd rfl h)
  rw [w31] at f1
  rw [w28] at f2
  rw [w26] at f3
  rw [w9] at f5
  rw [w27] at f6
  rw [w0, w27] at f7
  simp only [ne_eq, not_true_eq_false, if_false] at f6
  rw [if_pos (by omega)] at f7
  generalize (sdio_do_command k ops sd ⟨53, argw, crcw⟩).1 = s1 at *
  have hwr : write_ready k s1 f 1 1 a n :=
    ⟨ho, by rw [f1]; decide, f2, f6, f3, f4, f5, by rw [f7, hn]; push_cast; ring⟩
  obtain ⟨⟨d, st, hfin⟩, _⟩ := write_bytes_blocks ops k (fun e x l => put e x (l.headD 0))
    f 1 1 (Nat.le_refl 1) (by norm_num) n s1 a bytes hwr (by omega) (by omega)
    (fun t j hj => by
      have h := hW t (a + j * (1 * 1)) (by omega) (by omega)
      rw [h]
      rfl)
  have hdone := sdio_transfer_done_fields
    (xfer s1 d 1 st 0 (run_blocks (fun e x l => put e x (l.headD 0)) 1 (1 * 1) (n + 1) a
      bytes s1.ext))
  rw [← hfin] at hdone
  obtain ⟨g1, g2, g3, _⟩ := hdone
  generalize write_bytes ops k s1 bytes = s2 at *
  -- the read command
  obtain ⟨ho3, p1, p2, p3, p4, p5, p6, p7, p8, _⟩ :=
    sdio_do_command_cmd53_fields k ops s2 argr crcr h32 hE g1
      (by rw [r28, g3]; show f ≤ (s1.ioocr >>> 28) &&& 7; rw [f9]; exact hf)
      (by rw [r27]; intro h; exact absurd rfl h)
  rw [r31] at p1
  rw [r28] at p2
  rw [r26] at p3
  rw [r9] at p5
  rw [r27] at p6
  rw [r0, r27] at p7
  simp only [ne_eq, not_true_eq_false, if_false] at p6
  rw [if_pos (by omega)] at p7
  generalize (sdio_do_command k ops s2 ⟨53, argr, crcr⟩).1 = s3 at *
  have hrr : read_ready k s3 f a n :=
    ⟨ho3, p1, p2, p6, p3, p4, p5, by rw [p7, hn]; push_cast; ring⟩
  have hread := read_bytes_bytes ops k get f n s3 a hrr (by omega)
    (fun t j hj => hR t (a + j) (by omega) (by omega))
  rw [hn, hread, p8, g2]
  -- the memory holds the bytes
  obtain ⟨_, hmem⟩ := run_blocks_memory get put a (a + bytes.length) hgp (n + 1) a bytes
    s1.ext hn (Nat.le_refl a) (by omega)
  apply List.ext_getElem
  · simp [hn]
  · intro i h1 h2
    have hi : i < n + 1 := by simpa using h1
    simp only [List.getElem_map, List.getElem_range]
    show get (run_blocks (fun e x l => put e x (l.headD 0)) 1 (1 * 1) (n + 1) a bytes s1.ext)
      (a + i) = _
    rw [Nat.mul_one, hmem i hi, List.getD_eq_getElem?_getD, List.getElem?_eq_getElem h2]
    rfl

/-- A host write to a scratch register only stores the byte. -/
theorem ar6k_hif_write_scratch (s : ar6k_s) (x v : Nat) (h1 : 0x460 ≤ x) (h2 : x < 0x468) :
    ar6k_hif_write s x v = with_ext s (scratch_put s.ext x v) := by
  unfold ar6k_hif_write
  simp only [AR6K_HOST_INT_STAT, AR6K_CPU_INT_STAT, AR6K_ERROR_INT_STAT,
    AR6K_COUNTER_INT_STAT, AR6K_MBOX_FRAME, AR6K_INT_STAT_ENABLE, AR6K_CPU_INT_STAT_ENABLE,
    AR6K_ERROR_STAT_ENABLE, AR6K_COUNTER_INT_STAT_ENABLE, AR6K_SCRATCH]
  have status : ¬ x = 0x400 ∧ ¬ x = 0x401 ∧ ¬ x = 0x402 ∧ ¬ x = 0x403 ∧ ¬ x = 0x404 := by
    omega
  have enable : ¬ x = 0x418 ∧ ¬ x = 0x419 ∧ ¬ x = 0x41a ∧ ¬ x = 0x41b := by omega
  have window : 0x460 ≤ x ∧ x ≤ 0x460 + 7 := by omega
  rw [if_neg status.1, if_neg status.2.1, if_neg status.2.2.1, if_neg status.2.2.2.1,
    if_neg status.2.2.2.2, if_neg enable.1, if_neg enable.2.1, if_neg enable.2.2.1,
    if_neg enable.2.2.2, if_pos window]
  rfl

/-- A host read of a scratch register returns the stored byte and changes
nothing. -/
theorem ar6k_hif_read_scratch (s : ar6k_s) (x : Nat) (h1 : 0x460 ≤ x) (h2 : x < 0x468) :
    ar6k_hif_read s x = (s, scratch_get s.ext x) := by
  unfold ar6k_hif_read
  simp only [AR6K_HOST_INT_STAT, AR6K_CPU_INT_STAT, AR6K_ERROR_INT_STAT,
    AR6K_COUNTER_INT_STAT, AR6K_MBOX_FRAME, AR6K_RX_LOOKAHEAD_VALID, AR6K_RX_LOOKAHEAD0,
    AR6K_RX_LOOKAHEAD3, AR6K_INT_STAT_ENABLE, AR6K_CPU_INT_STAT_ENABLE,
    AR6K_ERROR_STAT_ENABLE, AR6K_COUNTER_INT_STAT_ENABLE, AR6K_COUNT, AR6K_COUNT_RESET,
    AR6K_COUNT_DEC, AR6K_SCRATCH]
  have status : ¬ x = 0x400 ∧ ¬ x = 0x401 ∧ ¬ x = 0x402 ∧ ¬ x = 0x403 ∧ ¬ x = 0x404 ∧
      ¬ x = 0x405 := by omega
  have lookahead : ¬ (0x408 ≤ x ∧ x ≤ 0x414 + 3) := by omega
  have enable : ¬ x = 0x418 ∧ ¬ x = 0x419 ∧ ¬ x = 0x41a ∧ ¬ x = 0x41b := by omega
  have count : ¬ (0x420 + 0x4 ≤ x ∧ x ≤ 0x420 + 0x7) := by omega
  have creset : ¬ (x = 0x440 + 0x0 ∨ x = 0x440 + 0x4 ∨ x = 0x440 + 0x8 ∨ x = 0x440 + 0xc) := by
    omega
  have cdec : ¬ (x = 0x450 + 0x0 ∨ x = 0x450 + 0x4 ∨ x = 0x450 + 0x8 ∨ x = 0x450 + 0xc) := by
    omega
  have window : 0x460 ≤ x ∧ x ≤ 0x460 + 7 := by omega
  rw [if_neg status.1, if_neg status.2.1, if_neg status.2.2.1, if_neg status.2.2.2.1,
    if_neg status.2.2.2.2.1, if_neg status.2.2.2.2.2, if_neg lookahead, if_neg enable.1,
    if_neg enable.2.1, if_neg enable.2.2.1, if_neg enable.2.2.2, if_neg count,
    if_neg creset, if_neg cdec, if_pos window]
  rfl

/-- Witness of C6: eight bytes written to and read back from the scratch
registers 0x460..0x467 of function 1 of the AR6000. -/
theorem cmd53_roundtrip_witness :
    (read_bytes ar6k_ops sd_h.std 8
      (sdio_do_command sd_h.std ar6k_ops
        (write_bytes ar6k_ops sd_h.std
          (sdio_do_command sd_h.std ar6k_ops st_command ⟨53, 0x9408c008, 0⟩).1
          [10, 20, 30, 40, 50, 60, 70, 80])
        ⟨53, 0x1408c008, 0⟩).1).2 = [10, 20, 30, 40, 50, 60, 70, 80] :=
  cmd53_roundtrip sd_h.std ar6k_ops st_command scratch_get scratch_put 1 0x460
    [10, 20, 30, 40, 50, 60, 70, 80] 0x9408c008 0 0x1408c008 0
    (by decide) (by decide) (by decide) (by decide) (by decide) (by decide)
    (by decide) (by decide)
    (fun e x v y hx1 hx2 hy1 hy2 => by
      simp only [List.length_cons, List.length_nil] at hx2 hy2
      simp only [scratch_get, scratch_put, upd, AR6K_SCRATCH]
      by_cases hxy : y = x
      · rw [if_pos (by rw [hxy]), if_pos hxy]
      · rw [if_neg (by omega), if_neg hxy])
    (fun t x hx1 hx2 => by
      simp only [List.length_cons, List.length_nil] at hx2
      show ar6k_hif_write t x (t.transfer.data 0) = _
      exact ar6k_hif_write_scratch t x _ hx1 (by omega))
    (fun t x hx1 hx2 => by
      simp only [List.length_cons, List.length_nil] at hx2
      show put_data (ar6k_hif_read t x).1 0 (ar6k_hif_read t x).2 = _
      rw [ar6k_hif_read_scratch t x hx1 (by omega)])

/-! ## Responses: how `sdio_do_command` builds them -/

/-- The parts of `sd_response_r5_make`. -/
theorem sd_response_r5_make_eq (k : sd_h) (sd : sdio_s χ) :
    sd_response_r5_make k sd =
      ({ sd with card_status := bic sd.card_status 0xf7f80003 },
       (if sd.spi ≠ 0 then [] else [0, 0]) ++
         [r5_status k sd, sd.transfer.data sd.transfer.data_offset]) := rfl

/-- When the decode answers R5, `sdio_do_command` is `sd_response_r5_make` on the
state of the decode with the current command updated; the response is never
suppressed, because the R5 status clear removes ILLEGAL_COMMAND. -/
theorem sdio_do_command_r5 (k : sd_h) (ops : sdio_ops χ) (sd s2 : sdio_s χ)
    (req : sd_request_s)
    (hI : k.ILLEGAL_COMMAND &&& 0xf7f80003 = k.ILLEGAL_COMMAND)
    (h : sdio_normal_command k ops (decode_entry k sd req.cmd) req = (sd_r5, s2)) :
    sdio_do_command k ops sd req =
      ((sd_response_r5_make k { s2 with current_cmd := s2.next_cmd }).1,
       if s2.spi ≠ 0 then 2 else 4,
       (sd_response_r5_make k { s2 with current_cmd := s2.next_cmd }).2) := by
  have hz : bic s2.card_status 0xf7f80003 &&& k.ILLEGAL_COMMAND = 0 :=
    bic_and_subset _ _ _ (by norm_num) hI
  unfold decode_entry at h
  unfold sdio_do_command
  simp only [sd_req_crc_validate, ne_eq, not_true_eq_false, if_false]
  rw [h]
  show (_, (if bic s2.card_status 0xf7f80003 &&& k.ILLEGAL_COMMAND ≠ 0 then 0
    else if s2.spi ≠ 0 then 2 else 4), _) = _
  rw [hz]
  rfl

/-- When the decode answers R1 or R1b, `sdio_do_command` is
`sd_response_r1_make` on the state of the decode with the current command
updated, the last status being the card status at entry. -/
theorem sdio_do_command_r1 (k : sd_h) (ops : sdio_ops χ) (sd s2 : sdio_s χ)
    (req : sd_request_s) (rt : sd_rsp_type_t) (hrt : rt = sd_r1 ∨ rt = sd_r1b)
    (h : sdio_normal_command k ops (decode_entry k sd req.cmd) req = (rt, s2)) :
    sdio_do_command k ops sd req =
      ((sd_response_r1_make k { s2 with current_cmd := s2.next_cmd } sd.card_status).1,
       if (sd_response_r1_make k { s2 with current_cmd := s2.next_cmd }
           sd.card_status).1.card_status &&& k.ILLEGAL_COMMAND ≠ 0 then 0 else 4,
       (sd_response_r1_make k { s2 with current_cmd := s2.next_cmd } sd.card_status).2) := by
  unfold decode_entry at h
  unfold sdio_do_command
  simp only [sd_req_crc_validate, ne_eq, not_true_eq_false, if_false]
  rw [h]
  rcases hrt with rfl | rfl <;> rfl

/-- An or-chain holds the bits of its right member. -/
theorem testBit_or_flag (x y : Nat) (i : Nat) (h : y.testBit i = true) :
    (x ||| y).testBit i = true := by
  rw [Nat.testBit_or, h, Bool.or_true]

/-- An or-chain holds the bits of its left member. -/
theorem testBit_flag_or (x y : Nat) (i : Nat) (h : x.testBit i = true) :
    (x ||| y).testBit i = true := by
  rw [Nat.testBit_or, h, Bool.true_or]

/-- The address-error bit of the R5 flags byte: bit 4 in SPI mode, bit 1
otherwise. -/
theorem r5_status_address_error (k : sd_h) (sd : sdio_s χ)
    (h : sd.card_status &&& k.ADDRESS_ERROR ≠ 0) :
    (r5_status k sd).testBit (if sd.spi ≠ 0 then 4 else 1) = true := by
  have hn : (1 <<< 1 : Nat).testBit 1 = true ∧ (1 <<< 4 : Nat).testBit 4 = true := by decide
  unfold r5_status
  by_cases hspi : sd.spi = 0
  · have hs : ¬ sd.spi ≠ 0 := not_not.mpr hspi
    rw [if_neg hs, if_neg hs, if_pos h]
    exact testBit_flag_or _ _ _ (testBit_or_flag _ _ _ hn.1)
  · have hs : sd.spi ≠ 0 := hspi
    rw [if_pos hs, if_pos hs, if_pos h]
    exact testBit_flag_or _ _ _ (testBit_flag_or _ _ _ (testBit_flag_or _ _ _
      (testBit_or_flag _ _ _ hn.2)))

/-! ## CMD52 -/

/-- What the first statements of the CMD52 case leave alone, and what they
set. -/
theorem cmd52_prologue_core (sd : sdio_s χ) :
    (cmd52_prologue sd).state = sd.state ∧ (cmd52_prologue sd).spi = sd.spi ∧
    (cmd52_prologue sd).ioocr = sd.ioocr ∧
    (cmd52_prologue sd).card_status = sd.card_status ∧
    (cmd52_prologue sd).ext = sd.ext ∧
    (cmd52_prologue sd).next_cmd
      = (if sd.state = sd_transfer_state then sd.current_cmd else sd.next_cmd) ∧
    (cmd52_prologue sd).transfer
      = { sd.transfer with data_offset := 0, step := 1 } := by
  unfold cmd52_prologue
  by_cases h : sd.state = sd_transfer_state
  · simp only [h, if_true]
    exact ⟨trivial, trivial, trivial, trivial, trivial, trivial, trivial⟩
  · simp only [h, if_false]
    exact ⟨trivial, trivial, trivial, trivial, trivial, trivial, trivial⟩

/-- CMD52 with a function index above the function count of the OCR. -/
theorem sdio_normal_command_cmd52_bad_fn (k : sd_h) (ops : sdio_ops χ) (sd : sdio_s χ)
    (arg crc : Nat)
    (hst : sd.state = sd_command_state ∨ sd.state = sd_transfer_state)
    (hfn : (sd.ioocr >>> 28) &&& 7 < (arg >>> 28) &&& 7) :
    sdio_normal_command k ops sd ⟨52, arg, crc⟩ =
      (sd_r5, put_data { cmd52_prologue sd with
        card_status := sd.card_status ||| k.ADDRESS_ERROR } 0 (arg &&& 0xff)) := by
  unfold sdio_normal_command cmd52_prologue put_data
  rcases hst with hs | hs <;> simp [hs, hfn]

/-- CMD52 with a valid function index. -/
theorem sdio_normal_command_cmd52 (k : sd_h) (ops : sdio_ops χ) (sd : sdio_s χ)
    (arg crc : Nat)
    (hst : sd.state = sd_command_state ∨ sd.state = sd_transfer_state)
    (hfn : (arg >>> 28) &&& 7 ≤ (sd.ioocr >>> 28) &&& 7) :
    sdio_normal_command k ops sd ⟨52, arg, crc⟩ =
      (sd_r5, cmd52_access ops (cmd52_prologue sd) arg) := by
  have hfn' : ¬ ((sd.ioocr >>> 28) &&& 7 < (arg >>> 28) &&& 7) := not_lt.mpr hfn
  unfold sdio_normal_command cmd52_prologue cmd52_access put_data
  rcases hst with hs | hs <;> simp [hs, hfn']

/-- C11: a CMD52 in Command or Transfer state whose function index is above the
function count of the I/O OCR gives the same result for every handler table and
leaves the chip part alone (no handler runs); the decode raises ADDRESS_ERROR;
an R5 is returned (2 bytes in SPI mode, 4 otherwise) whose flags byte has the
address-error bit set (bit 4 in SPI mode, bit 1 otherwise) and whose data byte
is the low 8 bits of the argument. -/
theorem cmd52_function_out_of_range (k : sd_h) (ops : sdio_ops χ) (sd : sdio_s χ)
    (arg crc : Nat)
    (hI : k.ILLEGAL_COMMAND &&& 0xf7f80003 = k.ILLEGAL_COMMAND)
    (hA : k.ADDRESS_ERROR ≠ 0)
    (hst : sd.state = sd_command_state ∨ sd.state = sd_transfer_state)
    (hfn : (sd.ioocr >>> 28) &&& 7 < (arg >>> 28) &&& 7) :
    (∀ ops2 : sdio_ops χ,
      sdio_do_command k ops2 sd ⟨52, arg, crc⟩ = sdio_do_command k ops sd ⟨52, arg, crc⟩) ∧
    (sdio_do_command k ops sd ⟨52, arg, crc⟩).1.ext = sd.ext ∧
    (sdio_normal_command k ops (decode_entry k sd 52) ⟨52, arg, crc⟩).2.card_status
      &&& k.ADDRESS_ERROR = k.ADDRESS_ERROR ∧
    (sdio_do_command k ops sd ⟨52, arg, crc⟩).2.1 = (if sd.spi ≠ 0 then 2 else 4) ∧
    ∃ flags : Nat,
      flags.testBit (if sd.spi ≠ 0 then 4 else 1) = true ∧
      (sdio_do_command k ops sd ⟨52, arg, crc⟩).2.2 =
        (if sd.spi ≠ 0 then [] else [0, 0]) ++ [flags, arg &&& 0xff] := by
  have hd : ∀ o : sdio_ops χ, sdio_normal_command k o (decode_entry k sd 52)
      ⟨52, arg, crc⟩ = _ := fun o =>
    sdio_normal_command_cmd52_bad_fn k o (decode_entry k sd 52) arg crc hst hfn
  have he : ∀ o : sdio_ops χ, sdio_do_command k o sd ⟨52, arg, crc⟩ = _ := fun o =>
    sdio_do_command_r5 k o sd _ ⟨52, arg, crc⟩ hI (hd o)
  obtain ⟨-, p2, -, -, p5, -, -⟩ := cmd52_prologue_core (decode_entry k sd 52)
  have hae : ((decode_entry k sd 52).card_status ||| k.ADDRESS_ERROR) &&& k.ADDRESS_ERROR
      ≠ 0 := by
    rw [or_and_self]; exact hA
  refine ⟨fun o => by rw [he o, he ops], ?_, ?_, ?_, ?_⟩
  · rw [he ops]
    exact p5
  · rw [hd ops]
    exact or_and_self _ _
  · rw [he ops]
    show (if (cmd52_prologue (decode_entry k sd 52)).spi ≠ 0 then 2 else 4) = _
    rw [p2]
    rfl
  · rw [he ops, sd_response_r5_make_eq]
    have h := r5_status_address_error k { put_data { cmd52_prologue (decode_entry k sd 52)
      with card_status := (decode_entry k sd 52).card_status ||| k.ADDRESS_ERROR } 0
      (arg &&& 0xff) with current_cmd := (cmd52_prologue (decode_entry k sd 52)).next_cmd }
      hae
    rw [show sd.spi = (cmd52_prologue (decode_entry k sd 52)).spi from p2.symm]
    exact ⟨_, h, rfl⟩

/-- Witness of C11: function 2 on the AR6000, which has one I/O function. -/
theorem cmd52_function_out_of_range_witness :
    (sdio_do_command sd_h.std ar6k_ops st_command ⟨52, 0x2000005a, 0⟩).1.ext
      = st_command.ext ∧
    (sdio_do_command sd_h.std ar6k_ops st_command ⟨52, 0x2000005a, 0⟩).2.1 = 4 ∧
    (sdio_do_command sd_h.std ar6k_ops st_command ⟨52, 0x2000005a, 0⟩).2.2
      = [0, 0, 0x12, 0x5a] :=
  have h := cmd52_function_out_of_range sd_h.std ar6k_ops st_command 0x2000005a 0
    (by decide) (by decide) (Or.inl (by decide)) (by decide)
  ⟨h.2.1, h.2.2.2.1.trans (by decide), by decide⟩

/-- In Command state the first statements of the CMD52 case only set the
running offset and the step. -/
theorem cmd52_prologue_command (sd : sdio_s χ) (h : sd.state = sd_command_state) :
    cmd52_prologue sd
      = { sd with transfer := { sd.transfer with data_offset := 0, step := 1 } } := by
  unfold cmd52_prologue
  simp [h]

/-- CMD52 in Command state with a valid function `f` and the address
`a` of argument bits 25..9, in the special case of handlers of `f` that at
`a` act on the chip part only (`w` the effect of a one-byte write, `r` the
effect of a one-byte read and `g` the byte it delivers).  With R/W set and RAW clear the chip part
becomes `w e (arg & 0xff)` and the data byte of the R5 is `arg & 0xff`; with
R/W and RAW set the read follows the write: the chip part becomes
`r (w e (arg & 0xff))` and the data byte is the one read from
`w e (arg & 0xff)`; with R/W clear only the read runs.  The R5 is 2 bytes long
in SPI mode and 4 otherwise, and the card stays in Command state. -/
theorem cmd52_chip_access (k : sd_h) (ops : sdio_ops χ) (sd : sdio_s χ)
    (arg crc : Nat) (w : χ → Nat → χ) (r : χ → χ) (g : χ → Nat)
    (hI : k.ILLEGAL_COMMAND &&& 0xf7f80003 = k.ILLEGAL_COMMAND)
    (hst : sd.state = sd_command_state)
    (hfn : (arg >>> 28) &&& 7 ≤ (sd.ioocr >>> 28) &&& 7)
    (hW : ∀ t : sdio_s χ, ops.write ((arg >>> 28) &&& 7) t ((arg >>> 9) &&& SDIO_ADDR_MASK) 1
      = with_ext t (w t.ext (t.transfer.data 0)))
    (hR : ∀ t : sdio_s χ, ops.read ((arg >>> 28) &&& 7) t ((arg >>> 9) &&& SDIO_ADDR_MASK) 1
      = put_data (with_ext t (r t.ext)) 0 (g t.ext)) :
    (sdio_do_command k ops sd ⟨52, arg, crc⟩).2.1 = (if sd.spi ≠ 0 then 2 else 4) ∧
    (sdio_do_command k ops sd ⟨52, arg, crc⟩).1.state = sd_command_state ∧
    ((arg >>> 31) &&& 1 ≠ 0 → (arg >>> 27) &&& 1 = 0 →
      (sdio_do_command k ops sd ⟨52, arg, crc⟩).1.ext = w sd.ext (arg &&& 0xff) ∧
      (sdio_do_command k ops sd ⟨52, arg, crc⟩).2.2.getLast? = some (arg &&& 0xff)) ∧
    ((arg >>> 31) &&& 1 ≠ 0 → (arg >>> 27) &&& 1 ≠ 0 →
      (sdio_do_command k ops sd ⟨52, arg, crc⟩).1.ext = r (w sd.ext (arg &&& 0xff)) ∧
      (sdio_do_command k ops sd ⟨52, arg, crc⟩).2.2.getLast?
        = some (g (w sd.ext (arg &&& 0xff)))) ∧
    ((arg >>> 31) &&& 1 = 0 →
      (sdio_do_command k ops sd ⟨52, arg, crc⟩).1.ext = r sd.ext ∧
      (sdio_do_command k ops sd ⟨52, arg, crc⟩).2.2.getLast? = some (g sd.ext)) := by
  have hd := sdio_normal_command_cmd52 k ops (decode_entry k sd 52) arg crc (Or.inl hst) hfn
  rw [cmd52_prologue_command (decode_entry k sd 52) hst] at hd
  have he := sdio_do_command_r5 k ops sd _ ⟨52, arg, crc⟩ hI hd
  rw [he, sd_response_r5_make_eq]
  by_cases hrw : (arg >>> 31) &&& 1 = 0
  · have hacc : cmd52_access ops { decode_entry k sd 52 with
        transfer := { (decode_entry k sd 52).transfer with data_offset := 0, step := 1 } } arg
        = put_data (with_ext { decode_entry k sd 52 with
            transfer := { (decode_entry k sd 52).transfer with data_offset := 0, step := 1 } }
            (r sd.ext)) 0 (g sd.ext) := by
      unfold cmd52_access
      simp only [hrw, ne_eq, not_true_eq_false, if_false, true_or, if_true]
      rw [hR]
      rfl
    rw [hacc]
    refine ⟨rfl, hst, fun h => absurd hrw h, fun h => absurd hrw h, fun _ => ⟨rfl, ?_⟩⟩
    simp [put_data, with_ext, upd]
  · by_cases hraw : (arg >>> 27) &&& 1 = 0
    · have hacc : cmd52_access ops { decode_entry k sd 52 with
          transfer := { (decode_entry k sd 52).transfer with data_offset := 0, step := 1 } }
          arg
          = with_ext (put_data { decode_entry k sd 52 with
              transfer := { (decode_entry k sd 52).transfer with data_offset := 0, step := 1 } }
              0 (arg &&& 0xff)) (w sd.ext (arg &&& 0xff)) := by
        unfold cmd52_access
        simp only [hrw, hraw, ne_eq, not_true_eq_false, not_false_eq_true, if_false, if_true,
          or_self]
        rw [hW]
        rfl
      rw [hacc]
      refine ⟨rfl, hst, fun _ _ => ⟨rfl, ?_⟩, fun _ h => absurd hraw h, fun h => absurd h hrw⟩
      simp [put_data, with_ext, upd]
    · have hacc : cmd52_access ops { decode_entry k sd 52 with
          transfer := { (decode_entry k sd 52).transfer with data_offset := 0, step := 1 } }
          arg
          = put_data (with_ext (put_data { decode_entry k sd 52 with
              transfer := { (decode_entry k sd 52).transfer with data_offset := 0, step := 1 } }
              0 (arg &&& 0xff)) (r (w sd.ext (arg &&& 0xff)))) 0
              (g (w sd.ext (arg &&& 0xff))) := by
        unfold cmd52_access
        simp only [hrw, hraw, ne_eq, not_true_eq_false, not_false_eq_true, if_false, if_true,
          or_true]
        rw [hW, hR]
        rfl
      rw [hacc]
      refine ⟨rfl, hst, fun _ h => absurd h hraw, fun _ _ => ⟨rfl, ?_⟩, fun h => absurd h hrw⟩
      simp [put_data, with_ext, upd]

/-- A one-byte write of function 1 of the AR6000 is one `ar6k_hif_write`. -/
theorem ar6k_ops_write_one (t : ar6k_s) (x : Nat) :
    ar6k_ops.write 1 t x 1 = ar6k_hif_write t x (t.transfer.data 0) := rfl

/-- A one-byte read of function 1 of the AR6000 is one `ar6k_hif_read`, the
byte stored at the head of the buffer. -/
theorem ar6k_ops_read_one (t : ar6k_s) (x : Nat) :
    ar6k_ops.read 1 t x 1 = put_data (ar6k_hif_read t x).1 0 (ar6k_hif_read t x).2 := rfl

/-- A one-byte write of function 1 of the AR6000 to a scratch register. -/
theorem ar6k_ops_write_scratch (t : ar6k_s) (x : Nat) (h1 : 0x460 ≤ x) (h2 : x < 0x468) :
    ar6k_ops.write 1 t x 1 = with_ext t (scratch_put t.ext x (t.transfer.data 0)) := by
  rw [ar6k_ops_write_one]
  exact ar6k_hif_write_scratch t x _ h1 h2

/-- A one-byte read of function 1 of the AR6000 from a scratch register. -/
theorem ar6k_ops_read_scratch (t : ar6k_s) (x : Nat) (h1 : 0x460 ≤ x) (h2 : x < 0x468) :
    ar6k_ops.read 1 t x 1 = put_data t 0 (scratch_get t.ext x) := by
  rw [ar6k_ops_read_one, ar6k_hif_read_scratch t x h1 h2]

/-- The scratch register 0x460 of function 1 of the AR6000, written with
read-after-write (the byte 0x5a comes back) and read alone. -/
theorem cmd52_chip_access_scratch :
    ((sdio_do_command sd_h.std ar6k_ops st_command ⟨52, 0x9808c05a, 0⟩).1.ext
        = scratch_put st_command.ext 0x460 0x5a ∧
      (sdio_do_command sd_h.std ar6k_ops st_command ⟨52, 0x9808c05a, 0⟩).2.2.getLast?
        = some 0x5a) ∧
    ((sdio_do_command sd_h.std ar6k_ops st_command ⟨52, 0x1008c000, 0⟩).1.ext
        = st_command.ext ∧
      (sdio_do_command sd_h.std ar6k_ops st_command ⟨52, 0x1008c000, 0⟩).2.2.getLast?
        = some 0) :=
  have a1 : (0x9808c05a >>> 28) &&& 7 = 1 ∧ (0x9808c05a >>> 9) &&& SDIO_ADDR_MASK = 0x460 := by
    decide
  have a2 : (0x1008c000 >>> 28) &&& 7 = 1 ∧ (0x1008c000 >>> 9) &&& SDIO_ADDR_MASK = 0x460 := by
    decide
  have h1 := (cmd52_chip_access sd_h.std ar6k_ops st_command 0x9808c05a 0
    (fun e v => scratch_put e 0x460 v) id (fun e => scratch_get e 0x460)
    (by decide) (by decide) (by decide)
    (fun t => by rw [a1.1, a1.2]; exact ar6k_ops_write_scratch t 0x460 (by decide) (by decide))
    (fun t => by rw [a1.1, a1.2]; exact ar6k_ops_read_scratch t 0x460 (by decide) (by decide))
    ).2.2.2.1 (by decide) (by decide)
  have h2 := (cmd52_chip_access sd_h.std ar6k_ops st_command 0x1008c000 0
    (fun e v => scratch_put e 0x460 v) id (fun e => scratch_get e 0x460)
    (by decide) (by decide) (by decide)
    (fun t => by rw [a2.1, a2.2]; exact ar6k_ops_write_scratch t 0x460 (by decide) (by decide))
    (fun t => by rw [a2.1, a2.2]; exact ar6k_ops_read_scratch t 0x460 (by decide) (by decide))
    ).2.2.2.2 (by decide)
  ⟨⟨h1.1, h1.2.trans (by decide)⟩, ⟨h2.1, h2.2.trans (by decide)⟩⟩

/-- C13, the code at the failing input.  The AR6000 is one byte into a
byte-mode, fixed-address CMD53 write of three bytes to the scratch register
0x460 when the host reads the scratch register 0x467 with CMD52.  The current
command is still 53 and the card still in Transfer, but the step of the
transfer context has gone from 0 to 1: the third byte of the transfer lands at
0x461 instead of 0x460.  In a block-mode write the running offset goes from 1
back to 0. -/
theorem cmd52_in_transfer_resets_context :
    (st_fixed3.state = sd_transfer_state ∧ st_fixed3.current_cmd = 53 ∧
      st_fixed3.transfer.step = 0) ∧
    ((sdio_do_command sd_h.std ar6k_ops st_fixed3 ⟨52, 0x1008ce00, 0⟩).1.state
        = sd_transfer_state ∧
      (sdio_do_command sd_h.std ar6k_ops st_fixed3 ⟨52, 0x1008ce00, 0⟩).1.current_cmd = 53 ∧
      (sdio_do_command sd_h.std ar6k_ops st_fixed3 ⟨52, 0x1008ce00, 0⟩).1.transfer.step
        = 1) ∧
    ((write_bytes ar6k_ops sd_h.std st_fixed3 [0x22, 0x33]).ext.hif.scratch 0 = 0x33 ∧
      (write_bytes ar6k_ops sd_h.std st_fixed3 [0x22, 0x33]).ext.hif.scratch 1 = 0) ∧
    ((write_bytes ar6k_ops sd_h.std
        (sdio_do_command sd_h.std ar6k_ops st_fixed3 ⟨52, 0x1008ce00, 0⟩).1
        [0x22, 0x33]).ext.hif.scratch 0 = 0x22 ∧
      (write_bytes ar6k_ops sd_h.std
        (sdio_do_command sd_h.std ar6k_ops st_fixed3 ⟨52, 0x1008ce00, 0⟩).1
        [0x22, 0x33]).ext.hif.scratch 1 = 0x33) ∧
    (st_block1.transfer.data_offset = 1 ∧
      (sdio_do_command sd_h.std ar6k_ops st_block1 ⟨52, 0x1008ce00, 0⟩).1.transfer.data_offset
        = 0) := by
  refine ⟨⟨?_, ?_, ?_⟩, ⟨?_, ?_, ?_⟩, ⟨?_, ?_⟩, ⟨?_, ?_⟩, ⟨?_, ?_⟩⟩ <;> decide

/-! ## CMD0 -/

/-- The case of CMD0 only leaves the switch: the statements after the switch
run. -/
theorem sdio_normal_command_cmd0 (k : sd_h) (ops : sdio_ops χ) (sd : sdio_s χ)
    (arg crc : Nat) :
    sdio_normal_command k ops sd ⟨0, arg, crc⟩ = bad_cmd k sd := by
  unfold sdio_normal_command
  simp

/-- Once the decode has taken the common tail, `sdio_do_command` has left the
transfer context and the chip part alone. -/
theorem sdio_do_command_of_bad_frame (k : sd_h) (ops : sdio_ops χ) (sd : sdio_s χ)
    (req : sd_request_s)
    (hn : sdio_normal_command k ops (decode_entry k sd req.cmd) req
      = bad_cmd k (decode_entry k sd req.cmd)) :
    (sdio_do_command k ops sd req).1.transfer = sd.transfer ∧
    (sdio_do_command k ops sd req).1.ext = sd.ext := by
  unfold decode_entry at hn
  unfold sdio_do_command
  simp only [sd_req_crc_validate, ne_eq, not_true_eq_false, if_false]
  rw [hn]
  unfold bad_cmd
  by_cases hspi : sd.spi = 0
  · simp [hspi]
  · simp [hspi, sd_response_r1_make]

/-- Counterexample to C14 as stated: CMD0 on the AR6000 right after attach
sets ILLEGAL_COMMAND (clear before) and nothing is returned. -/
theorem cmd0_raises_illegal_command :
    st_attach.card_status &&& sd_h.std.ILLEGAL_COMMAND = 0 ∧
    (sdio_do_command sd_h.std ar6k_ops st_attach ⟨0, 0, 0⟩).1.card_status
      &&& sd_h.std.ILLEGAL_COMMAND ≠ 0 ∧
    (sdio_do_command sd_h.std ar6k_ops st_attach ⟨0, 0, 0⟩).2 = (0, []) := by
  decide

/-- C14, amended: CMD0 is rejected in every CardState.  `sdio_do_command` for
CMD0 leaves CardState, RCA, the transfer context and the chip part unchanged,
sets ILLEGAL_COMMAND and returns length 0. -/
theorem cmd0_rejected (k : sd_h) (ops : sdio_ops χ) (sd : sdio_s χ) (arg crc : Nat)
    (hne : k.ILLEGAL_COMMAND ≠ 0) (h32 : k.ILLEGAL_COMMAND < 2 ^ 32)
    (hC : k.ILLEGAL_COMMAND &&& k.CARD_STATUS_C = 0) :
    (sdio_do_command k ops sd ⟨0, arg, crc⟩).1.state = sd.state ∧
    (sdio_do_command k ops sd ⟨0, arg, crc⟩).1.rca = sd.rca ∧
    (sdio_do_command k ops sd ⟨0, arg, crc⟩).1.transfer = sd.transfer ∧
    (sdio_do_command k ops sd ⟨0, arg, crc⟩).1.ext = sd.ext ∧
    (sdio_do_command k ops sd ⟨0, arg, crc⟩).1.card_status &&& k.ILLEGAL_COMMAND ≠ 0 ∧
    (sdio_do_command k ops sd ⟨0, arg, crc⟩).2.1 = 0 := by
  have h := sdio_do_command_of_bad k ops sd ⟨0, arg, crc⟩ hne h32 hC
    (fun s _ _ _ => sdio_normal_command_cmd0 k ops s arg crc)
  have hf := sdio_do_command_of_bad_frame k ops sd ⟨0, arg, crc⟩
    (sdio_normal_command_cmd0 k ops _ arg crc)
  exact ⟨h.1, h.2.1, hf.1, hf.2, h.2.2.1, h.2.2.2⟩

/-- Witness of C14 (amended): CMD0 on the AR6000 in Command state. -/
theorem cmd0_rejected_witness :
    (sdio_do_command sd_h.std ar6k_ops st_command ⟨0, 0, 0⟩).1.state = sd_command_state ∧
    (sdio_do_command sd_h.std ar6k_ops st_command ⟨0, 0, 0⟩).1.rca = 0x4567 ∧
    (sdio_do_command sd_h.std ar6k_ops st_command ⟨0, 0, 0⟩).1.card_status
      &&& sd_h.std.ILLEGAL_COMMAND ≠ 0 ∧
    (sdio_do_command sd_h.std ar6k_ops st_command ⟨0, 0, 0⟩).2.1 = 0 :=
  have h := cmd0_rejected sd_h.std ar6k_ops st_command 0 0 (by decide) (by decide) (by decide)
  ⟨h.1.trans (by decide), h.2.1.trans (by decide), h.2.2.2.2.1, h.2.2.2.2.2⟩

/-! ## The R5 and R1 responses -/

/-- Bits of a 32-bit word after `& ~m`. -/
theorem testBit_bic_of_lt (x m i : Nat) (hx : x < 2 ^ 32) :
    (bic x m).testBit i = (x.testBit i && !m.testBit i) := by
  rw [testBit_bic]
  by_cases hi : i < 32
  · simp [hi]
  · have h : x.testBit i = false :=
      Nat.testBit_eq_false_of_lt
        (lt_of_lt_of_le hx (Nat.pow_le_pow_right (by norm_num) (not_lt.mp hi)))
    simp [h]

/-- Clearing bits does not leave the 32-bit range. -/
theorem bic_lt (x m : Nat) (hx : x < 2 ^ 32) : bic x m < 2 ^ 32 :=
  lt_of_le_of_lt Nat.and_le_left hx

/-- C15: `sd_response_r5_make` on a state `s` with a 32-bit card status
leaves the card status with exactly the bits of 0xF7F80003 cleared and nothing
else of the state changed; the last byte of the response is
`transfer.data[transfer.data_offset]`; in native mode the response has 4 bytes
and the first two are 0.  Whenever the decode of `sdio_do_command` answers R5,
the result is this function applied to the state the decode left, with the
current command updated, and the returned length is 2 in SPI mode and 4
otherwise. -/
theorem r5_response (k : sd_h) (ops : sdio_ops χ) (s sd : sdio_s χ) (req : sd_request_s)
    (hcs : s.card_status < 2 ^ 32)
    (hI : k.ILLEGAL_COMMAND &&& 0xf7f80003 = k.ILLEGAL_COMMAND)
    (hr5 : (sdio_normal_command k ops (decode_entry k sd req.cmd) req).1 = sd_r5) :
    ((∀ i : Nat, (sd_response_r5_make k s).1.card_status.testBit i
        = (s.card_status.testBit i && !(0xf7f80003 : Nat).testBit i)) ∧
      (sd_response_r5_make k s).1
        = { s with card_status := (sd_response_r5_make k s).1.card_status } ∧
      (sd_response_r5_make k s).2.getLast?
        = some (s.transfer.data s.transfer.data_offset) ∧
      (s.spi = 0 → (sd_response_r5_make k s).2.length = 4 ∧
        (sd_response_r5_make k s).2.take 2 = [0, 0])) ∧
    sdio_do_command k ops sd req =
      ((sd_response_r5_make k
          { (sdio_normal_command k ops (decode_entry k sd req.cmd) req).2 with
            current_cmd :=
              (sdio_normal_command k ops (decode_entry k sd req.cmd) req).2.next_cmd }).1,
       if (sdio_normal_command k ops (decode_entry k sd req.cmd) req).2.spi ≠ 0 then 2
         else 4,
       (sd_response_r5_make k
          { (sdio_normal_command k ops (decode_entry k sd req.cmd) req).2 with
            current_cmd :=
              (sdio_normal_command k ops (decode_entry k sd req.cmd) req).2.next_cmd }).2) := by
  refine ⟨⟨fun i => ?_, rfl, ?_, fun hspi => ?_⟩, ?_⟩
  · exact testBit_bic_of_lt _ _ i hcs
  · rw [sd_response_r5_make_eq]
    simp
  · rw [sd_response_r5_make_eq]
    simp [hspi]
  · exact sdio_do_command_r5 k ops sd
      (sdio_normal_command k ops (decode_entry k sd req.cmd) req).2 req hI (Prod.ext hr5 rfl)

/-- Witness of C15: the R5 of a CMD52 read on the AR6000 in Command state. -/
theorem r5_response_witness :
    (sd_response_r5_make sd_h.std st_command).2.getLast?
      = some (st_command.transfer.data st_command.transfer.data_offset) ∧
    (sdio_do_command sd_h.std ar6k_ops st_command ⟨52, 0x1008c000, 0⟩).2.1 = 4 :=
  have h := r5_response sd_h.std ar6k_ops st_command st_command ⟨52, 0x1008c000, 0⟩
    (by decide) (by decide) (by decide)
  ⟨h.1.2.2.1, (congrArg (fun o => o.2.1) h.2).trans (by decide)⟩

/-- C16: `sd_response_r1_make` on a state `s` with a 32-bit card status and a
32-bit `last_status`.  With `m = CARD_STATUS_B ^ ILLEGAL_COMMAND`, the 4 bytes
of the response are the big-endian encoding of the word `W` whose bit `i` is
the bit of `s.card_status` where `m` is clear and the bit of `last_status`
where `m` is set; afterwards the card status has exactly the bits of
CARD_STATUS_C cleared and nothing else of the state is changed.  Whenever
the decode of `sdio_do_command` answers R1 or R1b, the result is this function
applied to the state the decode left (current command updated), with
`last_status` the card status at entry to `sdio_do_command`. -/
theorem r1_response (k : sd_h) (ops : sdio_ops χ) (s sd : sdio_s χ) (last : Nat)
    (req : sd_request_s)
    (hcs : s.card_status < 2 ^ 32) (hl : last < 2 ^ 32)
    (hr1 : (sdio_normal_command k ops (decode_entry k sd req.cmd) req).1 = sd_r1 ∨
      (sdio_normal_command k ops (decode_entry k sd req.cmd) req).1 = sd_r1b) :
    ((∃ W : Nat, W < 2 ^ 32 ∧
        (∀ i : Nat, W.testBit i =
          ((s.card_status.testBit i && !(k.CARD_STATUS_B ^^^ k.ILLEGAL_COMMAND).testBit i) ||
           (last.testBit i && (k.CARD_STATUS_B ^^^ k.ILLEGAL_COMMAND).testBit i))) ∧
        (sd_response_r1_make k s last).2
          = [W / 2 ^ 24 % 256, W / 2 ^ 16 % 256, W / 2 ^ 8 % 256, W % 256]) ∧
      (∀ i : Nat, (sd_response_r1_make k s last).1.card_status.testBit i
        = (s.card_status.testBit i && !k.CARD_STATUS_C.testBit i)) ∧
      (sd_response_r1_make k s last).1
        = { s with card_status := (sd_response_r1_make k s last).1.card_status }) ∧
    (sdio_do_command k ops sd req).1 =
      (sd_response_r1_make k
        { (sdio_normal_command k ops (decode_entry k sd req.cmd) req).2 with
          current_cmd :=
            (sdio_normal_command k ops (decode_entry k sd req.cmd) req).2.next_cmd }
        sd.card_status).1 ∧
    (sdio_do_command k ops sd req).2.2 =
      (sd_response_r1_make k
        { (sdio_normal_command k ops (decode_entry k sd req.cmd) req).2 with
          current_cmd :=
            (sdio_normal_command k ops (decode_entry k sd req.cmd) req).2.next_cmd }
        sd.card_status).2 := by
  have he := sdio_do_command_r1 k ops sd
    (sdio_normal_command k ops (decode_entry k sd req.cmd) req).2 req
    (sdio_normal_command k ops (decode_entry k sd req.cmd) req).1 hr1 rfl
  refine ⟨⟨⟨bic s.card_status (k.CARD_STATUS_B ^^^ k.ILLEGAL_COMMAND) |||
      (last &&& (k.CARD_STATUS_B ^^^ k.ILLEGAL_COMMAND)), ?_, fun i => ?_, ?_⟩,
      fun i => ?_, rfl⟩, ?_, ?_⟩
  · exact Nat.or_lt_two_pow (bic_lt _ _ hcs) (lt_of_le_of_lt Nat.and_le_left hl)
  · rw [Nat.testBit_or, Nat.testBit_and, testBit_bic_of_lt _ _ i hcs]
  · unfold sd_response_r1_make
    obtain ⟨b1, b2, b3, b4⟩ := be32_bytes (bic s.card_status
      (k.CARD_STATUS_B ^^^ k.ILLEGAL_COMMAND) |||
      (last &&& (k.CARD_STATUS_B ^^^ k.ILLEGAL_COMMAND)))
    simp only [b1, b2, b3, b4]
  · exact testBit_bic_of_lt _ _ i hcs
  · exact congrArg (fun o => o.1) he
  · exact congrArg (fun o => o.2.2) he

/-- Witness of C16: the R1b of CMD7 with the card's RCA on the AR6000 in
Standby; the card status 0x00001e00 is sent big-endian. -/
theorem r1_response_witness :
    (∀ i : Nat, (sd_response_r1_make sd_h.std st_standby 0x1e00).1.card_status.testBit i
      = (st_standby.card_status.testBit i && !sd_h.std.CARD_STATUS_C.testBit i)) ∧
    (sdio_do_command sd_h.std ar6k_ops st_standby ⟨7, 0x45670000, 0⟩).2.2
      = [0, 0, 0x1e, 0] :=
  have h := r1_response sd_h.std ar6k_ops st_standby st_standby 0x1e00 ⟨7, 0x45670000, 0⟩
    (by decide) (by decide) (Or.inr (by decide))
  ⟨h.1.2.1, h.2.2.trans (by decide)⟩

/-! ## The HIF registers -/

theorem testBit_bic8 (x m i : Nat) :
    (bic8 x m).testBit i = (x.testBit i && (decide (i < 8) != m.testBit i)) := by
  unfold bic8
  rw [Nat.testBit_and, Nat.testBit_xor]
  have h : (0xff : Nat) = 2 ^ 8 - 1 := by norm_num
  rw [h, Nat.testBit_two_pow_sub_one]

/-- Bits of a byte after `& ~(1 << m)`: bit `m` is cleared, the others are
kept. -/
theorem testBit_bic8_bit (x m i : Nat) (hx : x < 2 ^ 8) :
    (bic8 x (1 <<< m)).testBit i = (x.testBit i && decide (i ≠ m)) := by
  rw [testBit_bic8, Nat.one_shiftLeft, Nat.testBit_two_pow]
  by_cases hi : i < 8
  · by_cases hm : m = i
    · simp [hi, hm]
    · have hm2 : ¬ i = m := fun h => hm h.symm
      simp [hi, hm, hm2]
  · have h : x.testBit i = false :=
      Nat.testBit_eq_false_of_lt
        (lt_of_lt_of_le hx (Nat.pow_le_pow_right (by norm_num) (not_lt.mp hi)))
    simp [h]

/-- The handler of the function interrupt lines leaves the chip part alone. -/
theorem sdio_set_irq_ext (sd : sdio_s χ) (line level : Nat) :
    (sdio_set_irq sd line level).ext = sd.ext := by
  unfold sdio_set_irq sdio_intr_update
  dsimp only
  split_ifs <;> rfl

theorem ar6k_hif_intr_update_ext (s : ar6k_s) : (ar6k_hif_intr_update s).ext = s.ext :=
  sdio_set_irq_ext s 0 _

/-- A host read in the rx-lookahead window 0x408..0x417: the chip part
afterwards and the byte returned. -/
theorem ar6k_hif_read_lookahead (s : ar6k_s) (x : Nat) (h1 : 0x408 ≤ x) (h2 : x ≤ 0x417) :
    (ar6k_hif_read s x).1.ext = { s.ext with hif := { s.ext.hif with
      rx_la_valid := bic8 s.ext.hif.rx_la_valid (1 <<< ((x - 0x408) >>> 2))
      host_int_stat := bic8 s.ext.hif.host_int_stat (1 <<< ((x - 0x408) >>> 2)) } } ∧
    (ar6k_hif_read s x).2
      = (s.ext.hif.rx_la ((x - 0x408) >>> 2) >>> ((x &&& 3) <<< 3)) &&& 0xff := by
  unfold ar6k_hif_read
  simp only [AR6K_HOST_INT_STAT, AR6K_CPU_INT_STAT, AR6K_ERROR_INT_STAT,
    AR6K_COUNTER_INT_STAT, AR6K_MBOX_FRAME, AR6K_RX_LOOKAHEAD_VALID, AR6K_RX_LOOKAHEAD0,
    AR6K_RX_LOOKAHEAD3]
  have status : ¬ x = 0x400 ∧ ¬ x = 0x401 ∧ ¬ x = 0x402 ∧ ¬ x = 0x403 ∧ ¬ x = 0x404 ∧
      ¬ x = 0x405 := by omega
  have lookahead : 0x408 ≤ x ∧ x ≤ 0x414 + 3 := by omega
  rw [if_neg status.1, if_neg status.2.1, if_neg status.2.2.1, if_neg status.2.2.2.1,
    if_neg status.2.2.2.2.1, if_neg status.2.2.2.2.2, if_pos lookahead]
  dsimp only
  rw [ar6k_hif_intr_update_ext]
  exact ⟨rfl, rfl⟩

/-- The address of byte `k` of rx-lookahead register `m`. -/
theorem lookahead_addr (m k : Nat) (hk : k < 4) :
    (0x408 + 4 * m + k - 0x408) >>> 2 = m ∧ ((0x408 + 4 * m + k) &&& 3) <<< 3 = 8 * k := by
  have e3 : (3 : Nat) = 2 ^ 2 - 1 := by norm_num
  rw [Nat.shiftRight_eq_div_pow, e3, Nat.and_pow_two_sub_one_eq_mod, Nat.shiftLeft_eq]
  constructor
  · norm_num
    omega
  · have : (0x408 + 4 * m + k) % 2 ^ 2 = k := by norm_num; omega
    rw [this]
    norm_num
    ring

/-- C19: for a channel `m` in 0..3 and a byte index `k` in 0..3, the read of
HIF address `0x408 + 4*m + k` returns byte `k`, little-endian, of rx-lookahead
register `m`; afterwards bit `m` of the lookahead-valid register and bit `m` of
the host interrupt status are clear, every other bit of the two registers is as
before, and the lookahead values are unchanged. -/
theorem rx_lookahead_read (s : ar6k_s) (m k : Nat) (hm : m < 4) (hk : k < 4)
    (hv : s.ext.hif.rx_la_valid < 2 ^ 8) (hh : s.ext.hif.host_int_stat < 2 ^ 8) :
    (ar6k_hif_read s (0x408 + 4 * m + k)).2 = s.ext.hif.rx_la m / 2 ^ (8 * k) % 256 ∧
    (∀ i : Nat, (ar6k_hif_read s (0x408 + 4 * m + k)).1.ext.hif.rx_la_valid.testBit i
      = (s.ext.hif.rx_la_valid.testBit i && decide (i ≠ m))) ∧
    (∀ i : Nat, (ar6k_hif_read s (0x408 + 4 * m + k)).1.ext.hif.host_int_stat.testBit i
      = (s.ext.hif.host_int_stat.testBit i && decide (i ≠ m))) ∧
    (ar6k_hif_read s (0x408 + 4 * m + k)).1.ext.hif.rx_la = s.ext.hif.rx_la := by
  obtain ⟨e, r⟩ := ar6k_hif_read_lookahead s (0x408 + 4 * m + k) (by omega) (by omega)
  obtain ⟨a1, a2⟩ := lookahead_addr m k hk
  rw [a1] at e
  rw [a1, a2] at r
  have e255 : (0xff : Nat) = 2 ^ 8 - 1 := by norm_num
  refine ⟨?_, fun i => ?_, fun i => ?_, ?_⟩
  · rw [r, e255, Nat.and_pow_two_sub_one_eq_mod, Nat.shiftRight_eq_div_pow]
  · rw [e]
    exact testBit_bic8_bit _ m i hv
  · rw [e]
    exact testBit_bic8_bit _ m i hh
  · rw [e]

/-- Witness of C19: byte 1 of rx-lookahead register 2, with all four channels
pending before the read and channel 2 no longer pending after it. -/
theorem rx_lookahead_read_witness :
    (ar6k_hif_read st_lookahead 0x411).2 = 0x33 ∧
    (ar6k_hif_read st_lookahead 0x411).1.ext.hif.rx_la = st_lookahead.ext.hif.rx_la ∧
    (ar6k_hif_read st_lookahead 0x411).1.ext.hif.rx_la_valid = 0x0b ∧
    (ar6k_hif_read st_lookahead 0x411).1.ext.hif.host_int_stat = 0x0b :=
  have h := rx_lookahead_read st_lookahead 2 1 (by decide) (by decide) (by decide)
    (by decide)
  ⟨h.1.trans (by decide), h.2.2.2, by decide, by decide⟩

/-- The chip part after `ar6k_hif_error_intr_update`. -/
theorem ar6k_hif_error_intr_update_ext (s : ar6k_s) :
    (ar6k_hif_error_intr_update s).ext = { s.ext with hif := error_bit s.ext.hif } := by
  unfold ar6k_hif_error_intr_update error_bit on_hif
  dsimp only
  split_ifs <;> first | rfl | (rw [ar6k_hif_intr_update_ext])

/-- The chip part after `ar6k_hif_cpu_intr_update`. -/
theorem ar6k_hif_cpu_intr_update_ext (s : ar6k_s) :
    (ar6k_hif_cpu_intr_update s).ext = { s.ext with hif := cpu_bit s.ext.hif } := by
  unfold ar6k_hif_cpu_intr_update cpu_bit on_hif
  dsimp only
  split_ifs <;> first | rfl | (rw [ar6k_hif_intr_update_ext])

/-- The chip part after `ar6k_hif_counter_intr_update`. -/
theorem ar6k_hif_counter_intr_update_ext (s : ar6k_s) :
    (ar6k_hif_counter_intr_update s).ext = { s.ext with hif := counter_bit s.ext.hif } := by
  unfold ar6k_hif_counter_intr_update counter_bit on_hif
  dsimp only
  split_ifs <;> first | rfl | (rw [ar6k_hif_intr_update_ext])

/-! ## The tx-credit counters -/

/-- A host read of the credit reset register of mailbox `m`. -/
theorem ar6k_hif_read_count_reset (s : ar6k_s) (m : Nat) (hm : m < 4) :
    ar6k_hif_read s (0x440 + 4 * m) =
      (if s.ext.hif.counter_int_stat &&& (1 <<< m) ≠ 0 then
          ar6k_hif_counter_intr_update
            (on_hif s fun h => { h with
              counter_int_stat := bic8 h.counter_int_stat (1 <<< m) })
        else s,
       s.ext.hif.cnt_tx m % 0x100) := by
  have hx : (0x440 + 4 * m - 0x440) >>> 2 = m := by
    rw [Nat.shiftRight_eq_div_pow]
    norm_num
  unfold ar6k_hif_read
  simp only [AR6K_HOST_INT_STAT, AR6K_CPU_INT_STAT, AR6K_ERROR_INT_STAT,
    AR6K_COUNTER_INT_STAT, AR6K_MBOX_FRAME, AR6K_RX_LOOKAHEAD_VALID, AR6K_RX_LOOKAHEAD0,
    AR6K_RX_LOOKAHEAD3, AR6K_INT_STAT_ENABLE, AR6K_CPU_INT_STAT_ENABLE,
    AR6K_ERROR_STAT_ENABLE, AR6K_COUNTER_INT_STAT_ENABLE, AR6K_COUNT, AR6K_COUNT_RESET]
  have status : ¬ 0x440 + 4 * m = 0x400 ∧ ¬ 0x440 + 4 * m = 0x401 ∧
      ¬ 0x440 + 4 * m = 0x402 ∧ ¬ 0x440 + 4 * m = 0x403 ∧ ¬ 0x440 + 4 * m = 0x404 ∧
      ¬ 0x440 + 4 * m = 0x405 := by omega
  have lookahead : ¬ (0x408 ≤ 0x440 + 4 * m ∧ 0x440 + 4 * m ≤ 0x414 + 3) := by omega
  have enable : ¬ 0x440 + 4 * m = 0x418 ∧ ¬ 0x440 + 4 * m = 0x419 ∧
      ¬ 0x440 + 4 * m = 0x41a ∧ ¬ 0x440 + 4 * m = 0x41b := by omega
  have count : ¬ (0x420 + 0x4 ≤ 0x440 + 4 * m ∧ 0x440 + 4 * m ≤ 0x420 + 0x7) := by omega
  have creset : 0x440 + 4 * m = 0x440 + 0x0 ∨ 0x440 + 4 * m = 0x440 + 0x4 ∨
      0x440 + 4 * m = 0x440 + 0x8 ∨ 0x440 + 4 * m = 0x440 + 0xc := by omega
  rw [if_neg status.1, if_neg status.2.1, if_neg status.2.2.1, if_neg status.2.2.2.1,
    if_neg status.2.2.2.2.1, if_neg status.2.2.2.2.2, if_neg lookahead, if_neg enable.1,
    if_neg enable.2.1, if_neg enable.2.2.1, if_neg enable.2.2.2, if_neg count,
    if_pos creset]
  rw [hx]
  by_cases hc : s.ext.hif.counter_int_stat &&& (1 <<< m) ≠ 0
  · rw [if_pos hc, ar6k_hif_counter_intr_update_ext]
    rfl
  · rw [if_neg hc]

/-- A host write to the credit reset register of mailbox `m` is ignored. -/
theorem ar6k_hif_write_count_reset (s : ar6k_s) (m v : Nat) (hm : m < 4) :
    ar6k_hif_write s (0x440 + 4 * m) v = s := by
  unfold ar6k_hif_write
  simp only [AR6K_HOST_INT_STAT, AR6K_CPU_INT_STAT, AR6K_ERROR_INT_STAT,
    AR6K_COUNTER_INT_STAT, AR6K_MBOX_FRAME, AR6K_INT_STAT_ENABLE, AR6K_CPU_INT_STAT_ENABLE,
    AR6K_ERROR_STAT_ENABLE, AR6K_COUNTER_INT_STAT_ENABLE, AR6K_SCRATCH, AR6K_INT_WLAN,
    AR6K_HIF_MBOX_BASE, AR6K_HIF_MBOX_END]
  have status : ¬ 0x440 + 4 * m = 0x400 ∧ ¬ 0x440 + 4 * m = 0x401 ∧
      ¬ 0x440 + 4 * m = 0x402 ∧ ¬ 0x440 + 4 * m = 0x403 ∧ ¬ 0x440 + 4 * m = 0x404 := by
    omega
  have enable : ¬ 0x440 + 4 * m = 0x418 ∧ ¬ 0x440 + 4 * m = 0x419 ∧
      ¬ 0x440 + 4 * m = 0x41a ∧ ¬ 0x440 + 4 * m = 0x41b := by omega
  have window : ¬ (0x460 ≤ 0x440 + 4 * m ∧ 0x440 + 4 * m ≤ 0x460 + 7) ∧
      ¬ 0x440 + 4 * m = 0x472 ∧ ¬ (0x800 ≤ 0x440 + 4 * m ∧ 0x440 + 4 * m ≤ 0x27ff) := by
    omega
  rw [if_neg status.1, if_neg status.2.1, if_neg status.2.2.1, if_neg status.2.2.2.1,
    if_neg status.2.2.2.2, if_neg enable.1, if_neg enable.2.1, if_neg enable.2.2.1,
    if_neg enable.2.2.2, if_neg window.1, if_neg window.2.1, if_neg window.2.2]

/-- Counterexample to C20 as stated: on the AR6000 with the counter interrupt
bit of mailbox 0 pending, the read of the credit reset register 0x440 clears
the bit and returns the counter, which is still 0xff afterwards. -/
theorem count_reset_read_keeps_counter :
    st_credit.ext.hif.counter_int_stat = 0xf1 ∧ st_credit.ext.hif.cnt_tx 0 = 0xff ∧
    (ar6k_hif_read st_credit 0x440).2 = 0xff ∧
    (ar6k_hif_read st_credit 0x440).1.ext.hif.counter_int_stat = 0xf0 ∧
    (ar6k_hif_read st_credit 0x440).1.ext.hif.cnt_tx 0 = 0xff ∧
    (ar6k_hif_write st_credit 0x440 0).ext.hif.cnt_tx 0 = 0xff := by
  decide

/-- C20, amended: for a mailbox `m` in 0..3, the read of the credit reset
register `0x440 + 4*m` returns the low byte of the tx-credit counter of
mailbox `m` and clears bit `m` of the counter interrupt status (every other bit
is kept); no tx-credit counter changes, that of mailbox `m` included, and a
write to the register changes nothing at all.  The counter is zeroed by
`ar6k_hif_txcredit_reset`, which leaves the counters of the other mailboxes
alone. -/
theorem count_reset_read (s : ar6k_s) (m : Nat) (hm : m < 4)
    (hc : s.ext.hif.counter_int_stat < 2 ^ 8) :
    (ar6k_hif_read s (0x440 + 4 * m)).2 = s.ext.hif.cnt_tx m % 256 ∧
    (∀ i : Nat, (ar6k_hif_read s (0x440 + 4 * m)).1.ext.hif.counter_int_stat.testBit i
      = (s.ext.hif.counter_int_stat.testBit i && decide (i ≠ m))) ∧
    (ar6k_hif_read s (0x440 + 4 * m)).1.ext.hif.cnt_tx = s.ext.hif.cnt_tx ∧
    (∀ v : Nat, ar6k_hif_write s (0x440 + 4 * m) v = s) ∧
    (ar6k_hif_txcredit_reset s m).ext.hif.cnt_tx m = 0 ∧
    (∀ j : Nat, j ≠ m →
      (ar6k_hif_txcredit_reset s m).ext.hif.cnt_tx j = s.ext.hif.cnt_tx j) := by
  rw [ar6k_hif_read_count_reset s m hm]
  refine ⟨rfl, fun i => ?_, ?_, fun v => ar6k_hif_write_count_reset s m v hm, ?_, fun j hj => ?_⟩
  · by_cases h : s.ext.hif.counter_int_stat &&& (1 <<< m) ≠ 0
    · rw [if_pos h, ar6k_hif_counter_intr_update_ext]
      exact testBit_bic8_bit _ m i hc
    · rw [if_neg h]
      have hz : s.ext.hif.counter_int_stat &&& (1 <<< m) = 0 := not_not.mp h
      have hb := congrArg (fun n => Nat.testBit n m) hz
      simp only [Nat.testBit_and, Nat.one_shiftLeft, Nat.testBit_two_pow_self,
        Bool.and_true, Nat.zero_testBit] at hb
      by_cases him : i = m
      · rw [him, hb]
        simp
      · simp [him]
  · by_cases h : s.ext.hif.counter_int_stat &&& (1 <<< m) ≠ 0
    · rw [if_pos h, ar6k_hif_counter_intr_update_ext]
      rfl
    · rw [if_neg h]
  · unfold ar6k_hif_txcredit_reset ar6k_hif_counter_intr_sched on_hif
    dsimp only
    split_ifs <;> simp [upd]
  · unfold ar6k_hif_txcredit_reset ar6k_hif_counter_intr_sched on_hif
    dsimp only
    split_ifs <;> simp [upd, hj]

/-- Witness of C20 (amended): mailbox 0 of the AR6000 with its counter
interrupt bit pending. -/
theorem count_reset_read_witness :
    (ar6k_hif_read st_credit (0x440 + 4 * 0)).2 = 0xff ∧
    (ar6k_hif_read st_credit (0x440 + 4 * 0)).1.ext.hif.cnt_tx = st_credit.ext.hif.cnt_tx ∧
    (ar6k_hif_txcredit_reset st_credit 0).ext.hif.cnt_tx 0 = 0 :=
  have h := count_reset_read st_credit 0 (by decide) (by decide)
  ⟨h.1.trans (by decide), h.2.2.1, h.2.2.2.2.1⟩

/-! ## The interrupt sources of the host status -/

theorem hif_quiet_congr {s t : ar6k_s} (h : irq3 t = irq3 s) (hs : hif_quiet s) :
    hif_quiet t := by
  unfold irq3 at h
  obtain ⟨h1, h2, h3⟩ := Prod.mk.inj h |>.imp id Prod.mk.inj
  unfold hif_quiet at hs ⊢
  rw [h1, h2, h3]
  exact hs

/-- Clearing bits of a byte keeps a mask clear. -/
theorem bic8_and_mask (x m c : Nat) (h : x &&& c = 0) : bic8 x m &&& c = 0 := by
  apply Nat.eq_of_testBit_eq
  intro i
  rw [Nat.testBit_and, testBit_bic8, Nat.zero_testBit]
  cases hc : c.testBit i
  · simp
  · have h1 := congrArg (fun n => Nat.testBit n i) h
    simp only [Nat.testBit_and, Nat.zero_testBit, hc, Bool.and_true] at h1
    simp [h1]

/-- Setting bit 4 keeps bits 7 and 6 clear. -/
theorem or_bit4_and_mask (x : Nat) (h : x &&& 0xc0 = 0) : (x ||| (1 <<< 4)) &&& 0xc0 = 0 := by
  apply Nat.eq_of_testBit_eq
  intro i
  have h1 := congrArg (fun n => Nat.testBit n i) h
  simp only [Nat.testBit_and, Nat.zero_testBit] at h1
  have h2 : ((1 <<< 4 : Nat).testBit i && Nat.testBit 0xc0 i) = false := by
    rw [← Nat.testBit_and]
    have e : (1 <<< 4 : Nat) &&& 0xc0 = 0 := by decide
    rw [e, Nat.zero_testBit]
  rw [Nat.testBit_and, Nat.testBit_or, Nat.zero_testBit]
  cases hx : x.testBit i <;> cases hb : Nat.testBit 0xc0 i <;>
    cases hq : (1 <<< 4 : Nat).testBit i <;> simp_all

theorem hif_quiet_error (s : ar6k_s) (h : hif_quiet s) :
    hif_quiet (ar6k_hif_error_intr_update s) := by
  obtain ⟨h1, h2, h3⟩ := h
  unfold hif_quiet
  rw [ar6k_hif_error_intr_update_ext]
  unfold error_bit
  dsimp only
  refine ⟨h1, h2, ?_⟩
  rw [h1, Nat.zero_and, if_neg (by simp)]
  exact bic8_and_mask _ _ _ h3

theorem hif_quiet_cpu (s : ar6k_s) (h : hif_quiet s) :
    hif_quiet (ar6k_hif_cpu_intr_update s) := by
  obtain ⟨h1, h2, h3⟩ := h
  unfold hif_quiet
  rw [ar6k_hif_cpu_intr_update_ext]
  unfold cpu_bit
  dsimp only
  refine ⟨h1, h2, ?_⟩
  rw [h2, Nat.zero_and, if_neg (by simp)]
  exact bic8_and_mask _ _ _ h3

theorem hif_quiet_counter (s : ar6k_s) (h : hif_quiet s) :
    hif_quiet (ar6k_hif_counter_intr_update s) := by
  obtain ⟨h1, h2, h3⟩ := h
  unfold hif_quiet
  rw [ar6k_hif_counter_intr_update_ext]
  unfold counter_bit
  dsimp only
  refine ⟨h1, h2, ?_⟩
  split_ifs
  · exact or_bit4_and_mask _ h3
  · exact bic8_and_mask _ _ _ h3

theorem irq3_intr_update (s : ar6k_s) : irq3 (ar6k_hif_intr_update s) = irq3 s := by
  unfold irq3
  rw [ar6k_hif_intr_update_ext]

theorem irq3_txcredit_reset (s : ar6k_s) (m : Nat) :
    irq3 (ar6k_hif_txcredit_reset s m) = irq3 s := by
  unfold ar6k_hif_txcredit_reset ar6k_hif_counter_intr_sched on_hif
  dsimp only
  split_ifs <;> rfl

theorem irq3_txcredit_grant (s : ar6k_s) (m : Nat) :
    irq3 (ar6k_hif_txcredit_grant s m) = irq3 s := by
  unfold ar6k_hif_txcredit_grant ar6k_hif_counter_intr_sched on_hif
  dsimp only
  split_ifs <;> rfl

theorem irq3_bmi_write (s : ar6k_s) (base len : Int) :
    irq3 (ar6k_bmi_write s base len) = irq3 s := by
  unfold ar6k_bmi_write on_hif
  dsimp only
  split_ifs <;> rfl

theorem hif_quiet_reset (s : ar6k_s) : hif_quiet (ar6k_reset s) := by
  unfold ar6k_reset ar6k_bmi_reset
  dsimp only
  apply hif_quiet_counter
  apply hif_quiet_error
  apply hif_quiet_cpu
  exact ⟨rfl, rfl, Nat.zero_and _⟩

theorem hif_quiet_tick (s : ar6k_s) (h : hif_quiet s) : hif_quiet (ar6k_hif_cnt_irq_tick s) :=
  hif_quiet_counter _ h

theorem hif_quiet_write (s : ar6k_s) (addr value : Nat) (h : hif_quiet s) :
    hif_quiet (ar6k_hif_write s addr value) := by
  unfold ar6k_hif_write
  by_cases a0 : addr = AR6K_HOST_INT_STAT
  · rw [if_pos a0]
    split_ifs
    · apply hif_quiet_congr (irq3_intr_update _)
      exact ⟨h.1, h.2.1, bic8_and_mask _ _ _ h.2.2⟩
    · exact h
  rw [if_neg a0]
  by_cases a1 : addr = AR6K_CPU_INT_STAT
  · rw [if_pos a1]
    split_ifs with hc
    · exact absurd (by rw [h.2.1]; exact Nat.zero_and _) hc
    · exact h
  rw [if_neg a1]
  by_cases a2 : addr = AR6K_ERROR_INT_STAT
  · rw [if_pos a2]
    split_ifs with hc
    · exact absurd (by rw [h.1]; exact Nat.zero_and _) hc
    · exact h
  rw [if_neg a2]
  by_cases a3 : addr = AR6K_COUNTER_INT_STAT
  · rw [if_pos a3]
    split_ifs
    · exact hif_quiet_counter _ h
    · exact h
  rw [if_neg a3]
  by_cases a4 : addr = AR6K_MBOX_FRAME
  · rw [if_pos a4]
    exact h
  rw [if_neg a4]
  by_cases a5 : addr = AR6K_INT_STAT_ENABLE
  · rw [if_pos a5]
    split_ifs
    · exact hif_quiet_congr (irq3_intr_update _) h
    · exact h
  rw [if_neg a5]
  by_cases a6 : addr = AR6K_CPU_INT_STAT_ENABLE
  · rw [if_pos a6]
    split_ifs
    · exact hif_quiet_cpu _ h
    · exact h
  rw [if_neg a6]
  by_cases a7 : addr = AR6K_ERROR_STAT_ENABLE
  · rw [if_pos a7]
    split_ifs
    · exact hif_quiet_error _ h
    · exact h
  rw [if_neg a7]
  by_cases a8 : addr = AR6K_COUNTER_INT_STAT_ENABLE
  · rw [if_pos a8]
    split_ifs
    · exact h
    · exact h
  rw [if_neg a8]
  by_cases a9 : AR6K_SCRATCH ≤ addr ∧ addr ≤ AR6K_SCRATCH + 7
  · rw [if_pos a9]
    exact h
  rw [if_neg a9]
  by_cases a10 : addr = AR6K_INT_WLAN
  · rw [if_pos a10]
    dsimp only
    split_ifs
    · exact h
    · exact h
  rw [if_neg a10]
  by_cases a11 : AR6K_HIF_MBOX_BASE ≤ addr ∧ addr ≤ AR6K_HIF_MBOX_END
  · rw [if_pos a11]
    dsimp only
    split_ifs
    · apply hif_quiet_congr (irq3_txcredit_grant _ _)
      apply hif_quiet_congr (s := ar6k_bmi_write _ _ _) rfl
      apply hif_quiet_congr (irq3_bmi_write _ _ _)
      apply hif_quiet_congr (irq3_txcredit_reset _ _)
      exact h
    · apply hif_quiet_congr (irq3_txcredit_grant _ _)
      apply hif_quiet_congr (s := ar6k_hif_txcredit_reset _ _) rfl
      apply hif_quiet_congr (irq3_txcredit_reset _ _)
      exact h
    · exact h
  rw [if_neg a11]
  exact h

theorem hif_quiet_read (s : ar6k_s) (addr : Nat) (h : hif_quiet s) :
    hif_quiet (ar6k_hif_read s addr).1 := by
  unfold ar6k_hif_read
  by_cases r0 : addr = AR6K_HOST_INT_STAT
  · rw [if_pos r0]
    exact h
  rw [if_neg r0]
  by_cases r1 : addr = AR6K_CPU_INT_STAT
  · rw [if_pos r1]
    exact h
  rw [if_neg r1]
  by_cases r2 : addr = AR6K_ERROR_INT_STAT
  · rw [if_pos r2]
    exact h
  rw [if_neg r2]
  by_cases r3 : addr = AR6K_COUNTER_INT_STAT
  · rw [if_pos r3]
    exact h
  rw [if_neg r3]
  by_cases r4 : addr = AR6K_MBOX_FRAME
  · rw [if_pos r4]
    exact h
  rw [if_neg r4]
  by_cases r5 : addr = AR6K_RX_LOOKAHEAD_VALID
  · rw [if_pos r5]
    exact h
  rw [if_neg r5]
  by_cases r6 : AR6K_RX_LOOKAHEAD0 ≤ addr ∧ addr ≤ AR6K_RX_LOOKAHEAD3 + 3
  · rw [if_pos r6]
    dsimp only
    apply hif_quiet_congr (irq3_intr_update _)
    exact ⟨h.1, h.2.1, bic8_and_mask _ _ _ h.2.2⟩
  rw [if_neg r6]
  by_cases r7 : addr = AR6K_INT_STAT_ENABLE
  · rw [if_pos r7]
    exact h
  rw [if_neg r7]
  by_cases r8 : addr = AR6K_CPU_INT_STAT_ENABLE
  · rw [if_pos r8]
    exact h
  rw [if_neg r8]
  by_cases r9 : addr = AR6K_ERROR_STAT_ENABLE
  · rw [if_pos r9]
    exact h
  rw [if_neg r9]
  by_cases r10 : addr = AR6K_COUNTER_INT_STAT_ENABLE
  · rw [if_pos r10]
    exact h
  rw [if_neg r10]
  by_cases r11 : AR6K_COUNT + 0x4 ≤ addr ∧ addr ≤ AR6K_COUNT + 0x7
  · rw [if_pos r11]
    exact h
  rw [if_neg r11]
  by_cases r12 : addr = AR6K_COUNT_RESET + 0x0 ∨ addr = AR6K_COUNT_RESET + 0x4 ∨
      addr = AR6K_COUNT_RESET + 0x8 ∨ addr = AR6K_COUNT_RESET + 0xc
  · rw [if_pos r12]
    dsimp only
    split_ifs
    · exact hif_quiet_counter _ h
    · exact h
  rw [if_neg r12]
  by_cases r13 : addr = AR6K_COUNT_DEC + 0x0 ∨ addr = AR6K_COUNT_DEC + 0x4 ∨
      addr = AR6K_COUNT_DEC + 0x8 ∨ addr = AR6K_COUNT_DEC + 0xc
  · rw [if_pos r13]
    exact h
  rw [if_neg r13]
  by_cases r14 : AR6K_SCRATCH ≤ addr ∧ addr ≤ AR6K_SCRATCH + 7
  · rw [if_pos r14]
    exact h
  rw [if_neg r14]
  by_cases r15 : addr = AR6K_INT_WLAN
  · rw [if_pos r15]
    exact h
  rw [if_neg r15]
  by_cases r16 : AR6K_CIS_WINDOW ≤ addr ∧ addr ≤ AR6K_CIS_WINDOW + 0x1ff
  · rw [if_pos r16]
    split_ifs
    · exact h
    · exact h
  rw [if_neg r16]
  by_cases r17 : AR6K_HIF_MBOX_BASE ≤ addr ∧ addr ≤ AR6K_HIF_MBOX_END
  · rw [if_pos r17]
    exact h
  rw [if_neg r17]
  exact h

/-- In every state the host can reach no error and no cpu interrupt is
pending, and bits 7 and 6 of the host interrupt status are clear. -/
theorem hif_reachable_quiet (s : ar6k_s) (h : hif_reachable s) : hif_quiet s := by
  induction h with
  | reset s => exact hif_quiet_reset s
  | write s addr value _ ih => exact hif_quiet_write s addr value ih
  | read s addr _ ih => exact hif_quiet_read s addr ih
  | tick s _ ih => exact hif_quiet_tick s ih
  | core s t _ he ih =>
    unfold hif_quiet at ih ⊢
    rw [he]
    exact ih

/-- Bit 4 of the host interrupt status after `ar6k_hif_counter_intr_update`. -/
theorem counter_bit_iff (h : hif_s) :
    (counter_bit h).host_int_stat.testBit 4 = true ↔
      h.counter_int_stat &&& h.cnt_int_stat_ena ≠ 0 := by
  unfold counter_bit
  dsimp only
  split_ifs with hc
  · simp only [hc, ne_eq, not_false_eq_true, iff_true]
    exact testBit_or_flag _ _ _ (by decide)
  · simp only [hc, iff_false]
    rw [testBit_bic8]
    simp only [Bool.and_eq_true, bne_iff_ne, ne_eq, not_and]
    intro _
    decide

/-- Bit 7 of the host interrupt status after `ar6k_hif_error_intr_update`. -/
theorem error_bit_iff (h : hif_s) :
    (error_bit h).host_int_stat.testBit 7 = true ↔
      h.error_int_stat &&& h.err_int_stat_ena ≠ 0 := by
  unfold error_bit
  dsimp only
  split_ifs with hc
  · simp only [hc, ne_eq, not_false_eq_true, iff_true]
    exact testBit_or_flag _ _ _ (by decide)
  · simp only [hc, iff_false]
    rw [testBit_bic8]
    simp only [Bool.and_eq_true, bne_iff_ne, ne_eq, not_and]
    intro _
    decide

/-- Bit 6 of the host interrupt status after `ar6k_hif_cpu_intr_update`. -/
theorem cpu_bit_iff (h : hif_s) :
    (cpu_bit h).host_int_stat.testBit 6 = true ↔
      h.cpu_int_stat &&& h.cpu_int_stat_ena ≠ 0 := by
  unfold cpu_bit
  dsimp only
  split_ifs with hc
  · simp only [hc, ne_eq, not_false_eq_true, iff_true]
    exact testBit_or_flag _ _ _ (by decide)
  · simp only [hc, iff_false]
    rw [testBit_bic8]
    simp only [Bool.and_eq_true, bne_iff_ne, ne_eq, not_and]
    intro _
    decide

/-- A host write to the counter interrupt status register 0x403. -/
theorem ar6k_hif_write_counter_stat (s : ar6k_s) (v : Nat) :
    ar6k_hif_write s 0x403 v =
      if s.ext.hif.counter_int_stat &&& v ≠ 0 then
        ar6k_hif_counter_intr_update
          (on_hif s fun h => { h with counter_int_stat := bic8 h.counter_int_stat v })
      else s := rfl

/-- A host write to the counter interrupt enable register 0x41b. -/
theorem ar6k_hif_write_counter_ena (s : ar6k_s) (v : Nat) :
    ar6k_hif_write s 0x41b v =
      if s.ext.hif.cnt_int_stat_ena ^^^ v ≠ 0 then
        ar6k_hif_counter_intr_sched (on_hif s fun h => { h with cnt_int_stat_ena := v })
      else s := rfl

/-- A host write to the host interrupt status register 0x400. -/
theorem ar6k_hif_write_host_stat (s : ar6k_s) (v : Nat) :
    ar6k_hif_write s 0x400 v =
      if s.ext.hif.host_int_stat &&& v ≠ 0 then
        ar6k_hif_intr_update
          (on_hif s fun h => { h with host_int_stat := bic8 h.host_int_stat v })
      else s := rfl

/-- Bits 7 and 6 of a byte that has none of the two. -/
theorem testBit_of_and_c0 (x : Nat) (h : x &&& 0xc0 = 0) :
    x.testBit 7 = false ∧ x.testBit 6 = false := by
  have h7 := congrArg (fun n => Nat.testBit n 7) h
  have h6 := congrArg (fun n => Nat.testBit n 6) h
  simp only [Nat.testBit_and, Nat.zero_testBit] at h7 h6
  have e7 : Nat.testBit 0xc0 7 = true := by decide
  have e6 : Nat.testBit 0xc0 6 = true := by decide
  rw [e7, Bool.and_true] at h7
  rw [e6, Bool.and_true] at h6
  exact ⟨h7, h6⟩

/-- The attach state is a reset state. -/
theorem hif_reachable_init (t : cis_h) (macaddr : Nat → Nat) :
    hif_reachable (ar6k_init t macaddr) := by
  unfold ar6k_init
  dsimp only
  exact hif_reachable.reset _

theorem hif_reachable_attach : hif_reachable st_attach :=
  hif_reachable_init _ _

/-- Counterexample to C17 as stated: on the AR6000 after attach (reset state,
counter interrupt status 0xf0) the host writes 0xf0 to the counter interrupt
enable register 0x41b.  Immediately after the write the counter status and
enable have common bits, yet bit 4 of the host interrupt status is clear: the
write only arms the timer. -/
theorem counter_enable_write_defers :
    hif_reachable (ar6k_hif_write st_attach 0x41b 0xf0) ∧
    (ar6k_hif_write st_attach 0x41b 0xf0).ext.hif.counter_int_stat &&&
      (ar6k_hif_write st_attach 0x41b 0xf0).ext.hif.cnt_int_stat_ena ≠ 0 ∧
    (ar6k_hif_write st_attach 0x41b 0xf0).ext.hif.host_int_stat.testBit 4 = false ∧
    (ar6k_hif_write st_attach 0x41b 0xf0).ext.cnt_irq_update = true :=
  ⟨hif_reachable.write _ _ _ hif_reachable_attach, by decide, by decide, by decide⟩

/-- C17, amended.  In every state the host can reach from reset (register
writes and reads, the callback of the counter timer) the error and the cpu
interrupt status are 0 and bits 7 and 6 of the host interrupt status are clear,
so bit 7 is set iff `error_status & error_enable` is non-zero and bit 6 iff
`cpu_status & cpu_enable` is.  Bit 4 is recomputed to
`(counter_status & counter_enable) != 0` by a write to 0x403 that clears a
pending bit and by the callback of the counter timer; a write to the counter
enable register 0x41b leaves the host interrupt status as it is and, when it
changes the enable, arms the timer; a write to 0x400 clears the written bits of
the host interrupt status without recomputing any. -/
theorem host_status_sources (s : ar6k_s) (hr : hif_reachable s) :
    (s.ext.hif.error_int_stat = 0 ∧ s.ext.hif.cpu_int_stat = 0) ∧
    (s.ext.hif.host_int_stat.testBit 7 = true ↔
      s.ext.hif.error_int_stat &&& s.ext.hif.err_int_stat_ena ≠ 0) ∧
    (s.ext.hif.host_int_stat.testBit 6 = true ↔
      s.ext.hif.cpu_int_stat &&& s.ext.hif.cpu_int_stat_ena ≠ 0) ∧
    (∀ v : Nat, s.ext.hif.counter_int_stat &&& v ≠ 0 →
      ((ar6k_hif_write s 0x403 v).ext.hif.host_int_stat.testBit 4 = true ↔
        (ar6k_hif_write s 0x403 v).ext.hif.counter_int_stat &&&
          (ar6k_hif_write s 0x403 v).ext.hif.cnt_int_stat_ena ≠ 0)) ∧
    ((ar6k_hif_cnt_irq_tick s).ext.hif.host_int_stat.testBit 4 = true ↔
      (ar6k_hif_cnt_irq_tick s).ext.hif.counter_int_stat &&&
        (ar6k_hif_cnt_irq_tick s).ext.hif.cnt_int_stat_ena ≠ 0) ∧
    (∀ v : Nat,
      (ar6k_hif_write s 0x41b v).ext.hif.host_int_stat = s.ext.hif.host_int_stat ∧
      (s.ext.hif.cnt_int_stat_ena ^^^ v ≠ 0 →
        (ar6k_hif_write s 0x41b v).ext.cnt_irq_update = true)) ∧
    (∀ v : Nat, s.ext.hif.host_int_stat &&& v ≠ 0 →
      (ar6k_hif_write s 0x400 v).ext.hif.host_int_stat = bic8 s.ext.hif.host_int_stat v) := by
  obtain ⟨q1, q2, q3⟩ := hif_reachable_quiet s hr
  obtain ⟨b7, b6⟩ := testBit_of_and_c0 _ q3
  refine ⟨⟨q1, q2⟩, ?_, ?_, fun v hv => ?_, ?_, fun v => ⟨?_, fun hv => ?_⟩, fun v hv => ?_⟩
  · rw [b7, q1, Nat.zero_and]
    simp
  · rw [b6, q2, Nat.zero_and]
    simp
  · rw [ar6k_hif_write_counter_stat, if_pos hv, ar6k_hif_counter_intr_update_ext]
    exact counter_bit_iff _
  · unfold ar6k_hif_cnt_irq_tick
    rw [ar6k_hif_counter_intr_update_ext]
    exact counter_bit_iff _
  · rw [ar6k_hif_write_counter_ena]
    split_ifs <;> rfl
  · rw [ar6k_hif_write_counter_ena, if_pos hv]
    rfl
  · rw [ar6k_hif_write_host_stat, if_pos hv, ar6k_hif_intr_update_ext]
    rfl

/-- Witness of C17 (amended): the AR6000 after attach, the counter enable
written, at the callback of the counter timer. -/
theorem host_status_sources_witness :
    ((ar6k_hif_write st_attach 0x41b 0xf0).ext.hif.error_int_stat = 0 ∧
      (ar6k_hif_write st_attach 0x41b 0xf0).ext.hif.cpu_int_stat = 0) ∧
    ((ar6k_hif_cnt_irq_tick (ar6k_hif_write st_attach 0x41b 0xf0)).ext.hif.host_int_stat.testBit
        4 = true ↔
      (ar6k_hif_cnt_irq_tick (ar6k_hif_write st_attach 0x41b 0xf0)).ext.hif.counter_int_stat &&&
        (ar6k_hif_cnt_irq_tick (ar6k_hif_write st_attach 0x41b 0xf0)).ext.hif.cnt_int_stat_ena
          ≠ 0) ∧
    (ar6k_hif_cnt_irq_tick (ar6k_hif_write st_attach 0x41b 0xf0)).ext.hif.host_int_stat
      = 0x10 :=
  have h := host_status_sources (ar6k_hif_write st_attach 0x41b 0xf0)
    (hif_reachable.write _ _ _ hif_reachable_attach)
  ⟨h.1, h.2.2.2.2.1, by decide⟩

/-! ## The function-1 interrupt line -/

/-- Function line 0 after `sdio_set_irq`. -/
theorem sdio_set_irq_line0 (sd : sdio_s χ) (level : Nat) :
    (sdio_set_irq sd 0 level).cccr.intr.testBit 0 = decide (level ≠ 0) := by
  have e : (0x100 : Nat) = 2 ^ 8 := by norm_num
  unfold sdio_set_irq sdio_intr_update
  dsimp only
  by_cases hl : level ≠ 0
  · simp only [hl, ne_eq, not_false_eq_true, if_true, decide_True]
    rw [e, Nat.testBit_mod_two_pow]
    simp
  · simp only [hl, if_false, decide_False]
    rw [testBit_bic8]
    simp

theorem fn1_irq_intr_update (t : ar6k_s) :
    fn1_irq (ar6k_hif_intr_update t)
      = decide (t.ext.hif.host_int_stat &&& t.ext.hif.int_stat_ena ≠ 0) := by
  unfold fn1_irq ar6k_hif_intr_update
  rw [sdio_set_irq_line0]
  by_cases h : t.ext.hif.host_int_stat &&& t.ext.hif.int_stat_ena ≠ 0
  · simp [h]
  · simp [h]

theorem irq_follows_error (s : ar6k_s) : irq_follows s (ar6k_hif_error_intr_update s) := by
  have he := ar6k_hif_error_intr_update_ext s
  unfold irq_follows
  rw [he]
  unfold ar6k_hif_error_intr_update error_bit
  dsimp only
  by_cases hc : s.ext.hif.error_int_stat &&& s.ext.hif.err_int_stat_ena ≠ 0
  · simp only [hc, ne_eq, not_false_eq_true, if_true, on_hif]
    constructor
    · intro hne
      rw [if_pos (fun h => hne h.symm), fn1_irq_intr_update]
    · intro heq
      rw [if_neg (fun h => h heq.symm)]
      rfl
  · simp only [hc, if_false, on_hif]
    constructor
    · intro hne
      rw [if_pos (fun h => hne h.symm), fn1_irq_intr_update]
    · intro heq
      rw [if_neg (fun h => h heq.symm)]
      rfl

theorem irq_follows_cpu (s : ar6k_s) : irq_follows s (ar6k_hif_cpu_intr_update s) := by
  have he := ar6k_hif_cpu_intr_update_ext s
  unfold irq_follows
  rw [he]
  unfold ar6k_hif_cpu_intr_update cpu_bit
  dsimp only
  by_cases hc : s.ext.hif.cpu_int_stat &&& s.ext.hif.cpu_int_stat_ena ≠ 0
  · simp only [hc, ne_eq, not_false_eq_true, if_true, on_hif]
    constructor
    · intro hne
      rw [if_pos (fun h => hne h.symm), fn1_irq_intr_update]
    · intro heq
      rw [if_neg (fun h => h heq.symm)]
      rfl
  · simp only [hc, if_false, on_hif]
    constructor
    · intro hne
      rw [if_pos (fun h => hne h.symm), fn1_irq_intr_update]
    · intro heq
      rw [if_neg (fun h => h heq.symm)]
      rfl

theorem irq_follows_counter (s : ar6k_s) : irq_follows s (ar6k_hif_counter_intr_update s) := by
  have he := ar6k_hif_counter_intr_update_ext s
  unfold irq_follows
  rw [he]
  unfold ar6k_hif_counter_intr_update counter_bit
  dsimp only
  by_cases hc : s.ext.hif.counter_int_stat &&& s.ext.hif.cnt_int_stat_ena ≠ 0
  · simp only [hc, ne_eq, not_false_eq_true, if_true, on_hif]
    constructor
    · intro hne
      rw [if_pos (fun h => hne h.symm), fn1_irq_intr_update]
    · intro heq
      rw [if_neg (fun h => h heq.symm)]
      rfl
  · simp only [hc, if_false, on_hif]
    constructor
    · intro hne
      rw [if_pos (fun h => hne h.symm), fn1_irq_intr_update]
    · intro heq
      rw [if_neg (fun h => h heq.symm)]
      rfl

/-- A host write to the error interrupt enable register 0x41a. -/
theorem ar6k_hif_write_error_ena (s : ar6k_s) (v : Nat) :
    ar6k_hif_write s 0x41a v =
      if s.ext.hif.err_int_stat_ena ^^^ v ≠ 0 then
        ar6k_hif_error_intr_update (on_hif s fun h => { h with err_int_stat_ena := v })
      else s := rfl

/-- A host write to the cpu interrupt enable register 0x419. -/
theorem ar6k_hif_write_cpu_ena (s : ar6k_s) (v : Nat) :
    ar6k_hif_write s 0x419 v =
      if s.ext.hif.cpu_int_stat_ena ^^^ v ≠ 0 then
        ar6k_hif_cpu_intr_update (on_hif s fun h => { h with cpu_int_stat_ena := v })
      else s := rfl

/-- Two numbers whose exclusive or is 0 are equal. -/
theorem eq_of_xor_eq_zero (a b : Nat) (h : a ^^^ b = 0) : a = b := by
  apply Nat.eq_of_testBit_eq
  intro i
  have h1 := congrArg (fun n => Nat.testBit n i) h
  simp only [Nat.testBit_xor, Nat.zero_testBit] at h1
  cases ha : a.testBit i <;> cases hb : b.testBit i <;> simp_all

/-- Counterexample to C18 as stated, on the AR6000 after attach (counter
interrupt status 0xf0, all enables 0).  The write of 0xf0 to the counter enable
0x41b takes `counter_status & counter_enable` from zero to non-zero, and
neither is bit 4 of the host interrupt status set nor the function-1 line
high; the callback of the timer sets bit 4, the line stays low because the
host enable 0x418 is 0.  With the host enable written 0x10 before, the line is
high after the callback and, like bit 4, stays so when a write of 0 to 0x41b
has made all three conjunctions zero. -/
theorem irq_line_not_from_sources :
    (st_attach.ext.hif.counter_int_stat &&& st_attach.ext.hif.cnt_int_stat_ena = 0 ∧
      (ar6k_hif_write st_attach 0x41b 0xf0).ext.hif.counter_int_stat &&&
        (ar6k_hif_write st_attach 0x41b 0xf0).ext.hif.cnt_int_stat_ena ≠ 0 ∧
      (ar6k_hif_write st_attach 0x41b 0xf0).ext.hif.host_int_stat.testBit 4 = false ∧
      fn1_irq (ar6k_hif_write st_attach 0x41b 0xf0) = false) ∧
    ((ar6k_hif_cnt_irq_tick
        (ar6k_hif_write st_attach 0x41b 0xf0)).ext.hif.host_int_stat.testBit 4 = true ∧
      fn1_irq (ar6k_hif_cnt_irq_tick (ar6k_hif_write st_attach 0x41b 0xf0)) = false) ∧
    ((ar6k_hif_write (ar6k_hif_cnt_irq_tick (ar6k_hif_write
        (ar6k_hif_write st_attach 0x418 0x10) 0x41b 0xf0)) 0x41b 0).ext.hif.counter_int_stat &&&
      (ar6k_hif_write (ar6k_hif_cnt_irq_tick (ar6k_hif_write
        (ar6k_hif_write st_attach 0x418 0x10) 0x41b 0xf0)) 0x41b 0).ext.hif.cnt_int_stat_ena
        = 0 ∧
      (ar6k_hif_write (ar6k_hif_cnt_irq_tick (ar6k_hif_write
        (ar6k_hif_write st_attach 0x418 0x10) 0x41b 0xf0)) 0x41b 0).ext.hif.error_int_stat
        = 0 ∧
      (ar6k_hif_write (ar6k_hif_cnt_irq_tick (ar6k_hif_write
        (ar6k_hif_write st_attach 0x418 0x10) 0x41b 0xf0)) 0x41b 0).ext.hif.cpu_int_stat
        = 0 ∧
      (ar6k_hif_write (ar6k_hif_cnt_irq_tick (ar6k_hif_write
        (ar6k_hif_write st_attach 0x418 0x10) 0x41b 0xf0)) 0x41b 0).ext.hif.host_int_stat.testBit
        4 = true ∧
      fn1_irq (ar6k_hif_write (ar6k_hif_cnt_irq_tick (ar6k_hif_write
        (ar6k_hif_write st_attach 0x418 0x10) 0x41b 0xf0)) 0x41b 0) = true) := by
  refine ⟨⟨?_, ?_, ?_, ?_⟩, ⟨?_, ?_⟩, ⟨?_, ?_, ?_, ?_, ?_⟩⟩ <;> decide

/-- C18, amended.  Each of the three update functions sets its bit of the
host interrupt status (7 error, 6 cpu, 4 counter) to
`(X_status & X_enable) != 0` and, when that changed the host interrupt status,
sets the function-1 line to `(host_status & host_enable) != 0`; otherwise the
line is left as it was.  A write to the error enable 0x41a or the cpu enable
0x419 that takes the conjunction from zero to non-zero, the bit being clear
before, sets the bit at once, and the line is high afterwards exactly if the
host status and the host enable 0x418 have a common bit.  A write to the
counter enable 0x41b changes neither the host interrupt status nor the line;
the counter source is evaluated by the callback of the timer. -/
theorem irq_line_follows_host_status (s : ar6k_s) :
    (((ar6k_hif_error_intr_update s).ext.hif.host_int_stat.testBit 7 = true ↔
        s.ext.hif.error_int_stat &&& s.ext.hif.err_int_stat_ena ≠ 0) ∧
      irq_follows s (ar6k_hif_error_intr_update s)) ∧
    (((ar6k_hif_cpu_intr_update s).ext.hif.host_int_stat.testBit 6 = true ↔
        s.ext.hif.cpu_int_stat &&& s.ext.hif.cpu_int_stat_ena ≠ 0) ∧
      irq_follows s (ar6k_hif_cpu_intr_update s)) ∧
    (((ar6k_hif_counter_intr_update s).ext.hif.host_int_stat.testBit 4 = true ↔
        s.ext.hif.counter_int_stat &&& s.ext.hif.cnt_int_stat_ena ≠ 0) ∧
      irq_follows s (ar6k_hif_counter_intr_update s)) ∧
    (∀ v : Nat, s.ext.hif.error_int_stat &&& s.ext.hif.err_int_stat_ena = 0 →
      s.ext.hif.error_int_stat &&& v ≠ 0 → s.ext.hif.host_int_stat.testBit 7 = false →
      (ar6k_hif_write s 0x41a v).ext.hif.host_int_stat.testBit 7 = true ∧
      fn1_irq (ar6k_hif_write s 0x41a v)
        = decide ((ar6k_hif_write s 0x41a v).ext.hif.host_int_stat &&&
            s.ext.hif.int_stat_ena ≠ 0)) ∧
    (∀ v : Nat, s.ext.hif.cpu_int_stat &&& s.ext.hif.cpu_int_stat_ena = 0 →
      s.ext.hif.cpu_int_stat &&& v ≠ 0 → s.ext.hif.host_int_stat.testBit 6 = false →
      (ar6k_hif_write s 0x419 v).ext.hif.host_int_stat.testBit 6 = true ∧
      fn1_irq (ar6k_hif_write s 0x419 v)
        = decide ((ar6k_hif_write s 0x419 v).ext.hif.host_int_stat &&&
            s.ext.hif.int_stat_ena ≠ 0)) ∧
    (∀ v : Nat,
      (ar6k_hif_write s 0x41b v).ext.hif.host_int_stat = s.ext.hif.host_int_stat ∧
      fn1_irq (ar6k_hif_write s 0x41b v) = fn1_irq s ∧
      ((ar6k_hif_cnt_irq_tick (ar6k_hif_write s 0x41b v)).ext.hif.host_int_stat.testBit 4
          = true ↔ s.ext.hif.counter_int_stat &&& v ≠ 0)) := by
  refine ⟨⟨?_, irq_follows_error s⟩, ⟨?_, irq_follows_cpu s⟩, ⟨?_, irq_follows_counter s⟩,
    fun v h0 h1 hb => ?_, fun v h0 h1 hb => ?_, fun v => ⟨?_, ?_, ?_⟩⟩
  · rw [ar6k_hif_error_intr_update_ext]
    exact error_bit_iff _
  · rw [ar6k_hif_cpu_intr_update_ext]
    exact cpu_bit_iff _
  · rw [ar6k_hif_counter_intr_update_ext]
    exact counter_bit_iff _
  · have hx : s.ext.hif.err_int_stat_ena ^^^ v ≠ 0 := fun hz => by
      rw [← eq_of_xor_eq_zero _ _ hz] at h1
      exact h1 h0
    rw [ar6k_hif_write_error_ena, if_pos hx]
    have hbit : (ar6k_hif_error_intr_update (on_hif s fun h =>
        { h with err_int_stat_ena := v })).ext.hif.host_int_stat.testBit 7 = true := by
      rw [ar6k_hif_error_intr_update_ext]
      exact (error_bit_iff _).mpr h1
    refine ⟨hbit, ?_⟩
    have hf := (irq_follows_error (on_hif s fun h => { h with err_int_stat_ena := v })).1
      (fun he => by
        rw [he] at hbit
        exact absurd (hb.symm.trans hbit) (by decide))
    rw [ar6k_hif_error_intr_update_ext] at hf ⊢
    exact hf
  · have hx : s.ext.hif.cpu_int_stat_ena ^^^ v ≠ 0 := fun hz => by
      rw [← eq_of_xor_eq_zero _ _ hz] at h1
      exact h1 h0
    rw [ar6k_hif_write_cpu_ena, if_pos hx]
    have hbit : (ar6k_hif_cpu_intr_update (on_hif s fun h =>
        { h with cpu_int_stat_ena := v })).ext.hif.host_int_stat.testBit 6 = true := by
      rw [ar6k_hif_cpu_intr_update_ext]
      exact (cpu_bit_iff _).mpr h1
    refine ⟨hbit, ?_⟩
    have hf := (irq_follows_cpu (on_hif s fun h => { h with cpu_int_stat_ena := v })).1
      (fun he => by
        rw [he] at hbit
        exact absurd (hb.symm.trans hbit) (by decide))
    rw [ar6k_hif_cpu_intr_update_ext] at hf ⊢
    exact hf
  · rw [ar6k_hif_write_counter_ena]
    split_ifs <;> rfl
  · rw [ar6k_hif_write_counter_ena]
    split_ifs <;> rfl
  · unfold ar6k_hif_cnt_irq_tick
    rw [ar6k_hif_counter_intr_update_ext, ar6k_hif_write_counter_ena]
    by_cases hx : s.ext.hif.cnt_int_stat_ena ^^^ v ≠ 0
    · rw [if_pos hx]
      exact counter_bit_iff _
    · rw [if_neg hx, ← eq_of_xor_eq_zero _ _ (not_not.mp hx)]
      exact counter_bit_iff _

/-- Witness of C18 (amended): with an error interrupt pending and bit 7
enabled in the host enable register, the write of 1 to the error enable 0x41a
sets bit 7 and raises the function-1 line; on the AR6000 after attach the
counter source shows in bit 4 at the callback of the timer. -/
theorem irq_line_follows_host_status_witness :
    ((ar6k_hif_write st_error 0x41a 0x01).ext.hif.host_int_stat.testBit 7 = true ∧
      fn1_irq (ar6k_hif_write st_error 0x41a 0x01) = true) ∧
    ((ar6k_hif_cnt_irq_tick (ar6k_hif_write st_attach 0x41b 0xf0)).ext.hif.host_int_stat.testBit
        4 = true ↔ st_attach.ext.hif.counter_int_stat &&& 0xf0 ≠ 0) :=
  have h1 := (irq_line_follows_host_status st_error).2.2.2.1 0x01 (by decide) (by decide)
    (by decide)
  have h2 := ((irq_line_follows_host_status st_attach).2.2.2.2.2 0xf0).2.2
  ⟨⟨h1.1, h1.2.trans (by decide)⟩, h2⟩

/-! ## Mailboxes and the BMI interpreter -/

/-- A host write into the mailbox window 0x800..0x27ff. -/
theorem ar6k_hif_write_mbox (s : ar6k_s) (x v : Nat) (h1 : 0x800 ≤ x) (h2 : x ≤ 0x27ff) :
    ar6k_hif_write s x v =
      if x &&& 0x7ff = 0x7ff then
        ar6k_hif_txcredit_grant
          (on_hif (bmi_step (ar6k_hif_txcredit_reset (mbox_store s x v) ((x - 0x800) >>> 11))
              ((x - 0x800) >>> 11))
            fun h => { h with mbox_count := upd h.mbox_count ((x - 0x800) >>> 11) 0 })
          ((x - 0x800) >>> 11)
      else mbox_store s x v := by
  unfold ar6k_hif_write
  simp only [AR6K_HOST_INT_STAT, AR6K_CPU_INT_STAT, AR6K_ERROR_INT_STAT,
    AR6K_COUNTER_INT_STAT, AR6K_MBOX_FRAME, AR6K_INT_STAT_ENABLE, AR6K_CPU_INT_STAT_ENABLE,
    AR6K_ERROR_STAT_ENABLE, AR6K_COUNTER_INT_STAT_ENABLE, AR6K_SCRATCH, AR6K_INT_WLAN,
    AR6K_HIF_MBOX_BASE, AR6K_HIF_MBOX_END]
  have status : ¬ x = 0x400 ∧ ¬ x = 0x401 ∧ ¬ x = 0x402 ∧ ¬ x = 0x403 ∧ ¬ x = 0x404 := by
    omega
  have enable : ¬ x = 0x418 ∧ ¬ x = 0x419 ∧ ¬ x = 0x41a ∧ ¬ x = 0x41b := by omega
  have window : ¬ (0x460 ≤ x ∧ x ≤ 0x460 + 7) ∧ ¬ x = 0x472 ∧ (0x800 ≤ x ∧ x ≤ 0x27ff) := by
    omega
  rw [if_neg status.1, if_neg status.2.1, if_neg status.2.2.1, if_neg status.2.2.2.1,
    if_neg status.2.2.2.2, if_neg enable.1, if_neg enable.2.1, if_neg enable.2.2.1,
    if_neg enable.2.2.2, if_neg window.1, if_neg window.2.1, if_pos window.2.2]
  rfl

/-- C26: for every chip state, a message handed to the BMI interpreter that is
shorter than 4 bytes, or whose little-endian 32-bit command word is none of
no-op (0), done (1) and get-target-id (8), leaves the whole state as it is:
`bmi.done`, the mailbox contents and the count `cnt[0]` are unchanged and no
reply is stored. -/
theorem bmi_write_ignored (s : ar6k_s) (base len : Int)
    (h : len < 4 ∨
      (le32_at s.ext.hif.mbox (base + 0x800 - len) ≠ bmi_no_command ∧
       le32_at s.ext.hif.mbox (base + 0x800 - len) ≠ bmi_done ∧
       le32_at s.ext.hif.mbox (base + 0x800 - len) ≠ bmi_get_target_id)) :
    ar6k_bmi_write s base len = s ∧
    (ar6k_bmi_write s base len).ext.bmi_done = s.ext.bmi_done ∧
    (ar6k_bmi_write s base len).ext.hif.mbox = s.ext.hif.mbox ∧
    (ar6k_bmi_write s base len).ext.hif.cnt = s.ext.hif.cnt := by
  have he : ar6k_bmi_write s base len = s := by
    unfold ar6k_bmi_write
    rcases h with h | ⟨h0, h1, h8⟩
    · rw [if_pos h]
    · by_cases hl : len < 4
      · rw [if_pos hl]
      · rw [if_neg hl]
        dsimp only
        rw [if_neg h0, if_neg h1, if_neg h8]
  rw [he]
  exact ⟨rfl, rfl, rfl, rfl⟩

theorem ar6k_hif_txcredit_reset_eq (s : ar6k_s) (m : Nat) :
    ar6k_hif_txcredit_reset s m = with_ext s (credit_reset_x s.ext m) := by
  unfold ar6k_hif_txcredit_reset credit_reset_x ar6k_hif_counter_intr_sched on_hif with_ext
  dsimp only
  split_ifs <;> rfl

theorem ar6k_hif_txcredit_grant_eq (s : ar6k_s) (m : Nat) :
    ar6k_hif_txcredit_grant s m = with_ext s (credit_grant_x s.ext m) := by
  unfold ar6k_hif_txcredit_grant credit_grant_x ar6k_hif_counter_intr_sched on_hif with_ext
  dsimp only
  split_ifs <;> rfl

theorem ar6k_bmi_write_eq (s : ar6k_s) (base len : Int) :
    ar6k_bmi_write s base len = with_ext s (bmi_write_x s.ext base len) := by
  unfold ar6k_bmi_write bmi_write_x on_hif with_ext
  dsimp only
  split_ifs <;> rfl

theorem mbox_store_eq (s : ar6k_s) (x v : Nat) :
    mbox_store s x v = with_ext s (mbox_store_x s.ext x v) := rfl

theorem with_ext_with_ext (s : sdio_s χ) (e1 e2 : χ) :
    with_ext (with_ext s e1) e2 = with_ext s e2 := rfl

theorem with_ext_ext (s : sdio_s χ) (e : χ) : (with_ext s e).ext = e := rfl

theorem on_hif_with_ext (s : ar6k_s) (e : ar6k_x) (f : hif_s → hif_s) :
    on_hif (with_ext s e) f = with_ext s { e with hif := f e.hif } := rfl

theorem bmi_step_eq (s : ar6k_s) (e : ar6k_x) (m : Nat) :
    bmi_step (with_ext s e) m =
      with_ext s (if m = 0 ∧ e.bmi_done = 0 then
          bmi_write_x e (((m <<< 11 : Nat) : Int)) (e.hif.mbox_count m)
        else e) := by
  unfold bmi_step
  by_cases hb : m = 0 ∧ e.bmi_done = 0
  · have hb2 : m = 0 ∧ (with_ext s e).ext.bmi_done = 0 := hb
    rw [if_pos hb2, if_pos hb, ar6k_bmi_write_eq]
    rfl
  · have hb2 : ¬ (m = 0 ∧ (with_ext s e).ext.bmi_done = 0) := hb
    rw [if_neg hb2, if_neg hb]

/-- A host write that completes a message of a mailbox (address ending in
0x7ff) or adds a byte to one, as a function of the chip part. -/
theorem ar6k_hif_write_mbox_x (s : ar6k_s) (x v : Nat) (h1 : 0x800 ≤ x) (h2 : x ≤ 0x27ff) :
    ar6k_hif_write s x v =
      with_ext s (if x &&& 0x7ff = 0x7ff then
          mbox_complete_x (mbox_store_x s.ext x v) ((x - 0x800) >>> 11)
        else mbox_store_x s.ext x v) := by
  rw [ar6k_hif_write_mbox s x v h1 h2]
  by_cases hx : x &&& 0x7ff = 0x7ff
  · rw [if_pos hx, if_pos hx, mbox_store_eq, ar6k_hif_txcredit_reset_eq, with_ext_with_ext,
      with_ext_ext, bmi_step_eq, on_hif_with_ext, ar6k_hif_txcredit_grant_eq,
      with_ext_with_ext, with_ext_ext]
    rfl
  · rw [if_neg hx, if_neg hx, mbox_store_eq]

/-- The address of the last byte of the window of mailbox `m`. -/
theorem mbox_last_addr (m : Nat) :
    (0x800 + 0x800 * m + 0x7ff) &&& 0x7ff = 0x7ff ∧
    (0x800 + 0x800 * m + 0x7ff - 0x800) >>> 11 = m := by
  have e : (0x7ff : Nat) = 2 ^ 11 - 1 := by norm_num
  constructor
  · rw [e, Nat.and_pow_two_sub_one_eq_mod]
    norm_num
    omega
  · rw [Nat.shiftRight_eq_div_pow]
    norm_num
    omega

/-- A bit test written with a mask. -/
theorem and_bit_eq_zero_iff (c k : Nat) : c &&& (1 <<< k) = 0 ↔ c.testBit k = false := by
  rw [Nat.one_shiftLeft]
  constructor
  · intro h
    have hb := congrArg (fun n => Nat.testBit n k) h
    simpa only [Nat.testBit_and, Nat.testBit_two_pow_self, Bool.and_true,
      Nat.zero_testBit] using hb
  · intro h
    apply Nat.eq_of_testBit_eq
    intro i
    rw [Nat.testBit_and, Nat.testBit_two_pow, Nat.zero_testBit]
    by_cases hi : k = i
    · rw [← hi, h]
      rfl
    · simp [hi]

/-- Setting a bit that is set changes nothing. -/
theorem or_bit_self (c k : Nat) (h : c &&& (1 <<< k) ≠ 0) : c ||| (1 <<< k) = c := by
  have hb : c.testBit k = true := by
    cases hc : c.testBit k
    · exact absurd ((and_bit_eq_zero_iff c k).mpr hc) h
    · rfl
  apply Nat.eq_of_testBit_eq
  intro i
  rw [Nat.testBit_or, Nat.one_shiftLeft, Nat.testBit_two_pow]
  by_cases hi : k = i
  · rw [← hi, hb]
    rfl
  · simp [hi]

/-- What `ar6k_hif_txcredit_reset` does to the chip part. -/
theorem credit_reset_x_fields (e : ar6k_x) (m : Nat) :
    (credit_reset_x e m).hif.cnt_tx = upd e.hif.cnt_tx m 0 ∧
    (credit_reset_x e m).hif.counter_int_stat = e.hif.counter_int_stat ||| (1 <<< m) ∧
    (e.hif.counter_int_stat.testBit m = false → (credit_reset_x e m).cnt_irq_update = true) ∧
    (e.cnt_irq_update = true → (credit_reset_x e m).cnt_irq_update = true) := by
  unfold credit_reset_x
  by_cases h : e.hif.counter_int_stat &&& (1 <<< m) = 0
  · rw [if_pos h]
    exact ⟨rfl, rfl, fun _ => rfl, fun _ => rfl⟩
  · rw [if_neg h]
    refine ⟨rfl, (or_bit_self _ _ h).symm, fun hb => ?_, fun hb => hb⟩
    exact absurd ((and_bit_eq_zero_iff _ _).mpr hb) h

/-- What `ar6k_hif_txcredit_grant` does to the chip part. -/
theorem credit_grant_x_fields (e : ar6k_x) (m : Nat) :
    (credit_grant_x e m).hif.cnt_tx = upd e.hif.cnt_tx m 0xff ∧
    (credit_grant_x e m).hif.counter_int_stat
      = e.hif.counter_int_stat ||| (1 <<< (m + 4)) ∧
    (e.hif.counter_int_stat.testBit (m + 4) = false →
      (credit_grant_x e m).cnt_irq_update = true) ∧
    (e.cnt_irq_update = true → (credit_grant_x e m).cnt_irq_update = true) := by
  unfold credit_grant_x
  by_cases h : e.hif.counter_int_stat &&& (1 <<< (m + 4)) = 0
  · rw [if_pos h]
    exact ⟨rfl, rfl, fun _ => rfl, fun _ => rfl⟩
  · rw [if_neg h]
    refine ⟨rfl, (or_bit_self _ _ h).symm, fun hb => ?_, fun hb => hb⟩
    exact absurd ((and_bit_eq_zero_iff _ _).mpr hb) h

/-- The parts of the chip that the credit functions leave alone. -/
theorem credit_x_frame (e : ar6k_x) (m : Nat) :
    ((credit_reset_x e m).bmi_done = e.bmi_done ∧ (credit_reset_x e m).wmi = e.wmi ∧
      (credit_reset_x e m).hif.mbox = e.hif.mbox ∧ (credit_reset_x e m).hif.cnt = e.hif.cnt ∧
      (credit_reset_x e m).hif.mbox_count = e.hif.mbox_count ∧
      (credit_reset_x e m).hif.host_int_stat = e.hif.host_int_stat) ∧
    ((credit_grant_x e m).bmi_done = e.bmi_done ∧ (credit_grant_x e m).wmi = e.wmi ∧
      (credit_grant_x e m).hif.mbox = e.hif.mbox ∧ (credit_grant_x e m).hif.cnt = e.hif.cnt ∧
      (credit_grant_x e m).hif.mbox_count = e.hif.mbox_count ∧
      (credit_grant_x e m).hif.host_int_stat = e.hif.host_int_stat) := by
  unfold credit_reset_x credit_grant_x
  constructor <;> split_ifs <;> exact ⟨rfl, rfl, rfl, rfl, rfl, rfl⟩

/-- The parts of the chip that the BMI interpreter leaves alone. -/
theorem bmi_write_x_frame (e : ar6k_x) (base len : Int) :
    (bmi_write_x e base len).hif.cnt_tx = e.hif.cnt_tx ∧
    (bmi_write_x e base len).hif.counter_int_stat = e.hif.counter_int_stat ∧
    (bmi_write_x e base len).hif.host_int_stat = e.hif.host_int_stat ∧
    (bmi_write_x e base len).hif.mbox_count = e.hif.mbox_count ∧
    (bmi_write_x e base len).cnt_irq_update = e.cnt_irq_update ∧
    (bmi_write_x e base len).wmi = e.wmi := by
  unfold bmi_write_x
  split_ifs <;> exact ⟨rfl, rfl, rfl, rfl, rfl, rfl⟩

/-- The credit of a mailbox after a host write that completes a message. -/
theorem mbox_complete_x_credit (e : ar6k_x) (m : Nat) :
    (mbox_complete_x e m).hif.cnt_tx = upd e.hif.cnt_tx m 0xff ∧
    (mbox_complete_x e m).hif.counter_int_stat
      = e.hif.counter_int_stat ||| (1 <<< m) ||| (1 <<< (m + 4)) ∧
    (mbox_complete_x e m).hif.host_int_stat = e.hif.host_int_stat ∧
    (e.hif.counter_int_stat.testBit m = false →
      (mbox_complete_x e m).cnt_irq_update = true) := by
  obtain ⟨r1, r2, r3, -⟩ := credit_reset_x_fields e m
  obtain ⟨r4, -⟩ := credit_x_frame e m
  have r5 := r4.2.2.2.2.2
  unfold mbox_complete_x
  dsimp only
  generalize credit_reset_x e m = e1 at r1 r2 r3 r5 ⊢
  have hmid : ∀ e2 : ar6k_x, e2.hif.cnt_tx = e1.hif.cnt_tx →
      e2.hif.counter_int_stat = e1.hif.counter_int_stat →
      e2.hif.host_int_stat = e1.hif.host_int_stat → e2.cnt_irq_update = e1.cnt_irq_update →
      (credit_grant_x { e2 with hif := { e2.hif with
          mbox_count := upd e2.hif.mbox_count m 0 } } m).hif.cnt_tx = upd e.hif.cnt_tx m 0xff ∧
      (credit_grant_x { e2 with hif := { e2.hif with
          mbox_count := upd e2.hif.mbox_count m 0 } } m).hif.counter_int_stat
        = e.hif.counter_int_stat ||| (1 <<< m) ||| (1 <<< (m + 4)) ∧
      (credit_grant_x { e2 with hif := { e2.hif with
          mbox_count := upd e2.hif.mbox_count m 0 } } m).hif.host_int_stat
        = e.hif.host_int_stat ∧
      (e.hif.counter_int_stat.testBit m = false →
        (credit_grant_x { e2 with hif := { e2.hif with
          mbox_count := upd e2.hif.mbox_count m 0 } } m).cnt_irq_update = true) := by
    intro e2 c1 c2 c3 c4
    obtain ⟨g1, g2, -, g4⟩ := credit_grant_x_fields { e2 with hif := { e2.hif with
      mbox_count := upd e2.hif.mbox_count m 0 } } m
    obtain ⟨-, g5⟩ := credit_x_frame { e2 with hif := { e2.hif with
      mbox_count := upd e2.hif.mbox_count m 0 } } m
    refine ⟨?_, ?_, ?_, fun hb => ?_⟩
    · rw [g1]
      show upd e2.hif.cnt_tx m 0xff = _
      rw [c1, r1]
      funext j
      unfold upd
      split_ifs <;> rfl
    · rw [g2]
      show e2.hif.counter_int_stat ||| _ = _
      rw [c2, r2]
    · rw [g5.2.2.2.2.2]
      show e2.hif.host_int_stat = _
      rw [c3, r5]
    · apply g4
      show e2.cnt_irq_update = true
      rw [c4]
      exact r3 hb
  by_cases hb : m = 0 ∧ e1.bmi_done = 0
  · rw [if_pos hb]
    obtain ⟨f1, f2, f3, -, f5, -⟩ := bmi_write_x_frame e1 (((m <<< 11 : Nat) : Int))
      (e1.hif.mbox_count m)
    exact hmid _ f1 f2 f3 f5
  · rw [if_neg hb]
    exact hmid e1 rfl rfl rfl rfl

/-- Counterexample to C21 as stated: on the AR6000 after attach the host
write to the last byte of mailbox 2 (HIF address 0x1fff) returns with the
tx-credit counter of mailbox 2 at 0xff, while the timer is armed and has not
fired. -/
theorem mbox_complete_credit_granted :
    (ar6k_hif_write st_attach 0x1fff 0).ext.hif.cnt_tx 2 = 0xff ∧
    (ar6k_hif_write st_attach 0x1fff 0).ext.cnt_irq_update = true ∧
    st_attach.ext.cnt_irq_update = false := by
  decide

/-- C21, amended: for a mailbox `m` in 0..3, when the host write to the last
byte of the window of mailbox `m` (HIF address `0x800 + 0x800*m + 0x7ff`)
returns, the tx-credit counter of mailbox `m` is 0xff: the write itself resets
it to 0 and grants it again.  The counters of the other mailboxes are
unchanged, bits `m` and `m + 4` of the counter interrupt status are set, the
host interrupt status is unchanged, and the timer is armed when bit `m` was
clear before.  The callback of that timer changes no tx-credit counter. -/
theorem mbox_complete_credit (s : ar6k_s) (m v : Nat) (hm : m < 4) :
    (ar6k_hif_write s (0x800 + 0x800 * m + 0x7ff) v).ext.hif.cnt_tx m = 0xff ∧
    (∀ j : Nat, j ≠ m →
      (ar6k_hif_write s (0x800 + 0x800 * m + 0x7ff) v).ext.hif.cnt_tx j
        = s.ext.hif.cnt_tx j) ∧
    (ar6k_hif_write s (0x800 + 0x800 * m + 0x7ff) v).ext.hif.counter_int_stat.testBit m
      = true ∧
    (ar6k_hif_write s (0x800 + 0x800 * m + 0x7ff) v).ext.hif.counter_int_stat.testBit (m + 4)
      = true ∧
    (ar6k_hif_write s (0x800 + 0x800 * m + 0x7ff) v).ext.hif.host_int_stat
      = s.ext.hif.host_int_stat ∧
    (s.ext.hif.counter_int_stat.testBit m = false →
      (ar6k_hif_write s (0x800 + 0x800 * m + 0x7ff) v).ext.cnt_irq_update = true) ∧
    (ar6k_hif_cnt_irq_tick (ar6k_hif_write s (0x800 + 0x800 * m + 0x7ff) v)).ext.hif.cnt_tx
      = (ar6k_hif_write s (0x800 + 0x800 * m + 0x7ff) v).ext.hif.cnt_tx := by
  obtain ⟨a1, a2⟩ := mbox_last_addr m
  have hw := ar6k_hif_write_mbox_x s (0x800 + 0x800 * m + 0x7ff) v (by omega) (by omega)
  rw [if_pos a1, a2] at hw
  obtain ⟨c1, c2, c3, c4⟩ :=
    mbox_complete_x_credit (mbox_store_x s.ext (0x800 + 0x800 * m + 0x7ff) v) m
  have hbit : ∀ k : Nat, (1 <<< k : Nat).testBit k = true := fun k => by
    rw [Nat.one_shiftLeft, Nat.testBit_two_pow_self]
  rw [hw, with_ext_ext]
  refine ⟨?_, fun j hj => ?_, ?_, ?_, c3, c4, ?_⟩
  · rw [c1]
    unfold upd
    rw [if_pos rfl]
  · rw [c1]
    unfold upd
    rw [if_neg hj]
    rfl
  · rw [c2]
    exact testBit_flag_or _ _ _ (testBit_or_flag _ _ _ (hbit m))
  · rw [c2]
    exact testBit_or_flag _ _ _ (hbit (m + 4))
  · unfold ar6k_hif_cnt_irq_tick
    rw [ar6k_hif_counter_intr_update_ext]
    rfl

/-- Witness of C21 (amended): mailbox 0 of the AR6000 after attach. -/
theorem mbox_complete_credit_witness :
    (ar6k_hif_write st_attach (0x800 + 0x800 * 0 + 0x7ff) 0).ext.hif.cnt_tx 0 = 0xff ∧
    (ar6k_hif_write st_attach (0x800 + 0x800 * 0 + 0x7ff) 0).ext.cnt_irq_update = true :=
  have h := mbox_complete_credit st_attach 0 0 (by decide)
  ⟨h.1, h.2.2.2.2.2.1 (by decide)⟩

/-- A host write outside the mailbox window leaves the BMI session flag, the
mailbox contents and the counts `cnt` alone. -/
theorem ar6k_hif_write_bmi_frame (s : ar6k_s) (addr value : Nat)
    (hx : ¬ (AR6K_HIF_MBOX_BASE ≤ addr ∧ addr ≤ AR6K_HIF_MBOX_END)) :
    bmi_frame s.ext (ar6k_hif_write s addr value).ext := by
  have keep : bmi_frame s.ext s.ext := ⟨rfl, rfl, rfl⟩
  unfold ar6k_hif_write
  by_cases w0 : addr = AR6K_HOST_INT_STAT
  · rw [if_pos w0]
    split_ifs
    · rw [ar6k_hif_intr_update_ext]
      exact keep
    · exact keep
  rw [if_neg w0]
  by_cases w1 : addr = AR6K_CPU_INT_STAT
  · rw [if_pos w1]
    split_ifs
    · rw [ar6k_hif_cpu_intr_update_ext]
      exact keep
    · exact keep
  rw [if_neg w1]
  by_cases w2 : addr = AR6K_ERROR_INT_STAT
  · rw [if_pos w2]
    split_ifs
    · rw [ar6k_hif_error_intr_update_ext]
      exact keep
    · exact keep
  rw [if_neg w2]
  by_cases w3 : addr = AR6K_COUNTER_INT_STAT
  · rw [if_pos w3]
    split_ifs
    · rw [ar6k_hif_counter_intr_update_ext]
      exact keep
    · exact keep
  rw [if_neg w3]
  by_cases w4 : addr = AR6K_MBOX_FRAME
  · rw [if_pos w4]
    exact keep
  rw [if_neg w4]
  by_cases w5 : addr = AR6K_INT_STAT_ENABLE
  · rw [if_pos w5]
    split_ifs
    · rw [ar6k_hif_intr_update_ext]
      exact keep
    · exact keep
  rw [if_neg w5]
  by_cases w6 : addr = AR6K_CPU_INT_STAT_ENABLE
  · rw [if_pos w6]
    split_ifs
    · rw [ar6k_hif_cpu_intr_update_ext]
      exact keep
    · exact keep
  rw [if_neg w6]
  by_cases w7 : addr = AR6K_ERROR_STAT_ENABLE
  · rw [if_pos w7]
    split_ifs
    · rw [ar6k_hif_error_intr_update_ext]
      exact keep
    · exact keep
  rw [if_neg w7]
  by_cases w8 : addr = AR6K_COUNTER_INT_STAT_ENABLE
  · rw [if_pos w8]
    split_ifs
    · exact keep
    · exact keep
  rw [if_neg w8]
  by_cases w9 : AR6K_SCRATCH ≤ addr ∧ addr ≤ AR6K_SCRATCH + 7
  · rw [if_pos w9]
    exact keep
  rw [if_neg w9]
  by_cases w10 : addr = AR6K_INT_WLAN
  · rw [if_pos w10]
    dsimp only
    split_ifs
    · exact keep
    · exact keep
  rw [if_neg w10]
  rw [if_neg hx]
  exact keep

/-- A host read leaves the BMI session flag, the mailbox contents and the
counts `cnt` alone. -/
theorem ar6k_hif_read_bmi_frame (s : ar6k_s) (addr : Nat) :
    bmi_frame s.ext (ar6k_hif_read s addr).1.ext := by
  have keep : bmi_frame s.ext s.ext := ⟨rfl, rfl, rfl⟩
  unfold ar6k_hif_read
  by_cases r0 : addr = AR6K_HOST_INT_STAT
  · rw [if_pos r0]
    exact keep
  rw [if_neg r0]
  by_cases r1 : addr = AR6K_CPU_INT_STAT
  · rw [if_pos r1]
    exact keep
  rw [if_neg r1]
  by_cases r2 : addr = AR6K_ERROR_INT_STAT
  · rw [if_pos r2]
    exact keep
  rw [if_neg r2]
  by_cases r3 : addr = AR6K_COUNTER_INT_STAT
  · rw [if_pos r3]
    exact keep
  rw [if_neg r3]
  by_cases r4 : addr = AR6K_MBOX_FRAME
  · rw [if_pos r4]
    exact keep
  rw [if_neg r4]
  by_cases r5 : addr = AR6K_RX_LOOKAHEAD_VALID
  · rw [if_pos r5]
    exact keep
  rw [if_neg r5]
  by_cases r6 : AR6K_RX_LOOKAHEAD0 ≤ addr ∧ addr ≤ AR6K_RX_LOOKAHEAD3 + 3
  · rw [if_pos r6]
    dsimp only
    rw [ar6k_hif_intr_update_ext]
    exact keep
  rw [if_neg r6]
  by_cases r7 : addr = AR6K_INT_STAT_ENABLE
  · rw [if_pos r7]
    exact keep
  rw [if_neg r7]
  by_cases r8 : addr = AR6K_CPU_INT_STAT_ENABLE
  · rw [if_pos r8]
    exact keep
  rw [if_neg r8]
  by_cases r9 : addr = AR6K_ERROR_STAT_ENABLE
  · rw [if_pos r9]
    exact keep
  rw [if_neg r9]
  by_cases r10 : addr = AR6K_COUNTER_INT_STAT_ENABLE
  · rw [if_pos r10]
    exact keep
  rw [if_neg r10]
  by_cases r11 : AR6K_COUNT + 0x4 ≤ addr ∧ addr ≤ AR6K_COUNT + 0x7
  · rw [if_pos r11]
    exact keep
  rw [if_neg r11]
  by_cases r12 : addr = AR6K_COUNT_RESET + 0x0 ∨ addr = AR6K_COUNT_RESET + 0x4 ∨
      addr = AR6K_COUNT_RESET + 0x8 ∨ addr = AR6K_COUNT_RESET + 0xc
  · rw [if_pos r12]
    dsimp only
    split_ifs
    · rw [ar6k_hif_counter_intr_update_ext]
      exact keep
    · exact keep
  rw [if_neg r12]
  by_cases r13 : addr = AR6K_COUNT_DEC + 0x0 ∨ addr = AR6K_COUNT_DEC + 0x4 ∨
      addr = AR6K_COUNT_DEC + 0x8 ∨ addr = AR6K_COUNT_DEC + 0xc
  · rw [if_pos r13]
    exact keep
  rw [if_neg r13]
  by_cases r14 : AR6K_SCRATCH ≤ addr ∧ addr ≤ AR6K_SCRATCH + 7
  · rw [if_pos r14]
    exact keep
  rw [if_neg r14]
  by_cases r15 : addr = AR6K_INT_WLAN
  · rw [if_pos r15]
    exact keep
  rw [if_neg r15]
  by_cases r16 : AR6K_CIS_WINDOW ≤ addr ∧ addr ≤ AR6K_CIS_WINDOW + 0x1ff
  · rw [if_pos r16]
    split_ifs
    · exact keep
    · exact keep
  rw [if_neg r16]
  by_cases r17 : AR6K_HIF_MBOX_BASE ≤ addr ∧ addr ≤ AR6K_HIF_MBOX_END
  · rw [if_pos r17]
    exact keep
  rw [if_neg r17]
  exact keep

/-! ## The WLAN interrupt register and the BMI session flag -/

/-- A host write to the WLAN interrupt register 0x472. -/
theorem ar6k_hif_write_int_wlan (s : ar6k_s) (v : Nat) :
    ar6k_hif_write s 0x472 v =
      if v ≠ 0 ∧ s.ext.wmi.isNone then
        { s with ext := { s.ext with
            hif := { s.ext.hif with wlan_int := v }, wmi := some wmi_init } }
      else on_hif s fun h => { h with wlan_int := v } := by
  have e : ar6k_hif_write s 0x472 v =
      (if v ≠ 0 ∧ (on_hif s fun h => { h with wlan_int := v }).ext.wmi.isNone then
        { (on_hif s fun h => { h with wlan_int := v }) with
          ext := { (on_hif s fun h => { h with wlan_int := v }).ext with
            wmi := some wmi_init } }
      else on_hif s fun h => { h with wlan_int := v }) := rfl
  rw [e]
  rfl

/-- The chip part after `ar6k_reset`: no transport, BMI session open. -/
theorem ar6k_reset_session (s : ar6k_s) :
    (ar6k_reset s).ext.wmi = none ∧ (ar6k_reset s).ext.bmi_done = 0 := by
  unfold ar6k_reset ar6k_bmi_reset
  dsimp only
  rw [ar6k_hif_counter_intr_update_ext, ar6k_hif_error_intr_update_ext,
    ar6k_hif_cpu_intr_update_ext]
  exact ⟨rfl, rfl⟩

/-- After attach there is no transport. -/
theorem st_attach_wmi : st_attach.ext.wmi = none := by
  unfold st_attach ar6k_init
  exact (ar6k_reset_session _).1

/-- Counterexample to C22 as stated: on the AR6000 after attach (no transport)
the host write of 0 to the WLAN interrupt register leaves the chip without a
transport. -/
theorem int_wlan_zero_no_transport :
    st_attach.ext.wmi.isNone = true ∧
    (ar6k_hif_write st_attach 0x472 0).ext.wmi.isNone = true ∧
    (ar6k_hif_write st_attach 0x472 0).ext.hif.wlan_int = 0 := by
  decide

/-- C22, amended: in a chip state without a transport (as after attach or
reset), a host write of a non-zero value to the WLAN interrupt register 0x472
creates the transport with its `alive` timer armed, and a write of 0 creates
none; in a chip state with a transport a write of any value leaves that
transport as it is, so no second one is created; `ar6k_reset` removes the
transport.  Every write stores the value in the register. -/
theorem int_wlan_write (s : ar6k_s) (v : Nat) :
    (s.ext.wmi = none → v ≠ 0 → (ar6k_hif_write s 0x472 v).ext.wmi = some wmi_init) ∧
    (s.ext.wmi = none → v = 0 → (ar6k_hif_write s 0x472 v).ext.wmi = none) ∧
    (∀ w : wmi_s, s.ext.wmi = some w → (ar6k_hif_write s 0x472 v).ext.wmi = some w) ∧
    (ar6k_hif_write s 0x472 v).ext.hif.wlan_int = v ∧
    (ar6k_reset s).ext.wmi = none ∧
    (ar6k_init cis_h.std s.ext.macaddr).ext.wmi = none := by
  rw [ar6k_hif_write_int_wlan]
  refine ⟨fun hn hv => ?_, fun hn hv => ?_, fun w hw => ?_, ?_, (ar6k_reset_session s).1, ?_⟩
  · rw [if_pos ⟨hv, by rw [hn]; rfl⟩]
  · rw [if_neg (fun h => h.1 hv)]
    exact hn
  · rw [if_neg (fun h => by rw [hw] at h; exact absurd h.2 (by simp))]
    exact hw
  · split_ifs <;> rfl
  · unfold ar6k_init
    exact (ar6k_reset_session _).1

/-- Witness of C22 (amended): on the AR6000 after attach the write of 1
creates the transport, and a second write keeps it. -/
theorem int_wlan_write_witness :
    (ar6k_hif_write st_attach 0x472 1).ext.wmi = some wmi_init ∧
    (ar6k_hif_write (ar6k_hif_write st_attach 0x472 1) 0x472 2).ext.wmi = some wmi_init :=
  have h1 := (int_wlan_write st_attach 1).1 st_attach_wmi (by decide)
  ⟨h1, (int_wlan_write (ar6k_hif_write st_attach 0x472 1) 2).2.2.1 wmi_init h1⟩

/-- With the BMI session closed, a host write that completes a message leaves
the session flag, the counts `cnt` and the mailbox contents alone. -/
theorem mbox_complete_x_done (e : ar6k_x) (m : Nat) (hd : e.bmi_done ≠ 0) :
    bmi_frame e (mbox_complete_x e m) := by
  obtain ⟨⟨r1, -, r3, r4, -, -⟩, -⟩ := credit_x_frame e m
  have hb : ¬ (m = 0 ∧ (credit_reset_x e m).bmi_done = 0) := fun h => by
    rw [r1] at h
    exact hd h.2
  unfold mbox_complete_x
  dsimp only
  rw [if_neg hb]
  obtain ⟨-, g1, -, g3, g4, -, -⟩ := credit_x_frame { credit_reset_x e m with
    hif := { (credit_reset_x e m).hif with
      mbox_count := upd (credit_reset_x e m).hif.mbox_count m 0 } } m
  exact ⟨g1.trans r1, g3.trans r3, g4.trans r4⟩

/-- An injected event leaves the BMI session flag alone. -/
theorem ar6k_hif_wmi_event_bmi_done (s : ar6k_s) (buffer : Nat → Nat) (len : Nat) :
    (ar6k_hif_wmi_event s buffer len).ext.bmi_done = s.ext.bmi_done := by
  unfold ar6k_hif_wmi_event
  dsimp only
  split_ifs
  · rw [ar6k_hif_intr_update_ext]
    rfl
  · rfl

/-- C24: once `bmi.done` is set, a host write to a mailbox address
0x800..0x27ff leaves `bmi.done` and the counts `cnt` (that of mailbox 0
included) unchanged and changes no mailbox byte but the one written.  Host
writes to any address, host reads, the callback of the counter timer and
injected events keep `bmi.done` set; `ar6k_reset` clears it. -/
theorem bmi_done_bypass (s : ar6k_s) (x v : Nat) (hd : s.ext.bmi_done ≠ 0) :
    (0x800 ≤ x → x ≤ 0x27ff →
      (ar6k_hif_write s x v).ext.bmi_done = s.ext.bmi_done ∧
      (ar6k_hif_write s x v).ext.hif.cnt = s.ext.hif.cnt ∧
      (ar6k_hif_write s x v).ext.hif.mbox
        = upd s.ext.hif.mbox (((x - 0x800 : Nat) : Int)) v) ∧
    (ar6k_hif_write s x v).ext.bmi_done ≠ 0 ∧
    (ar6k_hif_read s x).1.ext.bmi_done ≠ 0 ∧
    (ar6k_hif_cnt_irq_tick s).ext.bmi_done ≠ 0 ∧
    (∀ (buffer : Nat → Nat) (len : Nat),
      (ar6k_hif_wmi_event s buffer len).ext.bmi_done ≠ 0) ∧
    (ar6k_reset s).ext.bmi_done = 0 := by
  have hmb : 0x800 ≤ x → x ≤ 0x27ff →
      (ar6k_hif_write s x v).ext.bmi_done = s.ext.bmi_done ∧
      (ar6k_hif_write s x v).ext.hif.cnt = s.ext.hif.cnt ∧
      (ar6k_hif_write s x v).ext.hif.mbox
        = upd s.ext.hif.mbox (((x - 0x800 : Nat) : Int)) v := fun h1 h2 => by
    rw [ar6k_hif_write_mbox_x s x v h1 h2, with_ext_ext]
    by_cases hx : x &&& 0x7ff = 0x7ff
    · rw [if_pos hx]
      obtain ⟨f1, f2, f3⟩ := mbox_complete_x_done (mbox_store_x s.ext x v)
        ((x - 0x800) >>> 11) hd
      exact ⟨f1, f3, f2⟩
    · rw [if_neg hx]
      exact ⟨rfl, rfl, rfl⟩
  refine ⟨hmb, ?_, ?_, ?_, fun buffer len => ?_, (ar6k_reset_session s).2⟩
  · by_cases hr : AR6K_HIF_MBOX_BASE ≤ x ∧ x ≤ AR6K_HIF_MBOX_END
    · rw [(hmb hr.1 hr.2).1]
      exact hd
    · rw [(ar6k_hif_write_bmi_frame s x v hr).1]
      exact hd
  · rw [(ar6k_hif_read_bmi_frame s x).1]
    exact hd
  · unfold ar6k_hif_cnt_irq_tick
    rw [ar6k_hif_counter_intr_update_ext]
    exact hd
  · rw [ar6k_hif_wmi_event_bmi_done]
    exact hd

/-- Witness of C26: a message of 3 bytes, and the unsupported command 2. -/
theorem bmi_write_ignored_witness :
    ar6k_bmi_write st_attach 0 3 = st_attach ∧ ar6k_bmi_write st_badcmd 0 4 = st_badcmd :=
  ⟨(bmi_write_ignored st_attach 0 3 (Or.inl (by decide))).1,
   (bmi_write_ignored st_badcmd 0 4 (Or.inr (by decide))).1⟩

/-! ## Messages of mailbox 0 -/

theorem hif_write_bytes_append (s : ar6k_s) (a : Nat) (xs : List Nat) (b : Nat) :
    hif_write_bytes s a (xs ++ [b]) = ar6k_hif_write (hif_write_bytes s a xs) (a + xs.length) b := by
  induction xs generalizing s a with
  | nil => rfl
  | cons x xs ih =>
    show hif_write_bytes (ar6k_hif_write s a x) (a + 1) (xs ++ [b]) = _
    rw [ih]
    have e : a + 1 + xs.length = a + (x :: xs).length := by
      rw [List.length_cons]
      omega
    rw [e]
    rfl

theorem mbox_put_append (m : Int → Nat) (off : Int) (xs : List Nat) (b : Nat) :
    mbox_put m off (xs ++ [b]) = upd (mbox_put m off xs) (off + xs.length) b := by
  induction xs generalizing m off with
  | nil =>
    show upd m off b = upd m (off + ((0 : Nat) : Int)) b
    rw [Nat.cast_zero, add_zero]
  | cons x xs ih =>
    show mbox_put (upd m off x) (off + 1) (xs ++ [b]) = _
    rw [ih]
    have e : off + 1 + (xs.length : Int) = off + ((x :: xs).length : Int) := by
      rw [List.length_cons]
      push_cast
      ring
    rw [e]
    rfl

/-- Bytes before the place of a store are not touched. -/
theorem mbox_put_below (m : Int → Nat) (off : Int) (xs : List Nat) (j : Int) (h : j < off) :
    mbox_put m off xs j = m j := by
  induction xs generalizing m off with
  | nil => rfl
  | cons x xs ih =>
    show mbox_put (upd m off x) (off + 1) xs j = m j
    rw [ih _ _ (by omega)]
    unfold upd
    rw [if_neg (by omega)]

/-- The bytes stored are read back in order. -/
theorem mbox_put_get (m : Int → Nat) (off : Int) (xs : List Nat) (i : Nat)
    (h : i < xs.length) : mbox_put m off xs (off + i) = xs.getD i 0 := by
  induction xs generalizing m off i with
  | nil => exact absurd h (by simp)
  | cons x xs ih =>
    show mbox_put (upd m off x) (off + 1) xs (off + i) = _
    cases i with
    | zero =>
      rw [mbox_put_below _ _ _ _ (by push_cast; omega)]
      unfold upd
      rw [Nat.cast_zero, add_zero, if_pos rfl]
      rfl
    | succ k =>
      have e : off + ((k + 1 : Nat) : Int) = off + 1 + (k : Int) := by
        push_cast
        ring
      rw [e, ih _ _ k (by simpa using h)]
      rfl

/-- The word that starts the bytes stored is read back. -/
theorem le32_at_mbox_put (m : Int → Nat) (off : Int) (xs : List Nat) (h : 4 ≤ xs.length) :
    le32_at (mbox_put m off xs) off = le32_of xs := by
  have g0 := mbox_put_get m off xs 0 (by omega)
  have g1 := mbox_put_get m off xs 1 (by omega)
  have g2 := mbox_put_get m off xs 2 (by omega)
  have g3 := mbox_put_get m off xs 3 (by omega)
  rw [Nat.cast_zero, add_zero] at g0
  unfold le32_at le32_of
  rw [g0]
  rw [show off + 1 = off + ((1 : Nat) : Int) from rfl, g1,
    show off + 2 = off + ((2 : Nat) : Int) from rfl, g2,
    show off + 3 = off + ((3 : Nat) : Int) from rfl, g3]

/-- Bytes written below the last byte of mailbox 0 only accumulate: the BMI
session flag and the counts `cnt` are unchanged, the bytes are in the mailbox
and the count of mailbox 0 has grown by their number. -/
theorem hif_write_bytes_mbox0 (s : ar6k_s) (a : Nat) (bs : List Nat)
    (h1 : 0x800 ≤ a) (h2 : a + bs.length ≤ 0xfff) :
    (hif_write_bytes s a bs).ext.bmi_done = s.ext.bmi_done ∧
    (hif_write_bytes s a bs).ext.hif.cnt = s.ext.hif.cnt ∧
    (hif_write_bytes s a bs).ext.hif.mbox
      = mbox_put s.ext.hif.mbox (((a - 0x800 : Nat) : Int)) bs ∧
    (hif_write_bytes s a bs).ext.hif.mbox_count 0
      = s.ext.hif.mbox_count 0 + (bs.length : Int) := by
  induction bs generalizing s a with
  | nil =>
    refine ⟨rfl, rfl, rfl, ?_⟩
    show s.ext.hif.mbox_count 0 = s.ext.hif.mbox_count 0 + ((0 : Nat) : Int)
    rw [Nat.cast_zero, add_zero]
  | cons b bs ih =>
    rw [List.length_cons] at h2
    have e7 : (0x7ff : Nat) = 2 ^ 11 - 1 := by norm_num
    have hx : ¬ a &&& 0x7ff = 0x7ff := by
      rw [e7, Nat.and_pow_two_sub_one_eq_mod]
      norm_num
      omega
    have hm : (a - 0x800) >>> 11 = 0 := by
      rw [Nat.shiftRight_eq_div_pow]
      norm_num
      omega
    have hw := ar6k_hif_write_mbox_x s a b h1 (by omega)
    rw [if_neg hx] at hw
    obtain ⟨i1, i2, i3, i4⟩ := ih (ar6k_hif_write s a b) (a + 1) (by omega) (by omega)
    show (hif_write_bytes (ar6k_hif_write s a b) (a + 1) bs).ext.bmi_done = _ ∧
      (hif_write_bytes (ar6k_hif_write s a b) (a + 1) bs).ext.hif.cnt = _ ∧
      (hif_write_bytes (ar6k_hif_write s a b) (a + 1) bs).ext.hif.mbox = _ ∧
      (hif_write_bytes (ar6k_hif_write s a b) (a + 1) bs).ext.hif.mbox_count 0 = _
    rw [i1, i2, i3, i4, hw, with_ext_ext]
    refine ⟨rfl, rfl, ?_, ?_⟩
    · have e : ((a + 1 - 0x800 : Nat) : Int) = ((a - 0x800 : Nat) : Int) + 1 := by omega
      rw [e]
      rfl
    · show upd s.ext.hif.mbox_count ((a - 0x800) >>> 11)
        (s.ext.hif.mbox_count ((a - 0x800) >>> 11) + 1) 0 + (bs.length : Int) = _
      rw [hm]
      unfold upd
      rw [if_pos rfl, List.length_cons]
      push_cast
      ring

/-- The completing write of a message of mailbox 0 while the BMI session is
open: what the interpreter does with the command word at offset
`0x800 - len`, `len` being the count of mailbox 0. -/
theorem mbox_complete_x_bmi (e : ar6k_x) (hd : e.bmi_done = 0)
    (hl : 4 ≤ e.hif.mbox_count 0) :
    (le32_at e.hif.mbox (0x800 - e.hif.mbox_count 0) = bmi_no_command →
      (mbox_complete_x e 0).bmi_done = 0 ∧ (mbox_complete_x e 0).hif.cnt 0 = 0 ∧
      (mbox_complete_x e 0).hif.mbox = e.hif.mbox) ∧
    (le32_at e.hif.mbox (0x800 - e.hif.mbox_count 0) = bmi_done →
      (mbox_complete_x e 0).bmi_done = 1 ∧ (mbox_complete_x e 0).hif.cnt 0 = 0 ∧
      (mbox_complete_x e 0).hif.mbox = e.hif.mbox) ∧
    (le32_at e.hif.mbox (0x800 - e.hif.mbox_count 0) = bmi_get_target_id →
      (mbox_complete_x e 0).bmi_done = 0 ∧ (mbox_complete_x e 0).hif.cnt 0 = 4 ∧
      (mbox_complete_x e 0).hif.mbox = put_le32 e.hif.mbox 0x7fc BMI_TARGET_VERSION_ID) ∧
    (le32_at e.hif.mbox (0x800 - e.hif.mbox_count 0) ≠ bmi_no_command →
      le32_at e.hif.mbox (0x800 - e.hif.mbox_count 0) ≠ bmi_done →
      le32_at e.hif.mbox (0x800 - e.hif.mbox_count 0) ≠ bmi_get_target_id →
      (mbox_complete_x e 0).bmi_done = 0 ∧ (mbox_complete_x e 0).hif.cnt = e.hif.cnt ∧
      (mbox_complete_x e 0).hif.mbox = e.hif.mbox) := by
  obtain ⟨⟨r1, -, r3, r4, r5, -⟩, -⟩ := credit_x_frame e 0
  have hb : (0 : Nat) = 0 ∧ (credit_reset_x e 0).bmi_done = 0 := ⟨rfl, r1.trans hd⟩
  have hl2 : ¬ (credit_reset_x e 0).hif.mbox_count 0 < 4 := by
    rw [r5]
    omega
  have hbase : (((0 <<< 11 : Nat) : Int)) + 0x800 - (credit_reset_x e 0).hif.mbox_count 0
      = 0x800 - e.hif.mbox_count 0 := by
    rw [r5]
    norm_num
  have hresp : (((0 <<< 11 : Nat) : Int)) + 0x800 - 4 = 0x7fc := by norm_num
  have hgrant : ∀ e2 : ar6k_x,
      (credit_grant_x { e2 with hif := { e2.hif with
        mbox_count := upd e2.hif.mbox_count 0 0 } } 0).bmi_done = e2.bmi_done ∧
      (credit_grant_x { e2 with hif := { e2.hif with
        mbox_count := upd e2.hif.mbox_count 0 0 } } 0).hif.cnt = e2.hif.cnt ∧
      (credit_grant_x { e2 with hif := { e2.hif with
        mbox_count := upd e2.hif.mbox_count 0 0 } } 0).hif.mbox = e2.hif.mbox := fun e2 => by
    obtain ⟨-, g1, -, g3, g4, -, -⟩ := credit_x_frame { e2 with hif := { e2.hif with
      mbox_count := upd e2.hif.mbox_count 0 0 } } 0
    exact ⟨g1, g4, g3⟩
  unfold mbox_complete_x
  dsimp only
  rw [if_pos hb]
  obtain ⟨g1, g2, g3⟩ := hgrant (bmi_write_x (credit_reset_x e 0) (((0 <<< 11 : Nat) : Int))
    ((credit_reset_x e 0).hif.mbox_count 0))
  rw [g1, g2, g3]
  unfold bmi_write_x
  rw [if_neg hl2, hbase, r3, hresp]
  refine ⟨fun h0 => ?_, fun h1 => ?_, fun h8 => ?_, fun n0 n1 n8 => ?_⟩
  · rw [if_pos h0]
    exact ⟨r1.trans hd, rfl, r3⟩
  · have n0 : ¬ le32_at e.hif.mbox (0x800 - e.hif.mbox_count 0) = bmi_no_command := by
      rw [h1]
      decide
    rw [if_neg n0, if_pos h1]
    exact ⟨rfl, rfl, r3⟩
  · have n0 : ¬ le32_at e.hif.mbox (0x800 - e.hif.mbox_count 0) = bmi_no_command := by
      rw [h8]
      decide
    have n1 : ¬ le32_at e.hif.mbox (0x800 - e.hif.mbox_count 0) = bmi_done := by
      rw [h8]
      decide
    rw [if_neg n0, if_neg n1, if_pos h8]
    exact ⟨r1.trans hd, rfl, rfl⟩
  · rw [if_neg n0, if_neg n1, if_neg n8]
    exact ⟨r1.trans hd, r4, r3⟩

/-- A message of 4 to 2048 bytes written to mailbox 0 so that it ends at the
last byte of the window, into a chip with the BMI session open and no byte of
mailbox 0 counted: the last write completes it from a chip part `e` that holds
the whole message, counted, with the command word read from its first four
bytes. -/
theorem hif_write_bytes_message (s : ar6k_s) (bs : List Nat)
    (hd : s.ext.bmi_done = 0) (hc : s.ext.hif.mbox_count 0 = 0)
    (hn : 4 ≤ bs.length) (hn2 : bs.length ≤ 0x800) :
    ∃ e : ar6k_x,
      (hif_write_bytes s (0x1000 - bs.length) bs).ext = mbox_complete_x e 0 ∧
      e.bmi_done = 0 ∧ 4 ≤ e.hif.mbox_count 0 ∧ e.hif.cnt = s.ext.hif.cnt ∧
      e.hif.mbox = mbox_put s.ext.hif.mbox (0x800 - (bs.length : Int)) bs ∧
      le32_at e.hif.mbox (0x800 - e.hif.mbox_count 0) = le32_of bs := by
  have hne : bs ≠ [] := fun h => by
    rw [h] at hn
    exact absurd hn (by decide)
  have hsplit := List.dropLast_append_getLast hne
  have hlen : bs.dropLast.length = bs.length - 1 := List.length_dropLast bs
  have ha : 0x1000 - bs.length + bs.dropLast.length = 0xfff := by omega
  obtain ⟨p1, p2, p3, p4⟩ := hif_write_bytes_mbox0 s (0x1000 - bs.length) bs.dropLast
    (by omega) (by omega)
  have hlast : (0xfff : Nat) &&& 0x7ff = 0x7ff ∧ (0xfff - 0x800) >>> 11 = 0 := by decide
  have hw := ar6k_hif_write_mbox_x (hif_write_bytes s (0x1000 - bs.length) bs.dropLast)
    0xfff (bs.getLast hne) (by decide) (by decide)
  rw [if_pos hlast.1, hlast.2] at hw
  have hoff : (((0x1000 - bs.length - 0x800 : Nat) : Int)) = 0x800 - (bs.length : Int) := by
    omega
  have hmb : (mbox_store_x (hif_write_bytes s (0x1000 - bs.length) bs.dropLast).ext 0xfff
      (bs.getLast hne)).hif.mbox = mbox_put s.ext.hif.mbox (0x800 - (bs.length : Int)) bs := by
    show upd (hif_write_bytes s (0x1000 - bs.length) bs.dropLast).ext.hif.mbox
      (((0xfff - 0x800 : Nat) : Int)) (bs.getLast hne) = _
    rw [p3, hoff]
    have e1 : (((0xfff - 0x800 : Nat) : Int))
        = 0x800 - (bs.length : Int) + (bs.dropLast.length : Int) := by omega
    rw [e1, ← mbox_put_append, hsplit]
  have hcnt : (mbox_store_x (hif_write_bytes s (0x1000 - bs.length) bs.dropLast).ext 0xfff
      (bs.getLast hne)).hif.mbox_count 0 = (bs.length : Int) := by
    show upd (hif_write_bytes s (0x1000 - bs.length) bs.dropLast).ext.hif.mbox_count
      ((0xfff - 0x800) >>> 11)
      ((hif_write_bytes s (0x1000 - bs.length) bs.dropLast).ext.hif.mbox_count
        ((0xfff - 0x800) >>> 11) + 1) 0 = _
    rw [hlast.2]
    unfold upd
    rw [if_pos rfl, p4, hc]
    omega
  refine ⟨mbox_store_x (hif_write_bytes s (0x1000 - bs.length) bs.dropLast).ext 0xfff
    (bs.getLast hne), ?_, p1.trans hd, ?_, p2, hmb, ?_⟩
  · have e2 : hif_write_bytes s (0x1000 - bs.length) bs
        = ar6k_hif_write (hif_write_bytes s (0x1000 - bs.length) bs.dropLast) 0xfff
            (bs.getLast hne) := by
      rw [← ha, ← hif_write_bytes_append, hsplit]
    rw [e2, hw, with_ext_ext]
  · rw [hcnt]
    omega
  · rw [hcnt, hmb]
    exact le32_at_mbox_put _ _ _ hn

/-- The command word of a message given by its first four bytes. -/
theorem le32_of_cons (a b c d : Nat) (rest : List Nat) :
    le32_of (a :: b :: c :: d :: rest) = a ||| (b <<< 8) ||| (c <<< 16) ||| (d <<< 24) := by
  simp [le32_of]

/-- Counterexample to C23 as stated: on the AR6000 after attach (BMI session
open) the 8-byte message ff ff ff ff 01 00 00 00 written to HIF addresses
0xff8..0xfff ends at the 2KB boundary and its last four bytes are the done
code, yet `bmi.done` stays 0: the command word is read from the first four
bytes.  The message 01 00 00 00 ff ff ff ff sets it. -/
theorem bmi_done_word_leads :
    st_attach.ext.bmi_done = 0 ∧
    (hif_write_bytes st_attach 0xff8
      [0xff, 0xff, 0xff, 0xff, 0x01, 0x00, 0x00, 0x00]).ext.bmi_done = 0 ∧
    (hif_write_bytes st_attach 0xff8
      [0x01, 0x00, 0x00, 0x00, 0xff, 0xff, 0xff, 0xff]).ext.bmi_done = 1 := by
  decide

/-- C23, amended: while `bmi.done` is 0 and no byte of mailbox 0 is counted
(as after reset or after a completed message), a message of 4 to 2048 bytes
written to mailbox 0 so that its last byte goes to HIF address 0xfff sets
`bmi.done` to 1 when its first four bytes are the little-endian done code
01 00 00 00, and leaves it 0 when the little-endian word of its first four
bytes is not the done code, whatever its last four bytes are. -/
theorem bmi_done_message (s : ar6k_s) (bs rest : List Nat)
    (hd : s.ext.bmi_done = 0) (hc : s.ext.hif.mbox_count 0 = 0)
    (hn : 4 ≤ bs.length) (hn2 : bs.length ≤ 0x800) :
    (bs = 1 :: 0 :: 0 :: 0 :: rest →
      (hif_write_bytes s (0x1000 - bs.length) bs).ext.bmi_done = 1) ∧
    (le32_of bs ≠ bmi_done →
      (hif_write_bytes s (0x1000 - bs.length) bs).ext.bmi_done = 0) := by
  obtain ⟨e, he, e1, e2, -, -, e5⟩ := hif_write_bytes_message s bs hd hc hn hn2
  obtain ⟨b0, b1, b8, bn⟩ := mbox_complete_x_bmi e e1 e2
  rw [he, e5] at *
  constructor
  · intro hb
    have hw : le32_of bs = bmi_done := by
      rw [hb, le32_of_cons]
      decide
    exact (b1 hw).1
  · intro hw
    by_cases h0 : le32_of bs = bmi_no_command
    · exact (b0 h0).1
    · by_cases h8 : le32_of bs = bmi_get_target_id
      · exact (b8 h8).1
      · exact (bn h0 hw h8).1

/-- Witness of C23 (amended): the 4-byte done message on the AR6000 after
attach. -/
theorem bmi_done_message_witness :
    (hif_write_bytes st_attach (0x1000 - [1, 0, 0, 0].length) [1, 0, 0, 0]).ext.bmi_done = 1 :=
  (bmi_done_message st_attach [1, 0, 0, 0] [] (by decide) (by decide) (by decide)
    (by decide)).1 rfl

/-- A host read of the count register of mailbox 0 and of the last four bytes
of mailbox 0. -/
theorem ar6k_hif_read_bmi_reply (s : ar6k_s) :
    ar6k_hif_read s 0x424 = (s, s.ext.hif.cnt 0) ∧
    ar6k_hif_read s 0xffc = (s, s.ext.hif.mbox 0x7fc) ∧
    ar6k_hif_read s 0xffd = (s, s.ext.hif.mbox 0x7fd) ∧
    ar6k_hif_read s 0xffe = (s, s.ext.hif.mbox 0x7fe) ∧
    ar6k_hif_read s 0xfff = (s, s.ext.hif.mbox 0x7ff) :=
  ⟨rfl, rfl, rfl, rfl, rfl⟩

/-- The bytes of a word stored little-endian. -/
theorem put_le32_get (m : Int → Nat) (i : Int) (v : Nat) :
    put_le32 m i v i = v &&& 0xff ∧ put_le32 m i v (i + 1) = (v >>> 8) &&& 0xff ∧
    put_le32 m i v (i + 2) = (v >>> 16) &&& 0xff ∧
    put_le32 m i v (i + 3) = (v >>> 24) &&& 0xff := by
  unfold put_le32 upd
  refine ⟨?_, ?_, ?_, ?_⟩
  · rw [if_neg (by omega), if_neg (by omega), if_neg (by omega), if_pos rfl]
  · rw [if_neg (by omega), if_neg (by omega), if_pos rfl]
  · rw [if_neg (by omega), if_pos rfl]
  · rw [if_pos rfl]

/-- C25, amended: while `bmi.done` is 0 and no byte of mailbox 0 is counted, a
message of 4 to 2048 bytes written to mailbox 0 so that its last byte goes to HIF
address 0xfff, with the command word in its first four bytes.  For the command
get-target-id (08 00 00 00) the HIF addresses 0xffc..0xfff read back
44 00 00 11, the little-endian target version 0x11000044, and the count
register 0x424 reads back 4; for the commands no-op (00 00 00 00) and done
(01 00 00 00) the count register reads back 0. -/
theorem bmi_target_id_message (s : ar6k_s) (bs rest : List Nat)
    (hd : s.ext.bmi_done = 0) (hc : s.ext.hif.mbox_count 0 = 0)
    (hn : 4 ≤ bs.length) (hn2 : bs.length ≤ 0x800) :
    (bs = 8 :: 0 :: 0 :: 0 :: rest →
      (ar6k_hif_read (hif_write_bytes s (0x1000 - bs.length) bs) 0xffc).2 = 0x44 ∧
      (ar6k_hif_read (hif_write_bytes s (0x1000 - bs.length) bs) 0xffd).2 = 0x00 ∧
      (ar6k_hif_read (hif_write_bytes s (0x1000 - bs.length) bs) 0xffe).2 = 0x00 ∧
      (ar6k_hif_read (hif_write_bytes s (0x1000 - bs.length) bs) 0xfff).2 = 0x11 ∧
      (ar6k_hif_read (hif_write_bytes s (0x1000 - bs.length) bs) 0x424).2 = 4) ∧
    (bs = 0 :: 0 :: 0 :: 0 :: rest ∨ bs = 1 :: 0 :: 0 :: 0 :: rest →
      (ar6k_hif_read (hif_write_bytes s (0x1000 - bs.length) bs) 0x424).2 = 0) := by
  obtain ⟨e, he, e1, e2, -, -, e5⟩ := hif_write_bytes_message s bs hd hc hn hn2
  obtain ⟨b0, b1, b8, -⟩ := mbox_complete_x_bmi e e1 e2
  obtain ⟨r0, r1, r2, r3, r4⟩ :=
    ar6k_hif_read_bmi_reply (hif_write_bytes s (0x1000 - bs.length) bs)
  rw [r0, r1, r2, r3, r4, he]
  rw [e5] at b0 b1 b8
  constructor
  · intro hb
    have hw : le32_of bs = bmi_get_target_id := by
      rw [hb, le32_of_cons]
      decide
    obtain ⟨-, c1, c2⟩ := b8 hw
    obtain ⟨p0, p1, p2, p3⟩ := put_le32_get e.hif.mbox 0x7fc BMI_TARGET_VERSION_ID
    refine ⟨?_, ?_, ?_, ?_, c1⟩
    · show (mbox_complete_x e 0).hif.mbox 0x7fc = _
      rw [c2, p0]
      decide
    · show (mbox_complete_x e 0).hif.mbox (0x7fc + 1) = _
      rw [c2, p1]
      decide
    · show (mbox_complete_x e 0).hif.mbox (0x7fc + 2) = _
      rw [c2, p2]
      decide
    · show (mbox_complete_x e 0).hif.mbox (0x7fc + 3) = _
      rw [c2, p3]
      decide
  · rintro (hb | hb)
    · have hw : le32_of bs = bmi_no_command := by
        rw [hb, le32_of_cons]
        decide
      exact (b0 hw).2.1
    · have hw : le32_of bs = bmi_done := by
        rw [hb, le32_of_cons]
        decide
      exact (b1 hw).2.1

/-- Witness of C25: the 4-byte get-target-id message on the AR6000 after
attach. -/
theorem bmi_target_id_message_witness :
    (ar6k_hif_read (hif_write_bytes st_attach (0x1000 - [8, 0, 0, 0].length) [8, 0, 0, 0])
      0xffc).2 = 0x44 ∧
    (ar6k_hif_read (hif_write_bytes st_attach (0x1000 - [8, 0, 0, 0].length) [8, 0, 0, 0])
      0xfff).2 = 0x11 ∧
    (ar6k_hif_read (hif_write_bytes st_attach (0x1000 - [8, 0, 0, 0].length) [8, 0, 0, 0])
      0x424).2 = 4 :=
  have h := (bmi_target_id_message st_attach [8, 0, 0, 0] [] (by decide) (by decide)
    (by decide) (by decide)).1 rfl
  ⟨h.1, h.2.2.2.1, h.2.2.2.2⟩

/-! ## Injected events -/

/-- The registers and the mailbox after `ar6k_hif_wmi_event`. -/
theorem ar6k_hif_wmi_event_hif (s : ar6k_s) (buffer : Nat → Nat) (len : Nat) :
    (ar6k_hif_wmi_event s buffer len).ext.hif.mbox
      = mbox_copy (upd (upd s.ext.hif.mbox (0x800 - ((len + 2 : Nat) : Int)) (len &&& 0xff))
          (0x800 - ((len + 2 : Nat) : Int) + 1) ((len >>> 8) &&& 0xff))
          (0x800 - ((len + 2 : Nat) : Int) + 2) buffer len ∧
    (ar6k_hif_wmi_event s buffer len).ext.hif.rx_la = upd s.ext.hif.rx_la 0 len ∧
    (ar6k_hif_wmi_event s buffer len).ext.hif.rx_la_valid
      = s.ext.hif.rx_la_valid ||| (1 <<< 0) ∧
    (ar6k_hif_wmi_event s buffer len).ext.hif.host_int_stat
      = s.ext.hif.host_int_stat ||| (1 <<< 0) := by
  unfold ar6k_hif_wmi_event
  dsimp only
  split_ifs with hb
  · rw [ar6k_hif_intr_update_ext]
    exact ⟨rfl, rfl, rfl, rfl⟩
  · exact ⟨rfl, rfl, rfl, (or_bit_self _ _ hb).symm⟩

/-- C27: an event buffer of `n` bytes with `n + 2 <= 2048` handed to
`ar6k_hif_wmi_event` leaves, in the window of mailbox 0, the little-endian
16-bit value `n` at offsets `0x800-n-2` and `0x800-n-1` and the `n` bytes of
the buffer at offsets `0x800-n .. 0x7ff`; rx-lookahead 0 holds `n`, bit 0 of
the lookahead-valid register and bit 0 of the host interrupt status are set.
The READY event is the buffer of 9 bytes made of the event id 0x1001 (two
bytes in the byte order of the host), the six bytes of the hardware address
and the capability byte 3. -/
theorem wmi_event_frame (s : ar6k_s) (buffer : Nat → Nat) (n : Nat) ( be : Bool)
    (hn : n + 2 ≤ 2048) :
    ((ar6k_hif_wmi_event s buffer n).ext.hif.mbox (0x800 - (n : Int) - 2) = n % 256 ∧
      (ar6k_hif_wmi_event s buffer n).ext.hif.mbox (0x800 - (n : Int) - 1) = n / 256 ∧
      (∀ i : Nat, i < n →
        (ar6k_hif_wmi_event s buffer n).ext.hif.mbox (0x800 - (n : Int) + (i : Int))
          = buffer i) ∧
      (ar6k_hif_wmi_event s buffer n).ext.hif.rx_la 0 = n ∧
      (ar6k_hif_wmi_event s buffer n).ext.hif.rx_la_valid.testBit 0 = true ∧
      (ar6k_hif_wmi_event s buffer n).ext.hif.host_int_stat.testBit 0 = true) ∧
    (∃ msg : Nat → Nat, wmi_ready_event be s = ar6k_hif_wmi_event s msg 9 ∧
      msg 0 = (if be then 0x10 else 0x01) ∧ msg 1 = (if be then 0x01 else 0x10) ∧
      (∀ i : Nat, i < 6 → msg (2 + i) = s.ext.macaddr i) ∧ msg 8 = 3) := by
  obtain ⟨m1, m2, m3, m4⟩ := ar6k_hif_wmi_event_hif s buffer n
  have e255 : (0xff : Nat) = 2 ^ 8 - 1 := by norm_num
  have hlo : n &&& 0xff = n % 256 := by
    rw [e255, Nat.and_pow_two_sub_one_eq_mod]
  have hhi : (n >>> 8) &&& 0xff = n / 256 := by
    rw [e255, Nat.and_pow_two_sub_one_eq_mod, Nat.shiftRight_eq_div_pow]
    norm_num
    omega
  refine ⟨⟨?_, ?_, fun i hi => ?_, ?_, ?_, ?_⟩, ?_⟩
  · rw [m1]
    unfold mbox_copy upd
    rw [if_neg (by omega), if_neg (by omega), if_pos (by omega), hlo]
  · rw [m1]
    unfold mbox_copy upd
    rw [if_neg (by omega), if_pos (by omega), hhi]
  · rw [m1]
    unfold mbox_copy
    rw [if_pos (by omega)]
    have e : (0x800 - (n : Int) + (i : Int) - (0x800 - ((n + 2 : Nat) : Int) + 2)).toNat = i := by
      omega
    rw [e]
  · rw [m2]
    unfold upd
    rw [if_pos rfl]
  · rw [m3]
    exact testBit_or_flag _ _ _ (by decide)
  · rw [m4]
    exact testBit_or_flag _ _ _ (by decide)
  · refine ⟨_, rfl, ?_, ?_, fun i hi => ?_, ?_⟩
    · cases be <;> rfl
    · cases be <;> rfl
    · show (if 2 + i = 0 then _ else if 2 + i = 1 then _
        else if 2 + i < 2 + 7 then (fun j => if j < 6 then s.ext.macaddr j
          else WMI_11AG_CAPABILITY) (2 + i - 2) else 0) = _
      rw [if_neg (by omega), if_neg (by omega), if_pos (by omega)]
      have e : 2 + i - 2 = i := by omega
      rw [e]
      exact if_pos hi
    · rfl

/-- Witness of C24: after the "done" message, a write to the last byte of
mailbox 0 keeps the flag, and a reset clears it. -/
theorem bmi_done_bypass_witness :
    st_done.ext.bmi_done ≠ 0 ∧
    (ar6k_hif_write st_done 0xfff 7).ext.bmi_done = st_done.ext.bmi_done ∧
    (ar6k_hif_write st_done 0xfff 7).ext.hif.cnt = st_done.ext.hif.cnt ∧
    (ar6k_reset st_done).ext.bmi_done = 0 :=
  have h := bmi_done_bypass st_done 0xfff 7 (by decide)
  have h1 := h.1 (by decide) (by decide)
  ⟨by decide, h1.1, h1.2.1, h.2.2.2.2.2⟩

/-- Witness of C27: an event of three bytes on the AR6000 after attach. -/
theorem wmi_event_frame_witness :
    3 + 2 ≤ 2048 ∧
    (ar6k_hif_wmi_event st_attach (fun i => i + 5) 3).ext.hif.mbox
      (0x800 - ((3 : Nat) : Int) - 2) = 3 % 256 ∧
    (ar6k_hif_wmi_event st_attach (fun i => i + 5) 3).ext.hif.rx_la 0 = 3 ∧
    (ar6k_hif_wmi_event st_attach (fun i => i + 5) 3).ext.hif.host_int_stat.testBit 0 = true :=
  have h := wmi_event_frame st_attach (fun i => i + 5) 3 false (by decide)
  ⟨by decide, h.1.1, h.1.2.2.2.1, h.1.2.2.2.2.2⟩

/-! ## The abort register and the revision -/

theorem core_frame_refl (a : sdio_s χ) : core_frame a a :=
  ⟨rfl, rfl, rfl, rfl, rfl, rfl, rfl, rfl, rfl, rfl, rfl, rfl, rfl⟩

theorem core_frame_trans {a b c : sdio_s χ} (h1 : core_frame a b) (h2 : core_frame b c) :
    core_frame a c := by
  obtain ⟨a1, a2, a3, a4, a5, a6, a7, a8, a9, a10, a11, a12, a13⟩ := h1
  obtain ⟨b1, b2, b3, b4, b5, b6, b7, b8, b9, b10, b11, b12, b13⟩ := h2
  exact ⟨b1.trans a1, b2.trans a2, b3.trans a3, b4.trans a4, b5.trans a5, b6.trans a6,
    b7.trans a7, b8.trans a8, b9.trans a9, b10.trans a10, b11.trans a11, b12.trans a12,
    b13.trans a13⟩

theorem sdio_set_irq_frame (s : sdio_s χ) (line level : Nat) :
    core_frame s (sdio_set_irq s line level) := by
  unfold sdio_set_irq sdio_intr_update
  split_ifs <;> exact core_frame_refl _

theorem ar6k_hif_intr_update_frame (s : ar6k_s) : core_frame s (ar6k_hif_intr_update s) :=
  sdio_set_irq_frame s 0 _

theorem ar6k_hif_cpu_intr_update_frame (s : ar6k_s) :
    core_frame s (ar6k_hif_cpu_intr_update s) := by
  unfold ar6k_hif_cpu_intr_update
  dsimp only
  split_ifs
  · exact ar6k_hif_intr_update_frame _
  · exact core_frame_refl _
  · exact ar6k_hif_intr_update_frame _
  · exact core_frame_refl _

theorem ar6k_hif_error_intr_update_frame (s : ar6k_s) :
    core_frame s (ar6k_hif_error_intr_update s) := by
  unfold ar6k_hif_error_intr_update
  dsimp only
  split_ifs
  · exact ar6k_hif_intr_update_frame _
  · exact core_frame_refl _
  · exact ar6k_hif_intr_update_frame _
  · exact core_frame_refl _

theorem ar6k_hif_counter_intr_update_frame (s : ar6k_s) :
    core_frame s (ar6k_hif_counter_intr_update s) := by
  unfold ar6k_hif_counter_intr_update
  dsimp only
  split_ifs
  · exact ar6k_hif_intr_update_frame _
  · exact core_frame_refl _
  · exact ar6k_hif_intr_update_frame _
  · exact core_frame_refl _

/-- The reset hook of the AR6000 changes, of the controller, only the I/O OCR
and the interrupt registers. -/
theorem ar6k_reset_frame (s : ar6k_s) : core_frame s (ar6k_reset s) := by
  unfold ar6k_reset ar6k_bmi_reset
  dsimp only
  refine core_frame_trans ?_ (ar6k_hif_counter_intr_update_frame _)
  refine core_frame_trans ?_ (ar6k_hif_error_intr_update_frame _)
  refine core_frame_trans ?_ (ar6k_hif_cpu_intr_update_frame _)
  exact core_frame_refl _

/-- The members set by `sdio_reset`, for a hook that keeps them. -/
theorem sdio_reset_fields (hook : Option (sdio_s χ → sdio_s χ)) (sd : sdio_s χ)
    (hh : ∀ f, hook = some f → ∀ t, core_frame t (f t)) :
    (sdio_reset hook sd).state = sd_initialization_state ∧
    (sdio_reset hook sd).rca = 0 ∧
    (sdio_reset hook sd).sdio_ok = 0 ∧
    (sdio_reset hook sd).card_status = 0x00001e00 ∧
    (∀ i, (sdio_reset hook sd).blk_len i = 0) ∧
    (sdio_reset hook sd).cccr.revision = 0 := by
  cases hook with
  | none => exact ⟨rfl, rfl, rfl, rfl, fun _ => rfl, rfl⟩
  | some f =>
    have e : sdio_reset (some f) sd = f (sdio_reset none sd) := rfl
    obtain ⟨a1, a2, a3, a4, a5, _, _, _, _, a10, _⟩ := hh f rfl (sdio_reset none sd)
    rw [e]
    exact ⟨a1.trans rfl, a2.trans rfl, a3.trans rfl, a4.trans rfl,
      fun i => (congrFun a5 i).trans rfl, a10.trans rfl⟩

theorem testBit_three (v : Nat) : ((v >>> 3) &&& 1 ≠ 0) ↔ v.testBit 3 = true := by
  rw [Nat.testBit, Nat.and_comm]
  simp

/-- C28: a write of `v` to the abort register (offset 0x06 of function 0),
for a reset hook that keeps the members of the controller (as that of the
AR6000 does).  With bit 3 of `v` set the card is reset: Initialization, RCA 0,
not SDIO-capable, card status 0x00001e00, all block lengths 0.  Otherwise, if
`v & 7` is not 0 and the card is in Transfer state, not in SPI mode, with the
transfer of function `v & 7` open, the card goes to Command state and the
transfer context stays; in every other case the controller is unchanged. -/
theorem cccr_abort_write (hook : Option (sdio_s χ → sdio_s χ)) (sd : sdio_s χ) (v : Nat)
    (hh : ∀ f, hook = some f → ∀ t, core_frame t (f t)) :
    (v.testBit 3 = true →
      sdio_cccr_write hook sd 0x06 v = sdio_reset hook sd ∧
      (sdio_cccr_write hook sd 0x06 v).state = sd_initialization_state ∧
      (sdio_cccr_write hook sd 0x06 v).rca = 0 ∧
      (sdio_cccr_write hook sd 0x06 v).sdio_ok = 0 ∧
      (sdio_cccr_write hook sd 0x06 v).card_status = 0x00001e00 ∧
      (∀ i, (sdio_cccr_write hook sd 0x06 v).blk_len i = 0)) ∧
    (v.testBit 3 = false → v &&& 7 ≠ 0 → sd.state = sd_transfer_state → sd.spi = 0 →
      sd.transfer.func = v &&& 7 →
      (sdio_cccr_write hook sd 0x06 v).state = sd_command_state ∧
      (sdio_cccr_write hook sd 0x06 v).transfer = sd.transfer ∧
      (sdio_cccr_write hook sd 0x06 v).blk_len = sd.blk_len ∧
      (sdio_cccr_write hook sd 0x06 v).ext = sd.ext) ∧
    (v.testBit 3 = false →
      ¬ (v &&& 7 ≠ 0 ∧ sd.state = sd_transfer_state ∧ sd.spi = 0 ∧
        sd.transfer.func = v &&& 7) →
      sdio_cccr_write hook sd 0x06 v = sd) := by
  have e : sdio_cccr_write hook sd 0x06 v =
      if (v >>> 3) &&& 1 ≠ 0 then sdio_reset hook sd
      else if (v >>> 0) &&& 7 ≠ 0 then
        if sd.state = sd_transfer_state ∧ sd.transfer.func = v &&& 7 ∧ sd.spi = 0 then
          sdio_transfer_done sd
        else sd
      else sd := rfl
  have e0 : (v >>> 0) &&& 7 = v &&& 7 := rfl
  rw [e, e0]
  refine ⟨fun h3 => ?_, fun h3 h7 hs hp hf => ?_, fun h3 hn => ?_⟩
  · rw [if_pos ((testBit_three v).mpr h3)]
    obtain ⟨r1, r2, r3, r4, r5, _⟩ := sdio_reset_fields hook sd hh
    exact ⟨rfl, r1, r2, r3, r4, r5⟩
  · have n3 : ¬ ((v >>> 3) &&& 1 ≠ 0) := fun c => by
      rw [(testBit_three v).mp c] at h3
      exact Bool.noConfusion h3
    rw [if_neg n3, if_pos h7, if_pos ⟨hs, hf, hp⟩]
    obtain ⟨t1, t2, _, t4, _, _, t7⟩ := sdio_transfer_done_fields sd
    exact ⟨t1, t4, t7, t2⟩
  · have n3 : ¬ ((v >>> 3) &&& 1 ≠ 0) := fun c => by
      rw [(testBit_three v).mp c] at h3
      exact Bool.noConfusion h3
    rw [if_neg n3]
    by_cases h7 : v &&& 7 ≠ 0
    · rw [if_pos h7, if_neg (fun c => hn ⟨h7, c.1, c.2.2, c.2.1⟩)]
    · rw [if_neg h7]

/-- Witness of C28: the AR6000 with its reset hook; RES in Command state, the
abort of the open transfer of function 1, and an abort naming function 2. -/
theorem cccr_abort_write_witness :
    (sdio_cccr_write ar6k_ops.reset st_command 0x06 0x08).state = sd_initialization_state ∧
    (sdio_cccr_write ar6k_ops.reset st_command 0x06 0x08).rca = 0 ∧
    (st_xfer.state = sd_transfer_state ∧
      (sdio_cccr_write ar6k_ops.reset st_xfer 0x06 0x01).state = sd_command_state) ∧
    sdio_cccr_write ar6k_ops.reset st_xfer 0x06 0x02 = st_xfer :=
  have hh : ∀ f, ar6k_ops.reset = some f → ∀ t, core_frame t (f t) := fun f hf t => by
    have e : f = ar6k_reset := (Option.some.inj hf).symm
    rw [e]
    exact ar6k_reset_frame t
  have h1 := (cccr_abort_write ar6k_ops.reset st_command 0x08 hh).1 (by decide)
  have h2 := (cccr_abort_write ar6k_ops.reset st_xfer 0x01 hh).2.1 (by decide) (by decide)
    (by decide) (by decide) (by decide)
  have h3 := (cccr_abort_write ar6k_ops.reset st_xfer 0x02 hh).2.2 (by decide)
    (fun c => absurd c.2.2.2 (by decide))
  ⟨h1.2.1, h1.2.2.1, ⟨by decide, h2.1⟩, h3⟩

/-- C30, the code at the failing input.  Right after attach and selection the
revision register (offset 0x00 of function 0) reads 0x11.  The host writes
0x08 to the abort register with CMD52: the card is back in Initialization and
the revision member is 0.  After CMD5, CMD3 and CMD7 the card is in Command
state again and a CMD52 read of offset 0x00 delivers 0x00. -/
theorem revision_lost_on_reset :
    (sdio_cccr_read st_attach 0x00 = 0x11 ∧
      (sdio_do_command sd_h.std ar6k_ops st_command ⟨52, 0x00000000, 0⟩).2.2.getLast?
        = some 0x11) ∧
    (st_res.state = sd_initialization_state ∧ sdio_cccr_read st_res 0x00 = 0x00) ∧
    (st_res_command.state = sd_command_state ∧
      (sdio_do_command sd_h.std ar6k_ops st_res_command ⟨52, 0x00000000, 0⟩).2.2.getLast?
        = some 0x00) := by
  refine ⟨⟨?_, ?_⟩, ⟨?_, ?_⟩, ⟨?_, ?_⟩⟩ <;> decide

/-! ## Reads of function 0 -/

theorem sdio_cia_read_eq (sd : sdio_s χ) (addr len : Nat) :
    sdio_cia_read sd addr len =
      cia_read_tail (cia_read_fbr (cia_read_cccr len sd addr 0).len
        (cia_read_cccr len sd addr 0).sd (cia_read_cccr len sd addr 0).addr
        (cia_read_cccr len sd addr 0).pos) := rfl

theorem fbr_above_refl (sd : sdio_s χ) (x : Nat) : fbr_above sd sd x :=
  ⟨rfl, rfl, rfl, rfl, rfl, rfl, fun _ => ⟨rfl, rfl, rfl, rfl, fun _ => rfl⟩⟩

theorem fbr_above_mono {sd t : sdio_s χ} {x y : Nat} (h : fbr_above sd t x) (hxy : x ≤ y) :
    fbr_above sd t y := by
  obtain ⟨h1, h2, h3, h4, h5, h6, h7⟩ := h
  refine ⟨h1, h2, h3, h4, h5, h6, fun n => ?_⟩
  obtain ⟨f1, f2, f3, f4, f5⟩ := h7 n
  exact ⟨f1, f2, f3, f4, fun hy => f5 (le_trans hxy hy)⟩

/-- The CCCR registers depend on the members `cccr`, `blk_len` and
`transfer.func` only. -/
theorem sdio_cccr_read_congr (sd t : sdio_s χ) (x : Nat) (h1 : t.cccr = sd.cccr)
    (h2 : t.blk_len = sd.blk_len) (h3 : t.transfer.func = sd.transfer.func) :
    sdio_cccr_read t x = sdio_cccr_read sd x := by
  unfold sdio_cccr_read
  rw [h1, h2, h3]

/-- The read of an FBR register other than the window register 0x0f leaves
the controller alone. -/
theorem sdio_fbr_read_fst (t : sdio_s χ) (fn off : Nat) (o : ¬ off = 0x0f) :
    (sdio_fbr_read t fn off).1 = t := by
  unfold sdio_fbr_read
  dsimp only
  by_cases o0 : off = 0x00
  · rw [if_pos o0]
  rw [if_neg o0]
  by_cases o1 : off = 0x01
  · rw [if_pos o1]
  rw [if_neg o1]
  by_cases o2 : off = 0x02
  · rw [if_pos o2]
  rw [if_neg o2]
  by_cases o3 : off = 0x09
  · rw [if_pos o3]
  rw [if_neg o3]
  by_cases o4 : off = 0x0a
  · rw [if_pos o4]
  rw [if_neg o4]
  by_cases o5 : off = 0x0b
  · rw [if_pos o5]
  rw [if_neg o5]
  by_cases o6 : off = 0x0c
  · rw [if_pos o6]
  rw [if_neg o6]
  by_cases o7 : off = 0x0d
  · rw [if_pos o7]
  rw [if_neg o7]
  by_cases o8 : off = 0x0e
  · rw [if_pos o8]
  rw [if_neg o8]
  rw [if_neg o]
  by_cases p0 : off = 0x10
  · rw [if_pos p0]
  rw [if_neg p0]
  by_cases p1 : off = 0x11
  · rw [if_pos p1]
  rw [if_neg p1]

/-- The read of the window register 0x0f moves the CSA pointer of a function
with CSA enabled. -/
theorem sdio_fbr_read_window (t : sdio_s χ) (fn : Nat) :
    (sdio_fbr_read t fn 0x0f).1 =
      if (t.fbr (fn - 1)).stdfn &&& (1 <<< 7) ≠ 0 then
        { t with fbr := (upd t.fbr (fn - 1)
          ⟨(t.fbr (fn - 1)).stdfn, (t.fbr (fn - 1)).ext_stdfn, (t.fbr (fn - 1)).power,
            (t.fbr (fn - 1)).cis_offset, ((t.fbr (fn - 1)).csa_addr + 1) % 2 ^ 32⟩) }
      else t := by
  have e : sdio_fbr_read t fn 0x0f =
      if (t.fbr (fn - 1)).stdfn &&& (1 <<< 7) ≠ 0 then
        ({ t with fbr := (upd t.fbr (fn - 1)
          ⟨(t.fbr (fn - 1)).stdfn, (t.fbr (fn - 1)).ext_stdfn, (t.fbr (fn - 1)).power,
            (t.fbr (fn - 1)).cis_offset, ((t.fbr (fn - 1)).csa_addr + 1) % 2 ^ 32⟩) }, 0x00)
      else (t, 0x00) := rfl
  rw [e]
  by_cases c : (t.fbr (fn - 1)).stdfn &&& (1 <<< 7) ≠ 0
  · rw [if_pos c, if_pos c]
  · rw [if_neg c, if_neg c]

/-- The byte of an FBR register read from `t` is the one read from `sd` when
the CSA pointer of the function has not moved. -/
theorem sdio_fbr_read_snd (sd t : sdio_s χ) (fn off : Nat)
    (h2 : t.blk_len = sd.blk_len)
    (f1 : (t.fbr (fn - 1)).stdfn = (sd.fbr (fn - 1)).stdfn)
    (f2 : (t.fbr (fn - 1)).ext_stdfn = (sd.fbr (fn - 1)).ext_stdfn)
    (f3 : (t.fbr (fn - 1)).power = (sd.fbr (fn - 1)).power)
    (f4 : (t.fbr (fn - 1)).cis_offset = (sd.fbr (fn - 1)).cis_offset)
    (f5 : off < 0x0f → (t.fbr (fn - 1)).csa_addr = (sd.fbr (fn - 1)).csa_addr) :
    (sdio_fbr_read t fn off).2 = (sdio_fbr_read sd fn off).2 := by
  unfold sdio_fbr_read
  dsimp only
  rw [h2, f1, f2, f3, f4]
  by_cases o0 : off = 0x00
  · rw [if_pos o0, if_pos o0]
  rw [if_neg o0, if_neg o0]
  by_cases o1 : off = 0x01
  · rw [if_pos o1, if_pos o1]
  rw [if_neg o1, if_neg o1]
  by_cases o2 : off = 0x02
  · rw [if_pos o2, if_pos o2]
  rw [if_neg o2, if_neg o2]
  by_cases o3 : off = 0x09
  · rw [if_pos o3, if_pos o3]
  rw [if_neg o3, if_neg o3]
  by_cases o4 : off = 0x0a
  · rw [if_pos o4, if_pos o4]
  rw [if_neg o4, if_neg o4]
  by_cases o5 : off = 0x0b
  · rw [if_pos o5, if_pos o5]
  rw [if_neg o5, if_neg o5]
  by_cases o6 : off = 0x0c
  · rw [if_pos o6, if_pos o6, f5 (by omega)]
  rw [if_neg o6, if_neg o6]
  by_cases o7 : off = 0x0d
  · rw [if_pos o7, if_pos o7, f5 (by omega)]
  rw [if_neg o7, if_neg o7]
  by_cases o8 : off = 0x0e
  · rw [if_pos o8, if_pos o8, f5 (by omega)]
  rw [if_neg o8, if_neg o8]
  by_cases of : off = 0x0f
  · rw [if_pos of, if_pos of]
    by_cases c : (sd.fbr (fn - 1)).stdfn &&& (1 <<< 7) ≠ 0
    · rw [if_pos c, if_pos c]
    · rw [if_neg c, if_neg c]
  rw [if_neg of, if_neg of]
  by_cases p0 : off = 0x10
  · rw [if_pos p0, if_pos p0]
  rw [if_neg p0, if_neg p0]
  by_cases p1 : off = 0x11
  · rw [if_pos p1, if_pos p1]
  rw [if_neg p1, if_neg p1]

/-- An address of the FBR area splits into the function and the register. -/
theorem fbr_addr_split (x : Nat) (h : 0x100 ≤ x) :
    x = 0x100 * (x >>> 8 - 1 + 1) + (x &&& 0xff) ∧ (x &&& 0xff) < 0x100 := by
  have e255 : (0xff : Nat) = 2 ^ 8 - 1 := by norm_num
  rw [e255, Nat.and_pow_two_sub_one_eq_mod, Nat.shiftRight_eq_div_pow]
  norm_num
  omega

/-- The bytes at the addresses from `x` on are those of `sd` for a controller
that agrees with `sd` from `x` on. -/
theorem cia_byte_congr (sd t : sdio_s χ) (x y : Nat) (h : fbr_above sd t x) (hxy : x ≤ y) :
    cia_byte t y = cia_byte sd y := by
  obtain ⟨h1, h2, h3, h4, _, h6, h7⟩ := h
  unfold cia_byte
  rw [h3, h4]
  by_cases c1 : y < 0x100
  · rw [if_pos c1, if_pos c1]
    exact sdio_cccr_read_congr sd t y h1 h2 h6
  · rw [if_neg c1, if_neg c1]
    by_cases c2 : y < 0x800
    · rw [if_pos c2, if_pos c2]
      obtain ⟨f1, f2, f3, f4, f5⟩ := h7 (y >>> 8 - 1)
      obtain ⟨e1, _⟩ := fbr_addr_split y (by omega)
      exact sdio_fbr_read_snd sd t _ _ h2 f1 f2 f3 f4 (fun o => f5 (by omega))
    · rw [if_neg c2, if_neg c2]

/-- The controller after the read of the FBR register at `x` and the store of
the byte agrees with `sd` from `x + 1` on. -/
theorem fbr_above_step (sd t : sdio_s χ) (x pos v : Nat) (h : fbr_above sd t x)
    (hx : 0x100 ≤ x) :
    fbr_above sd (put_data (sdio_fbr_read t (x >>> 8) (x &&& 0xff)).1 pos v) (x + 1) := by
  obtain ⟨h1, h2, h3, h4, h5, h6, h7⟩ := h
  obtain ⟨e1, e2⟩ := fbr_addr_split x hx
  by_cases o : x &&& 0xff = 0x0f
  · rw [o, sdio_fbr_read_window]
    by_cases c : (t.fbr (x >>> 8 - 1)).stdfn &&& (1 <<< 7) ≠ 0
    · rw [if_pos c]
      refine ⟨h1, h2, h3, h4, h5, h6, fun n => ?_⟩
      obtain ⟨f1, f2, f3, f4, f5⟩ := h7 n
      show ((upd t.fbr (x >>> 8 - 1) _) n).stdfn = _ ∧
        ((upd t.fbr (x >>> 8 - 1) _) n).ext_stdfn = _ ∧
        ((upd t.fbr (x >>> 8 - 1) _) n).power = _ ∧
        ((upd t.fbr (x >>> 8 - 1) _) n).cis_offset = _ ∧
        (_ → ((upd t.fbr (x >>> 8 - 1) _) n).csa_addr = _)
      unfold upd
      by_cases hn : n = x >>> 8 - 1
      · rw [if_pos hn]
        subst hn
        exact ⟨f1, f2, f3, f4, fun hy => absurd hy (by omega)⟩
      · rw [if_neg hn]
        exact ⟨f1, f2, f3, f4, fun hy => f5 (by omega)⟩
    · rw [if_neg c]
      refine ⟨h1, h2, h3, h4, h5, h6, fun n => ?_⟩
      obtain ⟨f1, f2, f3, f4, f5⟩ := h7 n
      exact ⟨f1, f2, f3, f4, fun hy => f5 (by omega)⟩
  · rw [sdio_fbr_read_fst _ _ _ o]
    refine ⟨h1, h2, h3, h4, h5, h6, fun n => ?_⟩
    obtain ⟨f1, f2, f3, f4, f5⟩ := h7 n
    exact ⟨f1, f2, f3, f4, fun hy => f5 (by omega)⟩

theorem cia_read_cccr_succ (len : Nat) (t : sdio_s χ) (addr pos : Nat) :
    cia_read_cccr (len + 1) t addr pos =
      if addr < 0x100 then
        cia_read_cccr len (put_data t pos (sdio_cccr_read t addr))
          ((addr + t.transfer.step) % 2 ^ 32) (pos + 1)
      else ⟨t, addr, pos, len + 1⟩ := rfl

theorem cia_read_fbr_succ (len : Nat) (t : sdio_s χ) (addr pos : Nat) :
    cia_read_fbr (len + 1) t addr pos =
      if addr < 0x800 then
        cia_read_fbr len
          (put_data (sdio_fbr_read t (addr >>> 8) (addr &&& 0xff)).1 pos
            (sdio_fbr_read t (addr >>> 8) (addr &&& 0xff)).2)
          ((addr + t.transfer.step) % 2 ^ 32) (pos + 1)
      else ⟨t, addr, pos, len + 1⟩ := by
  show (if addr < 0x800 then _ else _) = _
  by_cases h : addr < 0x800
  · rw [if_pos h, if_pos h]
    have e : (put_data (sdio_fbr_read t (addr >>> 8) (addr &&& 0xff)).1 pos
        (sdio_fbr_read t (addr >>> 8) (addr &&& 0xff)).2).transfer.step = t.transfer.step := by
      show (sdio_fbr_read t (addr >>> 8) (addr &&& 0xff)).1.transfer.step = _
      by_cases o : addr &&& 0xff = 0x0f
      · rw [o, sdio_fbr_read_window]
        split_ifs <;> rfl
      · rw [sdio_fbr_read_fst _ _ _ o]
    dsimp only
    rw [e]
  · rw [if_neg h, if_neg h]

/-- The first loop of `sdio_cia_read` with step 1: the bytes stored are those
of the addresses passed, and the loop ends with the count used up or at the
end of the CCCR. -/
theorem cia_read_cccr_spec (sd : sdio_s χ) (hs : sd.transfer.step = 1) :
    ∀ (len : Nat) (t : sdio_s χ) (addr pos : Nat), fbr_above sd t 0 → addr < 2 ^ 32 →
      (cia_read_cccr len t addr pos).pos + (cia_read_cccr len t addr pos).len = pos + len ∧
      (cia_read_cccr len t addr pos).addr = addr + ((cia_read_cccr len t addr pos).pos - pos) ∧
      pos ≤ (cia_read_cccr len t addr pos).pos ∧
      ((cia_read_cccr len t addr pos).len = 0 ∨ 0x100 ≤ (cia_read_cccr len t addr pos).addr) ∧
      (cia_read_cccr len t addr pos).addr < 2 ^ 32 ∧
      fbr_above sd (cia_read_cccr len t addr pos).sd 0 ∧
      (∀ j, pos ≤ j → j < (cia_read_cccr len t addr pos).pos →
        (cia_read_cccr len t addr pos).sd.transfer.data j = cia_byte sd (addr + (j - pos))) ∧
      (∀ j, j < pos →
        (cia_read_cccr len t addr pos).sd.transfer.data j = t.transfer.data j) := by
  intro len
  induction len with
  | zero =>
    intro t addr pos ht ha
    exact ⟨rfl, by show addr = addr + (pos - pos); omega, le_refl _, Or.inl rfl, ha, ht,
      fun j h1 h2 => absurd h2 (not_lt.mpr h1), fun _ _ => rfl⟩
  | succ len ih =>
    intro t addr pos ht ha
    rw [cia_read_cccr_succ]
    by_cases h : addr < 0x100
    · rw [if_pos h]
      have st : t.transfer.step = 1 := ht.2.2.2.2.1.trans hs
      have ea : (addr + t.transfer.step) % 2 ^ 32 = addr + 1 := by
        rw [st]
        exact Nat.mod_eq_of_lt (by omega)
      rw [ea]
      have ht1 : fbr_above sd (put_data t pos (sdio_cccr_read t addr)) 0 := ht
      obtain ⟨i1, i2, i3, i4, i5, i6, i7, i8⟩ :=
        ih (put_data t pos (sdio_cccr_read t addr)) (addr + 1) (pos + 1) ht1 (by omega)
      refine ⟨by omega, by omega, by omega, i4, i5, i6, fun j h1 h2 => ?_, fun j hj => ?_⟩
      · by_cases hj : j = pos
        · subst hj
          rw [i8 j (by omega)]
          show upd t.transfer.data j (sdio_cccr_read t addr) j = _
          unfold upd
          rw [if_pos rfl]
          have e : addr + (j - j) = addr := by omega
          rw [e, ← cia_byte_congr sd t 0 addr ht (by omega)]
          unfold cia_byte
          rw [if_pos h]
        · rw [i7 j (by omega) h2]
          have e : addr + 1 + (j - (pos + 1)) = addr + (j - pos) := by omega
          rw [e]
      · rw [i8 j (by omega)]
        show upd t.transfer.data pos (sdio_cccr_read t addr) j = _
        unfold upd
        rw [if_neg (by omega)]
    · rw [if_neg h]
      exact ⟨rfl, by show addr = addr + (pos - pos); omega, le_refl _,
        Or.inr (by show 0x100 ≤ addr; omega), ha, ht,
        fun j h1 h2 => absurd h2 (not_lt.mpr h1), fun _ _ => rfl⟩

/-- The second loop of `sdio_cia_read` with step 1, entered at an address of
the FBR area or above. -/
theorem cia_read_fbr_spec (sd : sdio_s χ) (hs : sd.transfer.step = 1) :
    ∀ (len : Nat) (t : sdio_s χ) (addr pos : Nat), fbr_above sd t addr →
      (len = 0 ∨ 0x100 ≤ addr) → addr < 2 ^ 32 →
      (cia_read_fbr len t addr pos).pos + (cia_read_fbr len t addr pos).len = pos + len ∧
      (cia_read_fbr len t addr pos).addr = addr + ((cia_read_fbr len t addr pos).pos - pos) ∧
      pos ≤ (cia_read_fbr len t addr pos).pos ∧
      ((cia_read_fbr len t addr pos).len = 0 ∨ 0x800 ≤ (cia_read_fbr len t addr pos).addr) ∧
      (cia_read_fbr len t addr pos).addr < 2 ^ 32 ∧
      fbr_above sd (cia_read_fbr len t addr pos).sd (cia_read_fbr len t addr pos).addr ∧
      (∀ j, pos ≤ j → j < (cia_read_fbr len t addr pos).pos →
        (cia_read_fbr len t addr pos).sd.transfer.data j = cia_byte sd (addr + (j - pos))) ∧
      (∀ j, j < pos →
        (cia_read_fbr len t addr pos).sd.transfer.data j = t.transfer.data j) := by
  intro len
  induction len with
  | zero =>
    intro t addr pos ht hlo ha
    exact ⟨rfl, by show addr = addr + (pos - pos); omega, le_refl _, Or.inl rfl, ha, ht,
      fun j h1 h2 => absurd h2 (not_lt.mpr h1), fun _ _ => rfl⟩
  | succ len ih =>
    intro t addr pos ht hlo0 ha
    have hlo : 0x100 ≤ addr := hlo0.resolve_left (Nat.succ_ne_zero len)
    rw [cia_read_fbr_succ]
    by_cases h : addr < 0x800
    · rw [if_pos h]
      have st : t.transfer.step = 1 := ht.2.2.2.2.1.trans hs
      have ea : (addr + t.transfer.step) % 2 ^ 32 = addr + 1 := by
        rw [st]
        exact Nat.mod_eq_of_lt (by omega)
      rw [ea]
      have ht1 := fbr_above_step sd t addr pos
        (sdio_fbr_read t (addr >>> 8) (addr &&& 0xff)).2 ht hlo
      obtain ⟨i1, i2, i3, i4, i5, i6, i7, i8⟩ :=
        ih _ (addr + 1) (pos + 1) ht1 (Or.inr (by omega)) (by omega)
      refine ⟨by omega, by omega, by omega, i4, i5, i6, fun j h1 h2 => ?_, fun j hj => ?_⟩
      · by_cases hj : j = pos
        · subst hj
          rw [i8 j (by omega)]
          show upd _ j (sdio_fbr_read t (addr >>> 8) (addr &&& 0xff)).2 j = _
          unfold upd
          rw [if_pos rfl]
          have e : addr + (j - j) = addr := by omega
          rw [e, ← cia_byte_congr sd t addr addr ht (le_refl _)]
          unfold cia_byte
          rw [if_neg (by omega), if_pos h]
        · rw [i7 j (by omega) h2]
          have e : addr + 1 + (j - (pos + 1)) = addr + (j - pos) := by omega
          rw [e]
      · rw [i8 j (by omega)]
        show upd (sdio_fbr_read t (addr >>> 8) (addr &&& 0xff)).1.transfer.data pos _ j = _
        unfold upd
        rw [if_neg (by omega)]
        by_cases o : addr &&& 0xff = 0x0f
        · rw [o, sdio_fbr_read_window]
          split_ifs <;> rfl
        · rw [sdio_fbr_read_fst _ _ _ o]
    · rw [if_neg h]
      exact ⟨rfl, by show addr = addr + (pos - pos); omega, le_refl _,
        Or.inr (by show 0x800 ≤ addr; omega), ha, ht,
        fun j h1 h2 => absurd h2 (not_lt.mpr h1), fun _ _ => rfl⟩

theorem fbr_above_trans {sd t u : sdio_s χ} {x : Nat} (h : fbr_above sd t x)
    (h2 : fbr_above t u 0) : fbr_above sd u x := by
  obtain ⟨a1, a2, a3, a4, a5, a6, a7⟩ := h
  obtain ⟨b1, b2, b3, b4, b5, b6, b7⟩ := h2
  refine ⟨b1.trans a1, b2.trans a2, b3.trans a3, b4.trans a4, b5.trans a5, b6.trans a6,
    fun n => ?_⟩
  obtain ⟨f1, f2, f3, f4, f5⟩ := a7 n
  obtain ⟨g1, g2, g3, g4, g5⟩ := b7 n
  exact ⟨g1.trans f1, g2.trans f2, g3.trans f3, g4.trans f4,
    fun hx => (g5 (Nat.zero_le _)).trans (f5 hx)⟩

theorem cia_rfu_eq (t : sdio_s χ) (A p l : Nat) (hs : t.transfer.step = 1) :
    cia_rfu ⟨t, A, p, l⟩ =
      if l ≠ 0 ∧ A < 0x1000 then
        ⟨data_zero t p (min l (0x1000 - A)), 0x1000, p + min l (0x1000 - A),
          l - min l (0x1000 - A)⟩
      else ⟨t, A, p, l⟩ := by
  have hstep : (t.transfer.step ≠ 0) := by rw [hs]; decide
  unfold cia_rfu
  dsimp only
  rw [if_pos hstep]
  rfl

theorem cia_cis_eq (t : sdio_s χ) (B p l : Nat) :
    cia_cis ⟨t, B, p, l⟩ =
      if l ≠ 0 ∧ (B + 2 ^ 32 - 0x1000) % 2 ^ 32 < t.cislen then
        ⟨data_copy t p t.cis ((B + 2 ^ 32 - 0x1000) % 2 ^ 32)
            (min l (t.cislen - (B + 2 ^ 32 - 0x1000) % 2 ^ 32)),
          (B + 2 ^ 32 - 0x1000) % 2 ^ 32,
          p + min l (t.cislen - (B + 2 ^ 32 - 0x1000) % 2 ^ 32),
          l - min l (t.cislen - (B + 2 ^ 32 - 0x1000) % 2 ^ 32)⟩
      else ⟨t, (B + 2 ^ 32 - 0x1000) % 2 ^ 32, p, l⟩ := rfl

theorem cia_fill_eq (t : sdio_s χ) (B p l : Nat) :
    cia_fill ⟨t, B, p, l⟩ = if l ≠ 0 then data_zero t p l else t := rfl

theorem cia_fill_data (t : sdio_s χ) (B p l j : Nat) :
    (cia_fill ⟨t, B, p, l⟩).transfer.data j =
      if p ≤ j ∧ j < p + l then 0 else t.transfer.data j := by
  rw [cia_fill_eq]
  by_cases c : l ≠ 0
  · rw [if_pos c]
    rfl
  · rw [if_neg c, if_neg (by omega)]

theorem cia_read_tail_data (t : sdio_s χ) (A p l : Nat) (hs : t.transfer.step = 1)
    (hA : A < 2 ^ 32) (hl : l = 0 ∨ 0x800 ≤ A) (j : Nat) :
    (cia_read_tail ⟨t, A, p, l⟩).transfer.data j =
      if p ≤ j ∧ j < p + l then cia_byte t (A + (j - p)) else t.transfer.data j := by
  unfold cia_read_tail
  rw [cia_rfu_eq t A p l hs]
  have e32 : (2 : Nat) ^ 32 = 4294967296 := by norm_num
  rw [e32] at hA
  by_cases l0 : l = 0
  · subst l0
    rw [if_neg (fun h => h.1 rfl), cia_cis_eq, if_neg (fun h => h.1 rfl), cia_fill_data,
      if_neg (by omega), if_neg (by omega)]
  have h8 : 0x800 ≤ A := hl.resolve_left l0
  by_cases hA1 : A < 0x1000
  · rw [if_pos ⟨l0, hA1⟩, cia_cis_eq]
    have e0 : (0x1000 + 2 ^ 32 - 0x1000) % 2 ^ 32 = 0 := by norm_num
    rw [e0]
    by_cases c1 : l - min l (0x1000 - A) ≠ 0 ∧ 0 < (data_zero t p (min l (0x1000 - A))).cislen
    · rw [if_pos c1, cia_fill_data]
      have c1b : 0 < t.cislen := c1.2
      have ec : (data_zero t p (min l (0x1000 - A))).cislen = t.cislen := rfl
      have ed : (data_zero t p (min l (0x1000 - A))).cis = t.cis := rfl
      rw [ec, ed]
      unfold data_zero data_copy cia_byte SDIO_CIS_START
      dsimp only
      split_ifs <;> first | omega | exact congrArg _ (by omega)
    · rw [if_neg c1, cia_fill_data]
      have ec : (data_zero t p (min l (0x1000 - A))).cislen = t.cislen := rfl
      rw [ec] at c1
      unfold data_zero cia_byte SDIO_CIS_START
      dsimp only
      split_ifs <;> omega
  · rw [if_neg (fun h => hA1 h.2), cia_cis_eq]
    have e1 : (A + 2 ^ 32 - 0x1000) % 2 ^ 32 = A - 0x1000 := by
      rw [e32]
      omega
    rw [e1]
    by_cases c1 : l ≠ 0 ∧ A - 0x1000 < t.cislen
    · rw [if_pos c1, cia_fill_data]
      unfold data_copy cia_byte SDIO_CIS_START
      dsimp only
      split_ifs <;> first | omega | exact congrArg _ (by omega)
    · rw [if_neg c1, cia_fill_data]
      unfold cia_byte SDIO_CIS_START
      split_ifs <;> omega

/-- The statements after the loops change the buffer only. -/
theorem cia_read_tail_regs (t : sdio_s χ) (A p l : Nat) :
    fbr_above t (cia_read_tail ⟨t, A, p, l⟩) 0 := by
  unfold cia_read_tail cia_rfu cia_cis cia_fill
  dsimp only
  split_ifs <;> exact fbr_above_refl _ _

/-- The bytes delivered by one incrementing read of function 0, and the
registers it leaves. -/
theorem sdio_cia_read_bytes (sd : sdio_s χ) (a len : Nat) (hs : sd.transfer.step = 1)
    (ha : a < 2 ^ 32) :
    (∀ i, i < len → (sdio_cia_read sd a len).transfer.data i = cia_byte sd (a + i)) ∧
    fbr_above sd (sdio_cia_read sd a len) (a + len) := by
  rw [sdio_cia_read_eq]
  obtain ⟨p1, p2, _, p4, p5, p6, p7, _⟩ :=
    cia_read_cccr_spec sd hs len sd a 0 (fbr_above_refl sd 0) ha
  generalize cia_read_cccr len sd a 0 = c1 at p1 p2 p4 p5 p6 p7 ⊢
  obtain ⟨q1, q2, q3, q4, q5, q6, q7, q8⟩ :=
    cia_read_fbr_spec sd hs c1.len c1.sd c1.addr c1.pos (fbr_above_mono p6 (Nat.zero_le _))
      p4 p5
  generalize cia_read_fbr c1.len c1.sd c1.addr c1.pos = c2 at q1 q2 q3 q4 q5 q6 q7 q8 ⊢
  have st2 : c2.sd.transfer.step = 1 := q6.2.2.2.2.1.trans hs
  have hd : ∀ j, (cia_read_tail c2).transfer.data j =
      if c2.pos ≤ j ∧ j < c2.pos + c2.len then cia_byte c2.sd (c2.addr + (j - c2.pos))
      else c2.sd.transfer.data j :=
    fun j => cia_read_tail_data c2.sd c2.addr c2.pos c2.len st2 q5 q4 j
  have hr : fbr_above c2.sd (cia_read_tail c2) 0 :=
    cia_read_tail_regs c2.sd c2.addr c2.pos c2.len
  constructor
  · intro i hi
    rw [hd i]
    by_cases c : c2.pos ≤ i
    · rw [if_pos ⟨c, by omega⟩, cia_byte_congr sd c2.sd c2.addr _ q6 (by omega)]
      exact congrArg _ (by omega)
    · rw [if_neg (fun h => c h.1)]
      by_cases d : c1.pos ≤ i
      · rw [q7 i d (by omega)]
        exact congrArg _ (by omega)
      · rw [q8 i (by omega), p7 i (Nat.zero_le _) (by omega)]
        exact congrArg _ (by omega)
  · exact fbr_above_trans (fbr_above_mono q6 (by omega)) hr

/-- C29: one incrementing read (step 1) of `len` bytes of function 0 from the
address `a`.  Byte `i` of the buffer is the CCCR register `a + i` below 0x100,
the FBR register `(a + i) & 0xff` of function `(a + i) >> 8` from 0x100 to
0x7ff, 0 from 0x800 to 0xfff, the byte `a + i - 0x1000` of the CIS table while
inside the table, and 0 beyond it.  A read of `l1` bytes followed by a read of
the next `l2` bytes delivers the same bytes as the one read of `l1 + l2`. -/
theorem sdio_cia_read_regions (sd : sdio_s χ) (a len : Nat) (hs : sd.transfer.step = 1)
    (ha : a < 2 ^ 32) :
    (∀ i, i < len →
      (a + i < 0x100 →
        (sdio_cia_read sd a len).transfer.data i = sdio_cccr_read sd (a + i)) ∧
      (0x100 ≤ a + i → a + i < 0x800 →
        (sdio_cia_read sd a len).transfer.data i
          = (sdio_fbr_read sd ((a + i) >>> 8) ((a + i) &&& 0xff)).2) ∧
      (0x800 ≤ a + i → a + i < 0x1000 → (sdio_cia_read sd a len).transfer.data i = 0) ∧
      (0x1000 ≤ a + i → a + i < 0x1000 + sd.cislen →
        (sdio_cia_read sd a len).transfer.data i = sd.cis (a + i - 0x1000)) ∧
      (0x1000 + sd.cislen ≤ a + i → (sdio_cia_read sd a len).transfer.data i = 0)) ∧
    (∀ l1 l2, l1 + l2 = len → a + l1 < 2 ^ 32 → ∀ j, j < l2 →
      (sdio_cia_read (sdio_cia_read sd a l1) (a + l1) l2).transfer.data j
        = (sdio_cia_read sd a len).transfer.data (l1 + j)) := by
  obtain ⟨hb, _⟩ := sdio_cia_read_bytes sd a len hs ha
  constructor
  · intro i hi
    rw [hb i hi]
    unfold cia_byte SDIO_CIS_START
    refine ⟨fun h => ?_, fun h1 h2 => ?_, fun h1 h2 => ?_, fun h1 h2 => ?_, fun h => ?_⟩
    · rw [if_pos h]
    · rw [if_neg (by omega), if_pos h2]
    · rw [if_neg (by omega), if_neg (by omega), if_pos h2]
    · rw [if_neg (by omega), if_neg (by omega), if_neg (by omega), if_pos (by omega)]
    · rw [if_neg (by omega), if_neg (by omega), if_neg (by omega), if_neg (by omega)]
  · intro l1 l2 hl h1 j hj
    obtain ⟨_, r1⟩ := sdio_cia_read_bytes sd a l1 hs ha
    have s1 : (sdio_cia_read sd a l1).transfer.step = 1 := r1.2.2.2.2.1.trans hs
    obtain ⟨b2, _⟩ := sdio_cia_read_bytes (sdio_cia_read sd a l1) (a + l1) l2 s1 h1
    rw [b2 j hj, hb (l1 + j) (by omega), cia_byte_congr sd _ (a + l1) _ r1 (by omega)]
    exact congrArg _ (by omega)

/-- Witness of C29: the read of 0x20 bytes from 0xf0 on the AR6000, which
passes from the CCCR into the FBR of function 1. -/
theorem sdio_cia_read_regions_witness :
    st_cia.transfer.step = 1 ∧
    (sdio_cia_read st_cia 0xf0 0x20).transfer.data 0x01 = sdio_cccr_read st_cia (0xf0 + 0x01) ∧
    (sdio_cia_read st_cia 0xf0 0x20).transfer.data 0x10
      = (sdio_fbr_read st_cia ((0xf0 + 0x10) >>> 8) ((0xf0 + 0x10) &&& 0xff)).2 :=
  have h := sdio_cia_read_regions st_cia 0xf0 0x20 (by decide) (by decide)
  ⟨by decide, (h.1 0x01 (by decide)).1 (by decide),
    (h.1 0x10 (by decide)).2.1 (by decide) (by decide)⟩

/-! ## Addresses without a register -/

theorem ar6k_hif_write_undecoded (s : ar6k_s) (x v : Nat) (h : ¬ hif_write_decodes x) :
    ar6k_hif_write s x v = s := by
  unfold hif_write_decodes at h
  simp only [not_or] at h
  obtain ⟨h1, h2, h3, h4, h5, h6, h7, h8, h9, h10, h11, h12⟩ := h
  unfold ar6k_hif_write
  rw [if_neg h1, if_neg h2, if_neg h3, if_neg h4, if_neg h5, if_neg h6, if_neg h7, if_neg h8,
    if_neg h9, if_neg h10, if_neg h11, if_neg h12]

theorem ar6k_hif_read_undecoded (s : ar6k_s) (x : Nat) (h : ¬ hif_read_decodes s x) :
    ar6k_hif_read s x = (s, 0) := by
  unfold hif_read_decodes at h
  simp only [not_or] at h
  obtain ⟨h1, h2, h3, h4, h5, h6, h7, h8, h9, h10, h11, h12, h13, h14, h15, h16, h17, h18⟩ := h
  have r13 : ¬ (x = AR6K_COUNT_RESET + 0x0 ∨ x = AR6K_COUNT_RESET + 0x4 ∨
      x = AR6K_COUNT_RESET + 0x8 ∨ x = AR6K_COUNT_RESET + 0xc) := fun c =>
    c.elim h13.1 (fun c => c.elim h13.2.1 (fun c => c.elim h13.2.2.1 h13.2.2.2))
  have r14 : ¬ (x = AR6K_COUNT_DEC + 0x0 ∨ x = AR6K_COUNT_DEC + 0x4 ∨
      x = AR6K_COUNT_DEC + 0x8 ∨ x = AR6K_COUNT_DEC + 0xc) := fun c =>
    c.elim h14.1 (fun c => c.elim h14.2.1 (fun c => c.elim h14.2.2.1 h14.2.2.2))
  unfold ar6k_hif_read
  rw [if_neg h1, if_neg h2, if_neg h3, if_neg h4, if_neg h5, if_neg h6, if_neg h7, if_neg h8,
    if_neg h9, if_neg h10, if_neg h11, if_neg h12, if_neg r13, if_neg r14, if_neg h15,
    if_neg h16]
  by_cases hw : AR6K_CIS_WINDOW ≤ x ∧ x ≤ AR6K_CIS_WINDOW + 0x1ff
  · have hc : x ≥ AR6K_CIS_WINDOW + s.cislen := not_not.mp (fun c => h17 ⟨hw, c⟩)
    rw [if_pos hw, if_pos hc]
  · rw [if_neg hw, if_neg h18]

theorem sdio_cccr_write_undecoded (hook : Option (sdio_s χ → sdio_s χ)) (sd : sdio_s χ)
    (x v : Nat) (h : x ∉ cccr_write_offsets ∨ x = 0x0f) :
    sdio_cccr_write hook sd x v = sd := by
  have n : ¬ x = 0x02 ∧ ¬ x = 0x04 ∧ ¬ x = 0x06 ∧ ¬ x = 0x07 ∧ ¬ x = 0x08 ∧ ¬ x = 0x10 ∧
      ¬ x = 0x11 ∧ ¬ x = 0x12 ∧ ¬ x = 0x13 := by
    rcases h with h | h
    · simp only [cccr_write_offsets, List.mem_cons, List.mem_singleton, not_or,
        List.not_mem_nil, or_false] at h
      exact ⟨h.1, h.2.1, h.2.2.1, h.2.2.2.1, h.2.2.2.2.1, h.2.2.2.2.2.2.1, h.2.2.2.2.2.2.2.1,
        h.2.2.2.2.2.2.2.2.1, h.2.2.2.2.2.2.2.2.2⟩
    · omega
  obtain ⟨n2, n4, n6, n7, n8, n10, n11, n12, n13⟩ := n
  unfold sdio_cccr_write
  rw [if_neg n2, if_neg n4, if_neg n6, if_neg n7, if_neg n8]
  by_cases hf : x = 0x0f
  · rw [if_pos hf]
  · rw [if_neg hf, if_neg n10, if_neg n11, if_neg n12, if_neg n13]

theorem sdio_cccr_read_undecoded (sd : sdio_s χ) (x : Nat) (h : x ∉ cccr_read_offsets) :
    sdio_cccr_read sd x = 0 := by
  simp only [cccr_read_offsets, List.mem_cons, List.mem_singleton, not_or,
    List.not_mem_nil, or_false] at h
  obtain ⟨h1, h2, h3, h4, h5, h6, h7, h8, h9, h10, h11, h12, h13, h14, h15, h16, h17, h18,
    h19⟩ := h
  unfold sdio_cccr_read
  rw [if_neg h1, if_neg h2, if_neg h3, if_neg h4, if_neg h5, if_neg h6, if_neg h7, if_neg h8,
    if_neg h9, if_neg h10, if_neg h11, if_neg h12, if_neg h13, if_neg h14, if_neg h15,
    if_neg h16, if_neg h17, if_neg h18, if_neg h19]

theorem sdio_fbr_write_undecoded (sd : sdio_s χ) (fn x v : Nat)
    (h : x ∉ fbr_write_offsets ∨
      (x = 0x0f ∧ (sd.fbr (fn - 1)).stdfn &&& (1 <<< 7) = 0)) :
    sdio_fbr_write sd fn x v = sd := by
  have n : ¬ x = 0x00 ∧ ¬ x = 0x02 ∧ ¬ x = 0x0c ∧ ¬ x = 0x0d ∧ ¬ x = 0x0e ∧ ¬ x = 0x10 ∧
      ¬ x = 0x11 := by
    rcases h with h | h
    · simp only [fbr_write_offsets, List.mem_cons, List.mem_singleton, not_or,
        List.not_mem_nil, or_false] at h
      exact ⟨h.1, h.2.1, h.2.2.1, h.2.2.2.1, h.2.2.2.2.1, h.2.2.2.2.2.2.1, h.2.2.2.2.2.2.2⟩
    · omega
  obtain ⟨n0, n2, nc, nd, ne, n10, n11⟩ := n
  unfold sdio_fbr_write
  dsimp only
  rw [if_neg n0, if_neg n2, if_neg nc, if_neg nd, if_neg ne]
  by_cases hf : x = 0x0f
  · have hz : ¬ ((sd.fbr (fn - 1)).stdfn &&& (1 <<< 7) ≠ 0) := by
      rcases h with h | h
      · simp only [fbr_write_offsets, List.mem_cons, List.mem_singleton, not_or,
          List.not_mem_nil, or_false] at h
        exact absurd hf h.2.2.2.2.2.1
      · exact not_not.mpr h.2
    rw [if_pos hf, if_neg hz]
  · rw [if_neg hf, if_neg n10, if_neg n11]

theorem sdio_fbr_read_undecoded (sd : sdio_s χ) (fn x : Nat) (h : x ∉ fbr_read_offsets) :
    sdio_fbr_read sd fn x = (sd, 0) := by
  simp only [fbr_read_offsets, List.mem_cons, List.mem_singleton, not_or,
    List.not_mem_nil, or_false] at h
  obtain ⟨h1, h2, h3, h4, h5, h6, h7, h8, h9, h10, h11, h12⟩ := h
  unfold sdio_fbr_read
  dsimp only
  rw [if_neg h1, if_neg h2, if_neg h3, if_neg h4, if_neg h5, if_neg h6, if_neg h7, if_neg h8,
    if_neg h9, if_neg h10, if_neg h11, if_neg h12]

/-- C33: an address that no register decodes.  For a HIF address without a
storing case in `ar6k_hif_write` the write returns the state it was given, and
for one without a returning case in `ar6k_hif_read` (or in the CIS window
beyond the CIS) the read returns 0 and the state it was given; so do the
one-byte transfers of function 1 (the read stores its 0 in the buffer).  For a
CCCR offset without a case the write returns the state and the read returns 0;
for an FBR offset without a case the write returns the state and the read
returns 0 and the state. -/
theorem undecoded_address (s : ar6k_s) (x v fn : Nat) :
    (¬ hif_write_decodes x →
      ar6k_hif_write s x v = s ∧ ar6k_ops.write 1 s x 1 = s) ∧
    (¬ hif_read_decodes s x →
      ar6k_hif_read s x = (s, 0) ∧ ar6k_ops.read 1 s x 1 = put_data s 0 0) ∧
    (x ∉ cccr_write_offsets → sdio_cccr_write ar6k_ops.reset s x v = s) ∧
    (x ∉ cccr_read_offsets → sdio_cccr_read s x = 0) ∧
    (x ∉ fbr_write_offsets → sdio_fbr_write s fn x v = s) ∧
    (x ∉ fbr_read_offsets → sdio_fbr_read s fn x = (s, 0)) := by
  refine ⟨fun h => ⟨ar6k_hif_write_undecoded s x v h, ?_⟩, fun h => ⟨ar6k_hif_read_undecoded s x h, ?_⟩,
    fun h => sdio_cccr_write_undecoded _ s x v (Or.inl h), sdio_cccr_read_undecoded s x,
    fun h => sdio_fbr_write_undecoded s fn x v (Or.inl h), sdio_fbr_read_undecoded s fn x⟩
  · rw [ar6k_ops_write_one]
    exact ar6k_hif_write_undecoded s x _ h
  · rw [ar6k_ops_read_one, ar6k_hif_read_undecoded s x h]

/-- Witness of C33: the AR6000 after attach; the FIFO timeout register 0x468
of the HIF and the offset 0x0c of the CCCR and of the FBR of function 1. -/
theorem undecoded_address_witness :
    (ar6k_hif_write st_attach 0x468 0xff = st_attach ∧
      ar6k_hif_read st_attach 0x468 = (st_attach, 0)) ∧
    (sdio_cccr_write ar6k_ops.reset st_attach 0x14 0xff = st_attach ∧
      sdio_cccr_read st_attach 0x14 = 0) ∧
    (sdio_fbr_write st_attach 1 0x14 0xff = st_attach ∧
      sdio_fbr_read st_attach 1 0x14 = (st_attach, 0)) :=
  have h := undecoded_address st_attach 0x468 0xff 1
  have g := undecoded_address st_attach 0x14 0xff 1
  ⟨⟨(h.1 (by decide)).1, (h.2.1 (by decide)).1⟩,
    ⟨g.2.2.1 (by decide), g.2.2.2.1 (by decide)⟩,
    ⟨g.2.2.2.2.1 (by decide), g.2.2.2.2.2 (by decide)⟩⟩

/-! ## The Inactive state -/

/-- In Inactive every command other than CMD59 in SPI mode takes the common
tail of the decode. -/
theorem sdio_normal_command_inactive (k : sd_h) (ops : sdio_ops χ) (sd : sdio_s χ)
    (cmd arg crc : Nat) (hst : sd.state = sd_inactive_state) (h59 : sd.spi = 0 ∨ cmd ≠ 59) :
    sdio_normal_command k ops sd ⟨cmd, arg, crc⟩ = bad_cmd k sd := by
  by_cases c0 : cmd = 0
  · rw [c0]
    exact sdio_normal_command_cmd0 k ops sd arg crc
  by_cases c59 : cmd = 59
  · have hs : sd.spi = 0 := h59.resolve_right (not_not.mpr c59)
    rw [c59]
    unfold sdio_normal_command
    simp [hs]
  have ne : sd.state ≠ sd_initialization_state ∧ sd.state ≠ sd_standby_state ∧
      sd.state ≠ sd_command_state ∧ sd.state ≠ sd_transfer_state := by
    rw [hst]
    exact ⟨by decide, by decide, by decide, by decide⟩
  apply sdio_normal_command_bad
  by_cases c3 : cmd = 3
  · exact Or.inl ⟨c3, ne.1, ne.2.1⟩
  by_cases c5 : cmd = 5
  · exact Or.inr (Or.inl ⟨c5, ne.1⟩)
  by_cases c7 : cmd = 7
  · exact Or.inr (Or.inr (Or.inl ⟨c7, ne.2.1, ne.2.2.1⟩))
  by_cases c15 : cmd = 15
  · exact Or.inr (Or.inr (Or.inr (Or.inl ⟨c15, ne.1, ne.2.1, ne.2.2.1⟩)))
  by_cases c52 : cmd = 52
  · exact Or.inr (Or.inr (Or.inr (Or.inr (Or.inl ⟨c52, ne.2.2.1, ne.2.2.2⟩))))
  by_cases c53 : cmd = 53
  · exact Or.inr (Or.inr (Or.inr (Or.inr (Or.inr (Or.inl ⟨c53, ne.2.2.1⟩)))))
  refine Or.inr (Or.inr (Or.inr (Or.inr (Or.inr (Or.inr ?_)))))
  simp only [List.mem_cons, List.mem_singleton, not_or, List.not_mem_nil, or_false]
  exact ⟨c0, c3, c5, c7, c15, c52, c53, c59⟩

/-- A decode that takes the common tail for every handler table gives the same
result of `sdio_do_command` for every handler table. -/
theorem sdio_do_command_of_bad_ops (k : sd_h) (ops ops2 : sdio_ops χ) (sd : sdio_s χ)
    (req : sd_request_s)
    (hn : ∀ o : sdio_ops χ, sdio_normal_command k o (decode_entry k sd req.cmd) req
      = bad_cmd k (decode_entry k sd req.cmd)) :
    sdio_do_command k ops2 sd req = sdio_do_command k ops sd req := by
  have h1 := hn ops
  have h2 := hn ops2
  unfold decode_entry at h1 h2
  unfold sdio_do_command
  simp only [sd_req_crc_validate, ne_eq, not_true_eq_false, if_false]
  rw [h1, h2]

/-- A controller in SPI mode and Inactive (a mode the attach code never sets
up) answers CMD59 with an R1 of 4 bytes and stays Inactive. -/
theorem inactive_spi_cmd59_answers :
    st_spi_inactive.state = sd_inactive_state ∧
    (sdio_do_command sd_h.std ar6k_ops st_spi_inactive ⟨59, 0, 0⟩).2.1 = 4 ∧
    (sdio_do_command sd_h.std ar6k_ops st_spi_inactive ⟨59, 0, 0⟩).2.2.length = 4 ∧
    (sdio_do_command sd_h.std ar6k_ops st_spi_inactive ⟨59, 0, 0⟩).1.state
      = sd_inactive_state := by
  refine ⟨?_, ?_, ?_, ?_⟩ <;> decide

/-- A controller in Inactive, in either bus mode, for every command index and
argument: `sdio_do_command` leaves the card Inactive; unless the command is
CMD59 in SPI mode it returns length 0, gives the same result for every
handler table (no handler runs) and leaves the transfer context and the chip
part alone; CMD59 in SPI mode is answered with an R1 of length 4 and also
runs no handler.  `sdio_write_data` and `sdio_read_data` return the state
they were given (the read returns 0).  The flag constants are parameters:
ILLEGAL_COMMAND is a non-zero 32-bit mask outside the class `CARD_STATUS_C`. -/
theorem sdio_inactive_cases (k : sd_h) (ops : sdio_ops χ) (sd : sdio_s χ)
    (cmd arg crc v : Nat)
    (hne : k.ILLEGAL_COMMAND ≠ 0) (h32 : k.ILLEGAL_COMMAND < 2 ^ 32)
    (hC : k.ILLEGAL_COMMAND &&& k.CARD_STATUS_C = 0)
    (hst : sd.state = sd_inactive_state) :
    (sdio_do_command k ops sd ⟨cmd, arg, crc⟩).1.state = sd_inactive_state ∧
    (sd.spi = 0 ∨ cmd ≠ 59 →
      (sdio_do_command k ops sd ⟨cmd, arg, crc⟩).2.1 = 0 ∧
      (sdio_do_command k ops sd ⟨cmd, arg, crc⟩).1.transfer = sd.transfer ∧
      (sdio_do_command k ops sd ⟨cmd, arg, crc⟩).1.ext = sd.ext) ∧
    (sd.spi ≠ 0 ∧ cmd = 59 → (sdio_do_command k ops sd ⟨cmd, arg, crc⟩).2.1 = 4) ∧
    (∀ ops2 : sdio_ops χ,
      sdio_do_command k ops2 sd ⟨cmd, arg, crc⟩ = sdio_do_command k ops sd ⟨cmd, arg, crc⟩) ∧
    sdio_write_data ops k sd v = sd ∧
    sdio_read_data ops k sd = (sd, 0x00) := by
  have hw : sdio_write_data ops k sd v = sd := by
    rw [sdio_write_data_eq, if_pos (by rw [hst]; decide)]
  have hr : sdio_read_data ops k sd = (sd, 0x00) := by
    unfold sdio_read_data
    rw [if_pos (by rw [hst]; decide)]
  by_cases h59 : sd.spi = 0 ∨ cmd ≠ 59
  · have hbad : ∀ (o : sdio_ops χ) (s : sdio_s χ), s.state = sd.state → s.spi = sd.spi →
        sdio_normal_command k o s ⟨cmd, arg, crc⟩ = bad_cmd k s := fun o s e1 e2 =>
      sdio_normal_command_inactive k o s cmd arg crc (e1.trans hst) (by rw [e2]; exact h59)
    obtain ⟨a1, _, _, a4⟩ := sdio_do_command_of_bad k ops sd ⟨cmd, arg, crc⟩ hne h32 hC
      (fun s e1 e2 _ => hbad ops s e1 e2)
    obtain ⟨f1, f2⟩ := sdio_do_command_of_bad_frame k ops sd ⟨cmd, arg, crc⟩
      (hbad ops _ rfl rfl)
    refine ⟨a1.trans hst, fun _ => ⟨a4, f1, f2⟩, fun c => ?_, fun ops2 => ?_, hw, hr⟩
    · exact absurd c.2 (h59.resolve_left c.1)
    · exact sdio_do_command_of_bad_ops k ops ops2 sd ⟨cmd, arg, crc⟩
        (fun o => hbad o _ rfl rfl)
  · have hs : sd.spi ≠ 0 := fun c => h59 (Or.inl c)
    have hc : cmd = 59 := not_not.mp (fun c => h59 (Or.inr c))
    subst hc
    have hn : ∀ o : sdio_ops χ, sdio_normal_command k o (decode_entry k sd 59) ⟨59, arg, crc⟩
        = (sd_r1, decode_entry k sd 59) := fun o => by
      unfold sdio_normal_command
      have e : (decode_entry k sd 59).spi = sd.spi := rfl
      simp [e, hs]
    have hd := fun o => sdio_do_command_r1 k o sd _ ⟨59, arg, crc⟩ sd_r1 (Or.inl rfl) (hn o)
    have hz : (sd_response_r1_make k { decode_entry k sd 59 with
        current_cmd := (decode_entry k sd 59).next_cmd } sd.card_status).1.card_status
        &&& k.ILLEGAL_COMMAND = 0 :=
      bic_and_eq_zero _ _ _ (bic_or_and_right sd.card_status k.COM_CRC_ERROR
        k.ILLEGAL_COMMAND h32)
    refine ⟨?_, fun c => absurd c h59, fun _ => ?_, fun ops2 => ?_, hw, hr⟩
    · rw [hd ops]
      exact hst
    · rw [hd ops]
      show (if _ ≠ 0 then 0 else 4) = 4
      rw [hz]
      rfl
    · rw [hd ops, hd ops2]

/-! ## Reset through the abort register, rejected commands, FBR power -/

/-- C38, the code at the failing input.  RES (0x08) written to the abort
register with CMD52 leaves the card reset: Initialization, RCA 0, not
SDIO-capable.  Delivered as the first of two bytes of a byte-mode CMD53 write
it leaves the card in Initialization as well.  Delivered as the only (last)
byte of a byte-mode CMD53 write, the card is in Command state when
`sdio_write_data` returns, with RCA 0 and not SDIO-capable. -/
theorem abort_reset_last_byte :
    (st_res.state = sd_initialization_state ∧ st_res.rca = 0 ∧ st_res.sdio_ok = 0) ∧
    (st_abort2.state = sd_transfer_state ∧
      (sdio_write_data ar6k_ops sd_h.std st_abort2 0x08).state = sd_initialization_state) ∧
    (st_abort1.state = sd_transfer_state ∧
      (sdio_write_data ar6k_ops sd_h.std st_abort1 0x08).state = sd_command_state ∧
      (sdio_write_data ar6k_ops sd_h.std st_abort1 0x08).rca = 0 ∧
      (sdio_write_data ar6k_ops sd_h.std st_abort1 0x08).sdio_ok = 0 ∧
      (sdio_write_data ar6k_ops sd_h.std st_abort1 0x08).cccr.revision = 0) := by
  refine ⟨⟨?_, ?_, ?_⟩, ⟨?_, ?_⟩, ⟨?_, ?_, ?_, ?_, ?_⟩⟩ <;> decide

/-- C39, the code at the failing input.  The AR6000 is one byte into a
byte-mode, fixed-address CMD53 write of three bytes to the scratch register
0x460.  Left alone, the next two bytes 0x22 and 0x33 reach the register and
the card returns to Command state.  After a CMD7, rejected in Transfer state
(length 0, ILLEGAL_COMMAND), the current command is 7: the same two bytes are
dropped, the register keeps 0x11 and the card stays in Transfer.  After a
rejected CMD53 the current command is still 53 and the transfer goes on. -/
theorem rejected_command_stalls_transfer :
    (st_fixed3.state = sd_transfer_state ∧ st_fixed3.current_cmd = 53 ∧
      st_fixed3.ext.hif.scratch 0 = 0x11) ∧
    ((write_bytes ar6k_ops sd_h.std st_fixed3 [0x22, 0x33]).ext.hif.scratch 0 = 0x33 ∧
      (write_bytes ar6k_ops sd_h.std st_fixed3 [0x22, 0x33]).state = sd_command_state) ∧
    ((sdio_do_command sd_h.std ar6k_ops st_fixed3 ⟨7, 0x45670000, 0⟩).2.1 = 0 ∧
      st_fixed3_cmd7.state = sd_transfer_state ∧ st_fixed3_cmd7.current_cmd = 7 ∧
      st_fixed3_cmd7.transfer = st_fixed3.transfer) ∧
    ((write_bytes ar6k_ops sd_h.std st_fixed3_cmd7 [0x22, 0x33]).ext.hif.scratch 0 = 0x11 ∧
      (write_bytes ar6k_ops sd_h.std st_fixed3_cmd7 [0x22, 0x33]).state
        = sd_transfer_state ∧
      write_bytes ar6k_ops sd_h.std st_fixed3_cmd7 [0x22, 0x33] = st_fixed3_cmd7) ∧
    ((sdio_do_command sd_h.std ar6k_ops st_fixed3 ⟨53, 0x9008c003, 0⟩).2.1 = 0 ∧
      st_fixed3_cmd53.current_cmd = 53 ∧
      (write_bytes ar6k_ops sd_h.std st_fixed3_cmd53 [0x22, 0x33]).ext.hif.scratch 0
        = 0x33) := by
  have e7 : st_fixed3_cmd7.state = sd_transfer_state ∧ st_fixed3_cmd7.current_cmd = 7 := by
    constructor <;> decide
  have ht : st_fixed3_cmd7.transfer = st_fixed3.transfer :=
    (sdio_do_command_of_bad_frame sd_h.std ar6k_ops st_fixed3 ⟨7, 0x45670000, 0⟩
      (sdio_normal_command_bad sd_h.std ar6k_ops _ 7 0x45670000 0
        (Or.inr (Or.inr (Or.inl ⟨rfl, by decide, by decide⟩))))).1
  have hw : ∀ v, sdio_write_data ar6k_ops sd_h.std st_fixed3_cmd7 v = st_fixed3_cmd7 := fun v => by
    rw [sdio_write_data_eq, if_neg (not_not.mpr e7.1), if_neg (by decide),
      if_neg (by rw [e7.2]; decide)]
  have hw2 : write_bytes ar6k_ops sd_h.std st_fixed3_cmd7 [0x22, 0x33] = st_fixed3_cmd7 := by
    show sdio_write_data ar6k_ops sd_h.std
      (sdio_write_data ar6k_ops sd_h.std st_fixed3_cmd7 0x22) 0x33 = _
    rw [hw, hw]
  refine ⟨⟨?_, ?_, ?_⟩, ⟨?_, ?_⟩, ⟨?_, e7.1, e7.2, ht⟩, ⟨?_, ?_, hw2⟩, ⟨?_, ?_, ?_⟩⟩
  · decide
  · decide
  · decide
  · decide
  · decide
  · decide
  · rw [hw2]
    decide
  · rw [hw2]
    exact e7.1
  · decide
  · decide
  · decide

/-- C40, the code at the failing input.  On the AR6000 in Command state the
power control register of the CCCR (offset 0x12) reads 0x01 and the power
selection register of the FBR of function 1 (address 0x102) reads 0x01.  After
the write of 0x02 to the FBR register 0x102 the CCCR register reads 0x03, and
the FBR register that was written still reads 0x01. -/
theorem fbr_power_write_hits_cccr :
    (sdio_cccr_read st_command 0x12 = 0x01 ∧
      (sdio_fbr_read st_command 1 0x02).2 = 0x01) ∧
    (sdio_cccr_read (sdio_fbr_write st_command 1 0x02 0x02) 0x12 = 0x03 ∧
      (sdio_fbr_read (sdio_fbr_write st_command 1 0x02 0x02) 1 0x02).2 = 0x01) ∧
    ((sdio_do_command sd_h.std ar6k_ops st_command ⟨52, 0x00002400, 0⟩).2.2.getLast?
        = some 0x01 ∧
      (sdio_do_command sd_h.std ar6k_ops st_fbr_power ⟨52, 0x00002400, 0⟩).2.2.getLast?
        = some 0x03 ∧
      (sdio_do_command sd_h.std ar6k_ops st_fbr_power ⟨52, 0x00020400, 0⟩).2.2.getLast?
        = some 0x01) := by
  refine ⟨⟨?_, ?_⟩, ⟨?_, ?_⟩, ⟨?_, ?_, ?_⟩⟩ <;> decide

/-! ## Block size registers -/

theorem blk_word (lo hi : Nat) (hlo : lo < 256) : lo + 256 * hi = (hi <<< 8) ||| lo := by
  have hl : lo < 2 ^ 8 := by norm_num; exact hlo
  have e := Nat.mul_add_lt_is_or hl hi
  rw [Nat.shiftLeft_eq, Nat.mul_comm hi, ← e]
  norm_num
  omega

theorem testBit_byte_high (x i : Nat) (hx : x < 256) (hi : 8 ≤ i) : x.testBit i = false :=
  Nat.testBit_lt_two_pow (lt_of_lt_of_le hx (by
    calc 256 = 2 ^ 8 := by norm_num
      _ ≤ 2 ^ i := Nat.pow_le_pow_right (by norm_num) hi))

/-- The block size after the LSB register was written and then the MSB
register. -/
theorem blk_lsb_msb (b lo hi : Nat) (hlo : lo < 256) (hhi : hi < 256) :
    ((((b &&& (0xff <<< 8)) ||| lo) &&& 0xff) ||| (hi <<< 8)) % 0x10000 = lo + 256 * hi := by
  rw [blk_word lo hi hlo]
  have e1 : (0xff : Nat) = 2 ^ 8 - 1 := by norm_num
  have e2 : (0x10000 : Nat) = 2 ^ 16 := by norm_num
  rw [e1, e2]
  apply Nat.eq_of_testBit_eq
  intro i
  simp only [Nat.testBit_mod_two_pow, Nat.testBit_or, Nat.testBit_and, Nat.testBit_shiftLeft,
    Nat.testBit_two_pow_sub_one]
  by_cases h8 : i < 8
  · have n8 : ¬ (i ≥ 8) := by omega
    have h16 : i < 16 := by omega
    simp [h8, n8, h16]
  · have g8 : i ≥ 8 := by omega
    rw [testBit_byte_high lo i hlo g8]
    by_cases h16 : i < 16
    · simp [h8, g8, h16]
    · have hh : hi.testBit (i - 8) = false := testBit_byte_high hi (i - 8) hhi (by omega)
      simp [h8, g8, h16, hh]

/-- The block size after the MSB register was written and then the LSB
register. -/
theorem blk_msb_lsb (b lo hi : Nat) (hlo : lo < 256) (hhi : hi < 256) :
    ((((b &&& 0xff) ||| (hi <<< 8)) % 0x10000) &&& (0xff <<< 8)) ||| lo = lo + 256 * hi := by
  rw [blk_word lo hi hlo]
  have e1 : (0xff : Nat) = 2 ^ 8 - 1 := by norm_num
  have e2 : (0x10000 : Nat) = 2 ^ 16 := by norm_num
  rw [e1, e2]
  apply Nat.eq_of_testBit_eq
  intro i
  simp only [Nat.testBit_mod_two_pow, Nat.testBit_or, Nat.testBit_and, Nat.testBit_shiftLeft,
    Nat.testBit_two_pow_sub_one]
  by_cases h8 : i < 8
  · have n8 : ¬ (i ≥ 8) := by omega
    simp [h8, n8]
  · have g8 : i ≥ 8 := by omega
    by_cases h16 : i < 16
    · have h88 : i - 8 < 8 := by omega
      simp [h8, g8, h16, h88]
    · have hh : hi.testBit (i - 8) = false := testBit_byte_high hi (i - 8) hhi (by omega)
      simp [h8, g8, h16, hh]

/-- The two bytes of a block size. -/
theorem blk_bytes (lo hi : Nat) (hlo : lo < 256) (hhi : hi < 256) :
    ((lo + 256 * hi) >>> 0) &&& 0xff = lo ∧ ((lo + 256 * hi) >>> 8) &&& 0xff = hi := by
  have e1 : (0xff : Nat) = 2 ^ 8 - 1 := by norm_num
  rw [e1, Nat.and_pow_two_sub_one_eq_mod, Nat.and_pow_two_sub_one_eq_mod,
    Nat.shiftRight_eq_div_pow, Nat.shiftRight_eq_div_pow]
  norm_num
  omega

theorem cia_write_cccr_succ (hook : Option (sdio_s χ → sdio_s χ)) (len : Nat) (t : sdio_s χ)
    (addr pos : Nat) :
    cia_write_cccr hook (len + 1) t addr pos =
      if addr < 0x100 then
        cia_write_cccr hook len (sdio_cccr_write hook t addr (t.transfer.data pos))
          ((addr + (sdio_cccr_write hook t addr (t.transfer.data pos)).transfer.step) % 2 ^ 32)
          (pos + 1)
      else ⟨t, addr, pos, len + 1⟩ := rfl

theorem cia_write_fbr_succ (len : Nat) (t : sdio_s χ) (addr pos : Nat) :
    cia_write_fbr (len + 1) t addr pos =
      if addr < 0x800 then
        cia_write_fbr len (sdio_fbr_write t (addr >>> 8) (addr &&& 0xff) (t.transfer.data pos))
          ((addr + (sdio_fbr_write t (addr >>> 8) (addr &&& 0xff)
            (t.transfer.data pos)).transfer.step) % 2 ^ 32)
          (pos + 1)
      else ⟨t, addr, pos, len + 1⟩ := rfl

/-- A one-byte write of function 0 below 0x100 is one `sdio_cccr_write`. -/
theorem cia_write_one_cccr (hook : Option (sdio_s χ → sdio_s χ)) (sd : sdio_s χ)
    (addr v : Nat) (h : addr < 0x100) :
    cia_write_one hook sd addr v = sdio_cccr_write hook (put_data sd 0 v) addr v := by
  unfold cia_write_one sdio_cia_write
  dsimp only
  rw [cia_write_cccr_succ, if_pos h]
  rfl

/-- A one-byte write of function 0 from 0x100 to 0x7ff is one
`sdio_fbr_write`. -/
theorem cia_write_one_fbr (hook : Option (sdio_s χ → sdio_s χ)) (sd : sdio_s χ)
    (addr v : Nat) (h1 : 0x100 ≤ addr) (h2 : addr < 0x800) :
    cia_write_one hook sd addr v
      = sdio_fbr_write (put_data sd 0 v) (addr >>> 8) (addr &&& 0xff) v := by
  unfold cia_write_one sdio_cia_write
  dsimp only
  rw [cia_write_cccr_succ, if_neg (by omega)]
  dsimp only
  rw [cia_write_fbr_succ, if_pos h2]
  rfl

/-- The function and the register of a block size address. -/
theorem blk_addr_split (f : Nat) :
    ((0x100 * f + 0x10) >>> 8 = f ∧ (0x100 * f + 0x10) &&& 0xff = 0x10) ∧
    ((0x100 * f + 0x11) >>> 8 = f ∧ (0x100 * f + 0x11) &&& 0xff = 0x11) := by
  have e255 : (0xff : Nat) = 2 ^ 8 - 1 := by norm_num
  rw [e255, Nat.and_pow_two_sub_one_eq_mod, Nat.and_pow_two_sub_one_eq_mod,
    Nat.shiftRight_eq_div_pow, Nat.shiftRight_eq_div_pow]
  norm_num
  omega

/-- The write of the LSB register of the block size of function `f`. -/
theorem cia_write_one_lsb (hook : Option (sdio_s χ → sdio_s χ)) (sd : sdio_s χ)
    (f v : Nat) (hf : f ≤ 7) :
    cia_write_one hook sd (0x100 * f + 0x10) v =
      set_blk (put_data sd 0 v) f (((sd.blk_len f) &&& (0xff <<< 8)) ||| v) := by
  by_cases h0 : f = 0
  · subst h0
    rw [cia_write_one_cccr hook sd _ v (by norm_num)]
    rfl
  · obtain ⟨⟨a1, a2⟩, _⟩ := blk_addr_split f
    rw [cia_write_one_fbr hook sd _ v (by omega) (by omega), a1, a2]
    rfl

/-- The write of the MSB register of the block size of function `f`. -/
theorem cia_write_one_msb (hook : Option (sdio_s χ → sdio_s χ)) (sd : sdio_s χ)
    (f v : Nat) (hf : f ≤ 7) :
    cia_write_one hook sd (0x100 * f + 0x11) v =
      set_blk (put_data sd 0 v) f ((((sd.blk_len f) &&& 0xff) ||| (v <<< 8)) % 0x10000) := by
  by_cases h0 : f = 0
  · subst h0
    rw [cia_write_one_cccr hook sd _ v (by norm_num)]
    rfl
  · obtain ⟨_, ⟨a1, a2⟩⟩ := blk_addr_split f
    rw [cia_write_one_fbr hook sd _ v (by omega) (by omega), a1, a2]
    rfl

/-- The block size registers of function `f` read the two bytes of
`blk_len[f]`. -/
theorem cia_byte_blk (t : sdio_s χ) (f : Nat) (hf : f ≤ 7) :
    cia_byte t (0x100 * f + 0x10) = ((t.blk_len f) >>> 0) &&& 0xff ∧
    cia_byte t (0x100 * f + 0x11) = ((t.blk_len f) >>> 8) &&& 0xff := by
  by_cases h0 : f = 0
  · subst h0
    exact ⟨rfl, rfl⟩
  · obtain ⟨⟨a1, a2⟩, ⟨b1, b2⟩⟩ := blk_addr_split f
    unfold cia_byte
    rw [if_neg (by omega), if_pos (by omega), if_neg (by omega), if_pos (by omega),
      a1, a2, b1, b2]
    exact ⟨rfl, rfl⟩

theorem set_blk_fields (sd : sdio_s χ) (f x v : Nat) :
    (set_blk (put_data sd 0 v) f x).blk_len f = x ∧
    (∀ g, g ≠ f → (set_blk (put_data sd 0 v) f x).blk_len g = sd.blk_len g) ∧
    (set_blk (put_data sd 0 v) f x).state = sd.state ∧
    (set_blk (put_data sd 0 v) f x).ioocr = sd.ioocr := by
  refine ⟨?_, fun g hg => ?_, rfl, rfl⟩
  · show upd sd.blk_len f x f = x
    unfold upd
    rw [if_pos rfl]
  · show upd sd.blk_len f x g = _
    unfold upd
    rw [if_neg hg]

/-- C32: the block size registers of function `f` in 0..7 (function-0
addresses `0x100*f + 0x10` and `0x100*f + 0x11`) and bytes `lo`, `hi`.  After
the one-byte writes of `lo` to the first and `hi` to the second address, in
either order, the block size of function `f` is `lo + 256*hi`, the two
addresses read `lo` and `hi`, the block sizes of the other functions, the card
state and the I/O OCR are as before; and a block-mode CMD53 on function `f`,
accepted in Command state for a function the card has, opens a transfer whose
block length is `lo + 256*hi` when that lies in 1..2048. -/
theorem block_size_registers (k : sd_h) (ops : sdio_ops χ)
    (hook : Option (sdio_s χ → sdio_s χ)) (sd t : sdio_s χ) (f lo hi arg crc : Nat)
    (hf : f ≤ 7) (hlo : lo < 256) (hhi : hi < 256)
    (ht : t = cia_write_one hook (cia_write_one hook sd (0x100 * f + 0x10) lo)
        (0x100 * f + 0x11) hi ∨
      t = cia_write_one hook (cia_write_one hook sd (0x100 * f + 0x11) hi)
        (0x100 * f + 0x10) lo) :
    t.blk_len f = lo + 256 * hi ∧
    cia_byte t (0x100 * f + 0x10) = lo ∧
    cia_byte t (0x100 * f + 0x11) = hi ∧
    (∀ g, g ≠ f → t.blk_len g = sd.blk_len g) ∧
    t.state = sd.state ∧ t.ioocr = sd.ioocr ∧
    (k.ILLEGAL_COMMAND < 2 ^ 32 → sd.state = sd_command_state →
      (arg >>> 28) &&& 7 = f → f ≤ (sd.ioocr >>> 28) &&& 7 → (arg >>> 27) &&& 1 ≠ 0 →
      1 ≤ lo + 256 * hi → lo + 256 * hi ≤ 2048 →
      (sdio_do_command k ops t ⟨53, arg, crc⟩).1.state = sd_transfer_state ∧
      (sdio_do_command k ops t ⟨53, arg, crc⟩).1.transfer.func = f ∧
      (sdio_do_command k ops t ⟨53, arg, crc⟩).1.transfer.blk_len = lo + 256 * hi) := by
  have key : t.blk_len f = lo + 256 * hi ∧ (∀ g, g ≠ f → t.blk_len g = sd.blk_len g) ∧
      t.state = sd.state ∧ t.ioocr = sd.ioocr := by
    rcases ht with ht | ht
    · rw [ht, cia_write_one_lsb hook sd f lo hf, cia_write_one_msb hook _ f hi hf]
      obtain ⟨a1, a2, a3, a4⟩ := set_blk_fields sd f (((sd.blk_len f) &&& (0xff <<< 8)) ||| lo) lo
      obtain ⟨b1, b2, b3, b4⟩ := set_blk_fields
        (set_blk (put_data sd 0 lo) f (((sd.blk_len f) &&& (0xff <<< 8)) ||| lo)) f
        (((((set_blk (put_data sd 0 lo) f
          (((sd.blk_len f) &&& (0xff <<< 8)) ||| lo)).blk_len f) &&& 0xff) ||| (hi <<< 8))
            % 0x10000) hi
      refine ⟨?_, fun g hg => (b2 g hg).trans (a2 g hg), b3.trans a3, b4.trans a4⟩
      rw [b1, a1]
      exact blk_lsb_msb _ lo hi hlo hhi
    · rw [ht, cia_write_one_msb hook sd f hi hf, cia_write_one_lsb hook _ f lo hf]
      obtain ⟨a1, a2, a3, a4⟩ := set_blk_fields sd f
        ((((sd.blk_len f) &&& 0xff) ||| (hi <<< 8)) % 0x10000) hi
      obtain ⟨b1, b2, b3, b4⟩ := set_blk_fields
        (set_blk (put_data sd 0 hi) f ((((sd.blk_len f) &&& 0xff) ||| (hi <<< 8)) % 0x10000)) f
        ((((set_blk (put_data sd 0 hi) f
          ((((sd.blk_len f) &&& 0xff) ||| (hi <<< 8)) % 0x10000)).blk_len f)
            &&& (0xff <<< 8)) ||| lo) lo
      refine ⟨?_, fun g hg => (b2 g hg).trans (a2 g hg), b3.trans a3, b4.trans a4⟩
      rw [b1, a1]
      exact blk_msb_lsb _ lo hi hlo hhi
  obtain ⟨k1, k2, k3, k4⟩ := key
  obtain ⟨r1, r2⟩ := cia_byte_blk t f hf
  obtain ⟨y1, y2⟩ := blk_bytes lo hi hlo hhi
  refine ⟨k1, ?_, ?_, k2, k3, k4, fun h32 hst hfn hcnt hbm h1 h2 => ?_⟩
  · rw [r1, k1, y1]
  · rw [r2, k1, y2]
  · have e := sdio_do_command_cmd53 k ops t arg crc h32 (k3.trans hst)
      (by rw [hfn, k4]; exact hcnt) (fun _ => by rw [hfn, k1]; exact ⟨h1, h2⟩)
    rw [e]
    refine ⟨rfl, hfn, ?_⟩
    show (if (arg >>> 27) &&& 1 ≠ 0 then t.blk_len ((arg >>> 28) &&& 7) else 1) = _
    rw [if_pos hbm, hfn, k1]

/-- Witness of C32: function 1 of the AR6000 in Command state, block size
0x0140 written LSB first; a block-mode CMD53 write then uses 320. -/
theorem block_size_registers_witness :
    (cia_write_one ar6k_ops.reset (cia_write_one ar6k_ops.reset st_command
      (0x100 * 1 + 0x10) 0x40) (0x100 * 1 + 0x11) 0x01).blk_len 1 = 0x40 + 256 * 0x01 ∧
    cia_byte (cia_write_one ar6k_ops.reset (cia_write_one ar6k_ops.reset st_command
      (0x100 * 1 + 0x10) 0x40) (0x100 * 1 + 0x11) 0x01) (0x100 * 1 + 0x11) = 0x01 ∧
    (sdio_do_command sd_h.std ar6k_ops
      (cia_write_one ar6k_ops.reset (cia_write_one ar6k_ops.reset st_command
        (0x100 * 1 + 0x10) 0x40) (0x100 * 1 + 0x11) 0x01)
      ⟨53, 0x9c08c001, 0⟩).1.transfer.blk_len = 0x40 + 256 * 0x01 :=
  have h := block_size_registers sd_h.std ar6k_ops ar6k_ops.reset st_command _ 1 0x40 0x01
    0x9c08c001 0 (by decide) (by decide) (by decide) (Or.inl rfl)
  ⟨h.1, h.2.2.1,
    (h.2.2.2.2.2.2 (by decide) (by decide) (by decide) (by decide) (by decide) (by decide)
      (by decide)).2.2⟩

/-! ## What the function handlers leave alone -/

theorem bus_frame_refl (s : sdio_s χ) : bus_frame s s :=
  ⟨rfl, rfl, rfl, rfl, id, id, Or.inl rfl⟩

theorem bus_frame_trans {s t u : sdio_s χ} (h1 : bus_frame s t) (h2 : bus_frame t u) :
    bus_frame s u := by
  obtain ⟨a1, a2, a3, a4, a5, a6, a7⟩ := h1
  obtain ⟨b1, b2, b3, b4, b5, b6, b7⟩ := h2
  refine ⟨b1.trans a1, b2.trans a2, b3.trans a3, b4.trans a4, fun h => a5 (b5 h),
    fun h => b6 (a6 h), ?_⟩
  rcases b7 with b7 | b7
  · rcases a7 with a7 | a7
    · exact Or.inl (b7.trans a7)
    · exact Or.inr (b7.trans a7)
  · exact Or.inr b7

/-- A controller that differs in members outside the frame only. -/
theorem bus_frame_of_eq (s t : sdio_s χ) (h1 : t.transfer.blk_len = s.transfer.blk_len)
    (h2 : t.transfer.blk_num = s.transfer.blk_num)
    (h3 : t.transfer.data_offset = s.transfer.data_offset) (h4 : t.spi = s.spi)
    (h5 : t.state = s.state) (h6 : t.fbr = s.fbr) (h7 : t.ioocr = s.ioocr) :
    bus_frame s t :=
  ⟨h1, h2, h3, h4, fun h => h5 ▸ h, fun h n => by rw [h6]; exact h n, Or.inl h7⟩

theorem bus_frame_of_core (s t : sdio_s χ) (h : core_frame s t) (hi : t.ioocr = s.ioocr) :
    bus_frame s t := by
  obtain ⟨c1, _, _, _, _, c6, c7, _, _, _, c11, _, _⟩ := h
  exact bus_frame_of_eq s t (by rw [c6]) (by rw [c6]) (by rw [c6]) c7 c1 c11 hi

theorem bus_frame_put_data (s : sdio_s χ) (pos v : Nat) : bus_frame s (put_data s pos v) :=
  bus_frame_of_eq _ _ rfl rfl rfl rfl rfl rfl rfl

theorem bus_frame_data_zero (s : sdio_s χ) (pos n : Nat) : bus_frame s (data_zero s pos n) :=
  bus_frame_of_eq _ _ rfl rfl rfl rfl rfl rfl rfl

theorem bus_frame_data_copy (s : sdio_s χ) (pos : Nat) (src : Nat → Nat) (off n : Nat) :
    bus_frame s (data_copy s pos src off n) :=
  bus_frame_of_eq _ _ rfl rfl rfl rfl rfl rfl rfl

theorem bus_frame_intr_update (s : sdio_s χ) : bus_frame s (sdio_intr_update s) :=
  bus_frame_of_eq _ _ rfl rfl rfl rfl rfl rfl rfl

theorem bus_frame_transfer_done (s : sdio_s χ) : bus_frame s (sdio_transfer_done s) := by
  obtain ⟨t1, _, t3, t4, t5, _, _⟩ := sdio_transfer_done_fields s
  have hf : (sdio_transfer_done s).fbr = s.fbr := by
    unfold sdio_transfer_done
    dsimp only
    split_ifs <;> rfl
  refine ⟨by rw [t4], by rw [t4], by rw [t4], t5, fun h => ?_, fun h n => ?_, Or.inl t3⟩
  · rw [t1] at h
    exact absurd h (by decide)
  · rw [hf]
    exact h n

/-- The bits 6 and 7 of an interface code after the CSA-enable write. -/
theorem csa_bits (x : Nat) :
    ((x ||| (1 <<< 7)) &&& (1 <<< 6) = x &&& (1 <<< 6)) ∧
    (bic8 x (1 <<< 7)) &&& (1 <<< 7) = 0 := by
  constructor
  · apply Nat.eq_of_testBit_eq
    intro i
    rw [Nat.testBit_and, Nat.testBit_and, Nat.testBit_or, Nat.one_shiftLeft, Nat.one_shiftLeft,
      Nat.testBit_two_pow, Nat.testBit_two_pow]
    by_cases h : 6 = i
    · subst h
      simp
    · simp [h]
  · unfold bic8
    have e : (0xff ^^^ (1 <<< 7)) &&& (1 <<< 7) = 0 := by decide
    rw [Nat.and_assoc, e]
    exact Nat.and_zero x

theorem bus_frame_set_fbr (s : sdio_s χ) (i : Nat) (f : fbr_s)
    (hf : csa_ok s → f.stdfn &&& (1 <<< 7) ≠ 0 → f.stdfn &&& (1 <<< 6) ≠ 0) :
    bus_frame s { s with fbr := upd s.fbr i f } := by
  refine ⟨rfl, rfl, rfl, rfl, id, fun h n => ?_, Or.inl rfl⟩
  show ((upd s.fbr i f) n).stdfn &&& (1 <<< 7) ≠ 0 → ((upd s.fbr i f) n).stdfn &&& (1 <<< 6) ≠ 0
  unfold upd
  by_cases c : n = i
  · rw [if_pos c]
    exact hf h
  · rw [if_neg c]
    exact h n

theorem bus_frame_fbr_write (s : sdio_s χ) (fn off v : Nat) :
    bus_frame s (sdio_fbr_write s fn off v) := by
  have keep : ∀ c : Nat, bus_frame s { s with fbr := (upd s.fbr (fn - 1)
      ⟨(s.fbr (fn - 1)).stdfn, (s.fbr (fn - 1)).ext_stdfn, (s.fbr (fn - 1)).power,
        (s.fbr (fn - 1)).cis_offset, c⟩) } := fun c =>
    bus_frame_set_fbr s (fn - 1) _ (fun h => h (fn - 1))
  unfold sdio_fbr_write
  dsimp only
  by_cases o0 : off = 0x00
  · rw [if_pos o0]
    by_cases c : (s.fbr (fn - 1)).stdfn &&& (1 <<< 6) ≠ 0 ∧ v &&& (1 <<< 7) ≠ 0
    · rw [if_pos c]
      refine bus_frame_set_fbr s (fn - 1) _ (fun _ _ => ?_)
      show ((s.fbr (fn - 1)).stdfn ||| (1 <<< 7)) &&& (1 <<< 6) ≠ 0
      rw [(csa_bits _).1]
      exact c.1
    · rw [if_neg c]
      refine bus_frame_set_fbr s (fn - 1) _ (fun _ h7 => ?_)
      exact absurd (csa_bits (s.fbr (fn - 1)).stdfn).2 h7
  rw [if_neg o0]
  by_cases o2 : off = 0x02
  · rw [if_pos o2]
    exact bus_frame_of_eq _ _ rfl rfl rfl rfl rfl rfl rfl
  rw [if_neg o2]
  by_cases oc : off = 0x0c
  · rw [if_pos oc]
    exact keep _
  rw [if_neg oc]
  by_cases od : off = 0x0d
  · rw [if_pos od]
    exact keep _
  rw [if_neg od]
  by_cases oe : off = 0x0e
  · rw [if_pos oe]
    exact keep _
  rw [if_neg oe]
  by_cases of : off = 0x0f
  · rw [if_pos of]
    by_cases c : (s.fbr (fn - 1)).stdfn &&& (1 <<< 7) ≠ 0
    · rw [if_pos c]
      exact keep _
    · rw [if_neg c]
      exact bus_frame_refl s
  rw [if_neg of]
  by_cases p0 : off = 0x10
  · rw [if_pos p0]
    exact bus_frame_of_eq _ _ rfl rfl rfl rfl rfl rfl rfl
  rw [if_neg p0]
  by_cases p1 : off = 0x11
  · rw [if_pos p1]
    exact bus_frame_of_eq _ _ rfl rfl rfl rfl rfl rfl rfl
  rw [if_neg p1]
  exact bus_frame_refl s

theorem bus_frame_fbr_read (s : sdio_s χ) (fn off : Nat) :
    bus_frame s (sdio_fbr_read s fn off).1 := by
  by_cases o : off = 0x0f
  · rw [o, sdio_fbr_read_window]
    by_cases c : (s.fbr (fn - 1)).stdfn &&& (1 <<< 7) ≠ 0
    · rw [if_pos c]
      exact bus_frame_set_fbr s (fn - 1) _ (fun h => h (fn - 1))
    · rw [if_neg c]
      exact bus_frame_refl s
  · rw [sdio_fbr_read_fst _ _ _ o]
    exact bus_frame_refl s

/-- The I/O OCR after the reset hook of the AR6000. -/
theorem ar6k_reset_ioocr (s : ar6k_s) : (ar6k_reset s).ioocr = 0x10fe0000 := by
  unfold ar6k_reset
  rw [(ar6k_bmi_reset_core _).2]
  rfl

theorem bus_frame_reset (s : ar6k_s) : bus_frame s (sdio_reset (some ar6k_reset) s) := by
  have e : sdio_reset (some ar6k_reset) s = ar6k_reset (sdio_reset none s) := rfl
  obtain ⟨c1, _, _, _, _, c6, c7, _, _, _, c11, _, _⟩ := ar6k_reset_frame (sdio_reset none s)
  rw [e]
  refine ⟨by rw [c6]; rfl, by rw [c6]; rfl, by rw [c6]; rfl, c7.trans rfl, fun h => ?_,
    fun _ n h7 => ?_, Or.inr (ar6k_reset_ioocr _)⟩
  · have hs : (sdio_reset none s).state = sd_initialization_state := rfl
    rw [c1, hs] at h
    exact absurd h (by decide)
  · have hz : ((sdio_reset none s).fbr n).stdfn &&& (1 <<< 7) = 0 := by
      show (0 &&& 0x4f) &&& (1 <<< 7) = 0
      decide
    rw [c11] at h7
    exact absurd hz h7

theorem bus_frame_cccr_write (s : ar6k_s) (off v : Nat) :
    bus_frame s (sdio_cccr_write (some ar6k_reset) s off v) := by
  have same : ∀ t : ar6k_s, t.transfer = s.transfer → t.spi = s.spi → t.state = s.state →
      t.fbr = s.fbr → t.ioocr = s.ioocr → bus_frame s t := fun t h1 h2 h3 h4 h5 =>
    bus_frame_of_eq s t (by rw [h1]) (by rw [h1]) (by rw [h1]) h2 h3 h4 h5
  unfold sdio_cccr_write
  by_cases o2 : off = 0x02
  · rw [if_pos o2]
    exact same _ rfl rfl rfl rfl rfl
  rw [if_neg o2]
  by_cases o4 : off = 0x04
  · rw [if_pos o4]
    exact same _ rfl rfl rfl rfl rfl
  rw [if_neg o4]
  by_cases o6 : off = 0x06
  · rw [if_pos o6]
    by_cases c3 : (v >>> 3) &&& 1 ≠ 0
    · rw [if_pos c3]
      exact bus_frame_reset s
    · rw [if_neg c3]
      by_cases c7 : (v >>> 0) &&& 7 ≠ 0
      · rw [if_pos c7]
        by_cases ca : s.state = sd_transfer_state ∧ s.transfer.func = v &&& 7 ∧ s.spi = 0
        · rw [if_pos ca]
          exact bus_frame_transfer_done s
        · rw [if_neg ca]
          exact bus_frame_refl s
      · rw [if_neg c7]
        exact bus_frame_refl s
  rw [if_neg o6]
  by_cases o7 : off = 0x07
  · rw [if_pos o7]
    dsimp only
    by_cases cs : s.spi ≠ 0
    · rw [if_pos cs]
      exact same _ rfl rfl rfl rfl rfl
    · rw [if_neg cs]
      exact same _ rfl rfl rfl rfl rfl
  rw [if_neg o7]
  by_cases o8 : off = 0x08
  · rw [if_pos o8]
    exact same _ rfl rfl rfl rfl rfl
  rw [if_neg o8]
  by_cases of : off = 0x0f
  · rw [if_pos of]
    exact bus_frame_refl s
  rw [if_neg of]
  by_cases p0 : off = 0x10
  · rw [if_pos p0]
    exact same _ rfl rfl rfl rfl rfl
  rw [if_neg p0]
  by_cases p1 : off = 0x11
  · rw [if_pos p1]
    exact same _ rfl rfl rfl rfl rfl
  rw [if_neg p1]
  by_cases p2 : off = 0x12
  · rw [if_pos p2]
    exact same _ rfl rfl rfl rfl rfl
  rw [if_neg p2]
  by_cases p3 : off = 0x13
  · rw [if_pos p3]
    exact same _ rfl rfl rfl rfl rfl
  rw [if_neg p3]
  exact bus_frame_refl s

/-- A host write to a HIF register leaves the controller alone but for the
interrupt registers. -/
theorem ar6k_hif_write_kept (s : ar6k_s) (addr value : Nat) :
    core_frame s (ar6k_hif_write s addr value) ∧ (ar6k_hif_write s addr value).ioocr = s.ioocr := by
  have keep : core_frame s s ∧ s.ioocr = s.ioocr := ⟨core_frame_refl s, rfl⟩
  have k0 : ∀ f : hif_s → hif_s, core_frame s (ar6k_hif_intr_update (on_hif s f)) ∧
      (ar6k_hif_intr_update (on_hif s f)).ioocr = s.ioocr := fun f =>
    ⟨ar6k_hif_intr_update_frame (on_hif s f), (ar6k_hif_intr_update_core (on_hif s f)).2⟩
  have k1 : ∀ f : hif_s → hif_s, core_frame s (ar6k_hif_cpu_intr_update (on_hif s f)) ∧
      (ar6k_hif_cpu_intr_update (on_hif s f)).ioocr = s.ioocr := fun f =>
    ⟨ar6k_hif_cpu_intr_update_frame (on_hif s f), (ar6k_hif_cpu_intr_update_core (on_hif s f)).2⟩
  have k2 : ∀ f : hif_s → hif_s, core_frame s (ar6k_hif_error_intr_update (on_hif s f)) ∧
      (ar6k_hif_error_intr_update (on_hif s f)).ioocr = s.ioocr := fun f =>
    ⟨ar6k_hif_error_intr_update_frame (on_hif s f),
      (ar6k_hif_error_intr_update_core (on_hif s f)).2⟩
  have k3 : ∀ f : hif_s → hif_s, core_frame s (ar6k_hif_counter_intr_update (on_hif s f)) ∧
      (ar6k_hif_counter_intr_update (on_hif s f)).ioocr = s.ioocr := fun f =>
    ⟨ar6k_hif_counter_intr_update_frame (on_hif s f),
      (ar6k_hif_counter_intr_update_core (on_hif s f)).2⟩
  have ke : ∀ e : ar6k_x, core_frame s (with_ext s e) ∧ (with_ext s e).ioocr = s.ioocr :=
    fun e => ⟨core_frame_refl s, rfl⟩
  by_cases wm : 0x800 ≤ addr ∧ addr ≤ 0x27ff
  · rw [ar6k_hif_write_mbox_x s addr value wm.1 wm.2]
    exact ke _
  have wm2 : ¬ (AR6K_HIF_MBOX_BASE ≤ addr ∧ addr ≤ AR6K_HIF_MBOX_END) := wm
  unfold ar6k_hif_write
  by_cases w0 : addr = AR6K_HOST_INT_STAT
  · rw [if_pos w0]
    split_ifs
    · exact k0 _
    · exact keep
  rw [if_neg w0]
  by_cases w1 : addr = AR6K_CPU_INT_STAT
  · rw [if_pos w1]
    split_ifs
    · exact k1 _
    · exact keep
  rw [if_neg w1]
  by_cases w2 : addr = AR6K_ERROR_INT_STAT
  · rw [if_pos w2]
    split_ifs
    · exact k2 _
    · exact keep
  rw [if_neg w2]
  by_cases w3 : addr = AR6K_COUNTER_INT_STAT
  · rw [if_pos w3]
    split_ifs
    · exact k3 _
    · exact keep
  rw [if_neg w3]
  by_cases w4 : addr = AR6K_MBOX_FRAME
  · rw [if_pos w4]
    exact ke _
  rw [if_neg w4]
  by_cases w5 : addr = AR6K_INT_STAT_ENABLE
  · rw [if_pos w5]
    split_ifs
    · exact k0 _
    · exact keep
  rw [if_neg w5]
  by_cases w6 : addr = AR6K_CPU_INT_STAT_ENABLE
  · rw [if_pos w6]
    split_ifs
    · exact k1 _
    · exact keep
  rw [if_neg w6]
  by_cases w7 : addr = AR6K_ERROR_STAT_ENABLE
  · rw [if_pos w7]
    split_ifs
    · exact k2 _
    · exact keep
  rw [if_neg w7]
  by_cases w8 : addr = AR6K_COUNTER_INT_STAT_ENABLE
  · rw [if_pos w8]
    split_ifs
    · exact ke _
    · exact keep
  rw [if_neg w8]
  by_cases ws : AR6K_SCRATCH ≤ addr ∧ addr ≤ AR6K_SCRATCH + 7
  · rw [if_pos ws]
    exact ke _
  rw [if_neg ws]
  by_cases ww : addr = AR6K_INT_WLAN
  · rw [if_pos ww]
    dsimp only
    split_ifs
    · exact ke _
    · exact ke _
  rw [if_neg ww, if_neg wm2]
  exact keep

/-- A host read of a HIF register leaves the controller alone but for the
interrupt registers. -/
theorem ar6k_hif_read_kept (s : ar6k_s) (addr : Nat) :
    core_frame s (ar6k_hif_read s addr).1 ∧ (ar6k_hif_read s addr).1.ioocr = s.ioocr := by
  have keep : core_frame s s ∧ s.ioocr = s.ioocr := ⟨core_frame_refl s, rfl⟩
  have ke : ∀ e : ar6k_x, core_frame s (with_ext s e) ∧ (with_ext s e).ioocr = s.ioocr :=
    fun e => ⟨core_frame_refl s, rfl⟩
  unfold ar6k_hif_read
  by_cases r0 : addr = AR6K_HOST_INT_STAT
  · rw [if_pos r0]
    exact keep
  rw [if_neg r0]
  by_cases r1 : addr = AR6K_CPU_INT_STAT
  · rw [if_pos r1]
    exact keep
  rw [if_neg r1]
  by_cases r2 : addr = AR6K_ERROR_INT_STAT
  · rw [if_pos r2]
    exact keep
  rw [if_neg r2]
  by_cases r3 : addr = AR6K_COUNTER_INT_STAT
  · rw [if_pos r3]
    exact keep
  rw [if_neg r3]
  by_cases r4 : addr = AR6K_MBOX_FRAME
  · rw [if_pos r4]
    exact keep
  rw [if_neg r4]
  by_cases r5 : addr = AR6K_RX_LOOKAHEAD_VALID
  · rw [if_pos r5]
    exact keep
  rw [if_neg r5]
  by_cases rl : AR6K_RX_LOOKAHEAD0 ≤ addr ∧ addr ≤ AR6K_RX_LOOKAHEAD3 + 3
  · rw [if_pos rl]
    exact ⟨ar6k_hif_intr_update_frame (on_hif (on_hif s _) _),
      (ar6k_hif_intr_update_core (on_hif (on_hif s _) _)).2⟩
  rw [if_neg rl]
  by_cases q0 : addr = AR6K_INT_STAT_ENABLE
  · rw [if_pos q0]
    exact keep
  rw [if_neg q0]
  by_cases q1 : addr = AR6K_CPU_INT_STAT_ENABLE
  · rw [if_pos q1]
    exact keep
  rw [if_neg q1]
  by_cases q2 : addr = AR6K_ERROR_STAT_ENABLE
  · rw [if_pos q2]
    exact keep
  rw [if_neg q2]
  by_cases q3 : addr = AR6K_COUNTER_INT_STAT_ENABLE
  · rw [if_pos q3]
    exact keep
  rw [if_neg q3]
  by_cases q4 : AR6K_COUNT + 0x4 ≤ addr ∧ addr ≤ AR6K_COUNT + 0x7
  · rw [if_pos q4]
    exact keep
  rw [if_neg q4]
  by_cases qr : addr = AR6K_COUNT_RESET + 0x0 ∨ addr = AR6K_COUNT_RESET + 0x4 ∨
      addr = AR6K_COUNT_RESET + 0x8 ∨ addr = AR6K_COUNT_RESET + 0xc
  · rw [if_pos qr]
    dsimp only
    split_ifs
    · exact ⟨ar6k_hif_counter_intr_update_frame (on_hif s _),
        (ar6k_hif_counter_intr_update_core (on_hif s _)).2⟩
    · exact keep
  rw [if_neg qr]
  by_cases qd : addr = AR6K_COUNT_DEC + 0x0 ∨ addr = AR6K_COUNT_DEC + 0x4 ∨
      addr = AR6K_COUNT_DEC + 0x8 ∨ addr = AR6K_COUNT_DEC + 0xc
  · rw [if_pos qd]
    exact ke _
  rw [if_neg qd]
  by_cases p0 : AR6K_SCRATCH ≤ addr ∧ addr ≤ AR6K_SCRATCH + 7
  · rw [if_pos p0]
    exact keep
  rw [if_neg p0]
  by_cases p1 : addr = AR6K_INT_WLAN
  · rw [if_pos p1]
    exact keep
  rw [if_neg p1]
  by_cases pc : AR6K_CIS_WINDOW ≤ addr ∧ addr ≤ AR6K_CIS_WINDOW + 0x1ff
  · rw [if_pos pc]
    split_ifs
    · exact keep
    · exact keep
  rw [if_neg pc]
  split_ifs
  · exact keep
  · exact keep

theorem bus_frame_hif_write (s : ar6k_s) (addr v : Nat) : bus_frame s (ar6k_hif_write s addr v) :=
  bus_frame_of_core s _ (ar6k_hif_write_kept s addr v).1 (ar6k_hif_write_kept s addr v).2

theorem bus_frame_hif_read (s : ar6k_s) (addr : Nat) : bus_frame s (ar6k_hif_read s addr).1 :=
  bus_frame_of_core s _ (ar6k_hif_read_kept s addr).1 (ar6k_hif_read_kept s addr).2

theorem bus_frame_fn1_write (len : Nat) :
    ∀ (s : ar6k_s) (addr pos : Nat), bus_frame s (fn1_write_loop len s addr pos) := by
  induction len with
  | zero => exact fun s _ _ => bus_frame_refl s
  | succ len ih =>
    intro s addr pos
    exact bus_frame_trans (bus_frame_hif_write s addr (s.transfer.data pos)) (ih _ _ _)

theorem bus_frame_fn1_read (len : Nat) :
    ∀ (s : ar6k_s) (addr pos : Nat), bus_frame s (fn1_read_loop len s addr pos) := by
  induction len with
  | zero => exact fun s _ _ => bus_frame_refl s
  | succ len ih =>
    intro s addr pos
    exact bus_frame_trans
      (bus_frame_trans (bus_frame_hif_read s addr) (bus_frame_put_data _ pos _)) (ih _ _ _)

theorem bus_frame_cia_write_cccr (len : Nat) :
    ∀ (s : ar6k_s) (addr pos : Nat),
      bus_frame s (cia_write_cccr (some ar6k_reset) len s addr pos).sd := by
  induction len with
  | zero => exact fun s _ _ => bus_frame_refl s
  | succ len ih =>
    intro s addr pos
    rw [cia_write_cccr_succ]
    by_cases h : addr < 0x100
    · rw [if_pos h]
      exact bus_frame_trans (bus_frame_cccr_write s addr _) (ih _ _ _)
    · rw [if_neg h]
      exact bus_frame_refl s

theorem bus_frame_cia_write_fbr (len : Nat) :
    ∀ (s : sdio_s χ) (addr pos : Nat), bus_frame s (cia_write_fbr len s addr pos).sd := by
  induction len with
  | zero => exact fun s _ _ => bus_frame_refl s
  | succ len ih =>
    intro s addr pos
    rw [cia_write_fbr_succ]
    by_cases h : addr < 0x800
    · rw [if_pos h]
      exact bus_frame_trans (bus_frame_fbr_write s _ _ _) (ih _ _ _)
    · rw [if_neg h]
      exact bus_frame_refl s

theorem bus_frame_cia_write (s : ar6k_s) (addr len : Nat) :
    bus_frame s (sdio_cia_write (some ar6k_reset) s addr len) :=
  bus_frame_trans (bus_frame_cia_write_cccr len s addr 0) (bus_frame_cia_write_fbr _ _ _ _)

theorem bus_frame_cia_read_cccr (len : Nat) :
    ∀ (s : sdio_s χ) (addr pos : Nat), bus_frame s (cia_read_cccr len s addr pos).sd := by
  induction len with
  | zero => exact fun s _ _ => bus_frame_refl s
  | succ len ih =>
    intro s addr pos
    rw [cia_read_cccr_succ]
    by_cases h : addr < 0x100
    · rw [if_pos h]
      exact bus_frame_trans (bus_frame_put_data s pos _) (ih _ _ _)
    · rw [if_neg h]
      exact bus_frame_refl s

theorem bus_frame_cia_read_fbr (len : Nat) :
    ∀ (s : sdio_s χ) (addr pos : Nat), bus_frame s (cia_read_fbr len s addr pos).sd := by
  induction len with
  | zero => exact fun s _ _ => bus_frame_refl s
  | succ len ih =>
    intro s addr pos
    rw [cia_read_fbr_succ]
    by_cases h : addr < 0x800
    · rw [if_pos h]
      exact bus_frame_trans
        (bus_frame_trans (bus_frame_fbr_read s _ _) (bus_frame_put_data _ pos _)) (ih _ _ _)
    · rw [if_neg h]
      exact bus_frame_refl s

theorem bus_frame_cia_rfu (c : cia_cursor χ) : bus_frame c.sd (cia_rfu c).sd := by
  unfold cia_rfu
  by_cases h : c.len ≠ 0 ∧ c.addr < SDIO_CIS_START
  · rw [if_pos h]
    exact bus_frame_data_zero _ _ _
  · rw [if_neg h]
    exact bus_frame_refl _

theorem bus_frame_cia_cis (c : cia_cursor χ) : bus_frame c.sd (cia_cis c).sd := by
  unfold cia_cis
  dsimp only
  by_cases h : c.len ≠ 0 ∧ (c.addr + 2 ^ 32 - SDIO_CIS_START) % 2 ^ 32 < c.sd.cislen
  · rw [if_pos h]
    exact bus_frame_data_copy _ _ _ _ _
  · rw [if_neg h]
    exact bus_frame_refl _

theorem bus_frame_cia_fill (c : cia_cursor χ) : bus_frame c.sd (cia_fill c) := by
  unfold cia_fill
  by_cases h : c.len ≠ 0
  · rw [if_pos h]
    exact bus_frame_data_zero _ _ _
  · rw [if_neg h]
    exact bus_frame_refl _

theorem bus_frame_cia_read_tail (c : cia_cursor χ) : bus_frame c.sd (cia_read_tail c) :=
  bus_frame_trans (bus_frame_cia_rfu c)
    (bus_frame_trans (bus_frame_cia_cis _) (bus_frame_cia_fill _))

theorem bus_frame_cia_read (s : sdio_s χ) (addr len : Nat) :
    bus_frame s (sdio_cia_read s addr len) := by
  rw [sdio_cia_read_eq]
  exact bus_frame_trans (bus_frame_cia_read_cccr len s addr 0)
    (bus_frame_trans (bus_frame_cia_read_fbr _ _ _ _) (bus_frame_cia_read_tail _))

/-- Every function handler of the AR6000 keeps the frame. -/
theorem ar6k_ops_frame (fn : Nat) (s : ar6k_s) (addr len : Nat) :
    bus_frame s (ar6k_ops.write fn s addr len) ∧ bus_frame s (ar6k_ops.read fn s addr len) := by
  constructor
  · show bus_frame s (if fn = 0 then sdio_cia_write (some ar6k_reset) s addr len
      else if fn = 1 then ar6k_fn1_write s addr len else sdio_dummy_write s addr len)
    split_ifs
    · exact bus_frame_cia_write s addr len
    · exact bus_frame_fn1_write len s addr 0
    · exact bus_frame_refl s
  · show bus_frame s (if fn = 0 then sdio_cia_read s addr len
      else if fn = 1 then ar6k_fn1_read s addr len else sdio_dummy_read s addr len)
    split_ifs
    · exact bus_frame_cia_read s addr len
    · exact bus_frame_fn1_read len s addr 0
    · exact bus_frame_data_zero s 0 _

/-! ## The invariants along the bus operations -/

theorem bus_frame_bad_cmd (k : sd_h) (sd : sdio_s χ) : bus_frame sd (bad_cmd k sd).2 :=
  bus_frame_of_eq _ _ rfl rfl rfl rfl rfl rfl rfl

/-- The commands other than CMD52 and CMD53 keep the frame: they change the
card state (never to Transfer), the RCA, the SDIO flag and the card status
only. -/
theorem bus_frame_quiet_command (k : sd_h) (ops : sdio_ops χ) (sd : sdio_s χ)
    (cmd arg crc : Nat) (h52 : cmd ≠ 52) (h53 : cmd ≠ 53) :
    bus_frame sd (sdio_normal_command k ops sd ⟨cmd, arg, crc⟩).2 := by
  have hb := bus_frame_bad_cmd k sd
  have same : ∀ (t : sdio_s χ) (st : sd_state_e), t.transfer = sd.transfer → t.spi = sd.spi →
      t.fbr = sd.fbr → t.ioocr = sd.ioocr → t.state = st → st ≠ sd_transfer_state →
      bus_frame sd t :=
    fun t st h1 h2 h3 h4 h5 h6 => ⟨by rw [h1], by rw [h1], by rw [h1], h2,
      fun h => absurd (h5.symm.trans h) h6, fun h n => by rw [h3]; exact h n, Or.inl h4⟩
  by_cases c0 : cmd = 0
  · rw [c0, sdio_normal_command_cmd0]
    exact hb
  unfold sdio_normal_command
  dsimp only
  rw [if_neg c0]
  by_cases c3 : cmd = 3
  · rw [if_pos c3]
    by_cases g : sd.spi ≠ 0 ∨ sd.sdio_ok = 0
    · rw [if_pos g]
      exact hb
    · rw [if_neg g]
      cases hs : sd.state <;>
        first
          | exact hb
          | exact same _ sd_standby_state rfl rfl rfl rfl rfl (by decide)
  rw [if_neg c3]
  by_cases c5 : cmd = 5
  · rw [if_pos c5]
    cases hs : sd.state <;> dsimp only <;> (try split_ifs) <;>
        first
          | exact bus_frame_refl sd
          | exact hb
          | exact same _ sd_initialization_state rfl rfl rfl rfl rfl (by decide)
  rw [if_neg c5]
  by_cases c7 : cmd = 7
  · rw [if_pos c7]
    by_cases g : sd.spi ≠ 0
    · rw [if_pos g]
      exact hb
    · rw [if_neg g]
      cases hs : sd.state <;> dsimp only <;> (try split_ifs) <;>
        first
          | exact bus_frame_refl sd
          | exact hb
          | exact same _ sd_standby_state rfl rfl rfl rfl rfl (by decide)
          | exact same _ sd_command_state rfl rfl rfl rfl rfl (by decide)
  rw [if_neg c7]
  by_cases c15 : cmd = 15
  · rw [if_pos c15]
    by_cases g : sd.spi ≠ 0
    · rw [if_pos g]
      exact hb
    · rw [if_neg g]
      cases hs : sd.state <;> dsimp only <;> (try split_ifs) <;>
        first
          | exact bus_frame_refl sd
          | exact hb
          | exact same _ sd_inactive_state rfl rfl rfl rfl rfl (by decide)
  rw [if_neg c15, if_neg h52, if_neg h53]
  by_cases c59 : cmd = 59
  · rw [if_pos c59]
    split_ifs
    · exact hb
    · exact bus_frame_refl sd
  · rw [if_neg c59]
    exact hb

theorem bus_inv_of_frame {c : Prop} {s t : sdio_s χ} (hi : bus_inv c s) (hf : bus_frame s t) :
    bus_inv c t := by
  obtain ⟨i1, i2, i3, i4⟩ := hi
  obtain ⟨f1, f2, f3, f4, f5, f6, f7⟩ := hf
  refine ⟨fun hc => f6 (i1 hc), fun h => ?_, ?_, f4.trans i4⟩
  · rw [f1, f2, f3]
    exact i2 (f5 h)
  · rcases f7 with f7 | f7
    · exact f7.trans i3
    · exact f7

/-- The CMD53 case in Command state. -/
theorem sdio_normal_command_cmd53_eq (k : sd_h) (ops : sdio_ops χ) (sd : sdio_s χ)
    (arg crc : Nat) (hst : sd.state = sd_command_state) :
    sdio_normal_command k ops sd ⟨53, arg, crc⟩ =
      if (arg >>> 28) &&& 7 > ((sd.ioocr >>> 28) &&& 7) then
        (sd_r5, { sd with card_status := sd.card_status ||| k.ADDRESS_ERROR })
      else if (arg >>> 27) &&& 1 ≠ 0 ∧
          (sd.blk_len ((arg >>> 28) &&& 7) < 1 ∨ sd.blk_len ((arg >>> 28) &&& 7) > 2048) then
        (sd_r1, { sd with transfer := { sd.transfer with
          dir := (arg >>> 31) &&& 1
          step := (arg >>> 26) &&& 1
          func := (arg >>> 28) &&& 7
          data_start := (arg >>> 9) &&& SDIO_ADDR_MASK
          data_offset := 0 } })
      else
        (sd_r5, { sd with
          state := sd_transfer_state
          transfer := {
            func := (arg >>> 28) &&& 7
            dir := (arg >>> 31) &&& 1
            blk_len := if (arg >>> 27) &&& 1 ≠ 0 then sd.blk_len ((arg >>> 28) &&& 7) else 1
            blk_num :=
              if (arg >>> 0) &&& 0x1ff ≠ 0 then (((arg >>> 0) &&& 0x1ff : Nat) : Int)
              else if (arg >>> 27) &&& 1 ≠ 0 then -1 else 0x200
            step := (arg >>> 26) &&& 1
            data_start := (arg >>> 9) &&& SDIO_ADDR_MASK
            data_offset := 0
            data := upd sd.transfer.data 0 0x00 } }) := by
  unfold sdio_normal_command
  dsimp only
  rw [if_neg (show ¬ ((53 : Nat) = 0) by decide), if_neg (show ¬ ((53 : Nat) = 3) by decide),
    if_neg (show ¬ ((53 : Nat) = 5) by decide), if_neg (show ¬ ((53 : Nat) = 7) by decide),
    if_neg (show ¬ ((53 : Nat) = 15) by decide), if_neg (show ¬ ((53 : Nat) = 52) by decide),
    if_pos (show (53 : Nat) = 53 from rfl), hst]

/-- The state left by `sdio_do_command` has the frame members of the state
left by the decode. -/
theorem bus_frame_do_command (k : sd_h) (ops : sdio_ops χ) (sd : sdio_s χ)
    (req : sd_request_s) :
    bus_frame (sdio_normal_command k ops (decode_entry k sd req.cmd) req).2
      (sdio_do_command k ops sd req).1 := by
  have e : sdio_do_command k ops sd req =
      (fun (r : sd_rsp_type_t × sdio_s χ) =>
        let sd2 : sdio_s χ := { r.2 with current_cmd := r.2.next_cmd }
        let out : sdio_s χ × Nat × List Nat :=
          match r.1 with
          | sd_r1 | sd_r1b =>
            let m := sd_response_r1_make k sd2 sd.card_status
            (m.1, 4, m.2)
          | sd_r4 => (sd2, 4, sd_response_r4_make sd2)
          | sd_r5 =>
            let m := sd_response_r5_make k sd2
            (m.1, if m.1.spi ≠ 0 then 2 else 4, m.2)
          | sd_r6 => (sd2, 4, sd_response_r6_make k sd2)
          | _ => (sd2, 0, [])
        (out.1, (if out.1.card_status &&& k.ILLEGAL_COMMAND ≠ 0 then 0 else out.2.1), out.2.2))
      (sdio_normal_command k ops (decode_entry k sd req.cmd) req) := rfl
  rw [e]
  generalize sdio_normal_command k ops (decode_entry k sd req.cmd) req = r
  obtain ⟨rt, s2⟩ := r
  cases rt <;> exact bus_frame_of_eq _ _ rfl rfl rfl rfl rfl rfl rfl

theorem bus_inv_cmd52_prologue (c : Prop) (sd : sdio_s χ) (hi : bus_inv c sd) :
    bus_inv c (cmd52_prologue sd) := by
  obtain ⟨i1, i2, i3, i4⟩ := hi
  obtain ⟨p1, p2, p3, _, _, _, p7⟩ := cmd52_prologue_core sd
  have pf : (cmd52_prologue sd).fbr = sd.fbr := by
    unfold cmd52_prologue
    dsimp only
    split_ifs <;> rfl
  refine ⟨fun hc n => by rw [pf]; exact i1 hc n, fun h => ?_, p3.trans i3, p2.trans i4⟩
  rw [p1] at h
  obtain ⟨a1, a2, _, a4⟩ := i2 h
  rw [p7]
  exact ⟨a1, a2, a1, a4⟩

theorem bus_frame_cmd52_access (ops : sdio_ops χ) (sd : sdio_s χ) (arg : Nat)
    (H : ∀ (fn : Nat) (s : sdio_s χ) (a len : Nat),
      bus_frame s (ops.write fn s a len) ∧ bus_frame s (ops.read fn s a len)) :
    bus_frame sd (cmd52_access ops sd arg) := by
  unfold cmd52_access
  dsimp only
  by_cases hw : (arg >>> 31) &&& 1 ≠ 0
  · rw [if_pos hw]
    have f1 := bus_frame_trans (bus_frame_put_data sd 0 (arg &&& 0xff))
      (H ((arg >>> 28) &&& 7) (put_data sd 0 (arg &&& 0xff))
        ((arg >>> 9) &&& SDIO_ADDR_MASK) 1).1
    split_ifs
    · exact bus_frame_trans f1 (H _ _ _ _).2
    · exact f1
  · rw [if_neg hw]
    split_ifs
    · exact (H _ _ _ _).2
    · exact bus_frame_refl sd

/-- The decode keeps the invariant, for handlers that keep the frame. -/
theorem bus_inv_normal_command (c : Prop) (k : sd_h) (ops : sdio_ops χ) (sd : sdio_s χ)
    (req : sd_request_s)
    (H : ∀ (fn : Nat) (s : sdio_s χ) (a len : Nat),
      bus_frame s (ops.write fn s a len) ∧ bus_frame s (ops.read fn s a len))
    (hi : bus_inv c sd) :
    bus_inv c (sdio_normal_command k ops sd req).2 := by
  obtain ⟨cmd, arg, crc⟩ := req
  have hbad : bus_inv c (bad_cmd k sd).2 := bus_inv_of_frame hi (bus_frame_bad_cmd k sd)
  by_cases c52 : cmd = 52
  · subst c52
    by_cases hst : sd.state = sd_command_state ∨ sd.state = sd_transfer_state
    · have hp := bus_inv_cmd52_prologue c sd hi
      by_cases hfn : (arg >>> 28) &&& 7 ≤ (sd.ioocr >>> 28) &&& 7
      · rw [sdio_normal_command_cmd52 k ops sd arg crc hst hfn]
        exact bus_inv_of_frame hp (bus_frame_cmd52_access ops _ arg H)
      · rw [sdio_normal_command_cmd52_bad_fn k ops sd arg crc hst (by omega)]
        exact bus_inv_of_frame hp (bus_frame_of_eq _ _ rfl rfl rfl rfl rfl rfl rfl)
    · rw [sdio_normal_command_bad k ops sd 52 arg crc
        (Or.inr (Or.inr (Or.inr (Or.inr (Or.inl
          ⟨rfl, fun c => hst (Or.inl c), fun c => hst (Or.inr c)⟩)))))]
      exact hbad
  by_cases c53 : cmd = 53
  · subst c53
    by_cases hst : sd.state = sd_command_state
    · obtain ⟨i1, i2, i3, i4⟩ := hi
      have ns : sd.state ≠ sd_transfer_state := by rw [hst]; decide
      rw [sdio_normal_command_cmd53_eq k ops sd arg crc hst]
      by_cases hfn : (arg >>> 28) &&& 7 > ((sd.ioocr >>> 28) &&& 7)
      · rw [if_pos hfn]
        exact ⟨i1, i2, i3, i4⟩
      rw [if_neg hfn]
      by_cases hb : (arg >>> 27) &&& 1 ≠ 0 ∧
          (sd.blk_len ((arg >>> 28) &&& 7) < 1 ∨ sd.blk_len ((arg >>> 28) &&& 7) > 2048)
      · rw [if_pos hb]
        exact ⟨i1, fun h => absurd h ns, i3, i4⟩
      rw [if_neg hb]
      refine ⟨i1, fun _ => ?_, i3, i4⟩
      have hn : (arg >>> 0) &&& 0x1ff ≤ 0x1ff := Nat.and_le_right
      dsimp only
      by_cases bm : (arg >>> 27) &&& 1 ≠ 0
      · have hl : ¬ (sd.blk_len ((arg >>> 28) &&& 7) < 1 ∨
            sd.blk_len ((arg >>> 28) &&& 7) > 2048) := fun c => hb ⟨bm, c⟩
        rw [if_pos bm]
        refine ⟨by omega, by omega, by omega, ?_⟩
        by_cases hc : (arg >>> 0) &&& 0x1ff ≠ 0
        · rw [if_pos hc]
          exact Or.inr ⟨by omega, by omega⟩
        · rw [if_neg hc, if_pos bm]
          exact Or.inl rfl
      · rw [if_neg bm]
        refine ⟨by omega, by omega, by omega, ?_⟩
        by_cases hc : (arg >>> 0) &&& 0x1ff ≠ 0
        · rw [if_pos hc]
          exact Or.inr ⟨by omega, by omega⟩
        · rw [if_neg hc, if_neg bm]
          exact Or.inr ⟨by omega, by omega⟩
    · rw [sdio_normal_command_bad k ops sd 53 arg crc
        (Or.inr (Or.inr (Or.inr (Or.inr (Or.inr (Or.inl ⟨rfl, hst⟩))))))]
      exact hbad
  exact bus_inv_of_frame hi (bus_frame_quiet_command k ops sd cmd arg crc c52 c53)

theorem bus_inv_do_command (c : Prop) (k : sd_h) (ops : sdio_ops χ) (sd : sdio_s χ)
    (req : sd_request_s)
    (H : ∀ (fn : Nat) (s : sdio_s χ) (a len : Nat),
      bus_frame s (ops.write fn s a len) ∧ bus_frame s (ops.read fn s a len))
    (hi : bus_inv c sd) :
    bus_inv c (sdio_do_command k ops sd req).1 := by
  have h0 : bus_inv c (decode_entry k sd req.cmd) :=
    bus_inv_of_frame hi (bus_frame_of_eq _ _ rfl rfl rfl rfl rfl rfl rfl)
  exact bus_inv_of_frame (bus_inv_normal_command c k ops _ req H h0)
    (bus_frame_do_command k ops sd req)

/-- The statements after a completed block keep the invariant. -/
theorem bus_inv_next_block (c : Prop) (t : sdio_s χ) (h1 : c → csa_ok t)
    (h2 : t.state = sd_transfer_state → 1 ≤ t.transfer.blk_len ∧ t.transfer.blk_len ≤ 2048 ∧
      (t.transfer.blk_num = -1 ∨ (1 ≤ t.transfer.blk_num ∧ t.transfer.blk_num ≤ 512)))
    (h3 : t.ioocr = 0x10fe0000) (h4 : t.spi = 0) :
    bus_inv c (next_block t) := by
  unfold next_block
  by_cases hd : t.transfer.blk_num ≥ 0 ∧ t.transfer.blk_num - 1 = 0
  · rw [if_pos hd]
    obtain ⟨d1, _, d3, _, d5, _, _⟩ := sdio_transfer_done_fields
      { t with transfer := { t.transfer with blk_num := t.transfer.blk_num - 1 } }
    obtain ⟨_, _, _, _, _, d6, _⟩ := bus_frame_transfer_done
      { t with transfer := { t.transfer with blk_num := t.transfer.blk_num - 1 } }
    refine ⟨fun hc => d6 (h1 hc), fun h => ?_, d3.trans h3, d5.trans h4⟩
    rw [d1] at h
    exact absurd h (by decide)
  · rw [if_neg hd]
    dsimp only
    by_cases hn : t.transfer.blk_num ≥ 0
    · rw [if_pos hn]
      refine ⟨h1, fun h => ?_, h3, h4⟩
      obtain ⟨a1, a2, a3⟩ := h2 h
      refine ⟨a1, a2, a1, ?_⟩
      show (t.transfer.blk_num - 1 = -1 ∨
        (1 ≤ t.transfer.blk_num - 1 ∧ t.transfer.blk_num - 1 ≤ 512))
      omega
    · rw [if_neg hn]
      refine ⟨h1, fun h => ?_, h3, h4⟩
      obtain ⟨a1, a2, a3⟩ := h2 h
      exact ⟨a1, a2, a1, a3⟩

theorem bus_inv_write_data (c : Prop) (k : sd_h) (ops : sdio_ops χ) (sd : sdio_s χ) (v : Nat)
    (H : ∀ (fn : Nat) (s : sdio_s χ) (a len : Nat),
      bus_frame s (ops.write fn s a len) ∧ bus_frame s (ops.read fn s a len))
    (hi : bus_inv c sd) :
    bus_inv c (sdio_write_data ops k sd v) := by
  rw [sdio_write_data_eq]
  by_cases c1 : sd.state ≠ sd_transfer_state
  · rw [if_pos c1]
    exact hi
  rw [if_neg c1]
  by_cases c2 : sd.card_status &&& (k.ADDRESS_ERROR ||| k.OUT_OF_RANGE ||| k.SD_ERROR) ≠ 0
  · rw [if_pos c2]
    exact hi
  rw [if_neg c2]
  by_cases c3 : sd.current_cmd = 53
  swap
  · rw [if_neg c3]
    exact hi
  rw [if_pos c3]
  by_cases c4 : sd.transfer.dir = 0
  · rw [if_pos c4]
    exact hi
  rw [if_neg c4]
  obtain ⟨i1, i2, i3, i4⟩ := hi
  obtain ⟨a1, a2, _, a4⟩ := i2 (not_not.mp c1)
  by_cases c5 : (stage_byte sd v).transfer.data_offset ≥ sd.transfer.blk_len
  · rw [if_pos c5]
    obtain ⟨f1, f2, _, f4, f5, f6, f7⟩ := (H sd.transfer.func (stage_byte sd v)
      sd.transfer.data_start sd.transfer.blk_len).1
    refine bus_inv_next_block c _ (fun hc => f6 (i1 hc)) (fun _ => ?_) ?_ (f4.trans i4)
    · rw [f1, f2]
      exact ⟨a1, a2, a4⟩
    · rcases f7 with f7 | f7
      · exact f7.trans i3
      · exact f7
  · rw [if_neg c5]
    exact ⟨i1, fun _ => ⟨a1, a2, not_le.mp c5, a4⟩, i3, i4⟩

theorem bus_inv_read_data (c : Prop) (k : sd_h) (ops : sdio_ops χ) (sd : sdio_s χ)
    (H : ∀ (fn : Nat) (s : sdio_s χ) (a len : Nat),
      bus_frame s (ops.write fn s a len) ∧ bus_frame s (ops.read fn s a len))
    (hi : bus_inv c sd) :
    bus_inv c (sdio_read_data ops k sd).1 := by
  rw [sdio_read_data_eq ops k sd _ _ rfl rfl]
  by_cases c1 : sd.state ≠ sd_transfer_state
  · rw [if_pos c1]
    exact hi
  rw [if_neg c1]
  by_cases c2 : sd.card_status &&& (k.ADDRESS_ERROR ||| k.OUT_OF_RANGE ||| k.SD_ERROR) ≠ 0
  · rw [if_pos c2]
    exact hi
  rw [if_neg c2]
  by_cases c3 : sd.current_cmd = 53
  swap
  · rw [if_neg c3]
    exact hi
  rw [if_pos c3]
  by_cases c4 : sd.transfer.dir ≠ 0
  · rw [if_pos c4]
    exact hi
  rw [if_neg c4]
  have hf : bus_frame sd (if sd.transfer.data_offset = 0 then
      ops.read sd.transfer.func sd sd.transfer.data_start sd.transfer.blk_len else sd) := by
    split_ifs
    · exact (H _ _ _ _).2
    · exact bus_frame_refl sd
  generalize (if sd.transfer.data_offset = 0 then
      ops.read sd.transfer.func sd sd.transfer.data_start sd.transfer.blk_len else sd) = sd1
    at hf ⊢
  obtain ⟨i1, i2, i3, i4⟩ := hi
  obtain ⟨a1, a2, _, a4⟩ := i2 (not_not.mp c1)
  obtain ⟨f1, f2, _, f4, f5, f6, f7⟩ := hf
  have io : sd1.ioocr = 0x10fe0000 := by
    rcases f7 with f7 | f7
    · exact f7.trans i3
    · exact f7
  by_cases c5 : ({ sd1 with transfer := { sd1.transfer with
      data_offset := (sd1.transfer.data_offset + 1) % 2 ^ 32 } } : sdio_s χ).transfer.data_offset
      ≥ ({ sd1 with transfer := { sd1.transfer with
        data_offset := (sd1.transfer.data_offset + 1) % 2 ^ 32 } } : sdio_s χ).transfer.blk_len
  · rw [if_pos c5]
    refine bus_inv_next_block c _ (fun hc => f6 (i1 hc)) (fun _ => ?_) io (f4.trans i4)
    show 1 ≤ sd1.transfer.blk_len ∧ sd1.transfer.blk_len ≤ 2048 ∧
      (sd1.transfer.blk_num = -1 ∨ (1 ≤ sd1.transfer.blk_num ∧ sd1.transfer.blk_num ≤ 512))
    rw [f1, f2]
    exact ⟨a1, a2, a4⟩
  · rw [if_neg c5]
    refine ⟨fun hc => f6 (i1 hc), fun _ => ?_, io, f4.trans i4⟩
    have c6 : (sd1.transfer.data_offset + 1) % 2 ^ 32 < sd1.transfer.blk_len := not_le.mp c5
    show 1 ≤ sd1.transfer.blk_len ∧ sd1.transfer.blk_len ≤ 2048 ∧
      (sd1.transfer.data_offset + 1) % 2 ^ 32 < sd1.transfer.blk_len ∧
      (sd1.transfer.blk_num = -1 ∨ (1 ≤ sd1.transfer.blk_num ∧ sd1.transfer.blk_num ≤ 512))
    rw [f1, f2] at *
    exact ⟨a1, a2, c6, a4⟩

theorem bus_frame_cnt_irq_tick (s : ar6k_s) : bus_frame s (ar6k_hif_cnt_irq_tick s) := by
  unfold ar6k_hif_cnt_irq_tick
  refine bus_frame_trans ?_ (bus_frame_of_core _ _ (ar6k_hif_counter_intr_update_frame _)
    (ar6k_hif_counter_intr_update_core _).2)
  exact bus_frame_of_eq _ _ rfl rfl rfl rfl rfl rfl rfl

theorem bus_frame_on_hif (s t : ar6k_s) (f : hif_s → hif_s) (h : bus_frame s t) :
    bus_frame s (on_hif t f) :=
  bus_frame_trans h (bus_frame_of_eq _ _ rfl rfl rfl rfl rfl rfl rfl)

theorem bus_frame_wmi_event (s : ar6k_s) (buffer : Nat → Nat) (len : Nat) :
    bus_frame s (ar6k_hif_wmi_event s buffer len) := by
  unfold ar6k_hif_wmi_event
  dsimp only
  split_ifs
  · refine bus_frame_trans ?_ (bus_frame_of_core _ _ (ar6k_hif_intr_update_frame _)
      (ar6k_hif_intr_update_core _).2)
    apply bus_frame_on_hif
    apply bus_frame_on_hif
    apply bus_frame_on_hif
    apply bus_frame_on_hif
    apply bus_frame_on_hif
    exact bus_frame_refl s
  · apply bus_frame_on_hif
    apply bus_frame_on_hif
    apply bus_frame_on_hif
    apply bus_frame_on_hif
    exact bus_frame_refl s

theorem ar6k_init_eq (t : cis_h) (macaddr : Nat → Nat) :
    ar6k_init t macaddr = ar6k_reset (ar6k_init_regs t macaddr) :=
  rfl

theorem ar6k_init_regs_stdfn (t : cis_h) (macaddr : Nat → Nat) (n : Nat) :
    ((ar6k_init_regs t macaddr).fbr n).stdfn = if n = 0 then 0 ||| t.sdio_fn_none else 0 := by
  unfold ar6k_init_regs
  dsimp only
  unfold upd
  by_cases hn : n = 0
  · subst hn
    rfl
  · rw [if_neg hn, if_neg hn, if_neg hn]
    show (0 &&& 0x4f : Nat) = 0
    decide

/-- The attach state satisfies the invariant. -/
theorem bus_inv_init (t : cis_h) (macaddr : Nat → Nat) :
    bus_inv (t.sdio_fn_none &&& (1 <<< 7) ≠ 0 → t.sdio_fn_none &&& (1 <<< 6) ≠ 0)
      (ar6k_init t macaddr) := by
  rw [ar6k_init_eq]
  obtain ⟨c1, _, _, _, _, _, c7, _, _, _, c11, _, _⟩ := ar6k_reset_frame (ar6k_init_regs t macaddr)
  have e1 : (ar6k_init_regs t macaddr).state = sd_initialization_state := rfl
  have e2 : (ar6k_init_regs t macaddr).spi = 0 := rfl
  refine ⟨fun hc n => ?_, fun h => ?_, ar6k_reset_ioocr _, c7.trans e2⟩
  · rw [c11, ar6k_init_regs_stdfn t macaddr n]
    by_cases hn : n = 0
    · rw [if_pos hn, Nat.zero_or]
      exact hc
    · rw [if_neg hn]
      intro h
      exact absurd (Nat.zero_and _) h
  · rw [c1, e1] at h
    exact absurd h (by decide)

/-- Every state of the AR6000 reached from attach through the bus operations
satisfies the invariant. -/
theorem bus_reachable_inv (k : sd_h) (t : cis_h) (s : ar6k_s) (h : bus_reachable k t s) :
    bus_inv (t.sdio_fn_none &&& (1 <<< 7) ≠ 0 → t.sdio_fn_none &&& (1 <<< 6) ≠ 0) s := by
  induction h with
  | attach macaddr => exact bus_inv_init t macaddr
  | command s req _ ih => exact bus_inv_do_command _ k ar6k_ops s req ar6k_ops_frame ih
  | write s v _ ih => exact bus_inv_write_data _ k ar6k_ops s v ar6k_ops_frame ih
  | read s _ ih => exact bus_inv_read_data _ k ar6k_ops s ar6k_ops_frame ih
  | tick s _ ih => exact bus_inv_of_frame ih (bus_frame_cnt_irq_tick s)
  | event s buffer len _ ih => exact bus_inv_of_frame ih (bus_frame_wmi_event s buffer len)

/-- The interface code after a write to FBR offset 0x00. -/
theorem sdio_fbr_write_stdfn (sd : sdio_s χ) (f v : Nat) :
    ((sdio_fbr_write sd f 0x00 v).fbr (f - 1)).stdfn =
      if (sd.fbr (f - 1)).stdfn &&& (1 <<< 6) ≠ 0 ∧ v &&& (1 <<< 7) ≠ 0 then
        (sd.fbr (f - 1)).stdfn ||| (1 <<< 7)
      else bic8 (sd.fbr (f - 1)).stdfn (1 <<< 7) := by
  unfold sdio_fbr_write
  dsimp only
  rw [if_pos rfl]
  by_cases c : (sd.fbr (f - 1)).stdfn &&& (1 <<< 6) ≠ 0 ∧ v &&& (1 <<< 7) ≠ 0
  · rw [if_pos c, if_pos c]
    show ((upd sd.fbr (f - 1) _) (f - 1)).stdfn = _
    unfold upd
    rw [if_pos rfl]
  · rw [if_neg c, if_neg c]
    show ((upd sd.fbr (f - 1) _) (f - 1)).stdfn = _
    unfold upd
    rw [if_pos rfl]

/-- A write to FBR offset 0x00 leaves the FBR of the other functions alone. -/
theorem sdio_fbr_write_other (sd : sdio_s χ) (f v g : Nat) (hg : g - 1 ≠ f - 1) :
    (sdio_fbr_write sd f 0x00 v).fbr (g - 1) = sd.fbr (g - 1) := by
  unfold sdio_fbr_write
  dsimp only
  rw [if_pos rfl]
  by_cases c : (sd.fbr (f - 1)).stdfn &&& (1 <<< 6) ≠ 0 ∧ v &&& (1 <<< 7) ≠ 0
  · rw [if_pos c]
    show (upd sd.fbr (f - 1) _) (g - 1) = _
    unfold upd
    rw [if_neg hg]
  · rw [if_neg c]
    show (upd sd.fbr (f - 1) _) (g - 1) = _
    unfold upd
    rw [if_neg hg]

theorem and_bit_ne_zero_iff (c k : Nat) : c &&& (1 <<< k) ≠ 0 ↔ c.testBit k = true := by
  rw [Ne, and_bit_eq_zero_iff, Bool.not_eq_false]

/-- C31: for every function `f` of 1..7, a write of `v` to FBR offset 0x00
leaves bit 7 (CSA enable) of the interface code, as read back at FBR offset
0x00, set iff bit 6 (CSA support) of the code was set and bit 7 of `v` is
set; bits 0..6 of the code and the FBR of every other function are
unchanged.  Consequently, in every state `s` of the AR6000 reached from
attach through the bus operations, CSA enable set implies CSA support set in
every FBR (`csa_ok`), provided the interface code put in at attach (a
parameter of the model) does not itself have bit 7 without bit 6. -/
theorem csa_enable_gate (sd : sdio_s χ) (f v : Nat) (k : sd_h) (t : cis_h) (s : ar6k_s)
    (hf : 1 ≤ f ∧ f ≤ 7)
    (ht : t.sdio_fn_none &&& (1 <<< 7) ≠ 0 → t.sdio_fn_none &&& (1 <<< 6) ≠ 0)
    (hs : bus_reachable k t s) :
    ((sdio_fbr_read (sdio_fbr_write sd f 0x00 v) f 0x00).2.testBit 7
      = ((sdio_fbr_read sd f 0x00).2.testBit 6 && v.testBit 7)) ∧
    (∀ i, i < 7 → (sdio_fbr_read (sdio_fbr_write sd f 0x00 v) f 0x00).2.testBit i
      = (sdio_fbr_read sd f 0x00).2.testBit i) ∧
    (∀ g, 1 ≤ g → g ≤ 7 → g ≠ f →
      (sdio_fbr_write sd f 0x00 v).fbr (g - 1) = sd.fbr (g - 1)) ∧
    csa_ok s := by
  have r : ∀ x : sdio_s χ, (sdio_fbr_read x f 0x00).2 = (x.fbr (f - 1)).stdfn := by
    intro x
    unfold sdio_fbr_read
    dsimp only
    rw [if_pos rfl]
  rw [r, r, sdio_fbr_write_stdfn]
  refine ⟨?_, fun i hi => ?_, fun g hg _ hne => ?_, (bus_reachable_inv k t s hs).1 ht⟩
  · by_cases c : (sd.fbr (f - 1)).stdfn &&& (1 <<< 6) ≠ 0 ∧ v &&& (1 <<< 7) ≠ 0
    · rw [if_pos c]
      rw [and_bit_ne_zero_iff, and_bit_ne_zero_iff] at c
      rw [c.1, c.2, Nat.testBit_or, Nat.one_shiftLeft, Nat.testBit_two_pow_self]
      simp
    · rw [if_neg c, testBit_bic8, Nat.one_shiftLeft, Nat.testBit_two_pow_self]
      rw [and_bit_ne_zero_iff, and_bit_ne_zero_iff] at c
      cases h6 : (sd.fbr (f - 1)).stdfn.testBit 6
      · simp
      · cases h7 : v.testBit 7
        · simp
        · exact absurd ⟨h6, h7⟩ c
  · by_cases c : (sd.fbr (f - 1)).stdfn &&& (1 <<< 6) ≠ 0 ∧ v &&& (1 <<< 7) ≠ 0
    · rw [if_pos c, Nat.testBit_or, Nat.one_shiftLeft, Nat.testBit_two_pow]
      have h7 : ¬ 7 = i := by omega
      simp [h7]
    · rw [if_neg c, testBit_bic8, Nat.one_shiftLeft, Nat.testBit_two_pow]
      have h7 : ¬ 7 = i := by omega
      have h8 : i < 8 := by omega
      simp [h7, h8]
  · exact sdio_fbr_write_other sd f v g (by omega)

theorem csa_enable_gate_witness :
    (1 ≤ 1 ∧ 1 ≤ 7) ∧
    (cis_csa.sdio_fn_none &&& (1 <<< 7) ≠ 0 → cis_csa.sdio_fn_none &&& (1 <<< 6) ≠ 0) ∧
    bus_reachable sd_h.std cis_csa st_csa ∧
    ((sdio_fbr_read (sdio_fbr_write st_csa 1 0x00 0x80) 1 0x00).2.testBit 7
      = ((sdio_fbr_read st_csa 1 0x00).2.testBit 6 && (0x80).testBit 7)) ∧
    (∀ i, i < 7 → (sdio_fbr_read (sdio_fbr_write st_csa 1 0x00 0x80) 1 0x00).2.testBit i
      = (sdio_fbr_read st_csa 1 0x00).2.testBit i) ∧
    (∀ g, 1 ≤ g → g ≤ 7 → g ≠ 1 →
      (sdio_fbr_write st_csa 1 0x00 0x80).fbr (g - 1) = st_csa.fbr (g - 1)) ∧
    csa_ok st_csa :=
  have hr : bus_reachable sd_h.std cis_csa st_csa :=
    bus_reachable.command _ ⟨7, 0x45670000, 0⟩
      (bus_reachable.command _ ⟨3, 0, 0⟩
        (bus_reachable.command _ ⟨5, 0x00ff0000, 0⟩ (bus_reachable.attach (fun _ => 0))))
  ⟨by decide, by decide, hr,
    csa_enable_gate st_csa 1 0x80 sd_h.std cis_csa st_csa (by decide) (by decide) hr⟩

/-- C34: in every state `s` of the AR6000 reached from attach through
`sdio_do_command`, `sdio_write_data`, `sdio_read_data` (and the timer
callback and injected events) with the handlers of the AR6000, a card in
Transfer state has `1 <= transfer.blk_len <= 2048`,
`transfer.data_offset < transfer.blk_len` and `transfer.blk_num` equal to -1
or in 1..512; hence the index `transfer.data_offset` at which
`sdio_write_data` stores, and the one at which `sdio_read_data` fetches after
the read handler has run, are below 2048. -/
theorem transfer_state_invariant (k : sd_h) (t : cis_h) (s : ar6k_s)
    (hs : bus_reachable k t s) (hst : s.state = sd_transfer_state) :
    (1 ≤ s.transfer.blk_len ∧ s.transfer.blk_len ≤ 2048) ∧
    s.transfer.data_offset < s.transfer.blk_len ∧
    (s.transfer.blk_num = -1 ∨ (1 ≤ s.transfer.blk_num ∧ s.transfer.blk_num ≤ 512)) ∧
    s.transfer.data_offset < 2048 ∧
    (if s.transfer.data_offset = 0 then
        ar6k_ops.read s.transfer.func s s.transfer.data_start s.transfer.blk_len
      else s).transfer.data_offset < 2048 := by
  obtain ⟨a1, a2, a3, a4⟩ := (bus_reachable_inv k t s hs).2.1 hst
  refine ⟨⟨a1, a2⟩, a3, a4, by omega, ?_⟩
  by_cases h0 : s.transfer.data_offset = 0
  · rw [if_pos h0, (ar6k_ops_frame s.transfer.func s s.transfer.data_start
      s.transfer.blk_len).2.2.2.1]
    omega
  · rw [if_neg h0]
    omega

theorem transfer_state_invariant_witness :
    bus_reachable sd_h.std cis_h.std st_xfer ∧ st_xfer.state = sd_transfer_state ∧
    ((1 ≤ st_xfer.transfer.blk_len ∧ st_xfer.transfer.blk_len ≤ 2048) ∧
    st_xfer.transfer.data_offset < st_xfer.transfer.blk_len ∧
    (st_xfer.transfer.blk_num = -1 ∨
      (1 ≤ st_xfer.transfer.blk_num ∧ st_xfer.transfer.blk_num ≤ 512)) ∧
    st_xfer.transfer.data_offset < 2048 ∧
    (if st_xfer.transfer.data_offset = 0 then
        ar6k_ops.read st_xfer.transfer.func st_xfer st_xfer.transfer.data_start
          st_xfer.transfer.blk_len
      else st_xfer).transfer.data_offset < 2048) :=
  have hr : bus_reachable sd_h.std cis_h.std st_xfer :=
    bus_reachable.command _ ⟨53, 0x9008c003, 0⟩
      (bus_reachable.command _ ⟨7, 0x45670000, 0⟩
        (bus_reachable.command _ ⟨3, 0, 0⟩
          (bus_reachable.command _ ⟨5, 0x00ff0000, 0⟩ (bus_reachable.attach (fun _ => 0)))))
  ⟨hr, by decide, transfer_state_invariant sd_h.std cis_h.std st_xfer hr (by decide)⟩

/-- The bytes of the only block of a write transfer end it with the running
offset left at the block length, for handlers that keep the frame. -/
theorem write_bytes_last_block (ops : sdio_ops χ) (k : sd_h) (s : sdio_s χ) (blk : List Nat)
    (ho : transfer_open k s) (hdir : s.transfer.dir ≠ 0)
    (hoff : s.transfer.data_offset = 0) (hlen : blk.length = s.transfer.blk_len)
    (hL1 : 1 ≤ s.transfer.blk_len) (hL32 : s.transfer.blk_len < 2 ^ 32)
    (hn : s.transfer.blk_num = 1)
    (H : ∀ (fn : Nat) (t : sdio_s χ) (a len : Nat), bus_frame t (ops.write fn t a len)) :
    (write_bytes ops k s blk).state = sd_command_state ∧
    (write_bytes ops k s blk).transfer.data_offset = s.transfer.blk_len := by
  have hne : blk ≠ [] := by
    intro h; rw [h] at hlen; simp at hlen; omega
  obtain ⟨pre, b, rfl⟩ : ∃ pre b, blk = pre ++ [b] :=
    ⟨blk.dropLast, blk.getLast hne, (List.dropLast_append_getLast hne).symm⟩
  have hpl : pre.length + 1 = s.transfer.blk_len := by simpa using hlen
  have e1 := write_bytes_stage ops k pre s ho hdir (by rw [hoff]; omega) (by omega)
  rw [hoff, Nat.zero_add] at e1
  rw [write_bytes_append, e1]
  show (sdio_write_data ops k _ b).state = _ ∧ (sdio_write_data ops k _ b).transfer.data_offset = _
  have h := sdio_write_data_block ops k
    (xfer s (stage_data s.transfer.data 0 pre) pre.length s.transfer.data_start
      s.transfer.blk_num s.ext) b
    ho hdir (by show s.transfer.blk_len ≤ pre.length + 1; omega)
    (by show pre.length + 1 < 2 ^ 32; omega)
  rw [h, stage_byte_xfer, Nat.mod_eq_of_lt (by omega : pre.length + 1 < 2 ^ 32)]
  obtain ⟨f1, f2, f3, _⟩ := H (xfer s (stage_data s.transfer.data 0 pre) pre.length
      s.transfer.data_start s.transfer.blk_num s.ext).transfer.func
    (xfer s (upd (stage_data s.transfer.data 0 pre) pre.length b) (pre.length + 1)
      s.transfer.data_start s.transfer.blk_num s.ext)
    (xfer s (stage_data s.transfer.data 0 pre) pre.length
      s.transfer.data_start s.transfer.blk_num s.ext).transfer.data_start
    (xfer s (stage_data s.transfer.data 0 pre) pre.length
      s.transfer.data_start s.transfer.blk_num s.ext).transfer.blk_len
  generalize ops.write _ _ _ _ = w at f1 f2 f3 ⊢
  have g2 : w.transfer.blk_num = 1 := f2.trans hn
  have g3 : w.transfer.data_offset = pre.length + 1 := f3
  unfold next_block
  rw [if_pos ⟨by omega, by omega⟩]
  obtain ⟨d1, _, _, d4, _⟩ := sdio_transfer_done_fields
    { w with transfer := { w.transfer with blk_num := w.transfer.blk_num - 1 } }
  rw [d1, d4]
  exact ⟨rfl, g3.trans hpl⟩

theorem bus_reachable_write_bytes (k : sd_h) (t : cis_h) (bs : List Nat) :
    ∀ s : ar6k_s, bus_reachable k t s → bus_reachable k t (write_bytes ar6k_ops k s bs) := by
  induction bs with
  | nil => intro s h; exact h
  | cons b bs ih => intro s h; exact ih _ (bus_reachable.write s b h)

theorem st_w2048_reachable : bus_reachable sd_h.std cis_h.std st_w2048 :=
  bus_reachable.command _ ⟨53, 0x9c100001, 0⟩
    (bus_reachable.command _ ⟨52, 0x80022208, 0⟩
      (bus_reachable.command _ ⟨52, 0x80022000, 0⟩
        (bus_reachable.command _ ⟨7, 0x45670000, 0⟩
          (bus_reachable.command _ ⟨3, 0, 0⟩
            (bus_reachable.command _ ⟨5, 0x00ff0000, 0⟩ (bus_reachable.attach (fun _ => 0)))))))

theorem st_w2048_done_eq :
    st_w2048_done = write_bytes ar6k_ops sd_h.std st_w2048 (List.replicate 2048 0) :=
  rfl

theorem st_w2048_blk_len : st_w2048.transfer.blk_len = 2048 := by decide

theorem st_w2048_done_reachable : bus_reachable sd_h.std cis_h.std st_w2048_done := by
  rw [st_w2048_done_eq]
  exact bus_reachable_write_bytes sd_h.std cis_h.std (List.replicate 2048 0) st_w2048
    st_w2048_reachable

theorem st_w2048_done_fields :
    st_w2048_done.state = sd_command_state ∧ st_w2048_done.transfer.data_offset = 2048 := by
  have h := write_bytes_last_block ar6k_ops sd_h.std st_w2048 (List.replicate 2048 0)
    ⟨by decide, by decide, by decide⟩ (by decide) (by decide)
    (by rw [List.length_replicate, st_w2048_blk_len])
    (by rw [st_w2048_blk_len]; decide) (by rw [st_w2048_blk_len]; decide) (by decide)
    (fun fn t a len => (ar6k_ops_frame fn t a len).1)
  rw [st_w2048_blk_len] at h
  rw [st_w2048_done_eq]
  exact h

/-- CMD53 for a function beyond the ones of the I/O OCR, in Command state:
the R5 response is built on a state with the running offset left as it was. -/
theorem cmd53_bad_fn_r5 (x : ar6k_s) (arg : Nat) (hst : x.state = sd_command_state)
    (hfn : (arg >>> 28) &&& 7 > ((x.ioocr >>> 28) &&& 7)) :
    ∃ (s3 : ar6k_s) (n : Nat),
      sdio_do_command sd_h.std ar6k_ops x ⟨53, arg, 0⟩
        = ((sd_response_r5_make sd_h.std s3).1, n, (sd_response_r5_make sd_h.std s3).2) ∧
      s3.transfer.data_offset = x.transfer.data_offset := by
  have hc := sdio_normal_command_cmd53_eq sd_h.std ar6k_ops
    (decode_entry sd_h.std x 53) arg 0 hst
  have hio : (decode_entry sd_h.std x 53).ioocr = x.ioocr := rfl
  rw [hio, if_pos hfn] at hc
  exact ⟨_, _, sdio_do_command_r5 sd_h.std ar6k_ops x _ ⟨53, arg, 0⟩ (by decide) hc, rfl⟩

/-- C35: a reachable state in which an R5 response is built with the running
offset outside the staging buffer.  The host sets the block size of function
1 to 2048, writes one block of 2048 bytes with CMD53 and then sends CMD53 for
function 2, which the card does not have: the card answers R5 and
`sd_response_r5_make` runs on a state whose `transfer.data_offset` is 2048,
so it fetches `transfer.data[2048]`. -/
theorem r5_offset_past_buffer :
    bus_reachable sd_h.std cis_h.std st_w2048_done ∧
    st_w2048_done.state = sd_command_state ∧
    st_w2048_done.transfer.data_offset = 2048 ∧
    ∃ (s3 : ar6k_s) (n : Nat),
      sdio_do_command sd_h.std ar6k_ops st_w2048_done ⟨53, 0x20000000, 0⟩
        = ((sd_response_r5_make sd_h.std s3).1, n, (sd_response_r5_make sd_h.std s3).2) ∧
      s3.transfer.data_offset = 2048 ∧ ¬ (s3.transfer.data_offset < 2048) := by
  obtain ⟨e1, e2⟩ := st_w2048_done_fields
  obtain ⟨_, _, i3, _⟩ := bus_reachable_inv sd_h.std cis_h.std _ st_w2048_done_reachable
  obtain ⟨s3, n, h1, h2⟩ := cmd53_bad_fn_r5 st_w2048_done 0x20000000 e1
    (by rw [i3]; decide)
  rw [e2] at h2
  exact ⟨st_w2048_done_reachable, e1, e2, s3, n, h1, h2, by rw [h2]; decide⟩

theorem st_mb2048_eq : st_mb2048 = hif_write_bytes st_mb1 0x800 (List.replicate 2047 0) :=
  rfl

theorem ar6k_hif_txcredit_reset_kept (s : ar6k_s) (m : Nat) :
    (ar6k_hif_txcredit_reset s m).ext.hif.mbox_count = s.ext.hif.mbox_count ∧
    (ar6k_hif_txcredit_reset s m).ext.bmi_done = s.ext.bmi_done := by
  unfold ar6k_hif_txcredit_reset
  dsimp only
  split_ifs
  · exact ⟨rfl, rfl⟩
  · exact ⟨rfl, rfl⟩

/-- The byte that completes a message of mailbox 0 hands the count of all the
writes to the window since the last completion to the BMI interpreter. -/
theorem ar6k_hif_write_mbox0_last (s : ar6k_s) (v : Nat) (c : Int)
    (hd : s.ext.bmi_done = 0) (hc : s.ext.hif.mbox_count 0 = c) :
    (ar6k_hif_txcredit_reset (mbox_store s 0xfff v) 0).ext.hif.mbox_count 0 = c + 1 ∧
    ar6k_hif_write s 0xfff v =
      ar6k_hif_txcredit_grant (on_hif
        (ar6k_bmi_write (ar6k_hif_txcredit_reset (mbox_store s 0xfff v) 0) 0 (c + 1))
        fun h => { h with mbox_count := upd h.mbox_count 0 0 }) 0 := by
  have hlast : (0xfff : Nat) &&& 0x7ff = 0x7ff ∧ (0xfff - 0x800) >>> 11 = 0 := by decide
  obtain ⟨k1, k2⟩ := ar6k_hif_txcredit_reset_kept (mbox_store s 0xfff v) 0
  have hcnt : (ar6k_hif_txcredit_reset (mbox_store s 0xfff v) 0).ext.hif.mbox_count 0 = c + 1 := by
    rw [k1]
    show upd s.ext.hif.mbox_count ((0xfff - AR6K_HIF_MBOX_BASE) >>> 11)
      (s.ext.hif.mbox_count ((0xfff - AR6K_HIF_MBOX_BASE) >>> 11) + 1) 0 = _
    have e : (0xfff - AR6K_HIF_MBOX_BASE) >>> 11 = 0 := by decide
    rw [e]
    unfold upd
    rw [if_pos rfl, hc]
  have hdone : (ar6k_hif_txcredit_reset (mbox_store s 0xfff v) 0).ext.bmi_done = 0 :=
    k2.trans hd
  refine ⟨hcnt, ?_⟩
  rw [ar6k_hif_write_mbox s 0xfff v (by decide) (by decide), if_pos hlast.1, hlast.2]
  unfold bmi_step
  rw [if_pos ⟨rfl, hdone⟩, hcnt]
  rfl

/-- C36: a chip state reached from attach through host writes in which a
message of mailbox 0 completes with a count above 2048.  The host writes the
byte 0x800 once and then the bytes 0x800..0xffe (2048 writes, the BMI session
open); the write to 0xfff then hands the count 2049 to `ar6k_bmi_write`,
which reads the command word at offset `0x800 - 2049 = -1` of the window. -/
theorem mbox_count_past_window :
    st_mb2048.ext.bmi_done = 0 ∧
    (ar6k_hif_txcredit_reset (mbox_store st_mb2048 0xfff 0) 0).ext.hif.mbox_count 0 = 2049 ∧
    ¬ ((ar6k_hif_txcredit_reset (mbox_store st_mb2048 0xfff 0) 0).ext.hif.mbox_count 0
      ≤ 2048) ∧
    ar6k_hif_write st_mb2048 0xfff 0 =
      ar6k_hif_txcredit_grant (on_hif
        (ar6k_bmi_write (ar6k_hif_txcredit_reset (mbox_store st_mb2048 0xfff 0) 0) 0 2049)
        fun h => { h with mbox_count := upd h.mbox_count 0 0 }) 0 ∧
    (0 : Int) + 0x800 - 2049 = -1 := by
  obtain ⟨p1, _, _, p4⟩ := hif_write_bytes_mbox0 st_mb1 0x800 (List.replicate 2047 0)
    (by decide) (le_of_eq (by rw [List.length_replicate]))
  have h1 : st_mb1.ext.bmi_done = 0 := by decide
  have h2 : st_mb1.ext.hif.mbox_count 0 = 1 := by decide
  rw [List.length_replicate, h2] at p4
  rw [st_mb2048_eq]
  generalize hif_write_bytes st_mb1 0x800 (List.replicate 2047 0) = x at p1 p4 ⊢
  have hd : x.ext.bmi_done = 0 := p1.trans h1
  have hc : x.ext.hif.mbox_count 0 = 2048 := by
    rw [p4]
    norm_num
  obtain ⟨q1, q2⟩ := ar6k_hif_write_mbox0_last x 0 2048 hd hc
  have e : (2048 : Int) + 1 = 2049 := by norm_num
  rw [e] at q1 q2
  refine ⟨hd, q1, ?_, q2, by norm_num⟩
  rw [q1]
  norm_num

/-! ## Direct access with the handlers of the AR6000 -/

theorem sdio_intr_update_transfer (s : sdio_s χ) : (sdio_intr_update s).transfer = s.transfer := by
  unfold sdio_intr_update
  split_ifs <;> rfl

theorem sdio_reset_transfer (s : ar6k_s) :
    (sdio_reset (some ar6k_reset) s).transfer = s.transfer := by
  have e : sdio_reset (some ar6k_reset) s = ar6k_reset (sdio_reset none s) := rfl
  rw [e, (ar6k_reset_frame (sdio_reset none s)).2.2.2.2.2.1]
  rfl

/-- A write to a CCCR register leaves the transfer context alone. -/
theorem sdio_cccr_write_transfer (s : ar6k_s) (off v : Nat) :
    (sdio_cccr_write (some ar6k_reset) s off v).transfer = s.transfer := by
  unfold sdio_cccr_write
  by_cases o2 : off = 0x02
  · rw [if_pos o2]
  rw [if_neg o2]
  by_cases o4 : off = 0x04
  · rw [if_pos o4]
    exact sdio_intr_update_transfer _
  rw [if_neg o4]
  by_cases o6 : off = 0x06
  · rw [if_pos o6]
    by_cases c3 : (v >>> 3) &&& 1 ≠ 0
    · rw [if_pos c3]
      exact sdio_reset_transfer s
    · rw [if_neg c3]
      by_cases c7 : (v >>> 0) &&& 7 ≠ 0
      · rw [if_pos c7]
        by_cases ca : s.state = sd_transfer_state ∧ s.transfer.func = v &&& 7 ∧ s.spi = 0
        · rw [if_pos ca]
          exact (sdio_transfer_done_fields s).2.2.2.1
        · rw [if_neg ca]
      · rw [if_neg c7]
  rw [if_neg o6]
  by_cases o7 : off = 0x07
  · rw [if_pos o7]
    dsimp only
    by_cases cs : s.spi ≠ 0
    · rw [if_pos cs]
      exact sdio_intr_update_transfer _
    · rw [if_neg cs]
  rw [if_neg o7]
  by_cases o8 : off = 0x08
  · rw [if_pos o8]
  rw [if_neg o8]
  by_cases of : off = 0x0f
  · rw [if_pos of]
  rw [if_neg of]
  by_cases p0 : off = 0x10
  · rw [if_pos p0]
  rw [if_neg p0]
  by_cases p1 : off = 0x11
  · rw [if_pos p1]
  rw [if_neg p1]
  by_cases p2 : off = 0x12
  · rw [if_pos p2]
  rw [if_neg p2]
  by_cases p3 : off = 0x13
  · rw [if_pos p3]
  rw [if_neg p3]

/-- A write to an FBR register leaves the transfer context alone. -/
theorem sdio_fbr_write_transfer (s : sdio_s χ) (fn off v : Nat) :
    (sdio_fbr_write s fn off v).transfer = s.transfer := by
  unfold sdio_fbr_write
  dsimp only
  by_cases o0 : off = 0x00
  · rw [if_pos o0]
    by_cases c : (s.fbr (fn - 1)).stdfn &&& (1 <<< 6) ≠ 0 ∧ v &&& (1 <<< 7) ≠ 0
    · rw [if_pos c]
    · rw [if_neg c]
  rw [if_neg o0]
  by_cases o2 : off = 0x02
  · rw [if_pos o2]
  rw [if_neg o2]
  by_cases oc : off = 0x0c
  · rw [if_pos oc]
  rw [if_neg oc]
  by_cases od : off = 0x0d
  · rw [if_pos od]
  rw [if_neg od]
  by_cases oe : off = 0x0e
  · rw [if_pos oe]
  rw [if_neg oe]
  by_cases of : off = 0x0f
  · rw [if_pos of]
    by_cases c : (s.fbr (fn - 1)).stdfn &&& (1 <<< 7) ≠ 0
    · rw [if_pos c]
    · rw [if_neg c]
  rw [if_neg of]
  by_cases p0 : off = 0x10
  · rw [if_pos p0]
  rw [if_neg p0]
  by_cases p1 : off = 0x11
  · rw [if_pos p1]
  rw [if_neg p1]

theorem cia_write_cccr_transfer (len : Nat) :
    ∀ (s : ar6k_s) (addr pos : Nat),
      (cia_write_cccr (some ar6k_reset) len s addr pos).sd.transfer = s.transfer := by
  induction len with
  | zero => exact fun _ _ _ => rfl
  | succ len ih =>
    intro s addr pos
    rw [cia_write_cccr_succ]
    by_cases h : addr < 0x100
    · rw [if_pos h, ih]
      exact sdio_cccr_write_transfer s addr _
    · rw [if_neg h]

theorem cia_write_fbr_transfer (len : Nat) :
    ∀ (s : sdio_s χ) (addr pos : Nat),
      (cia_write_fbr len s addr pos).sd.transfer = s.transfer := by
  induction len with
  | zero => exact fun _ _ _ => rfl
  | succ len ih =>
    intro s addr pos
    rw [cia_write_fbr_succ]
    by_cases h : addr < 0x800
    · rw [if_pos h, ih]
      exact sdio_fbr_write_transfer s _ _ _
    · rw [if_neg h]

theorem fn1_write_loop_transfer (len : Nat) :
    ∀ (s : ar6k_s) (addr pos : Nat), (fn1_write_loop len s addr pos).transfer = s.transfer := by
  induction len with
  | zero => exact fun _ _ _ => rfl
  | succ len ih =>
    intro s addr pos
    show (fn1_write_loop len (ar6k_hif_write s addr (s.transfer.data pos)) _ _).transfer = _
    rw [ih]
    exact (ar6k_hif_write_kept s addr _).1.2.2.2.2.2.1

/-- The write handlers of the AR6000 read the buffer and leave the whole
transfer context as it is. -/
theorem ar6k_ops_write_transfer (fn : Nat) (s : ar6k_s) (addr len : Nat) :
    (ar6k_ops.write fn s addr len).transfer = s.transfer := by
  show (if fn = 0 then sdio_cia_write (some ar6k_reset) s addr len
    else if fn = 1 then ar6k_fn1_write s addr len else sdio_dummy_write s addr len).transfer = _
  by_cases f0 : fn = 0
  · rw [if_pos f0]
    show (cia_write_fbr _ (cia_write_cccr (some ar6k_reset) len s addr 0).sd _ _).sd.transfer = _
    rw [cia_write_fbr_transfer, cia_write_cccr_transfer]
  rw [if_neg f0]
  by_cases f1 : fn = 1
  · rw [if_pos f1]
    exact fn1_write_loop_transfer len s addr 0
  · rw [if_neg f1]
    rfl

/-- The byte a one-byte read handler of the AR6000 stores at the head of the
buffer: the byte of the function-0 address space, the value `ar6k_hif_read`
returns, or the 0 of the dummy handler. -/
theorem ar6k_ops_read_one_byte (fn : Nat) (t : ar6k_s) (a : Nat)
    (hs : t.transfer.step = 1) (ha : a < 2 ^ 32) :
    (ar6k_ops.read fn t a 1).transfer.data 0 =
      if fn = 0 then cia_byte t a else if fn = 1 then (ar6k_hif_read t a).2 else 0 := by
  show (if fn = 0 then sdio_cia_read t a 1
    else if fn = 1 then ar6k_fn1_read t a 1 else sdio_dummy_read t a 1).transfer.data 0 = _
  by_cases f0 : fn = 0
  · rw [if_pos f0, if_pos f0]
    exact (sdio_cia_read_bytes t a 1 hs ha).1 0 (by decide)
  rw [if_neg f0, if_neg f0]
  by_cases f1 : fn = 1
  · rw [if_pos f1, if_pos f1]
    show upd (ar6k_hif_read t a).1.transfer.data 0 (ar6k_hif_read t a).2 0 = _
    unfold upd
    rw [if_pos rfl]
  · rw [if_neg f1, if_neg f1]
    show (if 0 ≤ 0 ∧ 0 < 0 + (if t.transfer.step ≠ 0 then 1 else 1) then 0
      else t.transfer.data 0) = 0
    rw [hs]
    rfl

/-- C12: CMD52 in Command state with a valid function `f` (argument bits
30..28) and the address `a` of argument bits 25..9, with the handlers of the
AR6000 (function 0: CCCR, FBR and CIS; function 1: the HIF registers; the
other functions: the dummy handlers).  The handlers are entered in the decode
state with the running offset 0 and the step 1 (`cmd52_prologue`).  There is
a state `X`, the one the last handler returns, such that: with R/W set and
RAW clear, `X` is the write handler of `f` called at `a` with length 1 on the
entry state with the byte `arg & 0xff` staged at the head of the buffer; with
R/W and RAW set, `X` is the read handler of `f` called at `a` with length 1
on the state the same write call returns; with R/W clear, `X` is the read
handler called on the entry state.  The card answers R5 built on `X` (2 bytes
in SPI mode, else 4), and the data byte of the R5 is the byte at the head of
the buffer of `X`: `arg & 0xff` when only the write ran, and when a read ran
the byte read, that is the byte of the function-0 address space at `a`, the
value `ar6k_hif_read` returns at `a`, or the 0 of a dummy handler, taken in
the state the read handler was entered in. -/
theorem cmd52_direct_access (k : sd_h) (s : ar6k_s) (arg crc : Nat)
    (hI : k.ILLEGAL_COMMAND &&& 0xf7f80003 = k.ILLEGAL_COMMAND)
    (hst : s.state = sd_command_state)
    (hfn : (arg >>> 28) &&& 7 ≤ (s.ioocr >>> 28) &&& 7) :
    ∃ X : ar6k_s,
      ((arg >>> 31) &&& 1 ≠ 0 → (arg >>> 27) &&& 1 = 0 →
        X = ar6k_ops.write ((arg >>> 28) &&& 7)
          (put_data (cmd52_prologue (decode_entry k s 52)) 0 (arg &&& 0xff))
          ((arg >>> 9) &&& SDIO_ADDR_MASK) 1 ∧
        X.transfer.data 0 = arg &&& 0xff) ∧
      ((arg >>> 31) &&& 1 ≠ 0 → (arg >>> 27) &&& 1 ≠ 0 →
        X = ar6k_ops.read ((arg >>> 28) &&& 7)
          (ar6k_ops.write ((arg >>> 28) &&& 7)
            (put_data (cmd52_prologue (decode_entry k s 52)) 0 (arg &&& 0xff))
            ((arg >>> 9) &&& SDIO_ADDR_MASK) 1)
          ((arg >>> 9) &&& SDIO_ADDR_MASK) 1 ∧
        X.transfer.data 0 =
          if (arg >>> 28) &&& 7 = 0 then
            cia_byte (ar6k_ops.write ((arg >>> 28) &&& 7)
              (put_data (cmd52_prologue (decode_entry k s 52)) 0 (arg &&& 0xff))
              ((arg >>> 9) &&& SDIO_ADDR_MASK) 1) ((arg >>> 9) &&& SDIO_ADDR_MASK)
          else if (arg >>> 28) &&& 7 = 1 then
            (ar6k_hif_read (ar6k_ops.write ((arg >>> 28) &&& 7)
              (put_data (cmd52_prologue (decode_entry k s 52)) 0 (arg &&& 0xff))
              ((arg >>> 9) &&& SDIO_ADDR_MASK) 1) ((arg >>> 9) &&& SDIO_ADDR_MASK)).2
          else 0) ∧
      ((arg >>> 31) &&& 1 = 0 →
        X = ar6k_ops.read ((arg >>> 28) &&& 7) (cmd52_prologue (decode_entry k s 52))
          ((arg >>> 9) &&& SDIO_ADDR_MASK) 1 ∧
        X.transfer.data 0 =
          if (arg >>> 28) &&& 7 = 0 then
            cia_byte (cmd52_prologue (decode_entry k s 52)) ((arg >>> 9) &&& SDIO_ADDR_MASK)
          else if (arg >>> 28) &&& 7 = 1 then
            (ar6k_hif_read (cmd52_prologue (decode_entry k s 52))
              ((arg >>> 9) &&& SDIO_ADDR_MASK)).2
          else 0) ∧
      (sdio_do_command k ar6k_ops s ⟨52, arg, crc⟩).1
        = (sd_response_r5_make k { X with current_cmd := X.next_cmd }).1 ∧
      (sdio_do_command k ar6k_ops s ⟨52, arg, crc⟩).2.1 = (if s.spi ≠ 0 then 2 else 4) ∧
      (sdio_do_command k ar6k_ops s ⟨52, arg, crc⟩).2.2
        = (sd_response_r5_make k { X with current_cmd := X.next_cmd }).2 ∧
      (sdio_do_command k ar6k_ops s ⟨52, arg, crc⟩).2.2.getLast?
        = some (X.transfer.data 0) := by
  have hd := sdio_normal_command_cmd52 k ar6k_ops (decode_entry k s 52) arg crc (Or.inl hst) hfn
  have he := sdio_do_command_r5 k ar6k_ops s _ ⟨52, arg, crc⟩ hI hd
  have hp0 : (cmd52_prologue (decode_entry k s 52)).transfer.data_offset = 0 := by
    rw [(cmd52_prologue_core (decode_entry k s 52)).2.2.2.2.2.2]
  have hp1 : (cmd52_prologue (decode_entry k s 52)).transfer.step = 1 := by
    rw [(cmd52_prologue_core (decode_entry k s 52)).2.2.2.2.2.2]
  have hps : (cmd52_prologue (decode_entry k s 52)).spi = s.spi :=
    (cmd52_prologue_core (decode_entry k s 52)).2.1
  obtain ⟨_, _, f3, f4, _⟩ :=
    bus_frame_cmd52_access ar6k_ops (cmd52_prologue (decode_entry k s 52)) arg ar6k_ops_frame
  generalize cmd52_prologue (decode_entry k s 52) = P at he hp0 hp1 hps f3 f4 ⊢
  have ha : (arg >>> 9) &&& SDIO_ADDR_MASK < 2 ^ 32 :=
    lt_of_le_of_lt Nat.and_le_right (by decide)
  have hw1 : (ar6k_ops.write ((arg >>> 28) &&& 7) (put_data P 0 (arg &&& 0xff))
      ((arg >>> 9) &&& SDIO_ADDR_MASK) 1).transfer.step = 1 := by
    rw [ar6k_ops_write_transfer]
    exact hp1
  have hacc : cmd52_access ar6k_ops P arg =
      if (arg >>> 31) &&& 1 = 0 ∨ (arg >>> 27) &&& 1 ≠ 0 then
        ar6k_ops.read ((arg >>> 28) &&& 7)
          (if (arg >>> 31) &&& 1 ≠ 0 then
            ar6k_ops.write ((arg >>> 28) &&& 7) (put_data P 0 (arg &&& 0xff))
              ((arg >>> 9) &&& SDIO_ADDR_MASK) 1
          else P) ((arg >>> 9) &&& SDIO_ADDR_MASK) 1
      else if (arg >>> 31) &&& 1 ≠ 0 then
        ar6k_ops.write ((arg >>> 28) &&& 7) (put_data P 0 (arg &&& 0xff))
          ((arg >>> 9) &&& SDIO_ADDR_MASK) 1
      else P := rfl
  have ho : (cmd52_access ar6k_ops P arg).transfer.data_offset = 0 := f3.trans hp0
  have hsp : (cmd52_access ar6k_ops P arg).spi = s.spi := f4.trans hps
  refine ⟨cmd52_access ar6k_ops P arg, fun hrw hraw => ?_, fun hrw hraw => ?_, fun hrw => ?_,
    ?_, ?_, ?_, ?_⟩
  · have hc : ¬ ((arg >>> 31) &&& 1 = 0 ∨ (arg >>> 27) &&& 1 ≠ 0) :=
      fun c => c.elim hrw (fun c2 => c2 hraw)
    rw [hacc, if_neg hc, if_pos hrw]
    refine ⟨rfl, ?_⟩
    rw [ar6k_ops_write_transfer]
    show upd P.transfer.data 0 (arg &&& 0xff) 0 = arg &&& 0xff
    unfold upd
    rw [if_pos rfl]
  · rw [hacc, if_pos (Or.inr hraw), if_pos hrw]
    exact ⟨rfl, ar6k_ops_read_one_byte _ _ _ hw1 ha⟩
  · rw [hacc, if_pos (Or.inl hrw), if_neg (not_not.mpr hrw)]
    exact ⟨rfl, ar6k_ops_read_one_byte _ _ _ hp1 ha⟩
  · rw [he]
  · rw [he]
    show (if (cmd52_access ar6k_ops P arg).spi ≠ 0 then 2 else 4) = _
    rw [hsp]
  · rw [he]
  · rw [he, sd_response_r5_make_eq]
    show ((if (cmd52_access ar6k_ops P arg).spi ≠ 0 then [] else [0, 0]) ++
      [r5_status k { cmd52_access ar6k_ops P arg with
          current_cmd := (cmd52_access ar6k_ops P arg).next_cmd },
        (cmd52_access ar6k_ops P arg).transfer.data
          (cmd52_access ar6k_ops P arg).transfer.data_offset]).getLast? = _
    rw [ho]
    simp

/-- The AR6000 in Command state: CMD52 with read-after-write of 0x20 to the
CCCR register 0x08 of function 0 answers with the byte read back, 0x33; a
CMD52 read of the CCCR register 0x00 answers 0x11; and a CMD52 read of the
rx-lookahead register 0x408 of function 1, a read with a side effect,
answers 0. -/
theorem cmd52_direct_access_witness :
    (sd_h.std.ILLEGAL_COMMAND &&& 0xf7f80003 = sd_h.std.ILLEGAL_COMMAND ∧
      st_command.state = sd_command_state ∧
      (0x88001020 >>> 28) &&& 7 ≤ (st_command.ioocr >>> 28) &&& 7) ∧
    (∃ X : ar6k_s,
      ((0x88001020 >>> 31) &&& 1 ≠ 0 → (0x88001020 >>> 27) &&& 1 = 0 →
        X = ar6k_ops.write ((0x88001020 >>> 28) &&& 7)
          (put_data (cmd52_prologue (decode_entry sd_h.std st_command 52)) 0 (0x88001020 &&& 0xff))
          ((0x88001020 >>> 9) &&& SDIO_ADDR_MASK) 1 ∧
        X.transfer.data 0 = 0x88001020 &&& 0xff) ∧
      ((0x88001020 >>> 31) &&& 1 ≠ 0 → (0x88001020 >>> 27) &&& 1 ≠ 0 →
        X = ar6k_ops.read ((0x88001020 >>> 28) &&& 7)
          (ar6k_ops.write ((0x88001020 >>> 28) &&& 7)
            (put_data (cmd52_prologue (decode_entry sd_h.std st_command 52)) 0 (0x88001020 &&& 0xff))
            ((0x88001020 >>> 9) &&& SDIO_ADDR_MASK) 1)
          ((0x88001020 >>> 9) &&& SDIO_ADDR_MASK) 1 ∧
        X.transfer.data 0 =
          if (0x88001020 >>> 28) &&& 7 = 0 then
            cia_byte (ar6k_ops.write ((0x88001020 >>> 28) &&& 7)
              (put_data (cmd52_prologue (decode_entry sd_h.std st_command 52)) 0 (0x88001020 &&& 0xff))
              ((0x88001020 >>> 9) &&& SDIO_ADDR_MASK) 1) ((0x88001020 >>> 9) &&& SDIO_ADDR_MASK)
          else if (0x88001020 >>> 28) &&& 7 = 1 then
            (ar6k_hif_read (ar6k_ops.write ((0x88001020 >>> 28) &&& 7)
              (put_data (cmd52_prologue (decode_entry sd_h.std st_command 52)) 0 (0x88001020 &&& 0xff))
              ((0x88001020 >>> 9) &&& SDIO_ADDR_MASK) 1) ((0x88001020 >>> 9) &&& SDIO_ADDR_MASK)).2
          else 0) ∧
      ((0x88001020 >>> 31) &&& 1 = 0 →
        X = ar6k_ops.read ((0x88001020 >>> 28) &&& 7) (cmd52_prologue (decode_entry sd_h.std st_command 52))
          ((0x88001020 >>> 9) &&& SDIO_ADDR_MASK) 1 ∧
        X.transfer.data 0 =
          if (0x88001020 >>> 28) &&& 7 = 0 then
            cia_byte (cmd52_prologue (decode_entry sd_h.std st_command 52)) ((0x88001020 >>> 9) &&& SDIO_ADDR_MASK)
          else if (0x88001020 >>> 28) &&& 7 = 1 then
            (ar6k_hif_read (cmd52_prologue (decode_entry sd_h.std st_command 52))
              ((0x88001020 >>> 9) &&& SDIO_ADDR_MASK)).2
          else 0) ∧
      (sdio_do_command sd_h.std ar6k_ops st_command ⟨52, 0x88001020, 0⟩).1
        = (sd_response_r5_make sd_h.std { X with current_cmd := X.next_cmd }).1 ∧
      (sdio_do_command sd_h.std ar6k_ops st_command ⟨52, 0x88001020, 0⟩).2.1 = (if st_command.spi ≠ 0 then 2 else 4) ∧
      (sdio_do_command sd_h.std ar6k_ops st_command ⟨52, 0x88001020, 0⟩).2.2
        = (sd_response_r5_make sd_h.std { X with current_cmd := X.next_cmd }).2 ∧
      (sdio_do_command sd_h.std ar6k_ops st_command ⟨52, 0x88001020, 0⟩).2.2.getLast?
        = some (X.transfer.data 0)) ∧
    (sdio_do_command sd_h.std ar6k_ops st_command ⟨52, 0x88001020, 0⟩).2.2
      = [0, 0, 0x10, 0x33] ∧
    (sdio_do_command sd_h.std ar6k_ops st_command ⟨52, 0x00000000, 0⟩).2.2
      = [0, 0, 0x10, 0x11] ∧
    (sdio_do_command sd_h.std ar6k_ops st_command ⟨52, 0x10081000, 0⟩).2.2
      = [0, 0, 0x10, 0x00] :=
  ⟨⟨by decide, by decide, by decide⟩,
    cmd52_direct_access sd_h.std st_command 0x88001020 0 (by decide) (by decide) (by decide),
    by decide, by decide, by decide⟩

/-! ## Inactive state and stray mailbox writes -/

/-- In native mode a decode that takes the common tail ends `sdio_do_command`
with length 0 and no response bytes, whatever the flag constants are. -/
theorem sdio_do_command_bad_native (k : sd_h) (ops : sdio_ops χ) (sd : sdio_s χ)
    (req : sd_request_s) (hsp : sd.spi = 0)
    (hn : sdio_normal_command k ops (decode_entry k sd req.cmd) req
      = bad_cmd k (decode_entry k sd req.cmd)) :
    (sdio_do_command k ops sd req).2 = (0, []) ∧
    (sdio_do_command k ops sd req).1.state = sd.state := by
  unfold decode_entry at hn
  unfold sdio_do_command
  simp only [sd_req_crc_validate, ne_eq, not_true_eq_false, if_false]
  rw [hn]
  unfold bad_cmd
  simp [hsp]

/-- C37: Inactive is absorbing.  For every state of the AR6000 reached from
attach through the bus operations (such a state is in native mode) with
CardState Inactive, every command index and every argument,
`sdio_do_command` leaves the card Inactive, returns length 0 and no response
bytes, and runs no handler: the result is the same for every handler table,
and the transfer context and the chip part are unchanged.  `sdio_write_data`
and `sdio_read_data` return the state they were given (the read returns 0),
so the card stays Inactive. -/
theorem inactive_absorbing (k : sd_h) (t : cis_h) (s : ar6k_s) (cmd arg crc v : Nat)
    (hs : bus_reachable k t s) (hst : s.state = sd_inactive_state) :
    (sdio_do_command k ar6k_ops s ⟨cmd, arg, crc⟩).1.state = sd_inactive_state ∧
    (sdio_do_command k ar6k_ops s ⟨cmd, arg, crc⟩).2 = (0, []) ∧
    (∀ ops2 : sdio_ops ar6k_x,
      sdio_do_command k ops2 s ⟨cmd, arg, crc⟩ = sdio_do_command k ar6k_ops s ⟨cmd, arg, crc⟩) ∧
    (sdio_do_command k ar6k_ops s ⟨cmd, arg, crc⟩).1.transfer = s.transfer ∧
    (sdio_do_command k ar6k_ops s ⟨cmd, arg, crc⟩).1.ext = s.ext ∧
    sdio_write_data ar6k_ops k s v = s ∧
    sdio_read_data ar6k_ops k s = (s, 0x00) := by
  have hsp : s.spi = 0 := (bus_reachable_inv k t s hs).2.2.2
  have hbad : ∀ o : sdio_ops ar6k_x,
      sdio_normal_command k o (decode_entry k s cmd) ⟨cmd, arg, crc⟩
        = bad_cmd k (decode_entry k s cmd) := fun o =>
    sdio_normal_command_inactive k o (decode_entry k s cmd) cmd arg crc hst (Or.inl hsp)
  obtain ⟨a1, a2⟩ := sdio_do_command_bad_native k ar6k_ops s ⟨cmd, arg, crc⟩ hsp (hbad ar6k_ops)
  obtain ⟨f1, f2⟩ := sdio_do_command_of_bad_frame k ar6k_ops s ⟨cmd, arg, crc⟩ (hbad ar6k_ops)
  have ht : s.state ≠ sd_transfer_state := by
    rw [hst]
    decide
  refine ⟨a2.trans hst, a1, fun ops2 => ?_, f1, f2, ?_, ?_⟩
  · exact sdio_do_command_of_bad_ops k ar6k_ops ops2 s ⟨cmd, arg, crc⟩ hbad
  · rw [sdio_write_data_eq, if_pos ht]
  · unfold sdio_read_data
    rw [if_pos ht]

/-- The AR6000 sent to Inactive by CMD15 from the Command state: CMD5 and a
data byte are ignored. -/
theorem inactive_absorbing_witness :
    bus_reachable sd_h.std cis_h.std st_inactive ∧ st_inactive.state = sd_inactive_state ∧
    (sdio_do_command sd_h.std ar6k_ops st_inactive ⟨5, 0x00ff0000, 0⟩).1.state
      = sd_inactive_state ∧
    (sdio_do_command sd_h.std ar6k_ops st_inactive ⟨5, 0x00ff0000, 0⟩).2 = (0, []) ∧
    sdio_write_data ar6k_ops sd_h.std st_inactive 0x55 = st_inactive :=
  have hr : bus_reachable sd_h.std cis_h.std st_inactive :=
    bus_reachable.command _ ⟨15, 0x45670000, 0⟩
      (bus_reachable.command _ ⟨7, 0x45670000, 0⟩
        (bus_reachable.command _ ⟨3, 0, 0⟩
          (bus_reachable.command _ ⟨5, 0x00ff0000, 0⟩ (bus_reachable.attach (fun _ => 0)))))
  have h := inactive_absorbing sd_h.std cis_h.std st_inactive 5 0x00ff0000 0 0x55 hr (by decide)
  ⟨hr, by decide, h.1, h.2.1, h.2.2.2.2.2.1⟩

/-- Counterexample to C25 as stated: on the AR6000 after attach (BMI session
open) the host writes three bytes to the start of the window of mailbox 0
and then the message 08 00 00 00 to 0xffc..0xfff.  The message completes with
a count of 7, the command word is taken 7 bytes before the end of the window
(0x08000000, no command), and no reply is made: 0xffc..0xfff read back the
message itself and the count register 0x424 reads 0.  Without the three
bytes the reply is made. -/
theorem bmi_target_id_after_stray_writes :
    (hif_write_bytes st_attach 0x800 [0, 0, 0]).ext.bmi_done = 0 ∧
    (hif_write_bytes st_attach 0x800 [0, 0, 0]).ext.hif.mbox_count 0 = 3 ∧
    (ar6k_hif_read (hif_write_bytes (hif_write_bytes st_attach 0x800 [0, 0, 0]) 0xffc
      [8, 0, 0, 0]) 0xffc).2 = 0x08 ∧
    (ar6k_hif_read (hif_write_bytes (hif_write_bytes st_attach 0x800 [0, 0, 0]) 0xffc
      [8, 0, 0, 0]) 0xfff).2 = 0x00 ∧
    (ar6k_hif_read (hif_write_bytes (hif_write_bytes st_attach 0x800 [0, 0, 0]) 0xffc
      [8, 0, 0, 0]) 0x424).2 = 0 ∧
    (ar6k_hif_read (hif_write_bytes st_attach 0xffc [8, 0, 0, 0]) 0xffc).2 = 0x44 ∧
    (ar6k_hif_read (hif_write_bytes st_attach 0xffc [8, 0, 0, 0]) 0x424).2 = 4 := by
  decide

end commands

end Ar6000
